import Mathlib

/-!
# Yabause VDP2 (`src/yabause/src/vdp2.cc`) and CD drive
(`src/yabause/src/cd_drive.c`): a shallow embedding

The register bank, the priority sort of the layer array, the per-layer
configuration decode (`init`), and the map / plane / page / pattern / cell
walk of `Vdp2Screen` are transcribed function by function from `vdp2.cc`.
The serial transfer, the command handler and the report builders of the CD
drive controller are transcribed function by function from `cd_drive.c`.

Conventions.
* `unsigned short` values are naturals below `2^16`; a store truncates.
* `unsigned long` is the 32-bit type of the ILP32 targets the file was
  written for; `ulong` wraps where the source arithmetic can overflow.
* `int` values are integers.
* `float` values are rationals and `float` arithmetic is exact; this is what
  the source computes as long as every intermediate value is representable.
* The layer state carries a ghost log (`trace`) of the `getColor` and
  `drawPixel` calls of `drawCell`; no transcribed function reads it.
* Headers (`vdp2.hh`, `memory.hh`, `vdp1.hh`, `cd_drive.h`) are not part of
  the sources; what is taken from them is marked at the definition.
* `u8` arrays are functions of the index whose reads and writes truncate to
  8 bits; a failing `assert` and an access outside an array end a run with a
  `CdFault`.
-/

namespace Yabause

/-! ## Memory -/

/-- Modelled from the spec: the `Memory` base class (`memory.hh` / `memory.cc`
are not in the sources), a flat byte-addressable buffer read and written
through byte, 16-bit and 32-bit accessors.  Multi-byte values are big-endian
(the byte at `a` is the high byte of the word at `a`), which is how `vdp2.cc`
uses it: `getByte(0xF9)` is the low byte of the word register `0xF8`. -/
structure Memory where
  bytes : Nat → Nat

/-- Modelled from the spec: a memory whose every byte is zero. -/
def Memory.zero : Memory := ⟨fun _ => 0⟩

/-- Modelled from the spec: `Memory::getByte`. -/
def Memory.getByte (m : Memory) (a : Nat) : Nat := m.bytes a % 256

/-- Modelled from the spec: `Memory::setByte`. -/
def Memory.setByte (m : Memory) (a v : Nat) : Memory :=
  ⟨fun i => if i = a then v % 256 else m.bytes i⟩

/-- Modelled from the spec: `Memory::getWord`, a 16-bit big-endian read. -/
def Memory.getWord (m : Memory) (a : Nat) : Nat :=
  m.getByte a * 256 + m.getByte (a + 1)

/-- Modelled from the spec: `Memory::setWord`, a 16-bit big-endian store of an
`unsigned short`. -/
def Memory.setWord (m : Memory) (a v : Nat) : Memory :=
  (m.setByte a (v / 256 % 256)).setByte (a + 1) (v % 256)

/-- Modelled from the spec: `Memory::getLong`, a 32-bit big-endian read. -/
def Memory.getLong (m : Memory) (a : Nat) : Nat :=
  m.getWord a * 65536 + m.getWord (a + 2)

/-- The `readWord(mem, addr)` accessor used throughout `vdp2.cc`. -/
def readWord (m : Memory) (a : Nat) : Nat := m.getWord a

/-- Wrap to the range of `unsigned long` (32 bits). -/
def ulong (n : Nat) : Nat := n % 4294967296

/-! ## Colour RAM -/

/-- Class `Vdp2ColorRam`: a `Memory` plus the addressing `mode`. -/
structure Vdp2ColorRam where
  mem : Memory
  mode : Nat

/-- Method `Vdp2ColorRam::setMode`. -/
def Vdp2ColorRam.setMode (c : Vdp2ColorRam) (v : Nat) : Vdp2ColorRam :=
  { c with mode := v }

/-! ## Layers and their priorities -/

/-- The five background layers, the subclasses of `Vdp2Screen`. -/
inductive Layer where
  | NBG0 | NBG1 | NBG2 | NBG3 | RBG0
  deriving DecidableEq, Repr

/-- An entry of `Vdp2::screens` (a `VdpScreen *`): a background layer or the
sprite layer `satmem->vdp1_2`. -/
inductive ScreenId where
  | bg (l : Layer)
  | vdp1
  deriving DecidableEq, Repr

/-- Modelled from the spec: the sprite layer is an opaque externally supplied
layer (`vdp1.cc` is not in the sources).  Its `getPriority()` may read the
VDP2 register bank handed to it by `setVdp2Ram`; its `getInnerPriority()` is a
constant. -/
structure Vdp1 where
  getPriority : Memory → Int
  getInnerPriority : Int

/-- The `getPriority` methods of `NBG0`, `NBG1`, `NBG2`, `NBG3`, `RBG0`. -/
def Layer.getPriority (reg : Memory) : Layer → Int
  | .NBG0 => ((reg.getByte 0xF9 &&& 0x7 : Nat) : Int)
  | .NBG1 => ((reg.getByte 0xF8 &&& 0x7 : Nat) : Int)
  | .NBG2 => ((reg.getByte 0xFB &&& 0x7 : Nat) : Int)
  | .NBG3 => ((reg.getByte 0xFA &&& 0x7 : Nat) : Int)
  | .RBG0 => ((readWord reg 0xFC &&& 0x7 : Nat) : Int)

/-- The `getInnerPriority` methods of `NBG0`, `NBG1`, `NBG2`, `NBG3`, `RBG0`. -/
def Layer.getInnerPriority : Layer → Int
  | .NBG0 => 3
  | .NBG1 => 2
  | .NBG2 => 1
  | .NBG3 => 0
  | .RBG0 => 4

/-- Virtual `VdpScreen::getPriority`. -/
def getPriority (spr : Vdp1) (reg : Memory) : ScreenId → Int
  | .bg l => l.getPriority reg
  | .vdp1 => spr.getPriority reg

/-- Virtual `VdpScreen::getInnerPriority`. -/
def getInnerPriority (spr : Vdp1) : ScreenId → Int
  | .bg l => l.getInnerPriority
  | .vdp1 => spr.getInnerPriority

/-- Function `VdpScreen::comparePriority`. -/
def comparePriority (spr : Vdp1) (reg : Memory) (screen1 screen2 : ScreenId) : Int :=
  let s1 := getPriority spr reg screen1
  let is1 := getInnerPriority spr screen1
  let s2 := getPriority spr reg screen2
  let is2 := getInnerPriority spr screen2
  if s1 = s2 then is1 - is2 else s1 - s2

/-- The order `qsort` sorts by: `a` may precede `b` when the comparator is not
positive. -/
def priorityLE (spr : Vdp1) (reg : Memory) (a b : ScreenId) : Prop :=
  comparePriority spr reg a b ≤ 0

instance (spr : Vdp1) (reg : Memory) : DecidableRel (priorityLE spr reg) :=
  fun a b => inferInstanceAs (Decidable (comparePriority spr reg a b ≤ 0))

/-- The C library `qsort` with `comparePriority`.  The library fixes only that
the result is the input rearranged into comparator order; an insertion sort
stands for it (the result is unique whenever no two entries compare equal). -/
def qsortScreens (spr : Vdp1) (reg : Memory) (screens : List ScreenId) : List ScreenId :=
  List.insertionSort (priorityLE spr reg) screens

/-! ## The VDP2 register bank -/

/-- What `setSaturnResolution(width, height)` receives.  `height = none` stands
for the local `int height` of `Vdp2::setWord` never having been assigned. -/
structure Resolution where
  width : Int
  height : Option Int
  deriving DecidableEq, Repr

/-- Class `Vdp2`: the register bank (`Memory(0x1FF, 0x200)`), colour RAM, the
`screens` array, and the resolution last broadcast to the layers by
`setSaturnResolution` (`setTextureRatio` on each of them). -/
structure Vdp2 where
  mem : Memory
  cram : Vdp2ColorRam
  screens : List ScreenId
  resolution : Resolution

/-- Method `Vdp2::getWord` (inherited from `Memory`). -/
def Vdp2.getWord (s : Vdp2) (addr : Nat) : Nat := s.mem.getWord addr

/-- Method `Vdp2::sortScreens`. -/
def Vdp2.sortScreens (spr : Vdp1) (s : Vdp2) : Vdp2 :=
  { s with screens := qsortScreens spr s.mem s.screens }

/-- Method `Vdp2::updateRam`. -/
def Vdp2.updateRam (s : Vdp2) : Vdp2 :=
  { s with cram := s.cram.setMode ((s.getWord 0xE >>> 12) &&& 0x3) }

/-- Method `Vdp2::setSaturnResolution`. -/
def Vdp2.setSaturnResolution (s : Vdp2) (width : Int) (height : Option Int) : Vdp2 :=
  { s with resolution := ⟨width, height⟩ }

/-- The horizontal-resolution switch of `Vdp2::setWord`, case 0; the last arm
is `case 7`, the one remaining value of `val & 0x7`. -/
def hResolution (val : Nat) : Int :=
  match val &&& 0x7 with
  | 0 => 320
  | 1 => 352
  | 2 => 640
  | 3 => 704
  | 4 => 320
  | 5 => 352
  | 6 => 640
  | _ => 704

/-- The vertical-resolution switch of `Vdp2::setWord`, case 0: `default: break`
leaves the uninitialised local `height` untouched. -/
def vResolution (val : Nat) : Option Int :=
  match (val >>> 4) &&& 0x3 with
  | 0 => some 224
  | 1 => some 240
  | 2 => some 256
  | _ => none

/-- The interlace switch of `Vdp2::setWord`, case 0: `height *= 2` for the
interlace modes 2 and 3. -/
def interlace (val : Nat) (height : Option Int) : Option Int :=
  match (val >>> 6) &&& 0x3 with
  | 2 => height.map (· * 2)
  | 3 => height.map (· * 2)
  | _ => height

/-- The `(width, height)` that `Vdp2::setWord(0, val)` passes to
`setSaturnResolution`. -/
def setWordResolution (val : Nat) : Resolution :=
  ⟨hResolution val, interlace val (vResolution val)⟩

/-- Method `Vdp2::setWord` (built without `VDP2_DEBUG`). -/
def Vdp2.setWord (spr : Vdp1) (s : Vdp2) (addr val : Nat) : Vdp2 :=
  match addr with
  | 0 =>
    let r := setWordResolution val
    let s := s.setSaturnResolution r.width r.height
    { s with mem := s.mem.setWord addr val }
  | 0xE => Vdp2.updateRam { s with mem := s.mem.setWord addr val }
  | 0xE0 => Vdp2.sortScreens spr { s with mem := s.mem.setWord addr val }
  | 0xF8 => Vdp2.sortScreens spr { s with mem := s.mem.setWord addr val }
  | 0xFA => Vdp2.sortScreens spr { s with mem := s.mem.setWord addr val }
  | 0xFC => Vdp2.sortScreens spr { s with mem := s.mem.setWord addr val }
  | _ => { s with mem := s.mem.setWord addr val }

/-- Method `Vdp2::reset`. -/
def Vdp2.reset (spr : Vdp1) (s : Vdp2) : Vdp2 :=
  let s := s.setWord spr 0x0 0
  let s := s.setWord spr 0x4 0
  let s := s.setWord spr 0x6 0
  let s := s.setWord spr 0xE 0
  s.setWord spr 0x20 0

/-- The constructor `Vdp2::Vdp2`: `mem0` and `cram0` are the contents the
`Memory` constructors leave in the register bank and in colour RAM. -/
def Vdp2.construct (spr : Vdp1) (mem0 : Memory) (cram0 : Vdp2ColorRam) : Vdp2 :=
  let s : Vdp2 :=
    { mem := mem0, cram := cram0,
      screens := [.bg .NBG3, .bg .NBG2, .bg .NBG1, .bg .NBG0, .bg .RBG0, .vdp1],
      resolution := ⟨0, none⟩ }
  let s := s.setSaturnResolution 320 (some 224)
  s.reset spr

/-! ## Colour arithmetic -/

/-- Reinterpret a 32-bit pattern as `int` (the `(signed)` cast and the
`unsigned`-to-`int` assignments of the source). -/
def toInt32 (n : Nat) : Int :=
  if n % 4294967296 < 2147483648 then (n % 4294967296 : Nat)
  else ((n % 4294967296 : Nat) : Int) - 4294967296

/-- Macro `COLOR_ADDt`. -/
def COLOR_ADDt (b : Int) : Nat :=
  if b > 0xFF then 0xFF else (if b < 0 then 0 else b.toNat)

/-- Macro `COLOR_ADDb`. -/
def COLOR_ADDb (b1 : Nat) (b2 : Int) : Nat :=
  COLOR_ADDt (toInt32 b1 + b2)

/-- Macro `COLOR_ADD`. -/
def COLOR_ADD (l : Nat) (r g b : Int) : Nat :=
  COLOR_ADDb (l &&& 0xFF) r |||
    (COLOR_ADDb ((l >>> 8) &&& 0xFF) g <<< 8) |||
    (COLOR_ADDb ((l >>> 16) &&& 0xFF) b <<< 16) |||
    (l &&& 0xFF000000)

/-- The colour-expansion macros `SAT2YAB1(alpha, word)` and
`SAT2YAB2(alpha, word1, word2)`; their definitions are in a header that is
not part of the sources, so they are taken as parameters. -/
structure ColorMacros where
  SAT2YAB1 : Nat → Nat → Nat
  SAT2YAB2 : Nat → Nat → Nat → Nat

/-- Method `Vdp2ColorRam::setWord`. -/
def Vdp2ColorRam.setWord (c : Vdp2ColorRam) (addr val : Nat) : Vdp2ColorRam :=
  let c := { c with mem := c.mem.setWord addr val }
  if c.mode = 0 then { c with mem := c.mem.setWord (addr + 0x800) val } else c

/-- Method `Vdp2ColorRam::getWord`. -/
def Vdp2ColorRam.getWord (c : Vdp2ColorRam) (addr : Nat) : Nat :=
  c.mem.getWord addr

/-- Method `Vdp2ColorRam::getColor`. -/
def Vdp2ColorRam.getColor (cm : ColorMacros) (c : Vdp2ColorRam)
    (addr : Nat) (alpha : Nat) (colorOffset : Nat) : Nat :=
  match c.mode with
  | 0 =>
    let addr := ulong (addr * 2)
    let addr := ulong (addr + colorOffset * 0x200)
    let tmp := readWord c.mem addr
    cm.SAT2YAB1 alpha tmp
  | 1 =>
    let addr := ulong (addr * 2)
    let addr := ulong (addr + colorOffset * 0x200)
    let tmp := readWord c.mem addr
    cm.SAT2YAB1 alpha tmp
  | 2 =>
    let addr := ulong (addr * 4)
    let addr := ulong (addr + colorOffset * 0x400)
    let tmp1 := readWord c.mem addr
    let tmp2 := readWord c.mem (addr + 2)
    cm.SAT2YAB2 alpha tmp1 tmp2
  | _ => 0

/-- An access to the VDP2 from outside: a write to the register bank
(`Vdp2::setWord`) or a write to colour RAM (`Vdp2ColorRam::setWord`). -/
inductive Access where
  | reg (addr val : Nat)
  | cram (addr val : Nat)
  deriving DecidableEq, Repr

/-- Perform one access. -/
def Vdp2.access (spr : Vdp1) (s : Vdp2) : Access → Vdp2
  | .reg addr val => s.setWord spr addr val
  | .cram addr val => { s with cram := s.cram.setWord addr val }

/-- Perform a sequence of accesses, first to last. -/
def Vdp2.accesses (spr : Vdp1) (s : Vdp2) (ops : List Access) : Vdp2 :=
  ops.foldl (Vdp2.access spr) s

/-! ## The layer state -/

/-- The output surface `unsigned long surface[1024 * 512]`, by index. -/
abbrev Surface := Nat → Nat

/-- A call made by `drawCell`, with its arguments: `cram->getColor(addr, alpha,
colorOffset)` or the macro `drawPixel(surface, x, y, c)`. -/
inductive CellEvent where
  | getColor (addr alpha colorOffset : Nat)
  | drawPixel (x y : Int) (c : Nat)
  deriving DecidableEq, Repr

/-- The member variables of `Vdp2Screen` (declared in `vdp2.hh`, which is not
part of the sources; the types follow their use in `vdp2.cc`).

* `enable`, `disptoggle`, `bitmap` and `transparencyEnable` are `bool`: a
  stored value is whether the assigned expression is non-zero.
* `addr`, `charAddr`, `palAddr` are `unsigned long`.
* `getX`, `getY` are the coordinate function pointers, applied to
  `(Hcnt, Vcnt)`; the `Vdp2Screen *` argument is the layer itself.
* `coordIncX`, `coordIncY` are `float`; every value `init` gives them is a
  19-bit integer over `65536`, or `1`, so a rational holds it exactly.
* `surface` is the buffer the `surface` pointer designates.
* `trace` is not a member: it records, in order, the `getColor` and
  `drawPixel` calls that `drawCell` has made. -/
structure Vdp2Screen where
  enable : Bool
  disptoggle : Bool
  mapWH : Int
  planeW : Int
  planeH : Int
  pageWH : Int
  patternWH : Int
  cellW : Int
  cellH : Int
  patternDataSize : Int
  specialFunction : Nat
  addr : Nat
  charAddr : Nat
  palAddr : Nat
  colorNumber : Nat
  bitmap : Bool
  flipFunction : Nat
  x : Int
  y : Int
  alpha : Nat
  colorOffset : Nat
  transparencyEnable : Bool
  supplementData : Nat
  auxMode : Nat
  cor : Int
  cog : Int
  cob : Int
  width : Int
  height : Int
  coordIncX : ℚ
  coordIncY : ℚ
  getX : Int → Int → Int
  getY : Int → Int → Int
  surface : Surface
  trace : List CellEvent

/-- Function `Vdp2Screen_getX`. -/
def Vdp2Screen_getX (Hcnt _Vcnt : Int) : Int := Hcnt

/-- Function `Vdp2Screen_getY`. -/
def Vdp2Screen_getY (_Hcnt Vcnt : Int) : Int := Vcnt

/-- Method `Vdp2Screen::setTextureRatio`. -/
def Vdp2Screen.setTextureRatio (s : Vdp2Screen) (widthR heightR : Int) : Vdp2Screen :=
  { s with width := widthR, height := heightR }

/-- Method `Vdp2Screen::toggleDisplay`. -/
def Vdp2Screen.toggleDisplay (s : Vdp2Screen) : Vdp2Screen :=
  { s with disptoggle := xor s.disptoggle true }

/-- The rotation layer's coordinate generator.  `readRotationTable` loads the
rotation parameters from the VRAM table at `addr` and `RBG0_getX` /
`RBG0_getY` evaluate the transform in `float`; the pair is taken as a
parameter: `getX vram addr Hcnt Vcnt` is what `RBG0_getX` returns once the
table at `addr` of `vram` has been read. -/
structure Rotation where
  getX : Memory → Nat → Int → Int → Int
  getY : Memory → Nat → Int → Int → Int

/-- The rotation parameters of `RBG0` that `RBG0_getX` and `RBG0_getY` read.
They are `float` members; the embedding holds them as rationals. -/
structure RotationParams where
  Xst : ℚ
  Yst : ℚ
  Zst : ℚ
  deltaXst : ℚ
  deltaYst : ℚ
  deltaX : ℚ
  deltaY : ℚ
  A : ℚ
  B : ℚ
  C : ℚ
  D : ℚ
  E : ℚ
  F : ℚ
  Px : ℚ
  Py : ℚ
  Pz : ℚ
  Cx : ℚ
  Cy : ℚ
  Cz : ℚ
  Mx : ℚ
  My : ℚ
  kx : ℚ
  ky : ℚ

/-- The conversion `(int) ret` of a `float`: truncation towards zero. -/
def floatToInt (q : ℚ) : Int := if 0 ≤ q then ⌊q⌋ else ⌈q⌉

/-- Function `RBG0_getX`.  The `float` operations are taken exactly, which is
what the source computes whenever every intermediate value is representable
(for instance an integer of magnitude below `2^24`). -/
def RBG0_getX (p : RotationParams) (Hcnt Vcnt : Int) : Int :=
  let Xsp : ℚ := p.A * ((p.Xst + p.deltaXst * Vcnt) - p.Px) +
    p.B * ((p.Yst + p.deltaYst * Vcnt) - p.Py) + p.C * (p.Zst - p.Pz)
  let Xp : ℚ := p.A * (p.Px - p.Cx) + p.B * (p.Py - p.Cy) + p.C * (p.Pz - p.Cz)
  let dX : ℚ := p.A * p.deltaX + p.B * p.deltaY
  let ret : ℚ := p.kx * (Xsp + dX * Hcnt) + Xp
  floatToInt ret

/-- Function `RBG0_getY`, with the same reading of `float` as `RBG0_getX`. -/
def RBG0_getY (p : RotationParams) (Hcnt Vcnt : Int) : Int :=
  let Ysp : ℚ := p.D * ((p.Xst + p.deltaXst * Vcnt) - p.Px) +
    p.E * ((p.Yst + p.deltaYst * Vcnt) - p.Py) + p.F * (p.Zst - p.Pz)
  let Yp : ℚ := p.D * (p.Px - p.Cx) + p.E * (p.Py - p.Cy) + p.F * (p.Pz - p.Cz)
  let dY : ℚ := p.D * p.deltaX + p.E * p.deltaY
  let ret : ℚ := p.ky * (Ysp + dY * Hcnt) + Yp
  floatToInt ret

/-- The coordinate generator of `Rotation` for a given table reader: `read
vram addr` is the parameter set `readRotationTable(addr)` loads. -/
def Rotation.ofTable (read : Memory → Nat → RotationParams) : Rotation :=
  ⟨fun vram addr => RBG0_getX (read vram addr), fun vram addr => RBG0_getY (read vram addr)⟩

/-- What one layer's rendering pass reads: the register bank, VRAM, colour
RAM, the colour-expansion macros and the rotation transform. -/
structure Env where
  reg : Memory
  vram : Memory
  cram : Vdp2ColorRam
  cm : ColorMacros
  rot : Rotation

/-- A `for (int i = 0; i < n; i++) body` loop whose body does not read `i`. -/
def forLoop {σ : Type} (n : Int) (body : σ → σ) (s : σ) : σ :=
  body^[n.toNat] s

/-! ## Per-layer configuration decode (`init`) -/

/-- Convert an `int` to `unsigned long`. -/
def ulongOfInt (z : Int) : Nat := (z % 4294967296).toNat

/-- The expression `~w` for an `unsigned short` `w` promoted to `int`, as a
32-bit pattern. -/
def bitNot (w : Nat) : Nat := w ^^^ 0xFFFFFFFF

/-- The colour-offset read `c = w & 0xFF; if (w & 0x100) c = c | 0xFFFFFF00;`
into an `int`. -/
def colorOffsetValue (w : Nat) : Int :=
  if w &&& 0x100 ≠ 0 then toInt32 ((w &&& 0xFF) ||| 0xFFFFFF00) else ((w &&& 0xFF : Nat) : Int)

/-- The colour-offset block that closes every `init`: `mask` is the layer's
bit in the enable register 0x110 and in the select register 0x112. -/
def initColorOffset (reg : Memory) (mask : Nat) (s : Vdp2Screen) : Vdp2Screen :=
  if readWord reg 0x110 &&& mask ≠ 0 then
    if readWord reg 0x112 &&& mask ≠ 0 then
      { s with
        cor := colorOffsetValue (readWord reg 0x11A)
        cog := colorOffsetValue (readWord reg 0x11C)
        cob := colorOffsetValue (readWord reg 0x11E) }
    else
      { s with
        cor := colorOffsetValue (readWord reg 0x114)
        cog := colorOffsetValue (readWord reg 0x116)
        cob := colorOffsetValue (readWord reg 0x118) }
  else
    { s with cor := 0, cog := 0, cob := 0 }

/-- The plane-size switch of every `init`: there is no case for 3. -/
def initPlaneSize (planeSize : Nat) (s : Vdp2Screen) : Vdp2Screen :=
  match planeSize with
  | 0 => { s with planeW := 1, planeH := 1 }
  | 1 => { s with planeW := 2, planeH := 1 }
  | 2 => { s with planeW := 2, planeH := 2 }
  | _ => s

/-- The pattern block of the tile branch of every `init`: `wh` is whether the
layer's character-size bit of `patternReg` is set. -/
def initPattern (patternNameReg : Nat) (wh : Bool) (s : Vdp2Screen) : Vdp2Screen :=
  let s := { s with patternDataSize := if patternNameReg &&& 0x8000 ≠ 0 then 1 else 2 }
  let s := { s with patternWH := if wh then 2 else 1 }
  let s := { s with pageWH := 64 / s.patternWH }
  let s := { s with cellW := 8, cellH := 8 }
  let s := { s with supplementData := patternNameReg &&& 0x3FF }
  { s with auxMode := (patternNameReg &&& 0x4000) >>> 14 }

/-- The bitmap-size switch of `NBG0::init` and `NBG1::init`. -/
def initBitmapSize4 (n : Nat) (s : Vdp2Screen) : Vdp2Screen :=
  match n with
  | 0 => { s with cellW := 512, cellH := 256 }
  | 1 => { s with cellW := 512, cellH := 512 }
  | 2 => { s with cellW := 1024, cellH := 256 }
  | 3 => { s with cellW := 1024, cellH := 512 }
  | _ => s

/-- The bitmap-size switch of `RBG0::init`. -/
def initBitmapSize2 (n : Nat) (s : Vdp2Screen) : Vdp2Screen :=
  match n with
  | 0 => { s with cellW := 512, cellH := 256 }
  | 1 => { s with cellW := 512, cellH := 512 }
  | _ => s

/-- Method `NBG0::init`. -/
def NBG0.init (env : Env) (s : Vdp2Screen) : Vdp2Screen :=
  let reg := env.reg
  let patternNameReg := readWord reg 0x30
  let patternReg := readWord reg 0x28
  let s := { s with enable := decide (readWord reg 0x20 &&& 0x1 ≠ 0) }
  let s := { s with transparencyEnable := decide (readWord reg 0x20 &&& 0x100 = 0) }
  let s := { s with x := - (readWord reg 0x70 : Int) }
  let s := { s with y := - (readWord reg 0x74 : Int) }
  let s := { s with colorNumber := (patternReg &&& 0x70) >>> 4 }
  let s := { s with bitmap := decide (patternReg &&& 0x2 ≠ 0) }
  let s :=
    if s.bitmap then
      let s := initBitmapSize4 ((patternReg &&& 0xC) >>> 2) s
      let s := { s with charAddr := (readWord reg 0x3C &&& 0x7) * 0x20000 }
      let s := { s with palAddr := (readWord reg 0x2C &&& 0x7) <<< 4 }
      { s with flipFunction := 0, specialFunction := 0 }
    else
      let s := { s with mapWH := 2 }
      let s := initPlaneSize (readWord reg 0x3A &&& 0x3) s
      initPattern patternNameReg (decide (patternReg &&& 0x1 ≠ 0)) s
  let colorCalc := readWord reg 0xEC
  let s :=
    if colorCalc &&& 0x1 ≠ 0 then
      { s with alpha := ((bitNot (readWord reg 0x108) &&& 0x1F) <<< 3) + 0x7 }
    else { s with alpha := 0xFF }
  let s := { s with colorOffset := readWord reg 0xE4 &&& 0x7 }
  let s := initColorOffset reg 0x1 s
  { s with
    coordIncX := ((reg.getLong 0x78 &&& 0x7FF00 : Nat) : ℚ) / 65536
    coordIncY := ((reg.getLong 0x7C &&& 0x7FF00 : Nat) : ℚ) / 65536 }

/-- Method `NBG1::init`. -/
def NBG1.init (env : Env) (s : Vdp2Screen) : Vdp2Screen :=
  let reg := env.reg
  let patternNameReg := readWord reg 0x32
  let patternReg := readWord reg 0x28
  let s := { s with enable := decide (readWord reg 0x20 &&& 0x2 ≠ 0) }
  let s := { s with transparencyEnable := decide (readWord reg 0x20 &&& 0x200 = 0) }
  let s := { s with x := - (readWord reg 0x80 : Int) }
  let s := { s with y := - (readWord reg 0x84 : Int) }
  let s := { s with colorNumber := (patternReg &&& 0x3000) >>> 12 }
  let s := { s with bitmap := decide (patternReg &&& 0x200 ≠ 0) }
  let s :=
    if s.bitmap then
      let s := initBitmapSize4 ((patternReg &&& 0xC00) >>> 10) s
      let s := { s with charAddr := ((readWord reg 0x3C &&& 0x70) >>> 4) * 0x20000 }
      let s := { s with palAddr := (readWord reg 0x2C &&& 0x700) >>> 4 }
      { s with flipFunction := 0, specialFunction := 0 }
    else
      let s := { s with mapWH := 2 }
      let s := initPlaneSize ((readWord reg 0x3A &&& 0xC) >>> 2) s
      initPattern patternNameReg (decide (patternReg &&& 0x100 ≠ 0)) s
  let colorCalc := readWord reg 0xEC
  let s :=
    if colorCalc &&& 0x2 ≠ 0 then
      { s with alpha := ((bitNot (readWord reg 0x108) &&& 0x1F00) >>> 5) + 0x7 }
    else { s with alpha := 0xFF }
  let s := { s with colorOffset := (readWord reg 0xE4 &&& 0x70) >>> 4 }
  let s := initColorOffset reg 0x2 s
  { s with
    coordIncX := ((reg.getLong 0x88 &&& 0x7FF00 : Nat) : ℚ) / 65536
    coordIncY := ((reg.getLong 0x8C &&& 0x7FF00 : Nat) : ℚ) / 65536 }

/-- Method `NBG2::init`. -/
def NBG2.init (env : Env) (s : Vdp2Screen) : Vdp2Screen :=
  let reg := env.reg
  let patternNameReg := readWord reg 0x34
  let patternReg := readWord reg 0x2A
  let s := { s with enable := decide (readWord reg 0x20 &&& 0x4 ≠ 0) }
  let s := { s with transparencyEnable := decide (readWord reg 0x20 &&& 0x400 = 0) }
  let s := { s with x := - (readWord reg 0x90 : Int) }
  let s := { s with y := - (readWord reg 0x92 : Int) }
  let s := { s with colorNumber := (patternReg &&& 0x2) >>> 1 }
  let s := { s with bitmap := false }
  let s := { s with mapWH := 2 }
  let s := initPlaneSize ((readWord reg 0x3A &&& 0x30) >>> 4) s
  let s := initPattern patternNameReg (decide (patternReg &&& 0x1 ≠ 0)) s
  let colorCalc := readWord reg 0xEC
  let s :=
    if colorCalc &&& 0x4 ≠ 0 then
      { s with alpha := ((bitNot (readWord reg 0x10A) &&& 0x1F) <<< 3) + 0x7 }
    else { s with alpha := 0xFF }
  let s := { s with colorOffset := (readWord reg 0xE4 &&& 0x700) >>> 8 }
  let s := initColorOffset reg 0x4 s
  { s with coordIncX := 1, coordIncY := 1 }

/-- Method `NBG3::init`. -/
def NBG3.init (env : Env) (s : Vdp2Screen) : Vdp2Screen :=
  let reg := env.reg
  let patternNameReg := readWord reg 0x36
  let patternReg := readWord reg 0x2A
  let s := { s with enable := decide (readWord reg 0x20 &&& 0x8 ≠ 0) }
  let s := { s with transparencyEnable := decide (readWord reg 0x20 &&& 0x800 = 0) }
  let s := { s with x := - (readWord reg 0x94 : Int) }
  let s := { s with y := - (readWord reg 0x96 : Int) }
  let s := { s with colorNumber := (patternReg &&& 0x20) >>> 5 }
  let s := { s with bitmap := false }
  let s := { s with mapWH := 2 }
  let s := initPlaneSize ((readWord reg 0x3A &&& 0xC0) >>> 6) s
  let s := initPattern patternNameReg (decide (patternReg &&& 0x10 ≠ 0)) s
  let colorCalc := readWord reg 0xEC
  let s :=
    if colorCalc &&& 0x8 ≠ 0 then
      { s with alpha := ((bitNot (readWord reg 0x10A) &&& 0x1F00) >>> 5) + 0x7 }
    else { s with alpha := 0xFF }
  let s := { s with colorOffset := (readWord reg 0xE4 &&& 0x7000) >>> 12 }
  let s := initColorOffset reg 0x8 s
  { s with coordIncX := 1, coordIncY := 1 }

/-- Method `RBG0::init`.  `readRotationTable(rotTableAddressA)` reloads the
rotation parameters that `RBG0_getX` / `RBG0_getY` read. -/
def RBG0.init (env : Env) (s : Vdp2Screen) : Vdp2Screen :=
  let reg := env.reg
  let patternNameReg := readWord reg 0x38
  let patternReg := readWord reg 0x2A
  let rotTableAddressA := ulong (reg.getLong 0xBC <<< 1) &&& 0x000FFF7C
  let s := { s with
    getX := env.rot.getX env.vram rotTableAddressA
    getY := env.rot.getY env.vram rotTableAddressA }
  let s := { s with enable := decide (readWord reg 0x20 &&& 0x10 ≠ 0) }
  let s := { s with transparencyEnable := decide (readWord reg 0x20 &&& 0x1000 = 0) }
  let rotParaModeReg := reg.getLong 0xB0 &&& 0x3
  let s := { s with x := 0 }
  let s := { s with y := 0 }
  let s := { s with colorNumber := (patternReg &&& 0x7000) >>> 12 }
  let s := { s with bitmap := decide (patternReg &&& 0x200 ≠ 0) }
  let s :=
    if s.bitmap then
      let s := initBitmapSize2 ((patternReg &&& 0x400) >>> 10) s
      let s := { s with charAddr := (readWord reg 0x3E &&& 0x7) * 0x20000 }
      let s := { s with palAddr := (readWord reg 0x2E &&& 0x7) <<< 4 }
      { s with flipFunction := 0, specialFunction := 0 }
    else
      let s := { s with mapWH := 4 }
      let planeSize :=
        match rotParaModeReg with
        | 0 => (readWord reg 0x3A &&& 0x300) >>> 8
        | 1 => (readWord reg 0x3A &&& 0x3000) >>> 12
        | _ => 0
      let s := initPlaneSize planeSize s
      initPattern patternNameReg (decide (patternReg &&& 0x1 ≠ 0)) s
  let colorCalc := readWord reg 0xEC
  let s :=
    if colorCalc &&& 0x1000 ≠ 0 then
      { s with alpha := ((bitNot (readWord reg 0x108) &&& 0x1F) <<< 3) + 0x7 }
    else { s with alpha := 0xFF }
  let s := { s with colorOffset := readWord reg 0xE6 &&& 0x7 }
  let s := initColorOffset reg 0x10 s
  { s with coordIncX := 1, coordIncY := 1 }

/-- Virtual `Vdp2Screen::init`. -/
def Layer.init (l : Layer) (env : Env) (s : Vdp2Screen) : Vdp2Screen :=
  match l with
  | .NBG0 => NBG0.init env s
  | .NBG1 => NBG1.init env s
  | .NBG2 => NBG2.init env s
  | .NBG3 => NBG3.init env s
  | .RBG0 => RBG0.init env s

/-! ## Plane addressing -/

/-- The address computation that closes every `planeAddr`. -/
def planeAddrOf (tmp : Nat) (s : Vdp2Screen) : Vdp2Screen :=
  let deca := s.planeH + s.planeW - 2
  let multi := s.planeH * s.planeW
  if s.patternDataSize = 1 then
    if s.patternWH = 1 then
      { s with addr := ulongOfInt ((((tmp &&& 0x3F) >>> deca.toNat : Nat) : Int) * (multi * 0x2000)) }
    else
      { s with addr := ulongOfInt (((tmp >>> deca.toNat : Nat) : Int) * (multi * 0x800)) }
  else
    if s.patternWH = 1 then
      { s with addr := ulongOfInt ((((tmp &&& 0x1F) >>> deca.toNat : Nat) : Int) * (multi * 0x4000)) }
    else
      { s with addr := ulongOfInt ((((tmp &&& 0x7F) >>> deca.toNat : Nat) : Int) * (multi * 0x1000)) }

/-- The `switch(i)` of a `planeAddr`: `tmp = offset | reg->getByte(...)` for
the listed indices, `tmp = 0` otherwise. -/
def planeSelect (reg : Memory) (offset : Nat) (bytes : List Nat) (i : Int) : Nat :=
  if 0 ≤ i then
    match bytes.get? i.toNat with
    | some b => offset ||| reg.getByte b
    | none => 0
  else 0

/-- Method `NBG0::planeAddr`. -/
def NBG0.planeAddr (env : Env) (i : Int) (s : Vdp2Screen) : Vdp2Screen :=
  let offset := (readWord env.reg 0x3C &&& 0x7) <<< 6
  planeAddrOf (planeSelect env.reg offset [0x41, 0x40, 0x43, 0x42] i) s

/-- Method `NBG1::planeAddr`. -/
def NBG1.planeAddr (env : Env) (i : Int) (s : Vdp2Screen) : Vdp2Screen :=
  let offset := (readWord env.reg 0x3C &&& 0x70) <<< 2
  planeAddrOf (planeSelect env.reg offset [0x45, 0x44, 0x47, 0x46] i) s

/-- Method `NBG2::planeAddr`. -/
def NBG2.planeAddr (env : Env) (i : Int) (s : Vdp2Screen) : Vdp2Screen :=
  let offset := (readWord env.reg 0x3C &&& 0x700) >>> 2
  planeAddrOf (planeSelect env.reg offset [0x49, 0x48, 0x4B, 0x4A] i) s

/-- Method `NBG3::planeAddr`. -/
def NBG3.planeAddr (env : Env) (i : Int) (s : Vdp2Screen) : Vdp2Screen :=
  let offset := (readWord env.reg 0x3C &&& 0x7000) >>> 6
  planeAddrOf (planeSelect env.reg offset [0x4D, 0x4C, 0x4F, 0x4E] i) s

/-- Method `RBG0::planeAddr`. -/
def RBG0.planeAddr (env : Env) (i : Int) (s : Vdp2Screen) : Vdp2Screen :=
  let offset := (readWord env.reg 0x3E &&& 0x7) <<< 6
  planeAddrOf (planeSelect env.reg offset
    [0x51, 0x50, 0x53, 0x52, 0x55, 0x54, 0x57, 0x56, 0x59, 0x58,
     0x6B, 0x6A, 0x6D, 0x6C, 0x6F, 0x6E] i) s

/-- Virtual `Vdp2Screen::planeAddr`. -/
def Layer.planeAddr (l : Layer) (env : Env) (i : Int) (s : Vdp2Screen) : Vdp2Screen :=
  match l with
  | .NBG0 => NBG0.planeAddr env i s
  | .NBG1 => NBG1.planeAddr env i s
  | .NBG2 => NBG2.planeAddr env i s
  | .NBG3 => NBG3.planeAddr env i s
  | .RBG0 => RBG0.planeAddr env i s

/-! ## Pattern names -/

/-- The `switch(patternDataSize)` of `Vdp2Screen::patternAddr`: the pattern
name is fetched and decoded into `charAddr` (the character number),
`palAddr`, `flipFunction` and `specialFunction`.  A `switch` with no matching
case assigns nothing.  (`supplementData & 0x300 >> 8` parses as
`supplementData & (0x300 >> 8)`.) -/
def Vdp2Screen.patternName (env : Env) (s : Vdp2Screen) : Vdp2Screen :=
  if s.patternDataSize = 1 then
    let tmp := readWord env.vram s.addr
    let s := { s with addr := ulong (s.addr + 2) }
    let s := { s with specialFunction := s.supplementData &&& (0x300 >>> 8) }
    let s := { s with palAddr :=
      match s.colorNumber with
      | 0 => ((tmp &&& 0xF000) >>> 12) ||| ((s.supplementData &&& 0xE0) >>> 1)
      | _ => (tmp &&& 0x7000) >>> 8 }
    match s.auxMode with
    | 0 =>
      let s := { s with flipFunction := (tmp &&& 0xC00) >>> 10 }
      if s.patternWH = 1 then
        { s with charAddr := (tmp &&& 0x3FF) ||| ((s.supplementData &&& 0x1F) <<< 10) }
      else if s.patternWH = 2 then
        { s with charAddr := ((tmp &&& 0x3FF) <<< 2) ||| (s.supplementData &&& 0x3) |||
            ((s.supplementData &&& 0x1C) <<< 10) }
      else s
    | 1 =>
      let s := { s with flipFunction := 0 }
      if s.patternWH = 1 then
        { s with charAddr := (tmp &&& 0xFFF) ||| ((s.supplementData &&& 0x1C) <<< 10) }
      else if s.patternWH = 4 then
        { s with charAddr := ((tmp &&& 0xFFF) <<< 2) ||| (s.supplementData &&& 0x3) |||
            ((s.supplementData &&& 0x10) <<< 10) }
      else s
    | _ => s
  else if s.patternDataSize = 2 then
    let tmp1 := readWord env.vram s.addr
    let s := { s with addr := ulong (s.addr + 2) }
    let tmp2 := readWord env.vram s.addr
    let s := { s with addr := ulong (s.addr + 2) }
    let s := { s with charAddr := tmp2 &&& 0x7FFF }
    let s := { s with flipFunction := (tmp1 &&& 0xC000) >>> 14 }
    let s := { s with palAddr := tmp1 &&& 0x7F }
    { s with specialFunction := (tmp1 &&& 0x3000) >>> 12 }
  else s

/-- Method `Vdp2Screen::patternAddr`. -/
def Vdp2Screen.patternAddr (env : Env) (s : Vdp2Screen) : Vdp2Screen :=
  let s := s.patternName env
  let s :=
    if readWord env.reg 0x6 &&& 0x8000 = 0 then { s with charAddr := s.charAddr &&& 0x3FFF }
    else s
  { s with charAddr := ulong (s.charAddr * 0x20) }

/-! ## Cells, patterns, pages, planes -/

/-- Macro `drawPixel(s, x, y, c)`. -/
def Vdp2Screen.drawPixel (s : Vdp2Screen) (x y : Int) (c : Nat) : Vdp2Screen :=
  if x ≥ 0 ∧ y ≥ 0 ∧ x < s.width ∧ y < s.height then
    { s with surface := Function.update s.surface (y * s.width + x).toNat c }
  else s

/-- The statement pair
`drawPixel(surface, getX(this, x,y), getY(this, x,y), COLOR_ADD(color,cor,cog,cob)); x += xInc;`
of `drawCell`. -/
def Vdp2Screen.plot (s : Vdp2Screen) (color : Nat) (xInc : Int) : Vdp2Screen :=
  let s := { s with trace := s.trace ++
    [CellEvent.drawPixel (s.getX s.x s.y) (s.getY s.x s.y) (COLOR_ADD color s.cor s.cog s.cob)] }
  let s := s.drawPixel (s.getX s.x s.y) (s.getY s.x s.y) (COLOR_ADD color s.cor s.cog s.cob)
  { s with x := s.x + xInc }

/-- The call `cram->getColor(index, alpha, colorOffset)` of `drawCell`: the
colour it returns, and the layer with the call recorded. -/
def Vdp2Screen.getColor (env : Env) (s : Vdp2Screen) (index : Nat) : Nat × Vdp2Screen :=
  (env.cram.getColor env.cm index s.alpha s.colorOffset,
    { s with trace := s.trace ++ [CellEvent.getColor index s.alpha s.colorOffset] })

/-- The statement pair
`if (!(dot & mask) && transparencyEnable) color = 0; else color = cram->getColor(index, alpha, colorOffset);`
followed by the plot, as used in the palette depths of `drawCell`. -/
def Vdp2Screen.plotIndexed (env : Env) (s : Vdp2Screen) (masked index : Nat) (xInc : Int) :
    Vdp2Screen :=
  if masked = 0 ∧ s.transparencyEnable = true then s.plot 0x00000000 xInc
  else (s.getColor env index).2.plot (s.getColor env index).1 xInc

/-- The rows of `drawCell`: `X = x; for (i < cellH) { x = X; for (j < cellW; j += step) dots; y += yInc; }`. -/
def Vdp2Screen.cellRows (s : Vdp2Screen) (step : Int) (yInc : Int)
    (dots : Vdp2Screen → Vdp2Screen) : Vdp2Screen :=
  let X := s.x
  forLoop s.cellH (fun s =>
    let s := { s with x := X }
    let s := forLoop ((s.cellW + (step - 1)) / step) dots s
    { s with y := s.y + yInc }) s

/-- The inner-loop body of `drawCell`, 4-bit mode: one word, four pixels. -/
def Vdp2Screen.dots4 (env : Env) (xInc : Int) (s : Vdp2Screen) : Vdp2Screen :=
  let dot := readWord env.vram s.charAddr
  let s := { s with charAddr := ulong (s.charAddr + 2) }
  let s := s.plotIndexed env (dot &&& 0xF000)
    (ulong (s.palAddr <<< 4) ||| ((dot &&& 0xF000) >>> 12)) xInc
  let s := s.plotIndexed env (dot &&& 0xF00)
    (ulong (s.palAddr <<< 4) ||| ((dot &&& 0xF00) >>> 8)) xInc
  let s := s.plotIndexed env (dot &&& 0xF0)
    (ulong (s.palAddr <<< 4) ||| ((dot &&& 0xF0) >>> 4)) xInc
  s.plotIndexed env (dot &&& 0xF)
    (ulong (s.palAddr <<< 4) ||| (dot &&& 0xF)) xInc

/-- The inner-loop body of `drawCell`, 8-bit mode: one word, two pixels. -/
def Vdp2Screen.dots8 (env : Env) (xInc : Int) (s : Vdp2Screen) : Vdp2Screen :=
  let dot := readWord env.vram s.charAddr
  let s := { s with charAddr := ulong (s.charAddr + 2) }
  let s := s.plotIndexed env (dot &&& 0xFF00)
    (ulong (s.palAddr <<< 4) ||| ((dot &&& 0xFF00) >>> 8)) xInc
  s.plotIndexed env (dot &&& 0xFF)
    (ulong (s.palAddr <<< 4) ||| (dot &&& 0xFF)) xInc

/-- The inner-loop body of `drawCell`, 16-bit mode (2048 colours): one word,
one pixel. -/
def Vdp2Screen.dot11 (env : Env) (xInc : Int) (s : Vdp2Screen) : Vdp2Screen :=
  let dot := readWord env.vram s.charAddr
  let (color, s) : Nat × Vdp2Screen :=
    if dot = 0 ∧ s.transparencyEnable = true then (0x00000000, s)
    else s.getColor env dot
  let s := { s with charAddr := ulong (s.charAddr + 2) }
  s.plot color xInc

/-- The inner-loop body of `drawCell`, 16-bit mode (32,768 colours): one word,
one pixel. -/
def Vdp2Screen.dot16 (env : Env) (xInc : Int) (s : Vdp2Screen) : Vdp2Screen :=
  let dot := readWord env.vram s.charAddr
  let s := { s with charAddr := ulong (s.charAddr + 2) }
  let color :=
    if dot &&& 0x8000 = 0 ∧ s.transparencyEnable = true then 0x00000000
    else env.cm.SAT2YAB1 0xFF dot
  s.plot color xInc

/-- The inner-loop body of `drawCell`, 32-bit mode: two words, one pixel. -/
def Vdp2Screen.dot32 (env : Env) (xInc : Int) (s : Vdp2Screen) : Vdp2Screen :=
  let dot1 := readWord env.vram s.charAddr
  let s := { s with charAddr := ulong (s.charAddr + 2) }
  let dot2 := readWord env.vram s.charAddr
  let s := { s with charAddr := ulong (s.charAddr + 2) }
  let color :=
    if dot1 &&& 0x8000 = 0 ∧ s.transparencyEnable = true then 0x00000000
    else env.cm.SAT2YAB2 s.alpha dot1 dot2
  s.plot color xInc

/-- Method `Vdp2Screen::drawCell`. -/
def Vdp2Screen.drawCell (env : Env) (s : Vdp2Screen) : Vdp2Screen :=
  let xInc : Int := if s.flipFunction &&& 0x1 ≠ 0 then -1 else 1
  let yInc : Int := if s.flipFunction &&& 0x2 ≠ 0 then -1 else 1
  match s.colorNumber with
  | 0 => s.cellRows 4 yInc (Vdp2Screen.dots4 env xInc)
  | 1 => s.cellRows 2 yInc (Vdp2Screen.dots8 env xInc)
  | 2 => s.cellRows 1 yInc (Vdp2Screen.dot11 env xInc)
  | 3 => s.cellRows 1 yInc (Vdp2Screen.dot16 env xInc)
  | 4 => s.cellRows 1 yInc (Vdp2Screen.dot32 env xInc)
  | _ => s

/-- The calls one pixel of a palette depth makes, as a list: with `n` the
fetched pixel value (nibble, byte or word) and `index` the colour index built
from it, a zero `n` under transparency is drawn as colour 0 with no
`getColor` call, and every other pixel is one `getColor(index, alpha,
colorOffset)` call followed by the `drawPixel` of the colour it returned.  The
pixel is drawn at `(getX(x, y), getY(x, y))` with the colour offset added. -/
def Vdp2Screen.pixelCalls (env : Env) (s : Vdp2Screen) (n index : Nat) (x : Int) :
    List CellEvent :=
  if n = 0 ∧ s.transparencyEnable = true then
    [CellEvent.drawPixel (s.getX x s.y) (s.getY x s.y) (COLOR_ADD 0 s.cor s.cog s.cob)]
  else
    [CellEvent.getColor index s.alpha s.colorOffset,
      CellEvent.drawPixel (s.getX x s.y) (s.getY x s.y)
        (COLOR_ADD (env.cram.getColor env.cm index s.alpha s.colorOffset) s.cor s.cog s.cob)]

/-- The grid walk shared by `drawPattern`, `drawPage` and `drawPlane`:
`X = x; for (i < h) { Y = y; x = X; for (j < w) { y = Y; body; } }`. -/
def Vdp2Screen.grid (s : Vdp2Screen) (h w : Int) (body : Vdp2Screen → Vdp2Screen) :
    Vdp2Screen :=
  let X := s.x
  forLoop h (fun s =>
    let Y := s.y
    let s := { s with x := X }
    forLoop w (fun s => body { s with y := Y }) s) s

/-- Method `Vdp2Screen::drawPattern`. -/
def Vdp2Screen.drawPattern (env : Env) (s : Vdp2Screen) : Vdp2Screen :=
  let (s, xEnd) : Vdp2Screen × Int :=
    if s.flipFunction &&& 0x1 ≠ 0 then
      ({ s with x := s.x + (s.patternWH * 8 - 1) }, s.patternWH * 8 + 1)
    else (s, 0)
  let (s, yEnd) : Vdp2Screen × Int :=
    if s.flipFunction &&& 0x2 ≠ 0 then
      ({ s with y := s.y + (s.patternWH * 8 - 1) }, s.patternWH * 8 + 1)
    else (s, 0)
  let s := s.grid s.patternWH s.patternWH (Vdp2Screen.drawCell env)
  let s := { s with x := s.x + xEnd }
  { s with y := s.y + yEnd }

/-- Method `Vdp2Screen::drawPage`. -/
def Vdp2Screen.drawPage (env : Env) (s : Vdp2Screen) : Vdp2Screen :=
  s.grid s.pageWH s.pageWH fun s => (s.patternAddr env).drawPattern env

/-- Method `Vdp2Screen::drawPlane`. -/
def Vdp2Screen.drawPlane (env : Env) (s : Vdp2Screen) : Vdp2Screen :=
  s.grid s.planeH s.planeW (Vdp2Screen.drawPage env)

/-- Method `Vdp2Screen::drawMap`. -/
def Vdp2Screen.drawMap (l : Layer) (env : Env) (s : Vdp2Screen) : Vdp2Screen :=
  let X := s.x
  let Y := s.y
  let s := { s with x := X }
  let s := { s with y := Y }
  let s := l.planeAddr env 0 s
  s.drawPlane env

/-- The test `!(enable & disptoggle) || (getPriority() == 0)` of
`Vdp2Screen::draw`: the layer returns without drawing. -/
def Vdp2Screen.skipped (l : Layer) (env : Env) (s : Vdp2Screen) : Bool :=
  !(s.enable && s.disptoggle) || decide (l.getPriority env.reg = 0)

/-- Method `Vdp2Screen::draw`, up to the OpenGL calls that present the
surface. -/
def Vdp2Screen.draw (l : Layer) (env : Env) (s : Vdp2Screen) : Vdp2Screen :=
  let s := l.init env s
  if s.skipped l env then s
  else if s.bitmap then s.drawCell env
  else s.drawMap l env

/-! ## Construction and the frame -/

/-- The constructor `Vdp2Screen::Vdp2Screen`: it sets `surface`, `disptoggle`
and the coordinate function pointers; every other member keeps whatever the
allocation held (`raw`). -/
def Vdp2Screen.construct (raw : Vdp2Screen) (surface : Surface) : Vdp2Screen :=
  { raw with
    surface := surface
    disptoggle := true
    getX := Vdp2Screen_getX
    getY := Vdp2Screen_getY }

/-- The constructor `RBG0::RBG0`: the function pointers become `RBG0_getX` and
`RBG0_getY`, which read rotation parameters that are not loaded before the
first `init`. -/
def RBG0.construct (raw : Vdp2Screen) (surface : Surface) : Vdp2Screen :=
  { Vdp2Screen.construct raw surface with getX := raw.getX, getY := raw.getY }

/-- The layer objects `new NBG0(...)`, ..., `new RBG0(...)` of `Vdp2::Vdp2`. -/
def Layer.construct (l : Layer) (raw : Vdp2Screen) (surface : Surface) : Vdp2Screen :=
  match l with
  | .RBG0 => RBG0.construct raw surface
  | _ => Vdp2Screen.construct raw surface

/-- The bit of register 0x20 that a layer's `init` reads into `enable`. -/
def Layer.enableBit : Layer → Nat
  | .NBG0 => 0x1
  | .NBG1 => 0x2
  | .NBG2 => 0x4
  | .NBG3 => 0x8
  | .RBG0 => 0x10

/-- The background layers of the `screens` array, in index order: the order
in which `VBlankOUT` calls their `draw()`. -/
def backgrounds (screens : List ScreenId) : List Layer :=
  screens.filterMap fun
    | .bg l => some l
    | .vdp1 => none

/-- The environment a frame is drawn in: the `reg`, `vram` and `cram` pointers
every layer was constructed with. -/
def Vdp2.env (s : Vdp2) (vram : Memory) (cm : ColorMacros) (rot : Rotation) : Env :=
  { reg := s.mem, vram := vram, cram := s.cram, cm := cm, rot := rot }

/-- The register write of `Vdp2::VBlankIN`: `setWord(0x4, getWord(0x4) | 0x0008)`. -/
def Vdp2.VBlankIN (spr : Vdp1) (s : Vdp2) : Vdp2 :=
  s.setWord spr 0x4 (s.getWord 0x4 ||| 0x0008)

/-- The register write that opens `Vdp2::VBlankOUT`:
`setWord(0x4, getWord(0x4) & 0xFFF7 | 0x0002)`. -/
def Vdp2.VBlankOUT (spr : Vdp1) (s : Vdp2) : Vdp2 :=
  s.setWord spr 0x4 ((s.getWord 0x4 &&& 0xFFF7) ||| 0x0002)

/-- The background layers that draw during `VBlankOUT`, in draw order: after
the status write, with the display bit of register 0 set,
`screens[0]->draw()` ... `screens[5]->draw()` run in index order, and a layer
draws when its `draw()` does not take the early return.  `layers l` is the
state of layer `l` before the frame. -/
def Vdp2.drawnLayers (spr : Vdp1) (s : Vdp2) (vram : Memory) (cm : ColorMacros)
    (rot : Rotation) (layers : Layer → Vdp2Screen) : List Layer :=
  if (s.VBlankOUT spr).getWord 0 &&& 0x8000 ≠ 0 then
    (backgrounds (s.VBlankOUT spr).screens).filter fun l =>
      !((l.init ((s.VBlankOUT spr).env vram cm rot) (layers l)).skipped l
          ((s.VBlankOUT spr).env vram cm rot))
  else []

/-- A layer state with every member zero: a concrete input. -/
def Vdp2Screen.zero : Vdp2Screen :=
  { enable := false, disptoggle := false, mapWH := 0, planeW := 0, planeH := 0, pageWH := 0,
    patternWH := 0, cellW := 0, cellH := 0, patternDataSize := 0, specialFunction := 0,
    addr := 0, charAddr := 0, palAddr := 0, colorNumber := 0, bitmap := false,
    flipFunction := 0, x := 0, y := 0, alpha := 0, colorOffset := 0,
    transparencyEnable := false, supplementData := 0, auxMode := 0, cor := 0, cog := 0,
    cob := 0, width := 0, height := 0, coordIncX := 0, coordIncY := 0,
    getX := Vdp2Screen_getX, getY := Vdp2Screen_getY, surface := fun _ => 0, trace := [] }

/-- An environment whose memories are all zero, with the plain coordinate
generator and constant colour expansion: a concrete input. -/
def Env.zero : Env :=
  { reg := Memory.zero, vram := Memory.zero, cram := ⟨Memory.zero, 0⟩,
    cm := ⟨fun _ _ => 0, fun _ _ _ => 0⟩,
    rot := ⟨fun _ _ h _ => h, fun _ _ _ v => v⟩ }

/-- A sprite layer of constant priority 0 and inner priority 5: a concrete
input. -/
def Vdp1.zero : Vdp1 := ⟨fun _ => 0, 5⟩

/-- The register writes of the concrete priority case: display on, all five
layers enabled, and priorities NBG0 = 5, NBG1 = 5 (register 0xF8), NBG2 = 0,
NBG3 = 2 (register 0xFA), RBG0 = 3 (register 0xFC). -/
def priorityCase (spr : Vdp1) (s : Vdp2) : Vdp2 :=
  let s := s.setWord spr 0x000 0x8000
  let s := s.setWord spr 0x020 0x001F
  let s := s.setWord spr 0x0F8 0x0505
  let s := s.setWord spr 0x0FA 0x0200
  s.setWord spr 0x0FC 0x0003

/-! ## The derived configuration -/

/-- The members every `init` assigns on every path: enable, bitmap flag,
colour depth, scroll origin, transparency flag, colour-offset selector and
triple, and alpha. -/
def Vdp2Screen.commonConfig (s : Vdp2Screen) :
    Bool × Bool × Nat × Int × Int × Bool × Nat × Int × Int × Int × Nat :=
  (s.enable, s.bitmap, s.colorNumber, s.x, s.y, s.transparencyEnable, s.colorOffset,
    s.cor, s.cog, s.cob, s.alpha)

/-- The page and pattern geometry, the cell size, the supplement data and
the auxiliary mode. -/
def Vdp2Screen.patternConfig (s : Vdp2Screen) : Int × Int × Int × Int × Int × Int × Nat × Nat :=
  (s.mapWH, s.patternDataSize, s.patternWH, s.pageWH, s.cellW, s.cellH, s.supplementData,
    s.auxMode)

/-- The plane size. -/
def Vdp2Screen.planeConfig (s : Vdp2Screen) : Int × Int :=
  (s.planeW, s.planeH)

/-- The plane-size value each `init` switches on: the layer's 2-bit field of
register 0x3A (for `RBG0`, the field the rotation-parameter mode selects). -/
def Layer.planeSizeField (reg : Memory) : Layer → Nat
  | .NBG0 => readWord reg 0x3A &&& 0x3
  | .NBG1 => (readWord reg 0x3A &&& 0xC) >>> 2
  | .NBG2 => (readWord reg 0x3A &&& 0x30) >>> 4
  | .NBG3 => (readWord reg 0x3A &&& 0xC0) >>> 6
  | .RBG0 =>
    match reg.getLong 0xB0 &&& 0x3 with
    | 0 => (readWord reg 0x3A &&& 0x300) >>> 8
    | 1 => (readWord reg 0x3A &&& 0x3000) >>> 12
    | _ => 0

/-! ## Reachable states -/

/-- The states reached from construction (over a zeroed register bank) by
`Vdp2::setWord` calls at word-aligned offsets. -/
inductive Vdp2.Reachable (spr : Vdp1) : Vdp2 → Prop where
  | construct (cram0 : Vdp2ColorRam) : Vdp2.Reachable spr (Vdp2.construct spr Memory.zero cram0)
  | setWord (s : Vdp2) (addr val : Nat) (hs : Vdp2.Reachable spr s) (haligned : addr % 2 = 0) :
      Vdp2.Reachable spr (s.setWord spr addr val)

/-! ## Frames, counts and reference readings -/

/-- Whether a logged call is a `drawPixel`. -/
def CellEvent.isDrawPixel : CellEvent → Bool
  | .drawPixel _ _ _ => true
  | .getColor _ _ _ => false

/-- The number of `drawPixel` calls in a log. -/
def pixelCount (t : List CellEvent) : Nat := (t.filter CellEvent.isDrawPixel).length

/-- A layer state with the members that `drawCell` writes (`x`, `y`,
`charAddr`, the surface) and the call log blanked: two states with the same
`cellFrame` agree on every other member. -/
def Vdp2Screen.cellFrame (s : Vdp2Screen) : Vdp2Screen :=
  { s with x := 0, y := 0, charAddr := 0, surface := fun _ => 0, trace := [] }

/-- A layer state with the members that `patternAddr` writes (`addr`,
`charAddr`, `palAddr`, `flipFunction`, `specialFunction`) blanked. -/
def Vdp2Screen.nameFrame (s : Vdp2Screen) : Vdp2Screen :=
  { s with addr := 0, charAddr := 0, palAddr := 0, flipFunction := 0, specialFunction := 0 }

/-- A layer state with everything the map walk writes blanked: what is left
is the configuration that `init` derived. -/
def Vdp2Screen.mapFrame (s : Vdp2Screen) : Vdp2Screen :=
  s.cellFrame.nameFrame

/-- The low 9 bits of `w` read as a two's-complement signed number: the
specification's reading of a colour offset, to compare with
`colorOffsetValue`. -/
def signed9 (w : Nat) : Int :=
  if w % 512 < 256 then ((w % 512 : Nat) : Int) else ((w % 512 : Nat) : Int) - 512

/-- The coordinate change `(x, y) ↦ (a * x + b, c * y + d)` applied to the cursor and undone in
the coordinate functions, with the flip bits cleared: for `a = -1` the layer
`s.mirror a b c d` is `s` seen in a mirror.  It is a device of the proofs
about flipping, not a function of the source. -/
def Vdp2Screen.mirror (a b c d : Int) (s : Vdp2Screen) : Vdp2Screen :=
  { s with
    x := a * (s.x - b)
    y := c * (s.y - d)
    getX := fun x y => s.getX (a * x + b) (c * y + d)
    getY := fun x y => s.getY (a * x + b) (c * y + d)
    flipFunction := 0 }

/-- The layer `s` with its flip bits cleared and its coordinate functions
composed with the reflection of the pattern square that starts at the cursor
(side `patternWH * 8`): position `x0 + c` is sent to `x0 + (S - 1 - c)` when
flip bit 0 is set, and likewise for `y` and flip bit 1. -/
def Vdp2Screen.unflipped (s : Vdp2Screen) : Vdp2Screen :=
  { s with
    flipFunction := 0
    getX := fun x y =>
      s.getX (if s.flipFunction &&& 0x1 ≠ 0 then s.x + (s.patternWH * 8 - 1 - (x - s.x)) else x)
        (if s.flipFunction &&& 0x2 ≠ 0 then s.y + (s.patternWH * 8 - 1 - (y - s.y)) else y)
    getY := fun x y =>
      s.getY (if s.flipFunction &&& 0x1 ≠ 0 then s.x + (s.patternWH * 8 - 1 - (x - s.x)) else x)
        (if s.flipFunction &&& 0x2 ≠ 0 then s.y + (s.patternWH * 8 - 1 - (y - s.y)) else y) }

/-- The per-page multiplier of `planeAddr` for a pattern-name size and a
pattern size. -/
def pageBytes (patternDataSize patternWH : Int) : Nat :=
  if patternDataSize = 1 then (if patternWH = 1 then 0x2000 else 0x800)
  else (if patternWH = 1 then 0x4000 else 0x1000)

/-- The colour-depth field each `init` stores in `colorNumber`. -/
def Layer.colorField (reg : Memory) : Layer → Nat
  | .NBG0 => (readWord reg 0x28 &&& 0x70) >>> 4
  | .NBG1 => (readWord reg 0x28 &&& 0x3000) >>> 12
  | .NBG2 => (readWord reg 0x2A &&& 0x2) >>> 1
  | .NBG3 => (readWord reg 0x2A &&& 0x20) >>> 5
  | .RBG0 => (readWord reg 0x2A &&& 0x7000) >>> 12

/-! ## Step relations and register fields of the map walk -/

/-- The 3-bit map-offset field of a layer, placed in bits 6-8: the `offset`
local of the layer's `planeAddr`. -/
def Layer.mapOffset (reg : Memory) : Layer → Nat
  | .NBG0 => (readWord reg 0x3C &&& 0x7) <<< 6
  | .NBG1 => (readWord reg 0x3C &&& 0x70) <<< 2
  | .NBG2 => (readWord reg 0x3C &&& 0x700) >>> 2
  | .NBG3 => (readWord reg 0x3C &&& 0x7000) >>> 6
  | .RBG0 => (readWord reg 0x3E &&& 0x7) <<< 6

/-- The effect of a run of `drawCell` statements that leads from `s` to `t`:
only `x`, `y`, `charAddr`, the surface and the log differ, the cursor is at
`(x, y)`, `charAddr` has advanced by `bytes` (as an `unsigned long`) and
`pixels` more `drawPixel` calls are logged. -/
def Vdp2Screen.cellStep (s t : Vdp2Screen) (x y : Int) (bytes pixels : Nat) : Prop :=
  t.cellFrame = s.cellFrame ∧ t.x = x ∧ t.y = y ∧
  ulong t.charAddr = ulong (s.charAddr + bytes) ∧
  (s.charAddr < 4294967296 → t.charAddr < 4294967296) ∧
  pixelCount t.trace = pixelCount s.trace + pixels

/-- The effect of a run of the map walk that leads from `s` to `t`: the
configuration is as it was, the cursor is at `(x, y)`, `addr` has advanced by
`bytes` (as an `unsigned long`) and `pixels` more `drawPixel` calls are
logged. -/
def Vdp2Screen.mapStep (s t : Vdp2Screen) (x y : Int) (bytes pixels : Nat) : Prop :=
  t.mapFrame = s.mapFrame ∧ t.x = x ∧ t.y = y ∧
  ulong t.addr = ulong (s.addr + bytes) ∧
  (s.addr < 4294967296 → t.addr < 4294967296) ∧
  pixelCount t.trace = pixelCount s.trace + pixels

/-- The effect on `addr` of a run of the map walk that leads from `s` to
`t`: the configuration is as it was and `addr` has advanced by `bytes` (as an
`unsigned long`). -/
def Vdp2Screen.addrStep (s t : Vdp2Screen) (bytes : Nat) : Prop :=
  t.mapFrame = s.mapFrame ∧ ulong t.addr = ulong (s.addr + bytes) ∧
  (s.addr < 4294967296 → t.addr < 4294967296)

/-- The character bytes of one 8x8 cell in a colour depth: 32 in depth 0, 64
in depth 1, 128 in depths 2 and 3, 256 in depth 4. -/
def cellBytes (colorNumber : Nat) : Nat :=
  if colorNumber = 0 then 32 else if colorNumber = 1 then 64
  else if colorNumber = 4 then 256 else 128

/-- The layer after the two flip tests that open `drawPattern`: the cursor is
moved to the far edge of the pattern square along each flipped axis. -/
def Vdp2Screen.patternStart (s : Vdp2Screen) : Vdp2Screen :=
  { s with
    x := s.x + (if s.flipFunction &&& 0x1 ≠ 0 then s.patternWH * 8 - 1 else 0)
    y := s.y + (if s.flipFunction &&& 0x2 ≠ 0 then s.patternWH * 8 - 1 else 0) }

/-- Whether a logged call respects an index bound: a `getColor` call whose
index is below `n`, or any `drawPixel` call. -/
def CellEvent.indexBelow (n : Nat) : CellEvent → Bool
  | .getColor index _ _ => decide (index < n)
  | .drawPixel _ _ _ => true

/-- Every `getColor` call of a log has an index below 2048. -/
def indexBounded (t : List CellEvent) : Bool := t.all (CellEvent.indexBelow 2048)

/-! ## The colour-calculation fields -/

/-- The bit of register 0xEC (`colorCalc`) that each `init` tests before it
derives `alpha`. -/
def Layer.colorCalcBit : Layer → Nat
  | .NBG0 => 0x1
  | .NBG1 => 0x2
  | .NBG2 => 0x4
  | .NBG3 => 0x8
  | .RBG0 => 0x1000

/-- The 5-bit colour-calculation ratio field that each `init` reads: the low
byte of register 0x108 for NBG0 and for RBG0, its high byte for NBG1, the low
byte of register 0x10A for NBG2 and its high byte for NBG3. -/
def Layer.ratioField (reg : Memory) : Layer → Nat
  | .NBG0 => readWord reg 0x108 &&& 0x1F
  | .NBG1 => (readWord reg 0x108 >>> 8) &&& 0x1F
  | .NBG2 => readWord reg 0x10A &&& 0x1F
  | .NBG3 => (readWord reg 0x10A >>> 8) &&& 0x1F
  | .RBG0 => readWord reg 0x108 &&& 0x1F

/-! ## The CD drive controller (`cd_drive.c`)

The file keeps its state in the global `cdd_cxt` (a `struct CdDriveContext`,
declared in `cd_drive.h`) and in the global `comm_state`.  The model holds the
members that the functions of `cd_drive.c` use.  The calls that only drive the
wires of the SH-1 (`sh1_set_start`, `sh1_set_output_enable_rising_edge`,
`sh1_set_output_enable_falling_edge`) and the log call `tsunami_log_value`
touch none of these members and are left out. -/

/-- Conversion to `u8`: the low 8 bits. -/
def u8 (n : Nat) : Nat := n % 256

/-- Conversion of an `int` to `u8`. -/
def u8OfInt (z : Int) : Nat := (z % 256).toNat

/-- Conversion to `u32`. -/
def u32 (n : Nat) : Nat := n % 4294967296

/-- Conversion of an `int` expression to `s32` (two's-complement wrap). -/
def s32 (z : Int) : Int := toInt32 (ulongOfInt z)

/-- `TIME_OE`, OE rising edge to falling edge, in microseconds. -/
def TIME_OE : Int := 26

/-- `TIME_PERIODIC`, from the final bit of a transmission to the start
signal. -/
def TIME_PERIODIC : Int := 13992

/-- `TIME_START`, start falling edge to rising edge. -/
def TIME_START : Int := 187

/-- `TIME_POWER_ON`, the reset time. -/
def TIME_POWER_ON : Int := 451448

/-- `TIME_WAITING`, from the first start falling edge to the first
transmission. -/
def TIME_WAITING : Int := 416509

/-- `TIME_BYTE`, the serial clock time of one byte. -/
def TIME_BYTE : Int := 150

/-- `TIME_READING`, the spacing of transactions while the disc is read. -/
def TIME_READING : Int := 6600

/-- `enum CdStatusOperations`, value `ReadToc`. -/
def CdStatusOperations.ReadToc : Nat := 0x04

/-- `enum CdStatusOperations`, value `Idle`. -/
def CdStatusOperations.Idle : Nat := 0x46

/-- `enum CdStatusOperations`, value `Stopped`. -/
def CdStatusOperations.Stopped : Nat := 0x12

/-- `enum CdStatusOperations`, value `Seeking`. -/
def CdStatusOperations.Seeking : Nat := 0x22

/-- `enum CdStatusOperations`, value `ReadingDataSectors`. -/
def CdStatusOperations.ReadingDataSectors : Nat := 0x36

/-- `enum CdStatusOperations`, value `SeekSecurityRing2`. -/
def CdStatusOperations.SeekSecurityRing2 : Nat := 0xB6

/-- `enum CommunicationState`, with all thirteen enumerators. -/
inductive CommunicationState
  | NoTransfer
  | Reset
  | Started
  | SendingFirstByte
  | ByteFinished
  | FirstByteFinished
  | SendingByte
  | SendingByteFinished
  | Running
  | NewTransfer
  | WaitToOe
  | WaitToOeFirstByte
  | WaitToRxio
  deriving DecidableEq, Repr

/-- `struct CdState` (declared in `cd_drive.h`): the members that
`make_status_data` and `state_set_msf_info` use. -/
structure CdState where
  current_operation : Nat
  q_subcode : Nat
  track_number : Nat
  index_field : Nat
  minutes : Nat
  seconds : Nat
  frame : Nat
  absolute_minutes : Nat
  absolute_seconds : Nat
  absolute_frame : Nat

/-- One element of `cdd_cxt.toc`: the members that `toc_10_get_track` names,
and as `raw` the bytes at the element's address, of which `do_toc` copies the
first 10 (`memcpy(cdd_cxt.state_data+1, &cdd_cxt.toc[toc_entry], 10)`). -/
structure TocEntry where
  raw : Nat → Nat
  min : Nat
  sec : Nat
  frame : Nat
  pmin : Nat
  psec : Nat
  pframe : Nat

/-- The globals of `cd_drive.c`: the members of `cdd_cxt` that the file uses
(arrays as functions of the index; `received_data` and `state_data` hold 13
bytes) and `comm_state`. -/
structure CdDrive where
  bit_counter : Nat
  byte_counter : Nat
  received_data : Nat → Nat
  state_data : Nat → Nat
  state : CdState
  toc : Nat → TocEntry
  toc_entry : Nat
  num_toc_entries : Int
  disc_fad : Int
  cycles_remainder : Int
  comm_state : CommunicationState

/-- The disc interface behind `Cs2Area->cdi`: `ReadTOC10` fills the table it is
given and returns the number of entries. -/
structure CDInterface where
  ReadTOC10 : (Nat → TocEntry) → (Nat → TocEntry) × Int

/-- The ways a run of the controller stops short: the `assert(0)` that ends
`cd_command_exec`, the `assert(0)` of `toc_10_get_track`, and an access past
the end of a 13-byte array (or a shift by a negative count). -/
inductive CdFault
  | assertExec
  | assertTrack
  | outOfBounds
  deriving DecidableEq, Repr

/-- An element of `cdd_cxt.toc` with every byte zero. -/
def TocEntry.zero : TocEntry :=
  { raw := fun _ => 0, min := 0, sec := 0, frame := 0, pmin := 0, psec := 0, pframe := 0 }

/-- A `struct CdState` with every member zero. -/
def CdState.zero : CdState :=
  { current_operation := 0, q_subcode := 0, track_number := 0, index_field := 0,
    minutes := 0, seconds := 0, frame := 0, absolute_minutes := 0, absolute_seconds := 0,
    absolute_frame := 0 }

/-- The globals at program start: `cdd_cxt` is zero-initialised and
`comm_state = NoTransfer`. -/
def CdDrive.initial : CdDrive :=
  { bit_counter := 0, byte_counter := 0, received_data := fun _ => 0,
    state_data := fun _ => 0, state := CdState.zero, toc := fun _ => TocEntry.zero,
    toc_entry := 0, num_toc_entries := 0, disc_fad := 0, cycles_remainder := 0,
    comm_state := .NoTransfer }

/-- Function `cdd_reset`: `memset(&cdd_cxt, 0, sizeof(struct CdDriveContext))`
and `comm_state = Reset`. -/
def cdd_reset (_ : CdDrive) : CdDrive :=
  { CdDrive.initial with comm_state := .Reset }

/-- Function `cd_drive_get_serial_bit`.  A read past the 13 bytes of
`state_data`, or a shift by a negative count, has no defined result in C and
is reported as `outOfBounds`. -/
def cd_drive_get_serial_bit (d : CdDrive) : Except CdFault Nat :=
  if d.bit_counter ≤ 7 ∧ d.byte_counter < 13 then
    let bit := u8 (1 <<< (7 - d.bit_counter))
    .ok (if u8 (d.state_data d.byte_counter) &&& bit ≠ 0 then 1 else 0)
  else .error .outOfBounds

/-- Function `cd_drive_set_serial_bit`.  A write past the 13 bytes of
`received_data` has no defined result in C and is reported as `outOfBounds`. -/
def cd_drive_set_serial_bit (bit : Nat) (d : CdDrive) : Except CdFault CdDrive :=
  if d.byte_counter < 13 then
    let d := { d with
      received_data := Function.update d.received_data d.byte_counter
        (u8 (u8 (d.received_data d.byte_counter) ||| (u8 bit <<< d.bit_counter))) }
    let d := { d with bit_counter := d.bit_counter + 1 }
    if d.bit_counter = 8 then
      let d := { d with byte_counter := d.byte_counter + 1 }
      let d := { d with bit_counter := 0 }
      let d :=
        if d.comm_state = .SendingFirstByte then { d with comm_state := .WaitToOeFirstByte }
        else if d.comm_state = .SendingByte then { d with comm_state := .WaitToOe }
        else d
      let d := if d.byte_counter = 13 then { d with comm_state := .WaitToRxio } else d
      .ok d
    else .ok d
  else .error .outOfBounds

/-- Function `set_checksum`. -/
def set_checksum (data : Nat → Nat) : Nat → Nat :=
  let parity := (List.range 11).foldl (fun parity i => u8 (parity + u8 (data i))) 0
  let data := Function.update data 11 (u8 (bitNot parity))
  Function.update data 12 0

/-- Function `make_status_data`. -/
def make_status_data (state : CdState) (data : Nat → Nat) : Nat → Nat :=
  let data := Function.update data 0 (u8 state.current_operation)
  let data := Function.update data 1 (u8 state.q_subcode)
  let data := Function.update data 2 (u8 state.track_number)
  let data := Function.update data 3 (u8 state.index_field)
  let data := Function.update data 4 (u8 state.minutes)
  let data := Function.update data 5 (u8 state.seconds)
  let data := Function.update data 6 (u8 state.frame)
  let data := Function.update data 7 0x04
  let data := Function.update data 8 (u8 state.absolute_minutes)
  let data := Function.update data 9 (u8 state.absolute_seconds)
  let data := Function.update data 10 (u8 state.absolute_frame)
  set_checksum data

/-- Function `do_toc`. -/
def do_toc (d : CdDrive) : CdDrive :=
  let d := { d with state := { d.state with current_operation := CdStatusOperations.ReadToc } }
  let d := { d with
    state_data := Function.update d.state_data 0 (u8 CdStatusOperations.ReadToc) }
  let d := { d with comm_state := .NoTransfer }
  let toc_entry := d.toc_entry
  let d := { d with toc_entry := d.toc_entry + 1 }
  let d := { d with
    state_data := fun i =>
      if 1 ≤ i ∧ i < 11 then u8 ((d.toc toc_entry).raw (i - 1)) else d.state_data i }
  let d := { d with state_data := set_checksum d.state_data }
  if (d.toc_entry : Int) > d.num_toc_entries then
    let d := { d with state := { d.state with current_operation := CdStatusOperations.Idle } }
    { d with state_data := make_status_data d.state d.state_data }
  else d

/-- Function `continue_command`. -/
def continue_command (d : CdDrive) : CdDrive × Int :=
  if d.state.current_operation = CdStatusOperations.ReadToc then
    (do_toc d, TIME_READING)
  else
    ({ d with comm_state := .NoTransfer }, TIME_PERIODIC)

/-- Function `get_fad_from_command`. -/
def get_fad_from_command (buf : Nat → Nat) : Nat :=
  let fad := u32 (u8 (buf 1))
  let fad := u32 (fad <<< 8)
  let fad := fad ||| u8 (buf 2)
  let fad := u32 (fad <<< 8)
  fad ||| u8 (buf 3)

/-- Function `fad2msf`: the three bytes it stores. -/
def fad2msf (fad : Int) : Nat × Nat × Nat :=
  let msf0 := u8OfInt (Int.tdiv fad (75 * 60))
  let fad := s32 (fad - msf0 * (75 * 60))
  let msf1 := u8OfInt (Int.tdiv fad 75)
  let fad := s32 (fad - msf1 * 75)
  let msf2 := u8OfInt fad
  (msf0, msf1, msf2)

/-- Function `num2bcd`. -/
def num2bcd (num : Nat) : Nat :=
  u8 (((u8 num / 10) <<< 4) ||| (u8 num % 10))

/-- Function `fad2msf_bcd`. -/
def fad2msf_bcd (fad : Int) : Nat × Nat × Nat :=
  let msf := fad2msf fad
  (num2bcd msf.1, num2bcd msf.2.1, num2bcd msf.2.2)

/-- Function `bcd2num`. -/
def bcd2num (bcd : Nat) : Nat :=
  u8 ((u8 bcd >>> 4) * 10 + (u8 bcd &&& 0xf))

/-- Function `msf_bcd2fad`. -/
def msf_bcd2fad (min sec frame : Nat) : Nat :=
  let fad := 0
  let fad := u32 (fad + bcd2num min)
  let fad := u32 (fad * 60)
  let fad := u32 (fad + bcd2num sec)
  let fad := u32 (fad * 75)
  u32 (fad + bcd2num frame)

/-- Function `toc_10_get_track`, on the table `cdd_cxt.toc`. -/
def toc_10_get_track (toc : Nat → TocEntry) (fad : Int) : Except CdFault Int :=
  match (List.range 99).find? (fun i =>
      decide (fad ≥ toInt32 (msf_bcd2fad (toc i).min (toc i).sec (toc i).frame)) &&
      decide (fad < toInt32 (msf_bcd2fad (toc i).pmin (toc i).psec (toc i).pframe))) with
  | some i => .ok ((i : Int) + 1)
  | none => .error .assertTrack

/-- Function `state_set_msf_info`. -/
def state_set_msf_info (state : CdState) (track_fad disc_fad : Int) : CdState :=
  let msf_buf := fad2msf_bcd track_fad
  let state := { state with minutes := msf_buf.1 }
  let state := { state with seconds := msf_buf.2.1 }
  let state := { state with frame := msf_buf.2.2 }
  let msf_buf := fad2msf_bcd disc_fad
  let state := { state with absolute_minutes := msf_buf.1 }
  let state := { state with absolute_seconds := msf_buf.2.1 }
  { state with absolute_frame := msf_buf.2.2 }

/-- Function `do_command`. -/
def do_command (cdi : CDInterface) (d : CdDrive) : Except CdFault (CdDrive × Int) :=
  let command := u8 (d.received_data 0)
  match command with
  | 0x0 => .ok (continue_command d)
  | 0x2 =>
    .ok ({ d with
        state := { d.state with current_operation := CdStatusOperations.SeekSecurityRing2 } },
      TIME_PERIODIC)
  | 0x3 =>
    let d := { d with toc_entry := 0 }
    let d := { d with toc := (cdi.ReadTOC10 d.toc).1, num_toc_entries := (cdi.ReadTOC10 d.toc).2 }
    .ok (do_toc d, TIME_READING)
  | 0x4 =>
    .ok ({ d with state := { d.state with current_operation := CdStatusOperations.Stopped } },
      TIME_PERIODIC)
  | 0x6 =>
    .ok ({ d with
        state := { d.state with current_operation := CdStatusOperations.ReadingDataSectors } },
      TIME_PERIODIC)
  | 0x8 =>
    .ok ({ d with state := { d.state with current_operation := CdStatusOperations.Idle } },
      TIME_PERIODIC)
  | 0x9 =>
    let fad : Int := toInt32 (get_fad_from_command d.received_data)
    let track_fad : Int := 0
    let d := { d with disc_fad := fad }
    match toc_10_get_track d.toc d.disc_fad with
    | .error e => .error e
    | .ok _ =>
      let track_fad := s32 (d.disc_fad - track_fad)
      let d := { d with state := { d.state with current_operation := CdStatusOperations.Seeking } }
      let d := { d with state := state_set_msf_info d.state track_fad d.disc_fad }
      .ok (d, TIME_PERIODIC)
  | 0xa => .ok (d, TIME_PERIODIC)
  | 0xb => .ok (d, TIME_PERIODIC)
  | _ => .ok (d, TIME_PERIODIC)

/-- Function `cd_command_exec`.  The statements after the closing `assert(0)`
are not reached. -/
def cd_command_exec (cdi : CDInterface) (d : CdDrive) : Except CdFault (CdDrive × Int) :=
  if d.comm_state = .Reset then
    let d := { d with state := { d.state with current_operation := CdStatusOperations.Idle } }
    let d := { d with state_data := make_status_data d.state d.state_data }
    let d := { d with comm_state := .NoTransfer }
    .ok (d, TIME_POWER_ON + TIME_WAITING)
  else if d.comm_state = .SendingFirstByte ∨ d.comm_state = .SendingByte then
    .ok (d, TIME_BYTE)
  else if d.comm_state = .NoTransfer then
    let d := { d with bit_counter := 0 }
    let d := { d with byte_counter := 0 }
    let d := { d with comm_state := .SendingFirstByte }
    let d := { d with received_data := fun i => if i < 13 then 0 else d.received_data i }
    .ok (d, TIME_START)
  else if d.comm_state = .WaitToOeFirstByte then
    .ok ({ d with comm_state := .SendingByte }, TIME_OE)
  else if d.comm_state = .WaitToOe then
    .ok ({ d with comm_state := .SendingByte }, TIME_OE)
  else if d.comm_state = .WaitToRxio then
    do_command cdi d
  else .error .assertExec

/-- The loop of `cd_drive_exec`, run for at most `fuel` iterations: `none`
when the iterations do not suffice. -/
def cd_drive_exec_loop (cdi : CDInterface) :
    Nat → CdDrive → Int → Option (Except CdFault (CdDrive × Int))
  | 0, _, _ => none
  | fuel + 1, d, cycles_temp =>
    if cycles_temp < 0 then
      match cd_command_exec cdi d with
      | .error e => some (.error e)
      | .ok (d, cycles_exec) => cd_drive_exec_loop cdi fuel d (s32 (cycles_temp + cycles_exec))
    else some (.ok (d, cycles_temp))

/-- Function `cd_drive_exec`, with `drive` the context `cdd_cxt` that
`cd_command_exec` works on, for at most `fuel` iterations of its loop. -/
def cd_drive_exec (cdi : CDInterface) (fuel : Nat) (drive : CdDrive) (cycles : Int) :
    Option (Except CdFault CdDrive) :=
  let cycles_temp := s32 (drive.cycles_remainder - cycles)
  match cd_drive_exec_loop cdi fuel drive cycles_temp with
  | none => none
  | some (.error e) => some (.error e)
  | some (.ok (d, cycles_temp)) => some (.ok { d with cycles_remainder := cycles_temp })

/-- The states of the controller that are reached from the start of the
program, or from `cdd_reset()`, by calls of `cd_command_exec`, `cd_drive_exec`
and `cd_drive_set_serial_bit` that run to their end. -/
inductive CdDrive.Reachable : CdDrive → Prop
  | start : CdDrive.Reachable CdDrive.initial
  | reset (d : CdDrive) : CdDrive.Reachable (cdd_reset d)
  | exec (cdi : CDInterface) (d d' : CdDrive) (cycles : Int) :
    CdDrive.Reachable d → cd_command_exec cdi d = .ok (d', cycles) → CdDrive.Reachable d'
  | drive (cdi : CDInterface) (fuel : Nat) (d d' : CdDrive) (cycles : Int) :
    CdDrive.Reachable d → cd_drive_exec cdi fuel d cycles = some (.ok d') →
    CdDrive.Reachable d'
  | bit (b : Nat) (d d' : CdDrive) :
    CdDrive.Reachable d → cd_drive_set_serial_bit b d = .ok d' → CdDrive.Reachable d'

/-! ## Bit streams, transfers and reports of the CD drive -/

/-- The sum of the bytes `data[0..n-1]` of a `u8` array. -/
def byteSum (data : Nat → Nat) (n : Nat) : Nat :=
  ((List.range n).map fun i => u8 (data i)).sum

/-- The function `cd_drive_set_serial_bit` called once for each bit of a
list, in order. -/
def feedBits (bits : List Nat) (d : CdDrive) : Except CdFault CdDrive :=
  bits.foldlM (fun d bit => cd_drive_set_serial_bit bit d) d

/-- The first `n` bits of a bit stream, as the list fed to the drive. -/
def bitsOf (bit : Nat → Nat) (n : Nat) : List Nat := (List.range n).map bit

/-- The byte `k` of a bit stream when the bits are taken least-significant
first: the sum over `i < 8` of `bit (8 * k + i) << i`. -/
def lsbByte (bit : Nat → Nat) (k : Nat) : Nat :=
  ((List.range 8).map fun i => bit (8 * k + i) <<< i).sum

/-- The state of `comm_state` after `cd_drive_set_serial_bit` has completed a
byte that is not the thirteenth. -/
def CommunicationState.afterByte (c : CommunicationState) : CommunicationState :=
  if c = .SendingFirstByte then .WaitToOeFirstByte
  else if c = .SendingByte then .WaitToOe
  else c

/-- The eight bits of a byte in the order in which
`cd_drive_set_serial_bit` assembles them: least-significant first. -/
def byteBits (byte : Nat) : List Nat := (List.range 8).map fun i => (byte >>> i) &&& 1

/-- One byte of a transfer, in the order that the states of `comm_state`
prescribe: eight calls of `cd_drive_set_serial_bit`, then a call of
`cd_command_exec`. -/
def cd_transfer_byte (cdi : CDInterface) (byte : Nat) (d : CdDrive) : Except CdFault CdDrive :=
  match feedBits (byteBits byte) d with
  | .error e => .error e
  | .ok d =>
    match cd_command_exec cdi d with
    | .error e => .error e
    | .ok (d, _) => .ok d

/-- One transfer of a command, in the order that the states of `comm_state`
prescribe: a call of `cd_command_exec` starts the transfer, then each byte is
clocked in by eight calls of `cd_drive_set_serial_bit` and followed by a call
of `cd_command_exec`; after the thirteenth byte that call handles the
command. -/
def cd_transfer (cdi : CDInterface) (command : List Nat) (d : CdDrive) :
    Except CdFault CdDrive :=
  match cd_command_exec cdi d with
  | .error e => .error e
  | .ok (d, _) => command.foldlM (fun d byte => cd_transfer_byte cdi byte d) d

/-- The state in which `do_command` finds a command that has been received:
the thirteen bytes in `received_data`, `byte_counter = 13` and
`comm_state = WaitToRxio`. -/
def CdDrive.received (command : List Nat) (d : CdDrive) : CdDrive :=
  { d with
    bit_counter := 0
    byte_counter := 13
    received_data := fun i => if i < 13 then command.getD i 0 else d.received_data i
    comm_state := .WaitToRxio }

/-- The buffer `data` holds the report of a TOC entry: the operation byte
`ReadToc`, the 10 bytes of the entry, the checksum and a zero. -/
def tocReport (entry : TocEntry) (data : Nat → Nat) : Prop :=
  data 0 = CdStatusOperations.ReadToc ∧ (∀ i < 10, data (i + 1) = u8 (entry.raw i)) ∧
  byteSum data 12 % 256 = 0xFF ∧ data 12 = 0

instance (entry : TocEntry) (data : Nat → Nat) : Decidable (tocReport entry data) := by
  unfold tocReport
  infer_instance

/-- A sequence of transfers, one command after the other. -/
def cd_transfers (cdi : CDInterface) (commands : List (List Nat)) (d : CdDrive) :
    Except CdFault CdDrive :=
  commands.foldlM (fun d command => cd_transfer cdi command d) d

/-! ## Transparent pixels in the log, and the unassigned height made explicit -/

/-- The call is a `drawPixel` of the colour `c`, not a `getColor`. -/
def CellEvent.drawsColor (c : Nat) : CellEvent → Bool
  | .drawPixel _ _ c' => decide (c' = c)
  | .getColor _ _ _ => false

/-- The vertical-resolution switch of `Vdp2::setWord`, case 0, with the
content of the uninitialised local made explicit: `stale` is the value that
`int height` holds when the `switch` is entered, and `default: break` leaves
it in place. -/
def vResolutionFrom (stale : Int) (val : Nat) : Int :=
  match (val >>> 4) &&& 0x3 with
  | 0 => 224
  | 1 => 240
  | 2 => 256
  | _ => stale

/-- The interlace switch of `Vdp2::setWord`, case 0, on the `int` that the
vertical switch left (`height *= 2` taken without `int` overflow). -/
def interlaceFrom (val : Nat) (height : Int) : Int :=
  match (val >>> 6) &&& 0x3 with
  | 2 => height * 2
  | 3 => height * 2
  | _ => height

/-- Method `Vdp2::setWord` (built without `VDP2_DEBUG`) with the content of
the uninitialised local `int height` made explicit: `stale` is the value the
local holds when `case 0` is entered, which the language leaves
indeterminate.  The other cases do not use the local and are those of
`Vdp2.setWord`. -/
def Vdp2.setWordFrom (spr : Vdp1) (stale : Int) (s : Vdp2) (addr val : Nat) : Vdp2 :=
  match addr with
  | 0 =>
    let width := hResolution val
    let height := interlaceFrom val (vResolutionFrom stale val)
    let s := s.setSaturnResolution width (some height)
    { s with mem := s.mem.setWord addr val }
  | _ => s.setWord spr addr val

/-! ## Concrete inputs -/

/-- A freshly constructed VDP2 over zeroed memories: a concrete input. -/
def Vdp2.fresh : Vdp2 := Vdp2.construct Vdp1.zero Memory.zero ⟨Memory.zero, 0⟩

/-- An environment whose register 0x20 enables all five layers while every
priority register is zero: a concrete input. -/
def Env.enabledNoPriority : Env :=
  { Env.zero with reg := Memory.zero.setWord 0x20 0x001F }

/-- An environment whose VRAM holds the words 0xFFFF, 0x8001 at addresses 0
and 2: a concrete input. -/
def Env.patternWords : Env :=
  { Env.zero with vram := (Memory.zero.setWord 0 0xFFFF).setWord 2 0x8001 }

/-- A tile-mode layer state with the given pattern-name configuration and
supplement data, every other member zero: a concrete input. -/
def Vdp2Screen.tile (patternDataSize : Int) (auxMode : Nat) (patternWH : Int)
    (supplementData : Nat) : Vdp2Screen :=
  { Vdp2Screen.zero with
    patternDataSize := patternDataSize, auxMode := auxMode, patternWH := patternWH,
    supplementData := supplementData }

/-- The NBG0 registers that select one-word pattern names with auxiliary mode
1 (register 0x30 = 0xC000) and 2x2-cell patterns (register 0x28 = 0x0001): a
concrete input. -/
def Env.oneWordAux1Wide : Env :=
  { Env.zero with reg := (Memory.zero.setWord 0x30 0xC000).setWord 0x28 0x0001 }

/-- Rotation parameters that are all zero: a concrete input. -/
def RotationParams.zero : RotationParams :=
  { Xst := 0, Yst := 0, Zst := 0, deltaXst := 0, deltaYst := 0, deltaX := 0, deltaY := 0,
    A := 0, B := 0, C := 0, D := 0, E := 0, F := 0, Px := 0, Py := 0, Pz := 0,
    Cx := 0, Cy := 0, Cz := 0, Mx := 0, My := 0, kx := 0, ky := 0 }

/-- Rotation parameters with A = D = 1, B = C = E = F = 0, kx = ky = 1, unit
increments (deltaX = deltaYst = 1, deltaXst = deltaY = 0) and every start,
viewpoint, centre and translation term zero: a concrete input. -/
def RotationParams.unitAD : RotationParams :=
  { RotationParams.zero with A := 1, D := 1, kx := 1, ky := 1, deltaX := 1, deltaYst := 1 }

/-- Rotation parameters with A = E = 1, B = C = D = F = 0, kx = ky = 1, unit
increments (deltaX = deltaYst = 1, deltaXst = deltaY = 0) and every start,
viewpoint, centre and translation term zero: a concrete input. -/
def RotationParams.unitAE : RotationParams :=
  { RotationParams.zero with A := 1, E := 1, kx := 1, ky := 1, deltaX := 1, deltaYst := 1 }

/-- Registers that put NBG0 in bitmap mode (register 0x28 = 0x0002): a
concrete input. -/
def Env.bitmapNBG0 : Env :=
  { Env.zero with reg := Memory.zero.setWord 0x28 0x0002 }

/-- An environment whose VRAM holds the word 0x0120 (nibbles 0, 1, 2, 0) at
address 0: a concrete input. -/
def Env.nibbles : Env :=
  { Env.zero with vram := Memory.zero.setWord 0 0x0120 }

/-- The all-zero layer state with the transparency flag set: a concrete
input. -/
def Vdp2Screen.transparent : Vdp2Screen :=
  { Vdp2Screen.zero with transparencyEnable := true }

/-- Registers with the colour-depth field of NBG0 set to 5 (register
0x28 = 0x0050): a concrete input. -/
def Env.depth5 : Env :=
  { Env.zero with reg := Memory.zero.setWord 0x28 0x0050 }

/-- Registers with the plane-size field of NBG0 set to 3 (register
0x3A = 0x0003): a concrete input. -/
def Env.planeSize3 : Env :=
  { Env.zero with reg := Memory.zero.setWord 0x3A 0x0003 }

/-- A layer state with planeW = 5 and planeH = 7, every other member zero: a
concrete input. -/
def Vdp2Screen.plane57 : Vdp2Screen :=
  { Vdp2Screen.zero with planeW := 5, planeH := 7 }

/-- A tile-mode layer state with a 1x1 plane, one-word pattern names and
one-cell patterns: a concrete input. -/
def Vdp2Screen.plane11 : Vdp2Screen :=
  { Vdp2Screen.tile 1 0 1 0 with planeW := 1, planeH := 1 }

/-- Registers whose byte 0x5B is 1: a concrete input. -/
def Env.byte5B : Env :=
  { Env.zero with reg := Memory.zero.setByte 0x5B 1 }

/-- Registers whose byte 0x6B is 1: a concrete input. -/
def Env.byte6B : Env :=
  { Env.zero with reg := Memory.zero.setByte 0x6B 1 }

/-- NBG0 in bitmap mode with colour depth 2 (register 0x28 = 0x0022) over a
VRAM whose word at address 0 is 0x8000: a concrete input. -/
def Env.depth2Bitmap : Env :=
  { Env.zero with
    reg := Memory.zero.setWord 0x28 0x0022
    vram := Memory.zero.setWord 0 0x8000 }

/-- NBG0 after `init()` over zeroed registers, a tile-mode layer of 8x8 cells:
a concrete input. -/
def Vdp2Screen.initial : Vdp2Screen := Layer.init .NBG0 Env.zero Vdp2Screen.zero

/-- NBG0 after `init()` over zeroed registers with both flip bits of a pattern
name set: a concrete input. -/
def Vdp2Screen.flipped : Vdp2Screen := { Vdp2Screen.initial with flipFunction := 3 }

/-- A layer state of width 320 and height 2000, every other member zero: a
concrete input. -/
def Vdp2Screen.tall : Vdp2Screen := { Vdp2Screen.zero with width := 320, height := 2000 }

/-- A disc interface whose `ReadTOC10` leaves the table alone and reports no
entry: a concrete input. -/
def CDInterface.empty : CDInterface := ⟨fun toc => (toc, 0)⟩

/-- A TOC entry whose byte `i` is `n + i`, the named members zero: a
concrete input. -/
def TocEntry.sample (n : Nat) : TocEntry := { TocEntry.zero with raw := fun i => n + i }

/-- A disc interface whose `ReadTOC10` fills entry `k` with the bytes
`16 * (k + 1) + i` and reports two entries: a concrete input. -/
def CDInterface.twoEntries : CDInterface :=
  ⟨fun _ => (fun k => TocEntry.sample (16 * (k + 1)), 2)⟩

/-- A command of 13 bytes: the command byte followed by twelve zero bytes: a
concrete input. -/
def commandOf (byte : Nat) : List Nat := byte :: List.replicate 12 0

/-! ## Memory lemmas -/

theorem Memory.getByte_setByte (m : Memory) (a v b : Nat) :
    (m.setByte a v).getByte b = if b = a then v % 256 else m.getByte b := by
  unfold Memory.getByte Memory.setByte
  by_cases h : b = a <;> simp [h]

theorem Memory.getWord_setWord_same (m : Memory) (a v : Nat) :
    (m.setWord a v).getWord a = v % 65536 := by
  unfold Memory.getWord Memory.setWord
  simp only [Memory.getByte_setByte]
  simp
  omega

theorem Vdp2.setWord_mem (spr : Vdp1) (s : Vdp2) (addr val : Nat) :
    (s.setWord spr addr val).mem = s.mem.setWord addr val := by
  unfold Vdp2.setWord
  split <;> rfl

@[simp] theorem initColorOffset_enable (reg : Memory) (mask : Nat) (s : Vdp2Screen) :
    (initColorOffset reg mask s).enable = s.enable := by
  unfold initColorOffset; split_ifs <;> rfl

@[simp] theorem initColorOffset_disptoggle (reg : Memory) (mask : Nat) (s : Vdp2Screen) :
    (initColorOffset reg mask s).disptoggle = s.disptoggle := by
  unfold initColorOffset; split_ifs <;> rfl

@[simp] theorem initColorOffset_surface (reg : Memory) (mask : Nat) (s : Vdp2Screen) :
    (initColorOffset reg mask s).surface = s.surface := by
  unfold initColorOffset; split_ifs <;> rfl

@[simp] theorem initPlaneSize_enable (n : Nat) (s : Vdp2Screen) :
    (initPlaneSize n s).enable = s.enable := by
  unfold initPlaneSize; split <;> rfl

@[simp] theorem initPlaneSize_disptoggle (n : Nat) (s : Vdp2Screen) :
    (initPlaneSize n s).disptoggle = s.disptoggle := by
  unfold initPlaneSize; split <;> rfl

@[simp] theorem initPlaneSize_surface (n : Nat) (s : Vdp2Screen) :
    (initPlaneSize n s).surface = s.surface := by
  unfold initPlaneSize; split <;> rfl

@[simp] theorem initBitmapSize4_enable (n : Nat) (s : Vdp2Screen) :
    (initBitmapSize4 n s).enable = s.enable := by
  unfold initBitmapSize4; split <;> rfl

@[simp] theorem initBitmapSize4_disptoggle (n : Nat) (s : Vdp2Screen) :
    (initBitmapSize4 n s).disptoggle = s.disptoggle := by
  unfold initBitmapSize4; split <;> rfl

@[simp] theorem initBitmapSize4_surface (n : Nat) (s : Vdp2Screen) :
    (initBitmapSize4 n s).surface = s.surface := by
  unfold initBitmapSize4; split <;> rfl

@[simp] theorem initBitmapSize2_enable (n : Nat) (s : Vdp2Screen) :
    (initBitmapSize2 n s).enable = s.enable := by
  unfold initBitmapSize2; split <;> rfl

@[simp] theorem initBitmapSize2_disptoggle (n : Nat) (s : Vdp2Screen) :
    (initBitmapSize2 n s).disptoggle = s.disptoggle := by
  unfold initBitmapSize2; split <;> rfl

@[simp] theorem initBitmapSize2_surface (n : Nat) (s : Vdp2Screen) :
    (initBitmapSize2 n s).surface = s.surface := by
  unfold initBitmapSize2; split <;> rfl

theorem Layer.init_enable (l : Layer) (env : Env) (s : Vdp2Screen) :
    (l.init env s).enable = decide (readWord env.reg 0x20 &&& l.enableBit ≠ 0) := by
  cases l <;>
  simp only [Layer.init, NBG0.init, NBG1.init, NBG2.init, NBG3.init, RBG0.init, Layer.enableBit,
    initPattern] <;>
  (repeat' split) <;> simp

theorem Layer.init_disptoggle (l : Layer) (env : Env) (s : Vdp2Screen) :
    (l.init env s).disptoggle = s.disptoggle := by
  cases l <;>
  simp only [Layer.init, NBG0.init, NBG1.init, NBG2.init, NBG3.init, RBG0.init,
    initPattern] <;>
  (repeat' split) <;> simp

theorem Layer.init_surface (l : Layer) (env : Env) (s : Vdp2Screen) :
    (l.init env s).surface = s.surface := by
  cases l <;>
  simp only [Layer.init, NBG0.init, NBG1.init, NBG2.init, NBG3.init, RBG0.init,
    initPattern] <;>
  (repeat' split) <;> simp

/-! ## The priority order -/

theorem priorityLE_total (spr : Vdp1) (reg : Memory) (a b : ScreenId) :
    priorityLE spr reg a b ∨ priorityLE spr reg b a := by
  unfold priorityLE comparePriority
  simp only
  split_ifs <;> omega

theorem priorityLE_trans (spr : Vdp1) (reg : Memory) (a b c : ScreenId)
    (hab : priorityLE spr reg a b) (hbc : priorityLE spr reg b c) : priorityLE spr reg a c := by
  unfold priorityLE comparePriority at *
  simp only at *
  split_ifs at * <;> omega

theorem qsortScreens_sorted (spr : Vdp1) (reg : Memory) (l : List ScreenId) :
    (qsortScreens spr reg l).Sorted (priorityLE spr reg) := by
  haveI : IsTotal ScreenId (priorityLE spr reg) := ⟨priorityLE_total spr reg⟩
  haveI : IsTrans ScreenId (priorityLE spr reg) := ⟨priorityLE_trans spr reg⟩
  exact List.sorted_insertionSort _ l

theorem qsortScreens_perm (spr : Vdp1) (reg : Memory) (l : List ScreenId) :
    (qsortScreens spr reg l).Perm l :=
  List.perm_insertionSort _ l

theorem Layer.getInnerPriority_injective (a b : Layer)
    (h : a.getInnerPriority = b.getInnerPriority) : a = b := by
  cases a <;> cases b <;> simp [Layer.getInnerPriority] at h ⊢

theorem priorityLE_bg_antisymm (spr : Vdp1) (reg : Memory) (a b : Layer)
    (hab : priorityLE spr reg (.bg a) (.bg b)) (hba : priorityLE spr reg (.bg b) (.bg a)) :
    a = b := by
  unfold priorityLE comparePriority getPriority getInnerPriority at *
  simp only at *
  apply Layer.getInnerPriority_injective
  split_ifs at * <;> omega

theorem backgrounds_sorted (spr : Vdp1) (reg : Memory) (l : List ScreenId)
    (h : l.Pairwise (priorityLE spr reg)) :
    (backgrounds l).Pairwise (fun a b => priorityLE spr reg (.bg a) (.bg b)) := by
  unfold backgrounds
  refine List.Pairwise.filterMap _ ?_ h
  intro a a' hr b hb b' hb'
  cases a <;> cases a' <;> simp at hb hb'
  subst hb hb'
  exact hr

theorem Vdp2.setWord_screens_perm (spr : Vdp1) (s : Vdp2) (addr val : Nat) :
    (s.setWord spr addr val).screens.Perm s.screens := by
  unfold Vdp2.setWord
  split <;> first
    | exact List.Perm.refl _
    | exact qsortScreens_perm _ _ _

/-! ## The concrete priority case -/

theorem Memory.getByte_setWord (m : Memory) (a v b : Nat) :
    (m.setWord a v).getByte b =
      if b = a + 1 then v % 256 else if b = a then v / 256 % 256 else m.getByte b := by
  unfold Memory.setWord
  simp only [Memory.getByte_setByte]
  split_ifs <;> simp

theorem Vdp2.construct_screens (spr : Vdp1) (mem0 : Memory) (cram0 : Vdp2ColorRam) :
    (Vdp2.construct spr mem0 cram0).screens =
      [.bg .NBG3, .bg .NBG2, .bg .NBG1, .bg .NBG0, .bg .RBG0, .vdp1] := by
  simp [Vdp2.construct, Vdp2.reset, Vdp2.setWord, Vdp2.setSaturnResolution, Vdp2.updateRam]

theorem priorityCase_mem (spr : Vdp1) (s : Vdp2) :
    (priorityCase spr s).mem =
      ((((s.mem.setWord 0x000 0x8000).setWord 0x020 0x001F).setWord 0x0F8 0x0505).setWord
        0x0FA 0x0200).setWord 0x0FC 0x0003 := by
  simp [priorityCase, Vdp2.setWord_mem]

theorem priorityCase_screens_perm (spr : Vdp1) (s : Vdp2) :
    (priorityCase spr s).screens.Perm s.screens := by
  unfold priorityCase
  exact (Vdp2.setWord_screens_perm _ _ _ _).trans <|
    (Vdp2.setWord_screens_perm _ _ _ _).trans <|
    (Vdp2.setWord_screens_perm _ _ _ _).trans <|
    (Vdp2.setWord_screens_perm _ _ _ _).trans <|
    Vdp2.setWord_screens_perm _ _ _ _

theorem Vdp2.setWord_FC_sorted (spr : Vdp1) (s : Vdp2) (val : Nat) :
    (s.setWord spr 0xFC val).screens.Sorted (priorityLE spr (s.setWord spr 0xFC val).mem) := by
  simp only [Vdp2.setWord, Vdp2.sortScreens]
  exact qsortScreens_sorted _ _ _

theorem priorityCase_sorted (spr : Vdp1) (s : Vdp2) :
    (priorityCase spr s).screens.Sorted (priorityLE spr (priorityCase spr s).mem) := by
  unfold priorityCase
  exact Vdp2.setWord_FC_sorted _ _ _

theorem Vdp2.VBlankOUT_mem (spr : Vdp1) (s : Vdp2) :
    (s.VBlankOUT spr).mem = s.mem.setWord 0x4 ((s.getWord 0x4 &&& 0xFFF7) ||| 0x0002) :=
  Vdp2.setWord_mem _ _ _ _

theorem Vdp2.VBlankOUT_screens (spr : Vdp1) (s : Vdp2) :
    (s.VBlankOUT spr).screens = s.screens := by
  simp [Vdp2.VBlankOUT, Vdp2.setWord]

/-- A word write at an aligned offset other than 0xF8, 0xFA, 0xFC changes no
background layer's priority. -/
theorem Layer.getPriority_setWord (m : Memory) (addr val : Nat) (l : Layer)
    (haligned : addr % 2 = 0) (h : addr ≠ 0xF8 ∧ addr ≠ 0xFA ∧ addr ≠ 0xFC) :
    l.getPriority (m.setWord addr val) = l.getPriority m := by
  have hb : ∀ b, b = 0xF8 ∨ b = 0xF9 ∨ b = 0xFA ∨ b = 0xFB ∨ b = 0xFC ∨ b = 0xFD →
      (m.setWord addr val).getByte b = m.getByte b := by
    intro b hb
    rw [Memory.getByte_setWord, if_neg (by omega), if_neg (by omega)]
  cases l <;> simp [Layer.getPriority, readWord, Memory.getWord, hb]

theorem Vdp2.VBlankOUT_getPriority (spr : Vdp1) (s : Vdp2) (l : Layer) :
    l.getPriority (s.VBlankOUT spr).mem = l.getPriority s.mem := by
  rw [Vdp2.VBlankOUT_mem]
  exact Layer.getPriority_setWord _ _ _ _ (by decide) (by decide)

theorem priorityCase_priorities (spr : Vdp1) (s : Vdp2) :
    Layer.getPriority ((priorityCase spr s).VBlankOUT spr).mem .NBG0 = 5 ∧
    Layer.getPriority ((priorityCase spr s).VBlankOUT spr).mem .NBG1 = 5 ∧
    Layer.getPriority ((priorityCase spr s).VBlankOUT spr).mem .NBG2 = 0 ∧
    Layer.getPriority ((priorityCase spr s).VBlankOUT spr).mem .NBG3 = 2 ∧
    Layer.getPriority ((priorityCase spr s).VBlankOUT spr).mem .RBG0 = 3 ∧
    readWord ((priorityCase spr s).VBlankOUT spr).mem 0x20 = 0x1F ∧
    ((priorityCase spr s).VBlankOUT spr).getWord 0 = 0x8000 := by
  rw [Vdp2.getWord, Vdp2.VBlankOUT_mem, priorityCase_mem]
  simp [Layer.getPriority, readWord, Memory.getWord, Memory.getByte_setWord]
  decide

theorem priorityCase_backgrounds_sorted (spr : Vdp1) (s : Vdp2) :
    (backgrounds ((priorityCase spr s).VBlankOUT spr).screens).Pairwise
      (fun a b => priorityLE spr ((priorityCase spr s).VBlankOUT spr).mem (.bg a) (.bg b)) := by
  rw [Vdp2.VBlankOUT_screens]
  refine (backgrounds_sorted spr _ _ (priorityCase_sorted spr s)).imp ?_
  intro a b hab
  simpa [priorityLE, comparePriority, getPriority, getInnerPriority,
    Vdp2.VBlankOUT_getPriority] using hab

/-- The layers NBG3, NBG1, NBG0 and RBG0 (priority non-zero) pass the test of
`draw`; NBG2 (priority 0) does not. -/
theorem priorityCase_skipped (spr : Vdp1) (s : Vdp2) (vram : Memory) (cm : ColorMacros)
    (rot : Rotation) (raw : Layer → Vdp2Screen) (surface : Surface) (l : Layer) :
    (!((l.init (((priorityCase spr s).VBlankOUT spr).env vram cm rot)
          (l.construct (raw l) surface)).skipped l
        (((priorityCase spr s).VBlankOUT spr).env vram cm rot))) = decide (l ≠ .NBG2) := by
  obtain ⟨h0, h1, h2, h3, h4, h20, -⟩ := priorityCase_priorities spr s
  have hd : (l.construct (raw l) surface).disptoggle = true := by
    cases l <;> rfl
  simp only [Vdp2Screen.skipped, Layer.init_enable, Layer.init_disptoggle, hd, Vdp2.env, h20]
  cases l <;> simp [Layer.enableBit, h0, h1, h2, h3, h4]

theorem priorityCase_drawnLayers (spr : Vdp1) (mem0 : Memory) (cram0 : Vdp2ColorRam)
    (vram : Memory) (cm : ColorMacros) (rot : Rotation) (raw : Layer → Vdp2Screen)
    (surface : Surface) :
    (priorityCase spr (Vdp2.construct spr mem0 cram0)).drawnLayers spr vram cm rot
        (fun l => l.construct (raw l) surface) = [.NBG3, .RBG0, .NBG1, .NBG0] := by
  obtain ⟨h0, h1, h2, h3, h4, -, hdisp⟩ :=
    priorityCase_priorities spr (Vdp2.construct spr mem0 cram0)
  unfold Vdp2.drawnLayers
  rw [if_pos (by rw [hdisp]; decide)]
  simp only [priorityCase_skipped]
  have hanti : IsAntisymm Layer (fun a b =>
      priorityLE spr ((priorityCase spr (Vdp2.construct spr mem0 cram0)).VBlankOUT spr).mem
        (.bg a) (.bg b)) :=
    ⟨priorityLE_bg_antisymm spr _⟩
  refine List.eq_of_perm_of_sorted ?_
    ((priorityCase_backgrounds_sorted spr _).filter _) ?_
  · have hp := ((priorityCase_screens_perm spr (Vdp2.construct spr mem0 cram0)).filterMap
      (fun
        | .bg l => some l
        | .vdp1 => none)).filter (fun l => decide (l ≠ Layer.NBG2))
    rw [Vdp2.construct_screens] at hp
    rw [Vdp2.VBlankOUT_screens]
    exact hp.trans (by decide)
  · simp [List.Sorted, priorityLE, comparePriority, getPriority, getInnerPriority,
      Layer.getInnerPriority, h0, h1, h2, h3, h4]

/-! ## The early return of `draw` -/

theorem Vdp2Screen.draw_surface_of_skipped (l : Layer) (env : Env) (s : Vdp2Screen)
    (h : (l.init env s).skipped l env = true) : (s.draw l env).surface = s.surface := by
  unfold Vdp2Screen.draw
  simp only [h, if_true]
  exact Layer.init_surface l env s

theorem Vdp2Screen.skipped_of_priority_or_enable (l : Layer) (env : Env) (s : Vdp2Screen)
    (h : l.getPriority env.reg = 0 ∨ readWord env.reg 0x20 &&& l.enableBit = 0) :
    (l.init env s).skipped l env = true := by
  unfold Vdp2Screen.skipped
  rw [Layer.init_enable]
  rcases h with h | h <;> simp [h]

/-! ## Resolution -/

theorem Vdp2.setWord_resolution (spr : Vdp1) (s : Vdp2) (val : Nat) :
    (s.setWord spr 0 val).resolution = setWordResolution val := by
  simp [Vdp2.setWord, Vdp2.setSaturnResolution, setWordResolution]

/-- For a value whose vertical-resolution field (bits 4-5) is 0, 1 or 2 the
resolution has width in {320, 352, 640, 704} and a base height in
{224, 240, 256}, doubled exactly when the interlace field is 2 or 3. -/
theorem setWordResolution_assigned (val : Nat) (hv : (val >>> 4) &&& 0x3 ≠ 3) :
    (setWordResolution val).width ∈ ([320, 352, 640, 704] : List Int) ∧
    ∃ base ∈ ([224, 240, 256] : List Int),
      (setWordResolution val).height =
        some (if (val >>> 6) &&& 0x3 = 2 ∨ (val >>> 6) &&& 0x3 = 3 then base * 2 else base) := by
  have h3 : (val >>> 4) &&& 0x3 ≤ 3 := Nat.and_le_right
  constructor
  · unfold setWordResolution hResolution
    simp only
    split <;> simp
  · have hcases : (val >>> 4) &&& 0x3 = 0 ∨ (val >>> 4) &&& 0x3 = 1 ∨ (val >>> 4) &&& 0x3 = 2 := by
      omega
    unfold setWordResolution vResolution interlace
    rcases hcases with h | h | h
    · refine ⟨224, by simp, ?_⟩
      simp only [h]
      split <;> simp_all
    · refine ⟨240, by simp, ?_⟩
      simp only [h]
      split <;> simp_all
    · refine ⟨256, by simp, ?_⟩
      simp only [h]
      split <;> simp_all

/-! ## Pattern names -/

theorem Vdp2Screen.patternName_oneWord_aux0 (env : Env) (s : Vdp2Screen)
    (hsize : s.patternDataSize = 1) (haux : s.auxMode = 0) :
    (s.patternWH = 1 →
      (s.patternName env).charAddr =
        (readWord env.vram s.addr &&& 0x3FF) ||| ((s.supplementData &&& 0x1F) <<< 10)) ∧
    (s.patternWH = 2 →
      (s.patternName env).charAddr =
        ((readWord env.vram s.addr &&& 0x3FF) <<< 2) ||| (s.supplementData &&& 0x3) |||
          ((s.supplementData &&& 0x1C) <<< 10)) ∧
    (s.patternName env).flipFunction = (readWord env.vram s.addr &&& 0xC00) >>> 10 := by
  unfold Vdp2Screen.patternName
  simp only [hsize, haux, if_true]
  refine ⟨?_, ?_, ?_⟩
  · intro h
    simp [h]
  · intro h
    simp [h]
  · split_ifs <;> rfl

theorem Vdp2Screen.patternName_oneWord_aux1 (env : Env) (s : Vdp2Screen)
    (hsize : s.patternDataSize = 1) (haux : s.auxMode = 1) (hwh : s.patternWH = 1) :
    (s.patternName env).charAddr =
      (readWord env.vram s.addr &&& 0xFFF) ||| ((s.supplementData &&& 0x1C) <<< 10) := by
  unfold Vdp2Screen.patternName
  simp [hsize, haux, hwh]

theorem Vdp2Screen.patternName_twoWord (env : Env) (s : Vdp2Screen)
    (hsize : s.patternDataSize = 2) :
    (s.patternName env).charAddr = readWord env.vram (ulong (s.addr + 2)) &&& 0x7FFF ∧
    (s.patternName env).palAddr = readWord env.vram s.addr &&& 0x7F ∧
    (s.patternName env).flipFunction = (readWord env.vram s.addr &&& 0xC000) >>> 14 ∧
    (s.patternName env).specialFunction = (readWord env.vram s.addr &&& 0x3000) >>> 12 ∧
    (s.patternName env).addr = ulong (ulong (s.addr + 2) + 2) := by
  unfold Vdp2Screen.patternName
  simp [hsize]

theorem Vdp2Screen.patternAddr_fields (env : Env) (s : Vdp2Screen) :
    (s.patternAddr env).palAddr = (s.patternName env).palAddr ∧
    (s.patternAddr env).flipFunction = (s.patternName env).flipFunction ∧
    (s.patternAddr env).specialFunction = (s.patternName env).specialFunction ∧
    (s.patternAddr env).addr = (s.patternName env).addr := by
  unfold Vdp2Screen.patternAddr
  simp only
  split_ifs <;> simp

theorem Vdp2Screen.patternAddr_charAddr (env : Env) (s : Vdp2Screen) :
    (s.patternAddr env).charAddr =
      if readWord env.reg 0x6 &&& 0x8000 = 0 then ((s.patternName env).charAddr &&& 0x3FFF) * 32
      else ulong ((s.patternName env).charAddr * 32) := by
  unfold Vdp2Screen.patternAddr
  simp only
  split_ifs
  · have h : (s.patternName env).charAddr &&& 0x3FFF ≤ 0x3FFF := Nat.and_le_right
    simp only [ulong]
    omega
  · rfl

theorem Vdp2Screen.patternName_charAddr_lt (env : Env) (s : Vdp2Screen)
    (h : s.patternDataSize = 2 ∨
      (s.patternDataSize = 1 ∧
        ((s.auxMode = 0 ∧ (s.patternWH = 1 ∨ s.patternWH = 2)) ∨
          (s.auxMode = 1 ∧ s.patternWH = 1)))) :
    (s.patternName env).charAddr < 0x8000 := by
  have hand : ∀ a m : Nat, a &&& m ≤ m := fun _ _ => Nat.and_le_right
  have hor : ∀ a b : Nat, a < 2 ^ 15 → b < 2 ^ 15 → a ||| b < 2 ^ 15 :=
    fun _ _ ha hb => Nat.or_lt_two_pow ha hb
  rcases h with h | ⟨h1, ⟨ha, hw | hw⟩ | ⟨ha, hw⟩⟩
  · rw [(Vdp2Screen.patternName_twoWord env s h).1]
    have := hand (readWord env.vram (ulong (s.addr + 2))) 0x7FFF
    omega
  · rw [(Vdp2Screen.patternName_oneWord_aux0 env s h1 ha).1 hw]
    have h1 := hand (readWord env.vram s.addr) 0x3FF
    have h2 := hand s.supplementData 0x1F
    refine hor _ _ (by omega) ?_
    rw [Nat.shiftLeft_eq]
    omega
  · rw [(Vdp2Screen.patternName_oneWord_aux0 env s h1 ha).2.1 hw]
    have h1 := hand (readWord env.vram s.addr) 0x3FF
    have h2 := hand s.supplementData 0x3
    have h3 := hand s.supplementData 0x1C
    refine hor _ _ (hor _ _ ?_ (by omega)) ?_ <;> rw [Nat.shiftLeft_eq] <;> omega
  · rw [Vdp2Screen.patternName_oneWord_aux1 env s h1 ha hw]
    have h1 := hand (readWord env.vram s.addr) 0xFFF
    have h3 := hand s.supplementData 0x1C
    refine hor _ _ (by omega) ?_
    rw [Nat.shiftLeft_eq]
    omega

/-! ## The layer order in reachable states -/

/-- Right after a write to one of the trigger offsets 0xE0, 0xF8, 0xFA, 0xFC
the whole `screens` array is in comparator order, whatever the sprite layer
is. -/
theorem Vdp2.setWord_trigger_sorted (spr : Vdp1) (s : Vdp2) (addr val : Nat)
    (h : addr = 0xE0 ∨ addr = 0xF8 ∨ addr = 0xFA ∨ addr = 0xFC) :
    (s.setWord spr addr val).screens.Sorted (priorityLE spr (s.setWord spr addr val).mem) := by
  rcases h with h | h | h | h <;> subst h <;>
    simp only [Vdp2.setWord, Vdp2.sortScreens] <;> exact qsortScreens_sorted _ _ _

/-- A write at an offset that is not a trigger leaves `screens` as it was. -/
theorem Vdp2.setWord_screens_of_not_trigger (spr : Vdp1) (s : Vdp2) (addr val : Nat)
    (h : addr ≠ 0xE0 ∧ addr ≠ 0xF8 ∧ addr ≠ 0xFA ∧ addr ≠ 0xFC) :
    (s.setWord spr addr val).screens = s.screens := by
  obtain ⟨h1, h2, h3, h4⟩ := h
  unfold Vdp2.setWord
  split <;> first
    | rfl
    | contradiction

/-- In every state reached from construction over a zeroed register bank by
aligned `setWord` calls, the five background layers occur in `screens` in
non-decreasing order of (priority, inner priority); the position of the
sprite layer is not covered. -/
theorem Vdp2.Reachable.backgrounds_ordered (spr : Vdp1) (s : Vdp2)
    (hs : Vdp2.Reachable spr s) :
    (backgrounds s.screens).Pairwise (fun a b => priorityLE spr s.mem (.bg a) (.bg b)) := by
  induction hs with
  | construct cram0 =>
    rw [Vdp2.construct_screens]
    have hm : (Vdp2.construct spr Memory.zero cram0).mem =
        ((((Memory.zero.setWord 0x0 0).setWord 0x4 0).setWord 0x6 0).setWord 0xE 0).setWord
          0x20 0 := by
      simp [Vdp2.construct, Vdp2.reset, Vdp2.setWord_mem, Vdp2.setSaturnResolution]
    have hb : ∀ b, 0xF8 ≤ b → b ≤ 0xFD →
        (Vdp2.construct spr Memory.zero cram0).mem.getByte b = 0 := by
      intro b h1 h2
      rw [hm]
      repeat rw [Memory.getByte_setWord, if_neg (by omega), if_neg (by omega)]
      rfl
    simp [backgrounds, priorityLE, comparePriority, getPriority, getInnerPriority,
      Layer.getPriority, Layer.getInnerPriority, readWord, Memory.getWord, hb]
  | setWord s addr val _ haligned ih =>
    by_cases ht : addr = 0xE0 ∨ addr = 0xF8 ∨ addr = 0xFA ∨ addr = 0xFC
    · exact Yabause.backgrounds_sorted spr _ _ (Vdp2.setWord_trigger_sorted spr s addr val ht)
    · have hne : addr ≠ 0xE0 ∧ addr ≠ 0xF8 ∧ addr ≠ 0xFA ∧ addr ≠ 0xFC := by omega
      rw [Vdp2.setWord_screens_of_not_trigger spr s addr val hne, Vdp2.setWord_mem]
      refine ih.imp ?_
      intro a b hab
      simpa [priorityLE, comparePriority, getPriority, getInnerPriority,
        Layer.getPriority_setWord s.mem addr val _ haligned ⟨hne.2.1, hne.2.2.1, hne.2.2.2⟩]
        using hab

/-! ## The claims -/

/-- C1: for every word-aligned offset in 0x000..0x1FE and every 16-bit value
`v`, `getWord(offset)` after `setWord(offset, v)` returns `v`, at trigger
offsets and ordinary offsets alike. -/
theorem setWord_getWord (spr : Vdp1) (s : Vdp2) (offset v : Nat)
    (_haligned : offset % 2 = 0) (_hrange : offset ≤ 0x1FE) (hv : v < 65536) :
    (s.setWord spr offset v).getWord offset = v := by
  unfold Vdp2.getWord
  rw [Vdp2.setWord_mem, Memory.getWord_setWord_same]
  exact Nat.mod_eq_of_lt hv

theorem setWord_getWord_witness :
    0xF8 % 2 = 0 ∧ 0xF8 ≤ 0x1FE ∧ 0x0505 < 65536 ∧
    (Vdp2.fresh.setWord Vdp1.zero 0xF8 0x0505).getWord 0xF8 = 0x0505 :=
  ⟨by decide, by decide, by decide,
    setWord_getWord Vdp1.zero Vdp2.fresh 0xF8 0x0505 (by decide) (by decide) (by decide)⟩

/-- C3 (as amended): with priorities RBG0 = 3, NBG0 = 5, NBG1 = 5, NBG2 = 0,
NBG3 = 2 written to the priority registers, the display on and all five
layers enabled, the background layers that draw do so in the order NBG3,
RBG0, NBG1, NBG0 (NBG1, inner priority 2, before NBG0, inner priority 3), and
the `draw()` of NBG2 leaves the surface as it was.  This holds whatever the
sprite layer's priority, the initial register contents and the layers'
uninitialised members are. -/
theorem priorityCase_drawOrder (spr : Vdp1) (mem0 : Memory) (cram0 : Vdp2ColorRam)
    (vram : Memory) (cm : ColorMacros) (rot : Rotation) (raw : Layer → Vdp2Screen)
    (surface : Surface) :
    (priorityCase spr (Vdp2.construct spr mem0 cram0)).drawnLayers spr vram cm rot
        (fun l => l.construct (raw l) surface) = [.NBG3, .RBG0, .NBG1, .NBG0] ∧
    ((Layer.NBG2.construct (raw .NBG2) surface).draw .NBG2
        (((priorityCase spr (Vdp2.construct spr mem0 cram0)).VBlankOUT spr).env vram cm
          rot)).surface = surface := by
  refine ⟨priorityCase_drawnLayers spr mem0 cram0 vram cm rot raw surface, ?_⟩
  have hprio : Layer.getPriority
      (((priorityCase spr (Vdp2.construct spr mem0 cram0)).VBlankOUT spr).env vram cm
        rot).reg .NBG2 = 0 :=
    (priorityCase_priorities spr (Vdp2.construct spr mem0 cram0)).2.2.1
  exact Vdp2Screen.draw_surface_of_skipped .NBG2 _ _
    (Vdp2Screen.skipped_of_priority_or_enable .NBG2 _ _ (Or.inl hprio))

/-- C3 (as stated) fails: in the concrete priority case the layers draw in the
order NBG3, RBG0, NBG1, NBG0, which is not the order NBG3, RBG0, NBG0, NBG1. -/
theorem priorityCase_drawOrder_counterexample :
    (priorityCase Vdp1.zero Vdp2.fresh).drawnLayers Vdp1.zero Memory.zero Env.zero.cm
        Env.zero.rot (fun l => l.construct Vdp2Screen.zero (fun _ => 0)) =
      [.NBG3, .RBG0, .NBG1, .NBG0] ∧
    (priorityCase Vdp1.zero Vdp2.fresh).drawnLayers Vdp1.zero Memory.zero Env.zero.cm
        Env.zero.rot (fun l => l.construct Vdp2Screen.zero (fun _ => 0)) ≠
      [.NBG3, .RBG0, .NBG0, .NBG1] := by
  have h := priorityCase_drawnLayers Vdp1.zero Memory.zero ⟨Memory.zero, 0⟩ Memory.zero
    Env.zero.cm Env.zero.rot (fun _ => Vdp2Screen.zero) (fun _ => 0)
  refine ⟨h, ?_⟩
  rw [show Vdp2.fresh = Vdp2.construct Vdp1.zero Memory.zero ⟨Memory.zero, 0⟩ from rfl, h]
  decide

/-- C4: for every background layer, every register and VRAM content and every
prior layer state, `draw` leaves every pixel of the output surface unchanged
when the layer's priority is 0 (whatever its enable bit) or its enable bit in
register 0x20 is clear (whatever its priority). -/
theorem draw_leaves_surface (l : Layer) (env : Env) (s : Vdp2Screen)
    (h : l.getPriority env.reg = 0 ∨ readWord env.reg 0x20 &&& l.enableBit = 0) :
    (s.draw l env).surface = s.surface :=
  Vdp2Screen.draw_surface_of_skipped l env s
    (Vdp2Screen.skipped_of_priority_or_enable l env s h)

theorem draw_leaves_surface_witness :
    (Layer.getPriority Env.enabledNoPriority.reg .RBG0 = 0 ∧
      readWord Env.enabledNoPriority.reg 0x20 &&& Layer.enableBit .RBG0 ≠ 0) ∧
    (Vdp2Screen.zero.draw .RBG0 Env.enabledNoPriority).surface = Vdp2Screen.zero.surface :=
  ⟨by decide, draw_leaves_surface .RBG0 Env.enabledNoPriority Vdp2Screen.zero
    (Or.inl (by decide))⟩

/-- C5 (the code at the failing input): writing 0x0030 to register 0 (vertical
resolution field 3) passes `setSaturnResolution` width 320 and a `height` that
was never assigned, so the height is not one of 224, 240, 256 or their
doubles. -/
theorem setWord_height_unassigned (spr : Vdp1) (s : Vdp2) :
    (s.setWord spr 0 0x0030).resolution = ⟨320, none⟩ := by
  rw [Vdp2.setWord_resolution]
  decide

/-- C6: for a one-word pattern name with auxMode 0, the character number that
`patternAddr` decodes (before the 14-bit mask and the x32 scaling) is
`(w & 0x3FF) | ((s & 0x1F) << 10)` when patternWH is 1 and
`((w & 0x3FF) << 2) | (s & 0x3) | ((s & 0x1C) << 10)` when patternWH is 2,
and the flip bits are bits 10-11 of `w`; `w` is the fetched pattern word and
`s` the supplement data. -/
theorem patternAddr_oneWord_aux0 (env : Env) (s : Vdp2Screen)
    (hsize : s.patternDataSize = 1) (haux : s.auxMode = 0) :
    (s.patternWH = 1 →
      (s.patternName env).charAddr =
        (readWord env.vram s.addr &&& 0x3FF) ||| ((s.supplementData &&& 0x1F) <<< 10)) ∧
    (s.patternWH = 2 →
      (s.patternName env).charAddr =
        ((readWord env.vram s.addr &&& 0x3FF) <<< 2) ||| (s.supplementData &&& 0x3) |||
          ((s.supplementData &&& 0x1C) <<< 10)) ∧
    (s.patternAddr env).flipFunction = (readWord env.vram s.addr &&& 0xC00) >>> 10 := by
  obtain ⟨h1, h2, h3⟩ := Vdp2Screen.patternName_oneWord_aux0 env s hsize haux
  exact ⟨h1, h2, (Vdp2Screen.patternAddr_fields env s).2.1.trans h3⟩

theorem patternAddr_oneWord_aux0_witness :
    ((Vdp2Screen.tile 1 0 2 0x3FF).patternDataSize = 1 ∧
      (Vdp2Screen.tile 1 0 2 0x3FF).auxMode = 0 ∧
      (Vdp2Screen.tile 1 0 2 0x3FF).patternWH = 2) ∧
    ((Vdp2Screen.tile 1 0 2 0x3FF).patternName Env.patternWords).charAddr = 0x7FFF ∧
    ((Vdp2Screen.tile 1 0 2 0x3FF).patternAddr Env.patternWords).flipFunction = 3 := by
  obtain ⟨-, h2, h3⟩ := patternAddr_oneWord_aux0 Env.patternWords (Vdp2Screen.tile 1 0 2 0x3FF)
    (by decide) (by decide)
  exact ⟨by decide, (h2 (by decide)).trans (by decide), h3.trans (by decide)⟩

/-- C7 (as amended): for a one-word pattern name with auxMode 1 and patternWH
1, the character number that `patternAddr` decodes is the low 12 bits of the
pattern word `w` with supplement bits 2-4 placed in bits 12-14:
`(w & 0xFFF) | ((s & 0x1C) << 10)`. -/
theorem patternAddr_oneWord_aux1 (env : Env) (s : Vdp2Screen)
    (hsize : s.patternDataSize = 1) (haux : s.auxMode = 1) (hwh : s.patternWH = 1) :
    (s.patternName env).charAddr =
      (readWord env.vram s.addr &&& 0xFFF) ||| ((s.supplementData &&& 0x1C) <<< 10) :=
  Vdp2Screen.patternName_oneWord_aux1 env s hsize haux hwh

theorem patternAddr_oneWord_aux1_witness :
    ((Vdp2Screen.tile 1 1 1 0x1C).patternDataSize = 1 ∧
      (Vdp2Screen.tile 1 1 1 0x1C).auxMode = 1 ∧
      (Vdp2Screen.tile 1 1 1 0x1C).patternWH = 1) ∧
    ((Vdp2Screen.tile 1 1 1 0x1C).patternName Env.patternWords).charAddr = 0x7FFF :=
  ⟨by decide,
    (patternAddr_oneWord_aux1 Env.patternWords (Vdp2Screen.tile 1 1 1 0x1C)
      (by decide) (by decide) (by decide)).trans (by decide)⟩

/-- C7 (as stated) fails: with pattern word 0 and supplement data 1 (only
supplement bit 0 set), placing supplement bits 0-2 in bits 12-14 would give
character number 0x1000, but `patternAddr` decodes 0. -/
theorem patternAddr_oneWord_aux1_counterexample :
    readWord Env.zero.vram (Vdp2Screen.tile 1 1 1 1).addr = 0 ∧
    ((Vdp2Screen.tile 1 1 1 1).patternName Env.zero).charAddr = 0 ∧
    ((Vdp2Screen.tile 1 1 1 1).patternName Env.zero).charAddr ≠
      (readWord Env.zero.vram (Vdp2Screen.tile 1 1 1 1).addr &&& 0xFFF) |||
        (((Vdp2Screen.tile 1 1 1 1).supplementData &&& 0x7) <<< 12) := by
  decide

/-- C8: for a two-word pattern name, the character number is the low 15 bits
of the second word, the palette address the low 7 bits of the first word, the
flip bits its bits 14-15 and the special-function bits its bits 12-13, with
no dependence on auxMode, patternWH or the supplement data, and `addr`
advances by 4 bytes. -/
theorem patternAddr_twoWord (env : Env) (s : Vdp2Screen) (hsize : s.patternDataSize = 2) :
    (s.patternName env).charAddr = readWord env.vram (ulong (s.addr + 2)) &&& 0x7FFF ∧
    (s.patternAddr env).palAddr = readWord env.vram s.addr &&& 0x7F ∧
    (s.patternAddr env).flipFunction = (readWord env.vram s.addr &&& 0xC000) >>> 14 ∧
    (s.patternAddr env).specialFunction = (readWord env.vram s.addr &&& 0x3000) >>> 12 ∧
    (s.patternAddr env).addr = ulong (ulong (s.addr + 2) + 2) ∧
    (s.addr + 4 < 4294967296 → (s.patternAddr env).addr = s.addr + 4) := by
  obtain ⟨hc, hp, hf, hs, ha⟩ := Vdp2Screen.patternName_twoWord env s hsize
  obtain ⟨hp', hf', hs', ha'⟩ := Vdp2Screen.patternAddr_fields env s
  refine ⟨hc, hp'.trans hp, hf'.trans hf, hs'.trans hs, ha'.trans ha, fun hlt => ?_⟩
  rw [ha', ha]
  unfold ulong
  omega

theorem patternAddr_twoWord_witness :
    (Vdp2Screen.tile 2 1 4 0x3FF).patternDataSize = 2 ∧
    ((Vdp2Screen.tile 2 1 4 0x3FF).patternName Env.patternWords).charAddr = 0x0001 ∧
    ((Vdp2Screen.tile 2 1 4 0x3FF).patternAddr Env.patternWords).palAddr = 0x7F ∧
    ((Vdp2Screen.tile 2 1 4 0x3FF).patternAddr Env.patternWords).flipFunction = 3 ∧
    ((Vdp2Screen.tile 2 1 4 0x3FF).patternAddr Env.patternWords).specialFunction = 3 ∧
    ((Vdp2Screen.tile 2 1 4 0x3FF).patternAddr Env.patternWords).addr = 4 := by
  obtain ⟨hc, hp, hf, hs, -, ha⟩ :=
    patternAddr_twoWord Env.patternWords (Vdp2Screen.tile 2 1 4 0x3FF) (by decide)
  exact ⟨by decide, hc.trans (by decide), hp.trans (by decide), hf.trans (by decide),
    hs.trans (by decide), ha (by decide)⟩

/-- C9 (the code at the failing input): registers 0x30 = 0xC000 and
0x28 = 0x0001 make `NBG0::init` produce patternDataSize 1, auxMode 1 and
patternWH 2; for that configuration `patternAddr` assigns no character number
(its auxMode-1 switch has cases 1 and 4 only), so the `charAddr` it leaves is
the previous `charAddr` masked and scaled: previous values 0 and 1 give 0 and
32 for the same pattern word, supplement data and register 0x006. -/
theorem patternAddr_stale_charAddr :
    (NBG0.init Env.oneWordAux1Wide Vdp2Screen.zero).patternDataSize = 1 ∧
    (NBG0.init Env.oneWordAux1Wide Vdp2Screen.zero).auxMode = 1 ∧
    (NBG0.init Env.oneWordAux1Wide Vdp2Screen.zero).patternWH = 2 ∧
    (Vdp2Screen.patternAddr Env.oneWordAux1Wide
      { NBG0.init Env.oneWordAux1Wide Vdp2Screen.zero with charAddr := 0 }).charAddr = 0 ∧
    (Vdp2Screen.patternAddr Env.oneWordAux1Wide
      { NBG0.init Env.oneWordAux1Wide Vdp2Screen.zero with charAddr := 1 }).charAddr = 32 := by
  decide

/-- C10: with `c` the character number decoded by `patternAddr`, the final
`charAddr` is `(c & 0x3FFF) * 32` when bit 15 of register 0x006 is clear and
`c * 32` (as an `unsigned long`) when it is set; every number the decode
tables produce is below 0x8000, so nothing wraps for it.  Hence `charAddr` is
always a multiple of 32 and is below 0x80000 whenever bit 15 is clear. -/
theorem patternAddr_charAddr_scaled (env : Env) (s : Vdp2Screen) :
    (readWord env.reg 0x6 &&& 0x8000 = 0 →
      (s.patternAddr env).charAddr = ((s.patternName env).charAddr &&& 0x3FFF) * 32 ∧
      (s.patternAddr env).charAddr < 0x80000) ∧
    (readWord env.reg 0x6 &&& 0x8000 ≠ 0 →
      (s.patternAddr env).charAddr = ulong ((s.patternName env).charAddr * 32) ∧
      ((s.patternName env).charAddr < 0x8000000 →
        (s.patternAddr env).charAddr = (s.patternName env).charAddr * 32)) ∧
    ((s.patternDataSize = 2 ∨
        (s.patternDataSize = 1 ∧
          ((s.auxMode = 0 ∧ (s.patternWH = 1 ∨ s.patternWH = 2)) ∨
            (s.auxMode = 1 ∧ s.patternWH = 1)))) →
      (s.patternName env).charAddr < 0x8000) ∧
    32 ∣ (s.patternAddr env).charAddr := by
  have hc := Vdp2Screen.patternAddr_charAddr env s
  have hm : (s.patternName env).charAddr &&& 0x3FFF ≤ 0x3FFF := Nat.and_le_right
  refine ⟨fun h => ?_, fun h => ?_, Vdp2Screen.patternName_charAddr_lt env s, ?_⟩
  · rw [hc, if_pos h]
    exact ⟨rfl, by omega⟩
  · rw [hc, if_neg h]
    refine ⟨rfl, fun hlt => ?_⟩
    unfold ulong
    omega
  · rw [hc]
    unfold ulong
    split_ifs <;> omega

/-! ## Colour RAM writes -/

theorem Memory.getWord_setWord_of_disjoint (m : Memory) (a v b : Nat)
    (h : b + 1 < a ∨ a + 1 < b) : (m.setWord a v).getWord b = m.getWord b := by
  unfold Memory.getWord
  rw [Memory.getByte_setWord, Memory.getByte_setWord]
  rw [if_neg (by omega), if_neg (by omega), if_neg (by omega), if_neg (by omega)]

theorem Vdp2ColorRam.setWord_mode (c : Vdp2ColorRam) (addr val : Nat) :
    (c.setWord addr val).mode = c.mode := by
  unfold Vdp2ColorRam.setWord
  simp only
  split_ifs <;> rfl

theorem Vdp2ColorRam.getWord_setWord_stored (c : Vdp2ColorRam) (addr val : Nat) :
    (c.setWord addr val).getWord addr = val % 65536 := by
  unfold Vdp2ColorRam.setWord Vdp2ColorRam.getWord
  simp only
  split_ifs
  · rw [Memory.getWord_setWord_of_disjoint _ _ _ _ (by omega)]
    exact Memory.getWord_setWord_same _ _ _
  · exact Memory.getWord_setWord_same _ _ _

theorem Vdp2ColorRam.getWord_setWord_mirror (c : Vdp2ColorRam) (addr val : Nat)
    (hmode : c.mode = 0) : (c.setWord addr val).getWord (addr + 0x800) = val % 65536 := by
  unfold Vdp2ColorRam.setWord Vdp2ColorRam.getWord
  simp only [hmode, if_true]
  exact Memory.getWord_setWord_same _ _ _

theorem Vdp2ColorRam.getWord_setWord_other (c : Vdp2ColorRam) (addr val b : Nat)
    (hmode : c.mode ≠ 0) (h : b + 1 < addr ∨ addr + 1 < b) :
    (c.setWord addr val).getWord b = c.getWord b := by
  unfold Vdp2ColorRam.setWord Vdp2ColorRam.getWord
  simp only [hmode, if_false]
  exact Memory.getWord_setWord_of_disjoint _ _ _ _ h

/-! ## Colour addition -/

theorem COLOR_ADDt_eq (b : Int) : (COLOR_ADDt b : Int) = min 255 (max 0 b) := by
  unfold COLOR_ADDt
  split_ifs <;> omega

theorem COLOR_ADDt_le (b : Int) : COLOR_ADDt b ≤ 255 := by
  unfold COLOR_ADDt
  split_ifs <;> omega

theorem and_top_byte (l : Nat) : l &&& 0xFF000000 = 2 ^ 24 * ((l >>> 24) &&& 0xFF) := by
  have h1 : (0xFF000000 : Nat) = (2 ^ 8 - 1) <<< 24 := by decide
  have h2 : (0xFF : Nat) = 2 ^ 8 - 1 := by decide
  rw [h1, h2, Nat.mul_comm, ← Nat.shiftLeft_eq]
  apply Nat.eq_of_testBit_eq
  intro i
  simp only [Nat.testBit_and, Nat.testBit_shiftLeft, Nat.testBit_shiftRight,
    Nat.testBit_two_pow_sub_one]
  by_cases h : 24 ≤ i
  · simp [h, Nat.add_sub_cancel' h]
  · simp [h]

theorem COLOR_ADD_eq (l : Nat) (r g b : Int) :
    COLOR_ADD l r g b =
      COLOR_ADDb (l &&& 0xFF) r + 2 ^ 8 * COLOR_ADDb ((l >>> 8) &&& 0xFF) g +
        2 ^ 16 * COLOR_ADDb ((l >>> 16) &&& 0xFF) b + 2 ^ 24 * ((l >>> 24) &&& 0xFF) := by
  have hr : COLOR_ADDb (l &&& 0xFF) r ≤ 255 := COLOR_ADDt_le _
  have hg : COLOR_ADDb ((l >>> 8) &&& 0xFF) g ≤ 255 := COLOR_ADDt_le _
  have hb : COLOR_ADDb ((l >>> 16) &&& 0xFF) b ≤ 255 := COLOR_ADDt_le _
  unfold COLOR_ADD
  rw [and_top_byte, Nat.shiftLeft_eq, Nat.shiftLeft_eq]
  generalize COLOR_ADDb (l &&& 0xFF) r = cr at *
  generalize COLOR_ADDb ((l >>> 8) &&& 0xFF) g = cg at *
  generalize COLOR_ADDb ((l >>> 16) &&& 0xFF) b = cb at *
  generalize (l >>> 24) &&& 0xFF = t
  have e1 : cr ||| cg * 2 ^ 8 = 2 ^ 8 * cg + cr := by
    rw [Nat.or_comm, Nat.mul_comm cg]
    exact (Nat.mul_add_lt_is_or (by omega) cg).symm
  have e2 : 2 ^ 8 * cg + cr ||| cb * 2 ^ 16 = 2 ^ 16 * cb + (2 ^ 8 * cg + cr) := by
    rw [Nat.or_comm, Nat.mul_comm cb]
    exact (Nat.mul_add_lt_is_or (by omega) cb).symm
  have e3 : 2 ^ 16 * cb + (2 ^ 8 * cg + cr) ||| 2 ^ 24 * t =
      2 ^ 24 * t + (2 ^ 16 * cb + (2 ^ 8 * cg + cr)) := by
    rw [Nat.or_comm]
    exact (Nat.mul_add_lt_is_or (by omega) t).symm
  rw [e1, e2, e3]
  omega

theorem COLOR_ADDb_eq (c : Nat) (o : Int) (hc : c ≤ 255) :
    (COLOR_ADDb c o : Int) = min 255 (max 0 ((c : Int) + o)) := by
  unfold COLOR_ADDb
  rw [COLOR_ADDt_eq]
  have : toInt32 c = c := by
    unfold toInt32
    rw [Nat.mod_eq_of_lt (by omega)]
    simp
    omega
  rw [this]

theorem COLOR_ADD_bytes (l : Nat) (r g b : Int) :
    COLOR_ADD l r g b &&& 0xFF = COLOR_ADDb (l &&& 0xFF) r ∧
    (COLOR_ADD l r g b >>> 8) &&& 0xFF = COLOR_ADDb ((l >>> 8) &&& 0xFF) g ∧
    (COLOR_ADD l r g b >>> 16) &&& 0xFF = COLOR_ADDb ((l >>> 16) &&& 0xFF) b ∧
    COLOR_ADD l r g b >>> 24 = (l >>> 24) &&& 0xFF := by
  have hr : COLOR_ADDb (l &&& 0xFF) r ≤ 255 := COLOR_ADDt_le _
  have hg : COLOR_ADDb ((l >>> 8) &&& 0xFF) g ≤ 255 := COLOR_ADDt_le _
  have hb : COLOR_ADDb ((l >>> 16) &&& 0xFF) b ≤ 255 := COLOR_ADDt_le _
  have ht : (l >>> 24) &&& 0xFF ≤ 255 := Nat.and_le_right
  have hm : ∀ x : Nat, x &&& 0xFF = x % 2 ^ 8 := fun x => Nat.and_pow_two_sub_one_eq_mod x 8
  rw [COLOR_ADD_eq]
  generalize COLOR_ADDb (l &&& 0xFF) r = cr at *
  generalize COLOR_ADDb ((l >>> 8) &&& 0xFF) g = cg at *
  generalize COLOR_ADDb ((l >>> 16) &&& 0xFF) b = cb at *
  generalize (l >>> 24) &&& 0xFF = t at *
  simp only [hm, Nat.shiftRight_eq_div_pow]
  refine ⟨?_, ?_, ?_, ?_⟩ <;> omega

theorem COLOR_ADD_zero (l : Nat) (hl : l < 2 ^ 32) : COLOR_ADD l 0 0 0 = l := by
  have hz : ∀ c : Nat, c ≤ 255 → COLOR_ADDb c 0 = c := by
    intro c hc
    have := COLOR_ADDb_eq c 0 hc
    omega
  have hm : ∀ x : Nat, x &&& 0xFF = x % 2 ^ 8 := fun x => Nat.and_pow_two_sub_one_eq_mod x 8
  rw [COLOR_ADD_eq, hz _ Nat.and_le_right, hz _ Nat.and_le_right, hz _ Nat.and_le_right]
  simp only [hm, Nat.shiftRight_eq_div_pow]
  omega

/-! ## The blanking hooks -/

theorem Memory.getWord_lt (m : Memory) (a : Nat) : m.getWord a < 65536 := by
  unfold Memory.getWord Memory.getByte
  omega

theorem Vdp2.VBlankIN_mem (spr : Vdp1) (s : Vdp2) :
    (s.VBlankIN spr).mem = s.mem.setWord 0x4 (s.getWord 0x4 ||| 0x0008) :=
  Vdp2.setWord_mem _ _ _ _

theorem Vdp2.setWord_4_rest (spr : Vdp1) (s : Vdp2) (val : Nat) :
    (s.setWord spr 0x4 val).screens = s.screens ∧
    (s.setWord spr 0x4 val).cram = s.cram ∧
    (s.setWord spr 0x4 val).resolution = s.resolution := by
  simp [Vdp2.setWord]

theorem status_bits (x : Nat) (hx : x < 65536) (i : Nat) :
    ((x &&& 0xFFF7) ||| 0x0002).testBit i =
      if i = 3 then false else if i = 1 then true else x.testBit i := by
  simp only [Nat.testBit_or, Nat.testBit_and]
  by_cases hi : i < 16
  · interval_cases i <;> (generalize x.testBit _ = b; revert b; decide)
  · have hp : 2 ^ 16 ≤ 2 ^ i := Nat.pow_le_pow_right (by decide : 2 > 0) (by omega : 16 ≤ i)
    have hx' : x < 2 ^ 16 := hx
    have h1 : x.testBit i = false := Nat.testBit_lt_two_pow (Nat.lt_of_lt_of_le hx' hp)
    have h2 : Nat.testBit 0x0002 i = false :=
      Nat.testBit_lt_two_pow (Nat.lt_of_lt_of_le (by decide : 2 < 2 ^ 16) hp)
    rw [h1, h2]
    have h3 : i ≠ 3 := by omega
    have h4 : i ≠ 1 := by omega
    simp [h3, h4]

theorem or_and_status (x : Nat) : ((x ||| 0x0008) &&& 0xFFF7) ||| 0x0002 = (x &&& 0xFFF7) ||| 0x0002 := by
  apply Nat.eq_of_testBit_eq
  intro i
  simp only [Nat.testBit_or, Nat.testBit_and]
  by_cases h : i = 3
  · subst h
    generalize x.testBit 3 = b
    revert b
    decide
  · have : Nat.testBit 0x0008 i = false := by
      have h8 : (0x0008 : Nat) = 2 ^ 3 := by decide
      rw [h8, Nat.testBit_two_pow]
      simp
      omega
    simp [this]

/-! ## The comparator on the background layers -/

theorem comparePriority_neg (spr : Vdp1) (reg : Memory) (a b : ScreenId) :
    comparePriority spr reg a b = - comparePriority spr reg b a := by
  unfold comparePriority
  simp only
  split_ifs <;> omega

theorem comparePriority_bg_eq_zero_iff (spr : Vdp1) (reg : Memory) (a b : Layer) :
    comparePriority spr reg (.bg a) (.bg b) = 0 ↔ a = b := by
  constructor
  · intro h
    apply Layer.getInnerPriority_injective
    unfold comparePriority getPriority getInnerPriority at h
    simp only at h
    split_ifs at h <;> omega
  · rintro rfl
    simp [comparePriority]

theorem comparePriority_lt_trans (spr : Vdp1) (reg : Memory) (a b c : ScreenId)
    (hab : comparePriority spr reg a b < 0) (hbc : comparePriority spr reg b c < 0) :
    comparePriority spr reg a c < 0 := by
  unfold comparePriority at *
  simp only at *
  split_ifs at * <;> omega

theorem sorted_layers_unique (spr : Vdp1) (reg : Memory) (l₁ l₂ : List Layer)
    (hp : l₁.Perm l₂)
    (h₁ : l₁.Pairwise (fun a b => comparePriority spr reg (.bg a) (.bg b) ≤ 0))
    (h₂ : l₂.Pairwise (fun a b => comparePriority spr reg (.bg a) (.bg b) ≤ 0)) :
    l₁ = l₂ := by
  haveI : IsAntisymm Layer (fun a b => comparePriority spr reg (.bg a) (.bg b) ≤ 0) :=
    ⟨priorityLE_bg_antisymm spr reg⟩
  exact List.eq_of_perm_of_sorted hp h₁ h₂

/-! ## Writing the same value twice -/

theorem Memory.setWord_setWord_same (m : Memory) (a v : Nat) :
    (m.setWord a v).setWord a v = m.setWord a v := by
  unfold Memory.setWord Memory.setByte
  simp only [Memory.mk.injEq]
  funext i
  split_ifs <;> rfl

theorem qsortScreens_idem (spr : Vdp1) (reg : Memory) (l : List ScreenId) :
    qsortScreens spr reg (qsortScreens spr reg l) = qsortScreens spr reg l :=
  List.Sorted.insertionSort_eq (qsortScreens_sorted spr reg l)

theorem Vdp2.setWord_twice (spr : Vdp1) (s : Vdp2) (a v : Nat) :
    (s.setWord spr a v).setWord spr a v = s.setWord spr a v := by
  unfold Vdp2.setWord
  split <;>
    simp [Vdp2.sortScreens, Vdp2.updateRam, Vdp2.setSaturnResolution, Vdp2.getWord,
      Vdp2ColorRam.setMode, Memory.setWord_setWord_same, qsortScreens_idem]

/-! ## The colour RAM mode -/

theorem Vdp2.setWord_0E_mode (spr : Vdp1) (s : Vdp2) (v : Nat) (hv : v < 65536) :
    (s.setWord spr 0xE v).cram.mode = (v >>> 12) &&& 0x3 := by
  simp [Vdp2.setWord, Vdp2.updateRam, Vdp2ColorRam.setMode, Vdp2.getWord,
    Memory.getWord_setWord_same, Nat.mod_eq_of_lt hv]

theorem Vdp2.setWord_mode_of_ne (spr : Vdp1) (s : Vdp2) (addr val : Nat) (h : addr ≠ 0xE) :
    (s.setWord spr addr val).cram.mode = s.cram.mode := by
  unfold Vdp2.setWord
  split <;> first
    | rfl
    | contradiction

theorem Vdp2.foldl_setWord_mode (spr : Vdp1) (ws : List (Nat × Nat)) (s : Vdp2)
    (h : ∀ w ∈ ws, w.1 ≠ 0xE) :
    (ws.foldl (fun st w => st.setWord spr w.1 w.2) s).cram.mode = s.cram.mode := by
  induction ws generalizing s with
  | nil => rfl
  | cons w ws ih =>
    rw [List.foldl_cons, ih _ (fun w' hw' => h w' (List.mem_cons_of_mem _ hw'))]
    exact Vdp2.setWord_mode_of_ne spr s w.1 w.2 (h w (List.mem_cons_self _ _))

theorem Vdp2ColorRam.getColor_mode2 (cm : ColorMacros) (c : Vdp2ColorRam)
    (index alpha sel : Nat) (hmode : c.mode = 2) (hfit : 4 * index + 0x400 * sel < 4294967296) :
    c.getColor cm index alpha sel =
      cm.SAT2YAB2 alpha (readWord c.mem (4 * index + 0x400 * sel))
        (readWord c.mem (4 * index + 0x400 * sel + 2)) := by
  unfold Vdp2ColorRam.getColor
  rw [hmode]
  have h1 : ulong (index * 4) = index * 4 := Nat.mod_eq_of_lt (by omega)
  have h2 : ulong (index * 4 + sel * 0x400) = 4 * index + 0x400 * sel := by
    unfold ulong
    rw [Nat.mod_eq_of_lt (by omega)]
    omega
  simp only [h1, h2]

theorem Vdp2ColorRam.getColor_mode01 (cm : ColorMacros) (c : Vdp2ColorRam)
    (index alpha sel : Nat) (hmode : c.mode = 0 ∨ c.mode = 1)
    (hfit : 2 * index + 0x200 * sel < 4294967296) :
    c.getColor cm index alpha sel =
      cm.SAT2YAB1 alpha (readWord c.mem (2 * index + 0x200 * sel)) := by
  unfold Vdp2ColorRam.getColor
  have h1 : ulong (index * 2) = index * 2 := Nat.mod_eq_of_lt (by omega)
  have h2 : ulong (index * 2 + sel * 0x200) = 2 * index + 0x200 * sel := by
    unfold ulong
    rw [Nat.mod_eq_of_lt (by omega)]
    omega
  rcases hmode with h | h <;> rw [h] <;> simp only [h1, h2]

/-! ## The calls of `drawCell` -/

theorem and_shifted_mask (d k w : Nat) :
    d &&& ((2 ^ w - 1) <<< k) = ((d >>> k) &&& (2 ^ w - 1)) <<< k := by
  apply Nat.eq_of_testBit_eq
  intro i
  simp only [Nat.testBit_and, Nat.testBit_shiftLeft, Nat.testBit_shiftRight,
    Nat.testBit_two_pow_sub_one]
  by_cases h : k ≤ i
  · simp [h, Nat.add_sub_cancel' h]
  · simp [h]

theorem masked_eq_zero_iff (d k w : Nat) :
    d &&& ((2 ^ w - 1) <<< k) = 0 ↔ (d &&& ((2 ^ w - 1) <<< k)) >>> k = 0 := by
  rw [and_shifted_mask, Nat.shiftLeft_shiftRight, Nat.shiftLeft_eq]
  constructor
  · intro h
    rcases Nat.mul_eq_zero.mp h with h | h
    · exact h
    · exact absurd h (by positivity)
  · intro h
    rw [h, Nat.zero_mul]

theorem Vdp2Screen.pixelCalls_congr (env : Env) (s : Vdp2Screen) (m n index : Nat) (x : Int)
    (h : m = 0 ↔ n = 0) : s.pixelCalls env m index x = s.pixelCalls env n index x := by
  unfold Vdp2Screen.pixelCalls
  simp only [h]

theorem Vdp2Screen.plot_trace (s : Vdp2Screen) (color : Nat) (xInc : Int) :
    (s.plot color xInc).trace = s.trace ++
      [CellEvent.drawPixel (s.getX s.x s.y) (s.getY s.x s.y)
        (COLOR_ADD color s.cor s.cog s.cob)] := by
  unfold Vdp2Screen.plot Vdp2Screen.drawPixel
  simp only
  split_ifs <;> rfl

/-- What `plot` leaves as it was, and how it moves `x`. -/
theorem Vdp2Screen.plot_frame (s : Vdp2Screen) (color : Nat) (xInc : Int) :
    (s.plot color xInc).x = s.x + xInc ∧ (s.plot color xInc).y = s.y ∧
    (s.plot color xInc).palAddr = s.palAddr ∧ (s.plot color xInc).charAddr = s.charAddr ∧
    (s.plot color xInc).transparencyEnable = s.transparencyEnable ∧
    (s.plot color xInc).alpha = s.alpha ∧ (s.plot color xInc).colorOffset = s.colorOffset ∧
    (s.plot color xInc).cor = s.cor ∧ (s.plot color xInc).cog = s.cog ∧
    (s.plot color xInc).cob = s.cob ∧ (s.plot color xInc).getX = s.getX ∧
    (s.plot color xInc).getY = s.getY := by
  unfold Vdp2Screen.plot Vdp2Screen.drawPixel
  simp only
  split_ifs <;> simp

theorem Vdp2Screen.plotIndexed_trace (env : Env) (s : Vdp2Screen) (masked index : Nat)
    (xInc : Int) :
    (s.plotIndexed env masked index xInc).trace =
      s.trace ++ s.pixelCalls env masked index s.x := by
  unfold Vdp2Screen.plotIndexed Vdp2Screen.pixelCalls
  split_ifs
  · exact Vdp2Screen.plot_trace s 0 xInc
  · rw [Vdp2Screen.plot_trace]
    simp [Vdp2Screen.getColor]

theorem Vdp2Screen.plotIndexed_frame (env : Env) (s : Vdp2Screen) (masked index : Nat)
    (xInc : Int) :
    (s.plotIndexed env masked index xInc).x = s.x + xInc ∧
    (s.plotIndexed env masked index xInc).y = s.y ∧
    (s.plotIndexed env masked index xInc).palAddr = s.palAddr ∧
    (s.plotIndexed env masked index xInc).charAddr = s.charAddr ∧
    (s.plotIndexed env masked index xInc).transparencyEnable = s.transparencyEnable ∧
    (s.plotIndexed env masked index xInc).alpha = s.alpha ∧
    (s.plotIndexed env masked index xInc).colorOffset = s.colorOffset ∧
    (s.plotIndexed env masked index xInc).cor = s.cor ∧
    (s.plotIndexed env masked index xInc).cog = s.cog ∧
    (s.plotIndexed env masked index xInc).cob = s.cob ∧
    (s.plotIndexed env masked index xInc).getX = s.getX ∧
    (s.plotIndexed env masked index xInc).getY = s.getY := by
  unfold Vdp2Screen.plotIndexed
  split_ifs
  · exact Vdp2Screen.plot_frame s 0 xInc
  · exact Vdp2Screen.plot_frame _ _ xInc

/-- Two layer states that agree on what `pixelCalls` reads give the same
calls. -/
theorem Vdp2Screen.pixelCalls_of_frame (env : Env) (s t : Vdp2Screen) (n index : Nat) (x : Int)
    (h : t.y = s.y ∧ t.transparencyEnable = s.transparencyEnable ∧ t.alpha = s.alpha ∧
      t.colorOffset = s.colorOffset ∧ t.cor = s.cor ∧ t.cog = s.cog ∧ t.cob = s.cob ∧
      t.getX = s.getX ∧ t.getY = s.getY) :
    t.pixelCalls env n index x = s.pixelCalls env n index x := by
  obtain ⟨h1, h2, h3, h4, h5, h6, h7, h8, h9⟩ := h
  unfold Vdp2Screen.pixelCalls
  rw [h1, h2, h3, h4, h5, h6, h7, h8, h9]

theorem Vdp2Screen.plotIndexed_x (env : Env) (s : Vdp2Screen) (masked index : Nat)
    (xInc : Int) : (s.plotIndexed env masked index xInc).x = s.x + xInc :=
  (Vdp2Screen.plotIndexed_frame env s masked index xInc).1

theorem Vdp2Screen.plotIndexed_palAddr (env : Env) (s : Vdp2Screen) (masked index : Nat)
    (xInc : Int) : (s.plotIndexed env masked index xInc).palAddr = s.palAddr :=
  (Vdp2Screen.plotIndexed_frame env s masked index xInc).2.2.1

theorem Vdp2Screen.pixelCalls_plotIndexed (env : Env) (s : Vdp2Screen) (masked index : Nat)
    (xInc : Int) (n idx : Nat) (x : Int) :
    (s.plotIndexed env masked index xInc).pixelCalls env n idx x = s.pixelCalls env n idx x := by
  obtain ⟨-, h1, -, -, h2, h3, h4, h5, h6, h7, h8, h9⟩ :=
    Vdp2Screen.plotIndexed_frame env s masked index xInc
  exact Vdp2Screen.pixelCalls_of_frame env s _ n idx x ⟨h1, h2, h3, h4, h5, h6, h7, h8, h9⟩

theorem Vdp2Screen.dots4_trace (env : Env) (xInc : Int) (s : Vdp2Screen) :
    (s.dots4 env xInc).trace =
      s.trace ++
      s.pixelCalls env ((readWord env.vram s.charAddr &&& 0xF000) >>> 12)
        (ulong (s.palAddr <<< 4) ||| ((readWord env.vram s.charAddr &&& 0xF000) >>> 12))
        s.x ++
      s.pixelCalls env ((readWord env.vram s.charAddr &&& 0xF00) >>> 8)
        (ulong (s.palAddr <<< 4) ||| ((readWord env.vram s.charAddr &&& 0xF00) >>> 8))
        (s.x + xInc) ++
      s.pixelCalls env ((readWord env.vram s.charAddr &&& 0xF0) >>> 4)
        (ulong (s.palAddr <<< 4) ||| ((readWord env.vram s.charAddr &&& 0xF0) >>> 4))
        (s.x + xInc + xInc) ++
      s.pixelCalls env (readWord env.vram s.charAddr &&& 0xF)
        (ulong (s.palAddr <<< 4) ||| (readWord env.vram s.charAddr &&& 0xF))
        (s.x + xInc + xInc + xInc) := by
  have e3 := masked_eq_zero_iff (readWord env.vram s.charAddr) 12 4
  have e2 := masked_eq_zero_iff (readWord env.vram s.charAddr) 8 4
  have e1 := masked_eq_zero_iff (readWord env.vram s.charAddr) 4 4
  have c3 : (2 ^ 4 - 1) <<< 12 = 0xF000 := by decide
  have c2 : (2 ^ 4 - 1) <<< 8 = 0xF00 := by decide
  have c1 : (2 ^ 4 - 1) <<< 4 = 0xF0 := by decide
  rw [c3] at e3
  rw [c2] at e2
  rw [c1] at e1
  unfold Vdp2Screen.dots4
  simp only [Vdp2Screen.plotIndexed_trace, Vdp2Screen.plotIndexed_x,
    Vdp2Screen.plotIndexed_palAddr, Vdp2Screen.pixelCalls_plotIndexed]
  rw [Vdp2Screen.pixelCalls_congr env _ _ _ _ _ e3, Vdp2Screen.pixelCalls_congr env _ _ _ _ _ e2,
    Vdp2Screen.pixelCalls_congr env _ _ _ _ _ e1]
  rfl

theorem Vdp2Screen.dots8_trace (env : Env) (xInc : Int) (s : Vdp2Screen) :
    (s.dots8 env xInc).trace =
      s.trace ++
      s.pixelCalls env ((readWord env.vram s.charAddr &&& 0xFF00) >>> 8)
        (ulong (s.palAddr <<< 4) ||| ((readWord env.vram s.charAddr &&& 0xFF00) >>> 8))
        s.x ++
      s.pixelCalls env (readWord env.vram s.charAddr &&& 0xFF)
        (ulong (s.palAddr <<< 4) ||| (readWord env.vram s.charAddr &&& 0xFF))
        (s.x + xInc) := by
  have e1 := masked_eq_zero_iff (readWord env.vram s.charAddr) 8 8
  have c1 : (2 ^ 8 - 1) <<< 8 = 0xFF00 := by decide
  rw [c1] at e1
  unfold Vdp2Screen.dots8
  simp only [Vdp2Screen.plotIndexed_trace, Vdp2Screen.plotIndexed_x,
    Vdp2Screen.plotIndexed_palAddr, Vdp2Screen.pixelCalls_plotIndexed]
  rw [Vdp2Screen.pixelCalls_congr env _ _ _ _ _ e1]
  rfl

theorem Vdp2Screen.dot11_trace (env : Env) (xInc : Int) (s : Vdp2Screen) :
    (s.dot11 env xInc).trace =
      s.trace ++
      s.pixelCalls env (readWord env.vram s.charAddr) (readWord env.vram s.charAddr) s.x := by
  unfold Vdp2Screen.dot11 Vdp2Screen.pixelCalls
  split_ifs with h
  · simp [h, Vdp2Screen.plot_trace]
  · simp [h, Vdp2Screen.plot_trace, Vdp2Screen.getColor]

theorem Vdp2Screen.dot16_trace (env : Env) (xInc : Int) (s : Vdp2Screen) :
    (s.dot16 env xInc).trace =
      s.trace ++
      [CellEvent.drawPixel (s.getX s.x s.y) (s.getY s.x s.y)
        (COLOR_ADD
          (if readWord env.vram s.charAddr &&& 0x8000 = 0 ∧ s.transparencyEnable = true then 0
           else env.cm.SAT2YAB1 0xFF (readWord env.vram s.charAddr))
          s.cor s.cog s.cob)] := by
  unfold Vdp2Screen.dot16
  simp only [Vdp2Screen.plot_trace]

theorem Vdp2Screen.dot32_trace (env : Env) (xInc : Int) (s : Vdp2Screen) :
    (s.dot32 env xInc).trace =
      s.trace ++
      [CellEvent.drawPixel (s.getX s.x s.y) (s.getY s.x s.y)
        (COLOR_ADD
          (if readWord env.vram s.charAddr &&& 0x8000 = 0 ∧ s.transparencyEnable = true then 0
           else env.cm.SAT2YAB2 s.alpha (readWord env.vram s.charAddr)
             (readWord env.vram (ulong (s.charAddr + 2))))
          s.cor s.cog s.cob)] := by
  unfold Vdp2Screen.dot32
  simp only [Vdp2Screen.plot_trace]

theorem Vdp2Screen.pixelCalls_zero (env : Env) (s : Vdp2Screen) (index : Nat) (x : Int)
    (hte : s.transparencyEnable = true) :
    s.pixelCalls env 0 index x =
      [CellEvent.drawPixel (s.getX x s.y) (s.getY x s.y) (COLOR_ADD 0 s.cor s.cog s.cob)] := by
  simp [Vdp2Screen.pixelCalls, hte]

theorem Vdp2Screen.pixelCalls_lookup (env : Env) (s : Vdp2Screen) (n index : Nat) (x : Int)
    (h : n ≠ 0 ∨ s.transparencyEnable = false) :
    s.pixelCalls env n index x =
      [CellEvent.getColor index s.alpha s.colorOffset,
        CellEvent.drawPixel (s.getX x s.y) (s.getY x s.y)
          (COLOR_ADD (env.cram.getColor env.cm index s.alpha s.colorOffset)
            s.cor s.cog s.cob)] := by
  unfold Vdp2Screen.pixelCalls
  rw [if_neg]
  rcases h with h | h
  · exact fun hc => h hc.1
  · rw [h]
    exact fun hc => Bool.false_ne_true hc.2

theorem COLOR_ADD_zero_alpha (r g b : Int) : COLOR_ADD 0 r g b >>> 24 = 0 := by
  rw [(COLOR_ADD_bytes 0 r g b).2.2.2]
  rfl

/-! ## Re-derivation of the configuration by `init` -/

theorem initColorOffset_fields (reg : Memory) (mask : Nat) (s : Vdp2Screen) :
    (initColorOffset reg mask s).cor =
        (if readWord reg 0x110 &&& mask ≠ 0 then
          (if readWord reg 0x112 &&& mask ≠ 0 then colorOffsetValue (readWord reg 0x11A)
            else colorOffsetValue (readWord reg 0x114))
         else 0) ∧
    (initColorOffset reg mask s).cog =
        (if readWord reg 0x110 &&& mask ≠ 0 then
          (if readWord reg 0x112 &&& mask ≠ 0 then colorOffsetValue (readWord reg 0x11C)
            else colorOffsetValue (readWord reg 0x116))
         else 0) ∧
    (initColorOffset reg mask s).cob =
        (if readWord reg 0x110 &&& mask ≠ 0 then
          (if readWord reg 0x112 &&& mask ≠ 0 then colorOffsetValue (readWord reg 0x11E)
            else colorOffsetValue (readWord reg 0x118))
         else 0) := by
  unfold initColorOffset
  split_ifs <;> simp

theorem initColorOffset_rest (reg : Memory) (mask : Nat) (s : Vdp2Screen) :
    (initColorOffset reg mask s).enable = s.enable ∧
    (initColorOffset reg mask s).bitmap = s.bitmap ∧
    (initColorOffset reg mask s).colorNumber = s.colorNumber ∧
    (initColorOffset reg mask s).x = s.x ∧
    (initColorOffset reg mask s).y = s.y ∧
    (initColorOffset reg mask s).transparencyEnable = s.transparencyEnable ∧
    (initColorOffset reg mask s).colorOffset = s.colorOffset ∧
    (initColorOffset reg mask s).alpha = s.alpha ∧
    (initColorOffset reg mask s).mapWH = s.mapWH ∧
    (initColorOffset reg mask s).patternDataSize = s.patternDataSize ∧
    (initColorOffset reg mask s).patternWH = s.patternWH ∧
    (initColorOffset reg mask s).pageWH = s.pageWH ∧
    (initColorOffset reg mask s).cellW = s.cellW ∧
    (initColorOffset reg mask s).cellH = s.cellH ∧
    (initColorOffset reg mask s).supplementData = s.supplementData ∧
    (initColorOffset reg mask s).auxMode = s.auxMode ∧
    (initColorOffset reg mask s).planeW = s.planeW ∧
    (initColorOffset reg mask s).planeH = s.planeH := by
  unfold initColorOffset
  split_ifs <;> simp

theorem initPlaneSize_rest (n : Nat) (s : Vdp2Screen) :
    (initPlaneSize n s).enable = s.enable ∧
    (initPlaneSize n s).bitmap = s.bitmap ∧
    (initPlaneSize n s).colorNumber = s.colorNumber ∧
    (initPlaneSize n s).x = s.x ∧
    (initPlaneSize n s).y = s.y ∧
    (initPlaneSize n s).transparencyEnable = s.transparencyEnable ∧
    (initPlaneSize n s).colorOffset = s.colorOffset ∧
    (initPlaneSize n s).cor = s.cor ∧
    (initPlaneSize n s).cog = s.cog ∧
    (initPlaneSize n s).cob = s.cob ∧
    (initPlaneSize n s).alpha = s.alpha ∧
    (initPlaneSize n s).mapWH = s.mapWH ∧
    (initPlaneSize n s).patternDataSize = s.patternDataSize ∧
    (initPlaneSize n s).patternWH = s.patternWH ∧
    (initPlaneSize n s).pageWH = s.pageWH ∧
    (initPlaneSize n s).cellW = s.cellW ∧
    (initPlaneSize n s).cellH = s.cellH ∧
    (initPlaneSize n s).supplementData = s.supplementData ∧
    (initPlaneSize n s).auxMode = s.auxMode := by
  unfold initPlaneSize
  split <;> simp

theorem initBitmapSize4_rest (n : Nat) (s : Vdp2Screen) :
    (initBitmapSize4 n s).enable = s.enable ∧
    (initBitmapSize4 n s).bitmap = s.bitmap ∧
    (initBitmapSize4 n s).colorNumber = s.colorNumber ∧
    (initBitmapSize4 n s).x = s.x ∧
    (initBitmapSize4 n s).y = s.y ∧
    (initBitmapSize4 n s).transparencyEnable = s.transparencyEnable ∧
    (initBitmapSize4 n s).colorOffset = s.colorOffset ∧
    (initBitmapSize4 n s).cor = s.cor ∧
    (initBitmapSize4 n s).cog = s.cog ∧
    (initBitmapSize4 n s).cob = s.cob ∧
    (initBitmapSize4 n s).alpha = s.alpha ∧
    (initBitmapSize4 n s).mapWH = s.mapWH ∧
    (initBitmapSize4 n s).patternDataSize = s.patternDataSize ∧
    (initBitmapSize4 n s).patternWH = s.patternWH ∧
    (initBitmapSize4 n s).pageWH = s.pageWH ∧
    (initBitmapSize4 n s).supplementData = s.supplementData ∧
    (initBitmapSize4 n s).auxMode = s.auxMode ∧
    (initBitmapSize4 n s).planeW = s.planeW ∧
    (initBitmapSize4 n s).planeH = s.planeH := by
  unfold initBitmapSize4
  split <;> simp

theorem initBitmapSize2_rest (n : Nat) (s : Vdp2Screen) :
    (initBitmapSize2 n s).enable = s.enable ∧
    (initBitmapSize2 n s).bitmap = s.bitmap ∧
    (initBitmapSize2 n s).colorNumber = s.colorNumber ∧
    (initBitmapSize2 n s).x = s.x ∧
    (initBitmapSize2 n s).y = s.y ∧
    (initBitmapSize2 n s).transparencyEnable = s.transparencyEnable ∧
    (initBitmapSize2 n s).colorOffset = s.colorOffset ∧
    (initBitmapSize2 n s).cor = s.cor ∧
    (initBitmapSize2 n s).cog = s.cog ∧
    (initBitmapSize2 n s).cob = s.cob ∧
    (initBitmapSize2 n s).alpha = s.alpha ∧
    (initBitmapSize2 n s).mapWH = s.mapWH ∧
    (initBitmapSize2 n s).patternDataSize = s.patternDataSize ∧
    (initBitmapSize2 n s).patternWH = s.patternWH ∧
    (initBitmapSize2 n s).pageWH = s.pageWH ∧
    (initBitmapSize2 n s).supplementData = s.supplementData ∧
    (initBitmapSize2 n s).auxMode = s.auxMode ∧
    (initBitmapSize2 n s).planeW = s.planeW ∧
    (initBitmapSize2 n s).planeH = s.planeH := by
  unfold initBitmapSize2
  split <;> simp

theorem initPattern_rest (p : Nat) (wh : Bool) (s : Vdp2Screen) :
    (initPattern p wh s).enable = s.enable ∧
    (initPattern p wh s).bitmap = s.bitmap ∧
    (initPattern p wh s).colorNumber = s.colorNumber ∧
    (initPattern p wh s).x = s.x ∧
    (initPattern p wh s).y = s.y ∧
    (initPattern p wh s).transparencyEnable = s.transparencyEnable ∧
    (initPattern p wh s).colorOffset = s.colorOffset ∧
    (initPattern p wh s).cor = s.cor ∧
    (initPattern p wh s).cog = s.cog ∧
    (initPattern p wh s).cob = s.cob ∧
    (initPattern p wh s).alpha = s.alpha ∧
    (initPattern p wh s).mapWH = s.mapWH ∧
    (initPattern p wh s).planeW = s.planeW ∧
    (initPattern p wh s).planeH = s.planeH := by
  simp [initPattern]

theorem initPattern_fields (p : Nat) (wh : Bool) (s : Vdp2Screen) :
    (initPattern p wh s).patternDataSize = (if p &&& 0x8000 ≠ 0 then 1 else 2) ∧
    (initPattern p wh s).patternWH = (if wh then 2 else 1) ∧
    (initPattern p wh s).pageWH = 64 / (if wh then 2 else 1) ∧
    (initPattern p wh s).cellW = 8 ∧
    (initPattern p wh s).cellH = 8 ∧
    (initPattern p wh s).supplementData = p &&& 0x3FF ∧
    (initPattern p wh s).auxMode = (p &&& 0x4000) >>> 14 := by
  simp [initPattern]

theorem initPlaneSize_fields (n : Nat) (s : Vdp2Screen) (h : n < 3) :
    (initPlaneSize n s).planeW = (if n = 0 then 1 else 2) ∧
    (initPlaneSize n s).planeH = (if n = 2 then 2 else 1) := by
  unfold initPlaneSize
  interval_cases n <;> simp

theorem Layer.planeSizeField_lt (reg : Memory) (l : Layer) : l.planeSizeField reg < 4 := by
  cases l <;> unfold Layer.planeSizeField <;> dsimp only
  · exact Nat.lt_succ_of_le Nat.and_le_right
  · have := @Nat.and_le_right (readWord reg 0x3A) 0xC
    rw [Nat.shiftRight_eq_div_pow]; omega
  · have := @Nat.and_le_right (readWord reg 0x3A) 0x30
    rw [Nat.shiftRight_eq_div_pow]; omega
  · have := @Nat.and_le_right (readWord reg 0x3A) 0xC0
    rw [Nat.shiftRight_eq_div_pow]; omega
  · have h1 := @Nat.and_le_right (readWord reg 0x3A) 0x300
    have h2 := @Nat.and_le_right (readWord reg 0x3A) 0x3000
    split
    · rw [Nat.shiftRight_eq_div_pow]; omega
    · rw [Nat.shiftRight_eq_div_pow]; omega
    · omega

theorem NBG0_init_commonConfig (env : Env) (s₁ s₂ : Vdp2Screen) :
    (NBG0.init env s₁).commonConfig = (NBG0.init env s₂).commonConfig := by
  unfold NBG0.init
  dsimp only
  split_ifs <;>
    simp [Vdp2Screen.commonConfig, initColorOffset_fields, initColorOffset_rest,
      initPlaneSize_rest, initPattern_rest, initBitmapSize4_rest]

theorem NBG0_init_patternConfig (env : Env) (s₁ s₂ : Vdp2Screen)
    (h : (NBG0.init env s₁).bitmap = false) :
    (NBG0.init env s₁).patternConfig = (NBG0.init env s₂).patternConfig := by
  unfold NBG0.init at h ⊢
  dsimp only at h ⊢
  split_ifs at h ⊢ <;>
    simp_all [Vdp2Screen.patternConfig, initColorOffset_rest,
      initPlaneSize_rest, initPattern_rest, initPattern_fields, initBitmapSize4_rest]

theorem NBG0_init_planeConfig (env : Env) (s₁ s₂ : Vdp2Screen)
    (h : (NBG0.init env s₁).bitmap = false) (h3 : Layer.planeSizeField env.reg .NBG0 ≠ 3) :
    (NBG0.init env s₁).planeConfig = (NBG0.init env s₂).planeConfig := by
  have h4 := Layer.planeSizeField_lt env.reg .NBG0
  have hlt : Layer.planeSizeField env.reg .NBG0 < 3 := by omega
  unfold Layer.planeSizeField at hlt
  dsimp only at hlt
  unfold NBG0.init at h ⊢
  dsimp only at h ⊢
  split_ifs at h ⊢ <;>
    simp_all [Vdp2Screen.planeConfig, initColorOffset_rest,
      initPlaneSize_fields _ _ hlt, initPattern_rest, initBitmapSize4_rest]

theorem NBG1_init_commonConfig (env : Env) (s₁ s₂ : Vdp2Screen) :
    (NBG1.init env s₁).commonConfig = (NBG1.init env s₂).commonConfig := by
  unfold NBG1.init
  dsimp only
  split_ifs <;>
    simp [Vdp2Screen.commonConfig, initColorOffset_fields, initColorOffset_rest,
      initPlaneSize_rest, initPattern_rest, initBitmapSize4_rest]

theorem NBG1_init_patternConfig (env : Env) (s₁ s₂ : Vdp2Screen)
    (h : (NBG1.init env s₁).bitmap = false) :
    (NBG1.init env s₁).patternConfig = (NBG1.init env s₂).patternConfig := by
  unfold NBG1.init at h ⊢
  dsimp only at h ⊢
  split_ifs at h ⊢ <;>
    simp_all [Vdp2Screen.patternConfig, initColorOffset_rest,
      initPlaneSize_rest, initPattern_rest, initPattern_fields, initBitmapSize4_rest]

theorem NBG1_init_planeConfig (env : Env) (s₁ s₂ : Vdp2Screen)
    (h : (NBG1.init env s₁).bitmap = false) (h3 : Layer.planeSizeField env.reg .NBG1 ≠ 3) :
    (NBG1.init env s₁).planeConfig = (NBG1.init env s₂).planeConfig := by
  have h4 := Layer.planeSizeField_lt env.reg .NBG1
  have hlt : Layer.planeSizeField env.reg .NBG1 < 3 := by omega
  unfold Layer.planeSizeField at hlt
  dsimp only at hlt
  unfold NBG1.init at h ⊢
  dsimp only at h ⊢
  split_ifs at h ⊢ <;>
    simp_all [Vdp2Screen.planeConfig, initColorOffset_rest,
      initPlaneSize_fields _ _ hlt, initPattern_rest, initBitmapSize4_rest]

theorem NBG2_init_commonConfig (env : Env) (s₁ s₂ : Vdp2Screen) :
    (NBG2.init env s₁).commonConfig = (NBG2.init env s₂).commonConfig := by
  unfold NBG2.init
  dsimp only
  split_ifs <;>
    simp [Vdp2Screen.commonConfig, initColorOffset_fields, initColorOffset_rest,
      initPlaneSize_rest, initPattern_rest]

theorem NBG2_init_patternConfig (env : Env) (s₁ s₂ : Vdp2Screen) :
    (NBG2.init env s₁).patternConfig = (NBG2.init env s₂).patternConfig := by
  unfold NBG2.init
  dsimp only
  split_ifs <;>
    simp [Vdp2Screen.patternConfig, initColorOffset_rest,
      initPlaneSize_rest, initPattern_rest, initPattern_fields]

theorem NBG2_init_planeConfig (env : Env) (s₁ s₂ : Vdp2Screen)
    (h3 : Layer.planeSizeField env.reg .NBG2 ≠ 3) :
    (NBG2.init env s₁).planeConfig = (NBG2.init env s₂).planeConfig := by
  have h4 := Layer.planeSizeField_lt env.reg .NBG2
  have hlt : Layer.planeSizeField env.reg .NBG2 < 3 := by omega
  unfold Layer.planeSizeField at hlt
  dsimp only at hlt
  unfold NBG2.init
  dsimp only
  split_ifs <;>
    simp [Vdp2Screen.planeConfig, initColorOffset_rest,
      initPlaneSize_fields _ _ hlt, initPattern_rest]

theorem NBG3_init_commonConfig (env : Env) (s₁ s₂ : Vdp2Screen) :
    (NBG3.init env s₁).commonConfig = (NBG3.init env s₂).commonConfig := by
  unfold NBG3.init
  dsimp only
  split_ifs <;>
    simp [Vdp2Screen.commonConfig, initColorOffset_fields, initColorOffset_rest,
      initPlaneSize_rest, initPattern_rest]

theorem NBG3_init_patternConfig (env : Env) (s₁ s₂ : Vdp2Screen) :
    (NBG3.init env s₁).patternConfig = (NBG3.init env s₂).patternConfig := by
  unfold NBG3.init
  dsimp only
  split_ifs <;>
    simp [Vdp2Screen.patternConfig, initColorOffset_rest,
      initPlaneSize_rest, initPattern_rest, initPattern_fields]

theorem NBG3_init_planeConfig (env : Env) (s₁ s₂ : Vdp2Screen)
    (h3 : Layer.planeSizeField env.reg .NBG3 ≠ 3) :
    (NBG3.init env s₁).planeConfig = (NBG3.init env s₂).planeConfig := by
  have h4 := Layer.planeSizeField_lt env.reg .NBG3
  have hlt : Layer.planeSizeField env.reg .NBG3 < 3 := by omega
  unfold Layer.planeSizeField at hlt
  dsimp only at hlt
  unfold NBG3.init
  dsimp only
  split_ifs <;>
    simp [Vdp2Screen.planeConfig, initColorOffset_rest,
      initPlaneSize_fields _ _ hlt, initPattern_rest]

theorem RBG0_init_commonConfig (env : Env) (s₁ s₂ : Vdp2Screen) :
    (RBG0.init env s₁).commonConfig = (RBG0.init env s₂).commonConfig := by
  unfold RBG0.init
  dsimp only
  split_ifs <;>
    simp [Vdp2Screen.commonConfig, initColorOffset_fields, initColorOffset_rest,
      initPlaneSize_rest, initPattern_rest, initBitmapSize2_rest]

theorem RBG0_init_patternConfig (env : Env) (s₁ s₂ : Vdp2Screen)
    (h : (RBG0.init env s₁).bitmap = false) :
    (RBG0.init env s₁).patternConfig = (RBG0.init env s₂).patternConfig := by
  unfold RBG0.init at h ⊢
  dsimp only at h ⊢
  split_ifs at h ⊢ <;>
    simp_all [Vdp2Screen.patternConfig, initColorOffset_rest,
      initPlaneSize_rest, initPattern_rest, initPattern_fields, initBitmapSize2_rest]

theorem RBG0_init_planeConfig (env : Env) (s₁ s₂ : Vdp2Screen)
    (h : (RBG0.init env s₁).bitmap = false) (h3 : Layer.planeSizeField env.reg .RBG0 ≠ 3) :
    (RBG0.init env s₁).planeConfig = (RBG0.init env s₂).planeConfig := by
  have h4 := Layer.planeSizeField_lt env.reg .RBG0
  have hlt : Layer.planeSizeField env.reg .RBG0 < 3 := by omega
  unfold Layer.planeSizeField at hlt
  dsimp only at hlt
  unfold RBG0.init at h ⊢
  dsimp only at h ⊢
  split_ifs at h ⊢ <;>
    simp_all [Vdp2Screen.planeConfig, initColorOffset_rest,
      initPlaneSize_fields _ _ hlt, initPattern_rest, initBitmapSize2_rest]

theorem Layer.init_commonConfig (l : Layer) (env : Env) (s₁ s₂ : Vdp2Screen) :
    (l.init env s₁).commonConfig = (l.init env s₂).commonConfig := by
  cases l
  · exact NBG0_init_commonConfig env s₁ s₂
  · exact NBG1_init_commonConfig env s₁ s₂
  · exact NBG2_init_commonConfig env s₁ s₂
  · exact NBG3_init_commonConfig env s₁ s₂
  · exact RBG0_init_commonConfig env s₁ s₂

theorem Layer.init_patternConfig (l : Layer) (env : Env) (s₁ s₂ : Vdp2Screen)
    (h : (l.init env s₁).bitmap = false) :
    (l.init env s₁).patternConfig = (l.init env s₂).patternConfig := by
  cases l
  · exact NBG0_init_patternConfig env s₁ s₂ h
  · exact NBG1_init_patternConfig env s₁ s₂ h
  · exact NBG2_init_patternConfig env s₁ s₂
  · exact NBG3_init_patternConfig env s₁ s₂
  · exact RBG0_init_patternConfig env s₁ s₂ h

theorem Layer.init_planeConfig (l : Layer) (env : Env) (s₁ s₂ : Vdp2Screen)
    (h : (l.init env s₁).bitmap = false) (h3 : l.planeSizeField env.reg ≠ 3) :
    (l.init env s₁).planeConfig = (l.init env s₂).planeConfig := by
  cases l
  · exact NBG0_init_planeConfig env s₁ s₂ h h3
  · exact NBG1_init_planeConfig env s₁ s₂ h h3
  · exact NBG2_init_planeConfig env s₁ s₂ h3
  · exact NBG3_init_planeConfig env s₁ s₂ h3
  · exact RBG0_init_planeConfig env s₁ s₂ h h3

/-! ## The rotation transform -/

theorem floatToInt_intCast (z : Int) : floatToInt (z : ℚ) = z := by
  unfold floatToInt
  split_ifs <;> simp

/-- With `A = D`, `B = E`, `C = F` and `kx = ky` the two coordinate functions
compute the same value. -/
theorem RBG0_getX_eq_getY (p : RotationParams) (Hcnt Vcnt : Int)
    (hA : p.A = p.D) (hB : p.B = p.E) (hC : p.C = p.F) (hk : p.kx = p.ky) :
    RBG0_getX p Hcnt Vcnt = RBG0_getY p Hcnt Vcnt := by
  unfold RBG0_getX RBG0_getY
  simp only [hA, hB, hC, hk]

theorem RBG0_identity (p : RotationParams) (Hcnt Vcnt : Int)
    (hA : p.A = 1) (hB : p.B = 0) (hC : p.C = 0) (hD : p.D = 0) (hE : p.E = 1) (hF : p.F = 0)
    (hkx : p.kx = 1) (hky : p.ky = 1)
    (hdX : p.deltaX = 1) (hdY : p.deltaY = 0) (hdXst : p.deltaXst = 0) (hdYst : p.deltaYst = 1)
    (hXst : p.Xst = 0) (hYst : p.Yst = 0)
    (hPx : p.Px = 0) (hPy : p.Py = 0) (hCx : p.Cx = 0) (hCy : p.Cy = 0) :
    RBG0_getX p Hcnt Vcnt = Hcnt ∧ RBG0_getY p Hcnt Vcnt = Vcnt := by
  unfold RBG0_getX RBG0_getY
  simp only [hA, hB, hC, hD, hE, hF, hkx, hky, hdX, hdY, hdXst, hdYst, hXst, hYst, hPx, hPy,
    hCx, hCy]
  constructor <;> simp [floatToInt_intCast]

/-! ## Accesses and the colour RAM mode -/

theorem Vdp2.access_mode (spr : Vdp1) (s : Vdp2) (a : Access) (h : ∀ val, a ≠ .reg 0xE val) :
    (s.access spr a).cram.mode = s.cram.mode := by
  cases a with
  | reg addr val =>
    exact Vdp2.setWord_mode_of_ne spr s addr val (fun he => h val (by rw [he]))
  | cram addr val => exact Vdp2ColorRam.setWord_mode s.cram addr val

theorem Vdp2.accesses_mode (spr : Vdp1) (ops : List Access) (s : Vdp2)
    (h : ∀ a ∈ ops, ∀ val, a ≠ .reg 0xE val) :
    (s.accesses spr ops).cram.mode = s.cram.mode := by
  unfold Vdp2.accesses
  induction ops generalizing s with
  | nil => rfl
  | cons a ops ih =>
    rw [List.foldl_cons, ih _ (fun a' ha' => h a' (List.mem_cons_of_mem _ ha'))]
    exact Vdp2.access_mode spr s a (h a (List.mem_cons_self _ _))

/-! ## Uniqueness of the sorted order of all six screens -/

theorem sorted_screens_unique (spr : Vdp1) (reg : Memory) (l₁ l₂ : List ScreenId)
    (hinner : ∀ l : Layer, spr.getInnerPriority ≠ l.getInnerPriority)
    (hp : l₁.Perm l₂) (h₁ : l₁.Sorted (priorityLE spr reg)) (h₂ : l₂.Sorted (priorityLE spr reg)) :
    l₁ = l₂ := by
  haveI : IsAntisymm ScreenId (priorityLE spr reg) := by
    constructor
    intro a b hab hba
    unfold priorityLE comparePriority at hab hba
    simp only at hab hba
    cases a with
    | bg a =>
      cases b with
      | bg b =>
        congr 1
        apply Layer.getInnerPriority_injective
        unfold getPriority getInnerPriority at hab hba
        simp only at hab hba
        split_ifs at hab hba <;> omega
      | vdp1 =>
        exfalso
        apply hinner a
        unfold getPriority getInnerPriority at hab hba
        simp only at hab hba
        split_ifs at hab hba <;> omega
    | vdp1 =>
      cases b with
      | bg b =>
        exfalso
        apply hinner b
        unfold getPriority getInnerPriority at hab hba
        simp only at hab hba
        split_ifs at hab hba <;> omega
      | vdp1 => rfl
  exact List.eq_of_perm_of_sorted hp h₁ h₂

theorem top_byte_of_lt (l : Nat) (hl : l < 2 ^ 32) : (l >>> 24) &&& 0xFF = l >>> 24 := by
  have hm : ∀ x : Nat, x &&& 0xFF = x % 2 ^ 8 := fun x => Nat.and_pow_two_sub_one_eq_mod x 8
  rw [hm, Nat.shiftRight_eq_div_pow]
  omega

theorem Vdp2Screen.drawCell_depth (env : Env) (s : Vdp2Screen) :
    (s.colorNumber = 0 → s.drawCell env =
      s.cellRows 4 (if s.flipFunction &&& 0x2 ≠ 0 then -1 else 1)
        (Vdp2Screen.dots4 env (if s.flipFunction &&& 0x1 ≠ 0 then -1 else 1))) ∧
    (s.colorNumber = 1 → s.drawCell env =
      s.cellRows 2 (if s.flipFunction &&& 0x2 ≠ 0 then -1 else 1)
        (Vdp2Screen.dots8 env (if s.flipFunction &&& 0x1 ≠ 0 then -1 else 1))) ∧
    (s.colorNumber = 2 → s.drawCell env =
      s.cellRows 1 (if s.flipFunction &&& 0x2 ≠ 0 then -1 else 1)
        (Vdp2Screen.dot11 env (if s.flipFunction &&& 0x1 ≠ 0 then -1 else 1))) ∧
    (s.colorNumber = 3 → s.drawCell env =
      s.cellRows 1 (if s.flipFunction &&& 0x2 ≠ 0 then -1 else 1)
        (Vdp2Screen.dot16 env (if s.flipFunction &&& 0x1 ≠ 0 then -1 else 1))) ∧
    (s.colorNumber = 4 → s.drawCell env =
      s.cellRows 1 (if s.flipFunction &&& 0x2 ≠ 0 then -1 else 1)
        (Vdp2Screen.dot32 env (if s.flipFunction &&& 0x1 ≠ 0 then -1 else 1))) := by
  unfold Vdp2Screen.drawCell
  refine ⟨?_, ?_, ?_, ?_, ?_⟩ <;> intro h <;> simp only [h]

/-! ## The claims on colour RAM, cells, the hooks, the order and `init` -/

/-- C11: after `Vdp2::setWord(0x00E, v)`, and after any later colour-RAM
writes and register writes to offsets other than 0x00E,
`getColor(index, alpha, sel)` expands the two words at colour-RAM byte
addresses `4*index + 0x400*sel` and `4*index + 0x400*sel + 2` when bits 12-13
of `v` are 2, and the one word at `2*index + 0x200*sel` when they are 0 or
1. -/
theorem getColor_stride (spr : Vdp1) (s : Vdp2) (v : Nat) (hv : v < 65536)
    (ops : List Access) (hops : ∀ a ∈ ops, ∀ val, a ≠ Access.reg 0xE val)
    (cm : ColorMacros) (index alpha sel : Nat)
    (hfit : 4 * index + 0x400 * sel < 4294967296) :
    ((v >>> 12) &&& 0x3 = 2 →
      ((s.setWord spr 0xE v).accesses spr ops).cram.getColor cm index alpha sel =
        cm.SAT2YAB2 alpha
          (readWord ((s.setWord spr 0xE v).accesses spr ops).cram.mem
            (4 * index + 0x400 * sel))
          (readWord ((s.setWord spr 0xE v).accesses spr ops).cram.mem
            (4 * index + 0x400 * sel + 2))) ∧
    ((v >>> 12) &&& 0x3 = 0 ∨ (v >>> 12) &&& 0x3 = 1 →
      ((s.setWord spr 0xE v).accesses spr ops).cram.getColor cm index alpha sel =
        cm.SAT2YAB1 alpha
          (readWord ((s.setWord spr 0xE v).accesses spr ops).cram.mem
            (2 * index + 0x200 * sel))) := by
  have hm : ((s.setWord spr 0xE v).accesses spr ops).cram.mode = (v >>> 12) &&& 0x3 := by
    rw [Vdp2.accesses_mode spr ops _ hops, Vdp2.setWord_0E_mode spr s v hv]
  refine ⟨fun h => ?_, fun h => ?_⟩
  · exact Vdp2ColorRam.getColor_mode2 cm _ index alpha sel (hm.trans h) hfit
  · refine Vdp2ColorRam.getColor_mode01 cm _ index alpha sel ?_ (by omega)
    rcases h with h | h
    · exact Or.inl (hm.trans h)
    · exact Or.inr (hm.trans h)

theorem getColor_stride_witness :
    (0x2000 : Nat) < 65536 ∧ ((0x2000 : Nat) >>> 12) &&& 0x3 = 2 ∧
    ((Vdp2.fresh.setWord Vdp1.zero 0xE 0x2000).accesses Vdp1.zero
        [Access.reg 0xF8 0x0505, Access.cram 0x14 0x7FFF, Access.cram 0x16 0x1234]).cram.getColor
      ⟨fun _ w => w, fun _ w1 w2 => w1 * 65536 + w2⟩ 5 0 0 = 0x7FFF1234 :=
  ⟨by decide, by decide,
    ((getColor_stride Vdp1.zero Vdp2.fresh 0x2000 (by decide)
      [Access.reg 0xF8 0x0505, Access.cram 0x14 0x7FFF, Access.cram 0x16 0x1234] (by simp)
      ⟨fun _ w => w, fun _ w1 w2 => w1 * 65536 + w2⟩ 5 0 0 (by decide)).1 (by decide)).trans
      (by decide)⟩

/-- C12: `Vdp2ColorRam::setWord(addr, val)` stores `val` at `addr` in every
mode; in mode 0 it also stores `val` at `addr + 0x800`; in modes 1, 2 and 3
the word at `addr + 0x800` and every word that does not overlap the one at
`addr` are left as they were.  The mode is never changed. -/
theorem cram_setWord_mirror (c : Vdp2ColorRam) (addr val : Nat) (hval : val < 65536) :
    (c.setWord addr val).getWord addr = val ∧
    (c.mode = 0 → (c.setWord addr val).getWord (addr + 0x800) = val) ∧
    (c.mode ≠ 0 →
      (c.setWord addr val).getWord (addr + 0x800) = c.getWord (addr + 0x800) ∧
      ∀ b, b + 1 < addr ∨ addr + 1 < b → (c.setWord addr val).getWord b = c.getWord b) ∧
    (c.setWord addr val).mode = c.mode := by
  refine ⟨?_, fun h => ?_, fun h => ⟨?_, fun b hb => ?_⟩, Vdp2ColorRam.setWord_mode c addr val⟩
  · rw [Vdp2ColorRam.getWord_setWord_stored, Nat.mod_eq_of_lt hval]
  · rw [Vdp2ColorRam.getWord_setWord_mirror c addr val h, Nat.mod_eq_of_lt hval]
  · exact Vdp2ColorRam.getWord_setWord_other c addr val _ h (Or.inr (by omega))
  · exact Vdp2ColorRam.getWord_setWord_other c addr val b h hb

theorem cram_setWord_mirror_witness :
    (0x7FFF : Nat) < 65536 ∧
    ((⟨Memory.zero, 0⟩ : Vdp2ColorRam).setWord 0x10 0x7FFF).getWord 0x10 = 0x7FFF ∧
    ((⟨Memory.zero, 0⟩ : Vdp2ColorRam).setWord 0x10 0x7FFF).getWord 0x810 = 0x7FFF :=
  ⟨by decide,
    (cram_setWord_mirror ⟨Memory.zero, 0⟩ 0x10 0x7FFF (by decide)).1,
    (cram_setWord_mirror ⟨Memory.zero, 0⟩ 0x10 0x7FFF (by decide)).2.1 rfl⟩

/-- C13: in colour depth 0 `drawCell` runs, for every fetched word, the
4-bit body, whose calls are those of its four nibbles from the top one down,
each with index `(palAddr << 4) | nibble`.  With transparency enabled a zero
nibble is drawn as colour 0x00000000 without a `getColor` call and a non-zero
nibble is looked up by one `getColor` call; with transparency disabled every
nibble, zero included, is looked up by one `getColor` call. -/
theorem drawCell_depth0_lookup (env : Env) (s : Vdp2Screen) (xInc : Int) :
    (s.colorNumber = 0 → s.drawCell env =
      s.cellRows 4 (if s.flipFunction &&& 0x2 ≠ 0 then -1 else 1)
        (Vdp2Screen.dots4 env (if s.flipFunction &&& 0x1 ≠ 0 then -1 else 1))) ∧
    (s.dots4 env xInc).trace =
      s.trace ++
      s.pixelCalls env ((readWord env.vram s.charAddr &&& 0xF000) >>> 12)
        (ulong (s.palAddr <<< 4) ||| ((readWord env.vram s.charAddr &&& 0xF000) >>> 12))
        s.x ++
      s.pixelCalls env ((readWord env.vram s.charAddr &&& 0xF00) >>> 8)
        (ulong (s.palAddr <<< 4) ||| ((readWord env.vram s.charAddr &&& 0xF00) >>> 8))
        (s.x + xInc) ++
      s.pixelCalls env ((readWord env.vram s.charAddr &&& 0xF0) >>> 4)
        (ulong (s.palAddr <<< 4) ||| ((readWord env.vram s.charAddr &&& 0xF0) >>> 4))
        (s.x + xInc + xInc) ++
      s.pixelCalls env (readWord env.vram s.charAddr &&& 0xF)
        (ulong (s.palAddr <<< 4) ||| (readWord env.vram s.charAddr &&& 0xF))
        (s.x + xInc + xInc + xInc) ∧
    (∀ (nibble index : Nat) (x : Int),
      (s.transparencyEnable = true → nibble = 0 →
        s.pixelCalls env nibble index x =
          [CellEvent.drawPixel (s.getX x s.y) (s.getY x s.y)
            (COLOR_ADD 0x00000000 s.cor s.cog s.cob)]) ∧
      (s.transparencyEnable = true → nibble ≠ 0 →
        s.pixelCalls env nibble index x =
          [CellEvent.getColor index s.alpha s.colorOffset,
            CellEvent.drawPixel (s.getX x s.y) (s.getY x s.y)
              (COLOR_ADD (env.cram.getColor env.cm index s.alpha s.colorOffset)
                s.cor s.cog s.cob)]) ∧
      (s.transparencyEnable = false →
        s.pixelCalls env nibble index x =
          [CellEvent.getColor index s.alpha s.colorOffset,
            CellEvent.drawPixel (s.getX x s.y) (s.getY x s.y)
              (COLOR_ADD (env.cram.getColor env.cm index s.alpha s.colorOffset)
                s.cor s.cog s.cob)])) := by
  refine ⟨(Vdp2Screen.drawCell_depth env s).1, Vdp2Screen.dots4_trace env xInc s,
    fun nibble index x => ⟨fun hte hn => ?_, fun _ hn => ?_, fun hte => ?_⟩⟩
  · rw [hn]
    exact Vdp2Screen.pixelCalls_zero env s index x hte
  · exact Vdp2Screen.pixelCalls_lookup env s nibble index x (Or.inl hn)
  · exact Vdp2Screen.pixelCalls_lookup env s nibble index x (Or.inr hte)

theorem drawCell_depth0_lookup_witness :
    Vdp2Screen.transparent.transparencyEnable = true ∧
    readWord Env.nibbles.vram Vdp2Screen.transparent.charAddr = 0x0120 ∧
    (Vdp2Screen.transparent.dots4 Env.nibbles 1).trace =
      [CellEvent.drawPixel 0 0 0,
        CellEvent.getColor 1 0 0, CellEvent.drawPixel 1 0 0,
        CellEvent.getColor 2 0 0, CellEvent.drawPixel 2 0 0,
        CellEvent.drawPixel 3 0 0] :=
  ⟨rfl, by decide,
    (drawCell_depth0_lookup Env.nibbles Vdp2Screen.transparent 1).2.1.trans (by decide)⟩

/-- C15: for every 32-bit colour `l` and every offset triple with components
in [-256, 255], each of the three low bytes of `COLOR_ADD(l, r, g, b)` is
`min(255, max(0, channel + offset))` for the corresponding byte of `l` (`r`
for bits 0-7, `g` for bits 8-15, `b` for bits 16-23), the top byte is the top
byte of `l`, and `COLOR_ADD(l, 0, 0, 0) = l`. -/
theorem COLOR_ADD_saturating (l : Nat) (r g b : Int) (hl : l < 2 ^ 32)
    (_hr : -256 ≤ r ∧ r ≤ 255) (_hg : -256 ≤ g ∧ g ≤ 255) (_hb : -256 ≤ b ∧ b ≤ 255) :
    ((COLOR_ADD l r g b &&& 0xFF : Nat) : Int) =
      (min 255 (max 0 (((l &&& 0xFF : Nat) : Int) + r)) : Int) ∧
    (((COLOR_ADD l r g b >>> 8) &&& 0xFF : Nat) : Int) =
      (min 255 (max 0 ((((l >>> 8) &&& 0xFF : Nat) : Int) + g)) : Int) ∧
    (((COLOR_ADD l r g b >>> 16) &&& 0xFF : Nat) : Int) =
      (min 255 (max 0 ((((l >>> 16) &&& 0xFF : Nat) : Int) + b)) : Int) ∧
    COLOR_ADD l r g b >>> 24 = l >>> 24 ∧
    COLOR_ADD l 0 0 0 = l := by
  obtain ⟨h0, h1, h2, h3⟩ := COLOR_ADD_bytes l r g b
  refine ⟨?_, ?_, ?_, ?_, COLOR_ADD_zero l hl⟩
  · rw [h0]
    exact COLOR_ADDb_eq _ r Nat.and_le_right
  · rw [h1]
    exact COLOR_ADDb_eq _ g Nat.and_le_right
  · rw [h2]
    exact COLOR_ADDb_eq _ b Nat.and_le_right
  · rw [h3]
    exact top_byte_of_lt l hl

theorem COLOR_ADD_saturating_witness :
    (0x80F00510 : Nat) < 2 ^ 32 ∧
    ((COLOR_ADD 0x80F00510 255 (-256) 16 &&& 0xFF : Nat) : Int) = 255 ∧
    (((COLOR_ADD 0x80F00510 255 (-256) 16 >>> 8) &&& 0xFF : Nat) : Int) = 0 ∧
    (((COLOR_ADD 0x80F00510 255 (-256) 16 >>> 16) &&& 0xFF : Nat) : Int) = 255 ∧
    COLOR_ADD 0x80F00510 255 (-256) 16 >>> 24 = 0x80 := by
  obtain ⟨h0, h1, h2, h3, -⟩ := COLOR_ADD_saturating 0x80F00510 255 (-256) 16 (by decide)
    (by decide) (by decide) (by decide)
  exact ⟨by decide, h0.trans (by decide), h1.trans (by decide), h2.trans (by decide),
    h3.trans (by decide)⟩

/-- C16 (as amended): with rotation parameters A = E = 1, B = C = D = F = 0,
kx = ky = 1, increments deltaX = deltaYst = 1 and deltaXst = deltaY = 0, and
the start, viewpoint and centre terms of the X and Y axes zero, for every
`Hcnt` and `Vcnt` of magnitude at most 2^24 (the integers a `float` holds
exactly) the pair `(RBG0_getX(Hcnt, Vcnt), RBG0_getY(Hcnt, Vcnt))` is
`(Hcnt, Vcnt)`.  The Z terms are multiplied by C = F = 0 and the translation
terms Mx, My are not read, so they need no condition. -/
theorem RBG0_identity_transform (p : RotationParams) (Hcnt Vcnt : Int)
    (hA : p.A = 1) (hE : p.E = 1) (hB : p.B = 0) (hC : p.C = 0) (hD : p.D = 0) (hF : p.F = 0)
    (hkx : p.kx = 1) (hky : p.ky = 1)
    (hdX : p.deltaX = 1) (hdYst : p.deltaYst = 1) (hdXst : p.deltaXst = 0) (hdY : p.deltaY = 0)
    (hXst : p.Xst = 0) (hYst : p.Yst = 0)
    (hPx : p.Px = 0) (hPy : p.Py = 0) (hCx : p.Cx = 0) (hCy : p.Cy = 0)
    (_hH : -16777216 ≤ Hcnt ∧ Hcnt ≤ 16777216) (_hV : -16777216 ≤ Vcnt ∧ Vcnt ≤ 16777216) :
    (RBG0_getX p Hcnt Vcnt, RBG0_getY p Hcnt Vcnt) = (Hcnt, Vcnt) := by
  obtain ⟨hx, hy⟩ := RBG0_identity p Hcnt Vcnt hA hB hC hD hE hF hkx hky hdX hdY hdXst hdYst
    hXst hYst hPx hPy hCx hCy
  rw [hx, hy]

theorem RBG0_identity_transform_witness :
    (RBG0_getX RotationParams.unitAE 5 (-3), RBG0_getY RotationParams.unitAE 5 (-3)) =
      (5, -3) :=
  RBG0_identity_transform RotationParams.unitAE 5 (-3) rfl rfl rfl rfl rfl rfl rfl rfl rfl rfl
    rfl rfl rfl rfl rfl rfl rfl rfl (by decide) (by decide)

/-- C16 (as stated) fails: the parameters `unitAD` have A = D = 1,
B = C = E = F = 0, kx = ky = 1 and every start, viewpoint, centre and
translation term zero, and at `(Hcnt, Vcnt) = (1, 0)` the pair computed is
`(1, 1)`, not `(1, 0)`: with D = 1 and E = 0 the Y coordinate is built from
the X terms. -/
theorem RBG0_identity_transform_counterexample :
    (RotationParams.unitAD.A = 1 ∧ RotationParams.unitAD.D = 1 ∧
      RotationParams.unitAD.B = 0 ∧ RotationParams.unitAD.C = 0 ∧
      RotationParams.unitAD.E = 0 ∧ RotationParams.unitAD.F = 0 ∧
      RotationParams.unitAD.kx = 1 ∧ RotationParams.unitAD.ky = 1) ∧
    (RotationParams.unitAD.Xst = 0 ∧ RotationParams.unitAD.Yst = 0 ∧
      RotationParams.unitAD.Zst = 0 ∧ RotationParams.unitAD.Px = 0 ∧
      RotationParams.unitAD.Py = 0 ∧ RotationParams.unitAD.Pz = 0 ∧
      RotationParams.unitAD.Cx = 0 ∧ RotationParams.unitAD.Cy = 0 ∧
      RotationParams.unitAD.Cz = 0 ∧ RotationParams.unitAD.Mx = 0 ∧
      RotationParams.unitAD.My = 0) ∧
    (RBG0_getX RotationParams.unitAD 1 0, RBG0_getY RotationParams.unitAD 1 0) = (1, 1) ∧
    (RBG0_getX RotationParams.unitAD 1 0, RBG0_getY RotationParams.unitAD 1 0) ≠ (1, 0) := by
  have h : (RBG0_getX RotationParams.unitAD 1 0, RBG0_getY RotationParams.unitAD 1 0) =
      (1, 1) := by
    simp [RBG0_getX, RBG0_getY, RotationParams.unitAD, RotationParams.zero, floatToInt]
  refine ⟨⟨rfl, rfl, rfl, rfl, rfl, rfl, rfl, rfl⟩,
    ⟨rfl, rfl, rfl, rfl, rfl, rfl, rfl, rfl, rfl, rfl, rfl⟩, h, ?_⟩
  rw [h]
  decide

/-- C17: for every prior value `s` of status register 0x004, after `VBlankIN`
the register is `s | 0x0008`; after a following `VBlankOUT` it is
`(s & 0xFFF7) | 0x0002`, that is bit 3 is clear, bit 1 is set and every other
bit is the bit of `s`; every register word that does not overlap the one at
0x004 is as it was after either hook. -/
theorem VBlank_status (spr : Vdp1) (s : Vdp2) :
    (s.VBlankIN spr).getWord 0x4 = s.getWord 0x4 ||| 0x0008 ∧
    ((s.VBlankIN spr).VBlankOUT spr).getWord 0x4 = (s.getWord 0x4 &&& 0xFFF7) ||| 0x0002 ∧
    (∀ i, (((s.VBlankIN spr).VBlankOUT spr).getWord 0x4).testBit i =
      if i = 3 then false else if i = 1 then true else (s.getWord 0x4).testBit i) ∧
    (∀ b, b + 1 < 0x4 ∨ 0x4 + 1 < b →
      (s.VBlankIN spr).getWord b = s.getWord b ∧
      ((s.VBlankIN spr).VBlankOUT spr).getWord b = s.getWord b) := by
  have hlt : s.getWord 0x4 < 2 ^ 16 := Memory.getWord_lt s.mem 0x4
  have hin : (s.VBlankIN spr).getWord 0x4 = s.getWord 0x4 ||| 0x0008 := by
    unfold Vdp2.getWord
    rw [Vdp2.VBlankIN_mem, Memory.getWord_setWord_same]
    exact Nat.mod_eq_of_lt (Nat.or_lt_two_pow hlt (by decide))
  have hout : ((s.VBlankIN spr).VBlankOUT spr).getWord 0x4 =
      (s.getWord 0x4 &&& 0xFFF7) ||| 0x0002 := by
    have hb : (s.getWord 0x4 &&& 0xFFF7) ||| 0x0002 < 2 ^ 16 :=
      Nat.or_lt_two_pow (Nat.lt_of_le_of_lt Nat.and_le_right (by decide)) (by decide)
    have e : ((s.VBlankIN spr).VBlankOUT spr).getWord 0x4 =
        (((s.VBlankIN spr).getWord 0x4 &&& 0xFFF7) ||| 0x0002) % 65536 := by
      unfold Vdp2.getWord
      rw [Vdp2.VBlankOUT_mem, Memory.getWord_setWord_same]
      rfl
    rw [e, hin, or_and_status]
    exact Nat.mod_eq_of_lt hb
  refine ⟨hin, hout, fun i => ?_, fun b hb => ?_⟩
  · rw [hout]
    exact status_bits _ hlt i
  · have h1 : (s.VBlankIN spr).getWord b = s.getWord b := by
      unfold Vdp2.getWord
      rw [Vdp2.VBlankIN_mem]
      exact Memory.getWord_setWord_of_disjoint _ _ _ _ hb
    refine ⟨h1, ?_⟩
    rw [← h1]
    unfold Vdp2.getWord
    rw [Vdp2.VBlankOUT_mem]
    exact Memory.getWord_setWord_of_disjoint _ _ _ _ hb

/-- C19: `comparePriority` is a strict total order on the five background
layers.  The inner-priority constants are pairwise distinct and that of RBG0,
4, is the greatest; `comparePriority` returns 0 on two background layers only
when they are the same layer; the sign of `compare(a, b)` is minus the sign of
`compare(b, a)`; the comparison is transitive; and for fixed register contents
two arrangements of the same layers that are both in comparator order are
equal, so the sorted order does not depend on the sorting algorithm. -/
theorem comparePriority_strict_total (spr : Vdp1) (reg : Memory) :
    (∀ a b : Layer, a.getInnerPriority = b.getInnerPriority → a = b) ∧
    (Layer.getInnerPriority .RBG0 = 4 ∧
      ∀ a : Layer, a ≠ .RBG0 → a.getInnerPriority < Layer.getInnerPriority .RBG0) ∧
    (∀ a b : Layer, comparePriority spr reg (.bg a) (.bg b) = 0 ↔ a = b) ∧
    (∀ a b : ScreenId,
      (comparePriority spr reg a b).sign = - (comparePriority spr reg b a).sign) ∧
    (∀ a b c : ScreenId, comparePriority spr reg a b < 0 → comparePriority spr reg b c < 0 →
      comparePriority spr reg a c < 0) ∧
    (∀ l₁ l₂ : List Layer, l₁.Perm l₂ →
      l₁.Pairwise (fun a b => comparePriority spr reg (.bg a) (.bg b) ≤ 0) →
      l₂.Pairwise (fun a b => comparePriority spr reg (.bg a) (.bg b) ≤ 0) → l₁ = l₂) := by
  refine ⟨Layer.getInnerPriority_injective, ⟨rfl, fun a ha => ?_⟩,
    comparePriority_bg_eq_zero_iff spr reg, fun a b => ?_, comparePriority_lt_trans spr reg,
    sorted_layers_unique spr reg⟩
  · cases a <;> first
      | exact absurd rfl ha
      | decide
  · rw [comparePriority_neg spr reg a b, Int.sign_neg]

/-- C20 (as amended): for each of the five layers and any two layer states,
`init()` against the same register bank and VRAM yields the same enable flag,
bitmap flag, colour depth, scroll origin, transparency flag, colour-offset
selector, colour offset and alpha; when the registers select tile mode it also
yields the same map, page, pattern and cell geometry, supplement data and
auxiliary mode, and, when the layer's plane-size field is not 3, the same
plane size. -/
theorem init_rederives (l : Layer) (env : Env) (s₁ s₂ : Vdp2Screen) :
    (l.init env s₁).commonConfig = (l.init env s₂).commonConfig ∧
    ((l.init env s₁).bitmap = false →
      (l.init env s₁).patternConfig = (l.init env s₂).patternConfig ∧
      (l.planeSizeField env.reg ≠ 3 →
        (l.init env s₁).planeConfig = (l.init env s₂).planeConfig)) :=
  ⟨Layer.init_commonConfig l env s₁ s₂, fun h =>
    ⟨Layer.init_patternConfig l env s₁ s₂ h, fun h3 => Layer.init_planeConfig l env s₁ s₂ h h3⟩⟩

theorem init_rederives_witness :
    (Layer.init .NBG1 Env.zero Vdp2Screen.zero).bitmap = false ∧
    Layer.planeSizeField Env.zero.reg .NBG1 ≠ 3 ∧
    (Layer.init .NBG1 Env.zero Vdp2Screen.zero).commonConfig =
      (Layer.init .NBG1 Env.zero (Vdp2Screen.tile 2 1 2 0x3FF)).commonConfig ∧
    (Layer.init .NBG1 Env.zero Vdp2Screen.zero).patternConfig =
      (Layer.init .NBG1 Env.zero (Vdp2Screen.tile 2 1 2 0x3FF)).patternConfig ∧
    (Layer.init .NBG1 Env.zero Vdp2Screen.zero).planeConfig =
      (Layer.init .NBG1 Env.zero (Vdp2Screen.tile 2 1 2 0x3FF)).planeConfig :=
  ⟨by decide, by decide,
    (init_rederives .NBG1 Env.zero Vdp2Screen.zero (Vdp2Screen.tile 2 1 2 0x3FF)).1,
    ((init_rederives .NBG1 Env.zero Vdp2Screen.zero (Vdp2Screen.tile 2 1 2 0x3FF)).2
      (by decide)).1,
    ((init_rederives .NBG1 Env.zero Vdp2Screen.zero (Vdp2Screen.tile 2 1 2 0x3FF)).2
      (by decide)).2 (by decide)⟩

/-- C20 (as stated) fails: with register 0x28 = 0x0002 `NBG0::init` takes the
bitmap branch, which assigns none of the pattern fields, so two states that
differ only in the previously derived pattern size, pattern-name size,
auxiliary mode and supplement data still differ in them after `init()`. -/
theorem init_rederives_counterexample :
    (Layer.init .NBG0 Env.bitmapNBG0 Vdp2Screen.zero).bitmap = true ∧
    (Layer.init .NBG0 Env.bitmapNBG0 (Vdp2Screen.tile 2 1 2 0x3FF)).bitmap = true ∧
    (Layer.init .NBG0 Env.bitmapNBG0 Vdp2Screen.zero).patternWH = 0 ∧
    (Layer.init .NBG0 Env.bitmapNBG0 (Vdp2Screen.tile 2 1 2 0x3FF)).patternWH = 2 ∧
    (Layer.init .NBG0 Env.bitmapNBG0 Vdp2Screen.zero).supplementData = 0 ∧
    (Layer.init .NBG0 Env.bitmapNBG0 (Vdp2Screen.tile 2 1 2 0x3FF)).supplementData = 0x3FF ∧
    (Layer.init .NBG0 Env.bitmapNBG0 Vdp2Screen.zero).patternConfig ≠
      (Layer.init .NBG0 Env.bitmapNBG0 (Vdp2Screen.tile 2 1 2 0x3FF)).patternConfig :=
  ⟨by decide, by decide, by decide, by decide, by decide, by decide,
    fun h => absurd (congrArg (fun c => c.2.2.1) h) (by decide)⟩

/-! ## The colour depth and the tile geometry that `init` derives -/

theorem Layer.init_colorNumber (l : Layer) (env : Env) (s : Vdp2Screen) :
    (l.init env s).colorNumber = l.colorField env.reg := by
  cases l
  · unfold Layer.init NBG0.init
    dsimp only
    split_ifs <;>
      simp [Layer.colorField, initColorOffset_rest, initPlaneSize_rest, initPattern_rest,
        initBitmapSize4_rest]
  · unfold Layer.init NBG1.init
    dsimp only
    split_ifs <;>
      simp [Layer.colorField, initColorOffset_rest, initPlaneSize_rest, initPattern_rest,
        initBitmapSize4_rest]
  · unfold Layer.init NBG2.init
    dsimp only
    split_ifs <;>
      simp [Layer.colorField, initColorOffset_rest, initPlaneSize_rest, initPattern_rest]
  · unfold Layer.init NBG3.init
    dsimp only
    split_ifs <;>
      simp [Layer.colorField, initColorOffset_rest, initPlaneSize_rest, initPattern_rest]
  · unfold Layer.init RBG0.init
    dsimp only
    split_ifs <;>
      simp [Layer.colorField, initColorOffset_rest, initPlaneSize_rest, initPattern_rest,
        initBitmapSize2_rest]

theorem Layer.colorField_lt (reg : Memory) (l : Layer) :
    l.colorField reg < 8 ∧ (l = .NBG1 → l.colorField reg < 4) ∧
    (l = .NBG2 ∨ l = .NBG3 → l.colorField reg < 2) := by
  cases l <;> unfold Layer.colorField <;> dsimp only
  · have := @Nat.and_le_right (readWord reg 0x28) 0x70
    rw [Nat.shiftRight_eq_div_pow]
    refine ⟨by omega, by simp, by simp⟩
  · have := @Nat.and_le_right (readWord reg 0x28) 0x3000
    rw [Nat.shiftRight_eq_div_pow]
    refine ⟨by omega, fun _ => by omega, by simp⟩
  · have := @Nat.and_le_right (readWord reg 0x2A) 0x2
    rw [Nat.shiftRight_eq_div_pow]
    refine ⟨by omega, by simp, fun _ => by omega⟩
  · have := @Nat.and_le_right (readWord reg 0x2A) 0x20
    rw [Nat.shiftRight_eq_div_pow]
    refine ⟨by omega, by simp, fun _ => by omega⟩
  · have := @Nat.and_le_right (readWord reg 0x2A) 0x7000
    rw [Nat.shiftRight_eq_div_pow]
    refine ⟨by omega, by simp, by simp⟩

theorem initPattern_geometry (p : Nat) (wh : Bool) (s : Vdp2Screen) :
    ((initPattern p wh s).patternDataSize = 1 ∨ (initPattern p wh s).patternDataSize = 2) ∧
    ((initPattern p wh s).patternWH = 1 ∨ (initPattern p wh s).patternWH = 2) ∧
    (initPattern p wh s).pageWH = 64 / (initPattern p wh s).patternWH ∧
    (initPattern p wh s).cellW = 8 ∧ (initPattern p wh s).cellH = 8 := by
  simp only [initPattern_fields]
  refine ⟨?_, ?_, trivial, trivial, trivial⟩
  · split_ifs <;> simp
  · cases wh <;> simp

/-- What `init` leaves in tile mode: one- or two-word pattern names, patterns
of one or two cells a side, `pageWH = 64 / patternWH`, 8x8 cells, and, unless
the plane-size field is 3, a plane size of 1x1, 2x1 or 2x2. -/
theorem Layer.init_tileGeometry (l : Layer) (env : Env) (s : Vdp2Screen)
    (h : (l.init env s).bitmap = false) :
    ((l.init env s).patternDataSize = 1 ∨ (l.init env s).patternDataSize = 2) ∧
    ((l.init env s).patternWH = 1 ∨ (l.init env s).patternWH = 2) ∧
    (l.init env s).pageWH = 64 / (l.init env s).patternWH ∧
    (l.init env s).cellW = 8 ∧ (l.init env s).cellH = 8 ∧
    (l.planeSizeField env.reg ≠ 3 →
      ((l.init env s).planeW = 1 ∧ (l.init env s).planeH = 1) ∨
      ((l.init env s).planeW = 2 ∧ (l.init env s).planeH = 1) ∨
      ((l.init env s).planeW = 2 ∧ (l.init env s).planeH = 2)) := by
  have h4 := Layer.planeSizeField_lt env.reg l
  have key : ∀ (p : Nat) (wh : Bool) (n : Nat) (t : Vdp2Screen), n < 4 →
      ((initPattern p wh (initPlaneSize n t)).patternDataSize = 1 ∨
        (initPattern p wh (initPlaneSize n t)).patternDataSize = 2) ∧
      ((initPattern p wh (initPlaneSize n t)).patternWH = 1 ∨
        (initPattern p wh (initPlaneSize n t)).patternWH = 2) ∧
      (initPattern p wh (initPlaneSize n t)).pageWH =
        64 / (initPattern p wh (initPlaneSize n t)).patternWH ∧
      (initPattern p wh (initPlaneSize n t)).cellW = 8 ∧
      (initPattern p wh (initPlaneSize n t)).cellH = 8 ∧
      (n ≠ 3 →
        ((initPattern p wh (initPlaneSize n t)).planeW = 1 ∧
          (initPattern p wh (initPlaneSize n t)).planeH = 1) ∨
        ((initPattern p wh (initPlaneSize n t)).planeW = 2 ∧
          (initPattern p wh (initPlaneSize n t)).planeH = 1) ∨
        ((initPattern p wh (initPlaneSize n t)).planeW = 2 ∧
          (initPattern p wh (initPlaneSize n t)).planeH = 2)) := by
    intro p wh n t hn
    obtain ⟨g1, g2, g3, g4, g5⟩ := initPattern_geometry p wh (initPlaneSize n t)
    refine ⟨g1, g2, g3, g4, g5, fun hn3 => ?_⟩
    have hlt : n < 3 := by omega
    simp only [initPattern_rest, initPlaneSize_fields n t hlt]
    interval_cases n <;> simp
  cases l
  · unfold Layer.planeSizeField at h4 ⊢
    unfold Layer.init NBG0.init at h ⊢
    dsimp only at h4 h ⊢
    split_ifs at h ⊢ <;>
      first
      | (simp_all [initColorOffset_rest, initBitmapSize4_rest]; done)
      | (simp only [initColorOffset_rest]; exact key _ _ _ _ h4)
  · unfold Layer.planeSizeField at h4 ⊢
    unfold Layer.init NBG1.init at h ⊢
    dsimp only at h4 h ⊢
    split_ifs at h ⊢ <;>
      first
      | (simp_all [initColorOffset_rest, initBitmapSize4_rest]; done)
      | (simp only [initColorOffset_rest]; exact key _ _ _ _ h4)
  · unfold Layer.planeSizeField at h4 ⊢
    unfold Layer.init NBG2.init
    dsimp only at h4 ⊢
    split_ifs <;> (simp only [initColorOffset_rest]; exact key _ _ _ _ h4)
  · unfold Layer.planeSizeField at h4 ⊢
    unfold Layer.init NBG3.init
    dsimp only at h4 ⊢
    split_ifs <;> (simp only [initColorOffset_rest]; exact key _ _ _ _ h4)
  · unfold Layer.planeSizeField at h4 ⊢
    unfold Layer.init RBG0.init at h ⊢
    dsimp only at h4 h ⊢
    split_ifs at h ⊢ <;>
      first
      | (simp_all [initColorOffset_rest, initBitmapSize2_rest]; done)
      | (simp only [initColorOffset_rest]; exact key _ _ _ _ h4)

/-! ## Plane addresses -/

theorem planeAddrOf_addr (tmp : Nat) (s : Vdp2Screen) :
    (s.patternDataSize = 1 → s.patternWH = 1 →
      (planeAddrOf tmp s).addr =
        ulongOfInt ((((tmp &&& 0x3F) >>> (s.planeH + s.planeW - 2).toNat : Nat) : Int) *
          (s.planeH * s.planeW * 0x2000))) ∧
    (s.patternDataSize = 1 → s.patternWH = 2 →
      (planeAddrOf tmp s).addr =
        ulongOfInt (((tmp >>> (s.planeH + s.planeW - 2).toNat : Nat) : Int) *
          (s.planeH * s.planeW * 0x800))) ∧
    (s.patternDataSize = 2 → s.patternWH = 1 →
      (planeAddrOf tmp s).addr =
        ulongOfInt ((((tmp &&& 0x1F) >>> (s.planeH + s.planeW - 2).toNat : Nat) : Int) *
          (s.planeH * s.planeW * 0x4000))) ∧
    (s.patternDataSize = 2 → s.patternWH = 2 →
      (planeAddrOf tmp s).addr =
        ulongOfInt ((((tmp &&& 0x7F) >>> (s.planeH + s.planeW - 2).toNat : Nat) : Int) *
          (s.planeH * s.planeW * 0x1000))) := by
  unfold planeAddrOf
  refine ⟨fun h1 h2 => ?_, fun h1 h2 => ?_, fun h1 h2 => ?_, fun h1 h2 => ?_⟩ <;>
    simp [h1, h2]

/-- The address of `planeAddrOf` as a natural number, for a plane of
`pw x ph` pages with `pw + ph ≥ 2` and a result inside the `unsigned long`
range. -/
theorem planeAddrOf_nat (s : Vdp2Screen) (pw ph : Nat)
    (hw : s.planeW = pw) (hh : s.planeH = ph) (h2 : 2 ≤ pw + ph) (m M : Nat)
    (hfit : (m >>> (pw + ph - 2)) * (pw * ph * M) < 4294967296) :
    ulongOfInt (((m >>> (s.planeH + s.planeW - 2).toNat : Nat) : Int) *
        (s.planeH * s.planeW * (M : Int))) =
      (m >>> (pw + ph - 2)) * (pw * ph * M) := by
  have hd : (s.planeH + s.planeW - 2).toNat = pw + ph - 2 := by
    rw [hw, hh]
    omega
  rw [hd, hw, hh]
  unfold ulongOfInt
  have e : (((m >>> (pw + ph - 2) : Nat) : Int) * ((ph : Int) * (pw : Int) * (M : Int))) =
      (((m >>> (pw + ph - 2)) * (pw * ph * M) : Nat) : Int) := by
    push_cast
    ring
  rw [e]
  have := hfit
  omega

theorem Layer.mapOffset_bits (reg : Memory) (l : Layer) :
    l.mapOffset reg % 64 = 0 ∧ l.mapOffset reg < 512 := by
  cases l <;> unfold Layer.mapOffset <;> dsimp only
  · have := @Nat.and_le_right (readWord reg 0x3C) 0x7
    rw [Nat.shiftLeft_eq]
    omega
  · have h : readWord reg 0x3C &&& 0x70 = ((readWord reg 0x3C >>> 4) &&& 0x7) <<< 4 :=
      and_shifted_mask (readWord reg 0x3C) 4 3
    have := @Nat.and_le_right (readWord reg 0x3C >>> 4) 0x7
    rw [h, Nat.shiftLeft_eq, Nat.shiftLeft_eq]
    omega
  · have h : readWord reg 0x3C &&& 0x700 = ((readWord reg 0x3C >>> 8) &&& 0x7) <<< 8 :=
      and_shifted_mask (readWord reg 0x3C) 8 3
    have := @Nat.and_le_right (readWord reg 0x3C >>> 8) 0x7
    rw [h, Nat.shiftLeft_eq, Nat.shiftRight_eq_div_pow]
    omega
  · have h : readWord reg 0x3C &&& 0x7000 = ((readWord reg 0x3C >>> 12) &&& 0x7) <<< 12 :=
      and_shifted_mask (readWord reg 0x3C) 12 3
    have := @Nat.and_le_right (readWord reg 0x3C >>> 12) 0x7
    rw [h, Nat.shiftLeft_eq, Nat.shiftRight_eq_div_pow]
    omega
  · have := @Nat.and_le_right (readWord reg 0x3E) 0x7
    rw [Nat.shiftLeft_eq]
    omega

/-! ## Reset -/

theorem Vdp2.reset_mem (spr : Vdp1) (s : Vdp2) :
    (s.reset spr).mem =
      ((((s.mem.setWord 0x0 0).setWord 0x4 0).setWord 0x6 0).setWord 0xE 0).setWord 0x20 0 := by
  simp [Vdp2.reset, Vdp2.setWord_mem]

theorem Vdp2.reset_getWord (spr : Vdp1) (s : Vdp2) :
    (s.reset spr).getWord 0x0 = 0 ∧ (s.reset spr).getWord 0x4 = 0 ∧
    (s.reset spr).getWord 0x6 = 0 ∧ (s.reset spr).getWord 0xE = 0 ∧
    (s.reset spr).getWord 0x20 = 0 ∧
    ∀ offset, offset % 2 = 0 → offset ≠ 0x0 → offset ≠ 0x4 → offset ≠ 0x6 → offset ≠ 0xE →
      offset ≠ 0x20 → (s.reset spr).getWord offset = s.getWord offset := by
  unfold Vdp2.getWord
  rw [Vdp2.reset_mem]
  refine ⟨?_, ?_, ?_, ?_, ?_, fun offset hal h0 h4 h6 hE h20 => ?_⟩
  · rw [Memory.getWord_setWord_of_disjoint _ _ _ _ (by omega),
      Memory.getWord_setWord_of_disjoint _ _ _ _ (by omega),
      Memory.getWord_setWord_of_disjoint _ _ _ _ (by omega),
      Memory.getWord_setWord_of_disjoint _ _ _ _ (by omega), Memory.getWord_setWord_same]
  · rw [Memory.getWord_setWord_of_disjoint _ _ _ _ (by omega),
      Memory.getWord_setWord_of_disjoint _ _ _ _ (by omega),
      Memory.getWord_setWord_of_disjoint _ _ _ _ (by omega), Memory.getWord_setWord_same]
  · rw [Memory.getWord_setWord_of_disjoint _ _ _ _ (by omega),
      Memory.getWord_setWord_of_disjoint _ _ _ _ (by omega), Memory.getWord_setWord_same]
  · rw [Memory.getWord_setWord_of_disjoint _ _ _ _ (by omega), Memory.getWord_setWord_same]
  · rw [Memory.getWord_setWord_same]
  · rw [Memory.getWord_setWord_of_disjoint _ _ _ _ (by omega),
      Memory.getWord_setWord_of_disjoint _ _ _ _ (by omega),
      Memory.getWord_setWord_of_disjoint _ _ _ _ (by omega),
      Memory.getWord_setWord_of_disjoint _ _ _ _ (by omega),
      Memory.getWord_setWord_of_disjoint _ _ _ _ (by omega)]

/-! ## The colour offsets -/

theorem colorOffsetValue_mod (w : Nat) : colorOffsetValue w = colorOffsetValue (w % 512) := by
  have hm : w % 512 = w &&& 0x1FF := (Nat.and_pow_two_sub_one_eq_mod w 9).symm
  have c1 : (0x1FF &&& 0x100 : Nat) = 0x100 := by decide
  have c2 : (0x1FF &&& 0xFF : Nat) = 0xFF := by decide
  have h1 : w % 512 &&& 0x100 = w &&& 0x100 := by
    rw [hm, Nat.and_assoc, c1]
  have h2 : w % 512 &&& 0xFF = w &&& 0xFF := by
    rw [hm, Nat.and_assoc, c2]
  unfold colorOffsetValue
  rw [h1, h2]

set_option maxRecDepth 100000 in
theorem colorOffsetValue_small : ∀ r < 512, colorOffsetValue r = signed9 r := by
  decide

theorem colorOffsetValue_eq_signed9 (w : Nat) : colorOffsetValue w = signed9 w := by
  rw [colorOffsetValue_mod, colorOffsetValue_small _ (Nat.mod_lt _ (by decide))]
  unfold signed9
  rw [Nat.mod_mod]

theorem signed9_range (w : Nat) : -256 ≤ signed9 w ∧ signed9 w ≤ 255 := by
  unfold signed9
  have := Nat.mod_lt w (by decide : 512 > 0)
  split_ifs <;> omega

theorem Layer.init_colorOffsets (l : Layer) (env : Env) (s : Vdp2Screen) :
    (l.init env s).cor =
        (if readWord env.reg 0x110 &&& l.enableBit ≠ 0 then
          (if readWord env.reg 0x112 &&& l.enableBit ≠ 0 then
            colorOffsetValue (readWord env.reg 0x11A)
            else colorOffsetValue (readWord env.reg 0x114))
         else 0) ∧
    (l.init env s).cog =
        (if readWord env.reg 0x110 &&& l.enableBit ≠ 0 then
          (if readWord env.reg 0x112 &&& l.enableBit ≠ 0 then
            colorOffsetValue (readWord env.reg 0x11C)
            else colorOffsetValue (readWord env.reg 0x116))
         else 0) ∧
    (l.init env s).cob =
        (if readWord env.reg 0x110 &&& l.enableBit ≠ 0 then
          (if readWord env.reg 0x112 &&& l.enableBit ≠ 0 then
            colorOffsetValue (readWord env.reg 0x11E)
            else colorOffsetValue (readWord env.reg 0x118))
         else 0) := by
  cases l
  · unfold Layer.init NBG0.init Layer.enableBit
    dsimp only
    simp [initColorOffset_fields]
  · unfold Layer.init NBG1.init Layer.enableBit
    dsimp only
    simp [initColorOffset_fields]
  · unfold Layer.init NBG2.init Layer.enableBit
    dsimp only
    simp [initColorOffset_fields]
  · unfold Layer.init NBG3.init Layer.enableBit
    dsimp only
    simp [initColorOffset_fields]
  · unfold Layer.init RBG0.init Layer.enableBit
    dsimp only
    simp [initColorOffset_fields]

/-! ## The palette index -/

theorem paletteIndex_lt (palAddr n : Nat) (hp : palAddr < 128) (hn : n < 256) :
    ulong (palAddr <<< 4) ||| n < 2048 := by
  have h1 : ulong (palAddr <<< 4) < 2 ^ 11 := by
    unfold ulong
    rw [Nat.shiftLeft_eq]
    omega
  have h2 : n < 2 ^ 11 := by omega
  exact Nat.or_lt_two_pow h1 h2

theorem palette_bits_lt (tmp supp : Nat) :
    ((tmp &&& 0xF000) >>> 12) ||| ((supp &&& 0xE0) >>> 1) < 128 ∧
    (tmp &&& 0x7000) >>> 8 < 128 ∧ tmp &&& 0x7F < 128 := by
  have h1 := @Nat.and_le_right tmp 0xF000
  have h2 := @Nat.and_le_right supp 0xE0
  have h3 := @Nat.and_le_right tmp 0x7000
  have h4 := @Nat.and_le_right tmp 0x7F
  refine ⟨?_, ?_, by omega⟩
  · have a : (tmp &&& 0xF000) >>> 12 < 2 ^ 7 := by
      rw [Nat.shiftRight_eq_div_pow]
      omega
    have b : (supp &&& 0xE0) >>> 1 < 2 ^ 7 := by
      rw [Nat.shiftRight_eq_div_pow]
      omega
    exact Nat.or_lt_two_pow a b
  · rw [Nat.shiftRight_eq_div_pow]
    omega

theorem Vdp2Screen.patternName_palAddr_lt (env : Env) (s : Vdp2Screen)
    (h : s.patternDataSize = 1 ∨ s.patternDataSize = 2) :
    (s.patternName env).palAddr < 128 := by
  obtain ⟨p0, p1, p2⟩ := palette_bits_lt (readWord env.vram s.addr) s.supplementData
  unfold Vdp2Screen.patternName
  rcases h with h | h
  · simp only [h, if_true]
    (repeat' split) <;> simp <;> assumption
  · simp only [h]
    simp
    exact p2

theorem Vdp2Screen.patternAddr_palAddr_lt (env : Env) (s : Vdp2Screen)
    (h : s.patternDataSize = 1 ∨ s.patternDataSize = 2) :
    (s.patternAddr env).palAddr < 128 := by
  rw [(Vdp2Screen.patternAddr_fields env s).1]
  exact Vdp2Screen.patternName_palAddr_lt env s h

/-! ## The surface bound -/

theorem Vdp2Screen.drawPixel_surface (s : Vdp2Screen) (x y : Int) (c : Nat) :
    (x ≥ 0 ∧ y ≥ 0 ∧ x < s.width ∧ y < s.height →
      (s.drawPixel x y c).surface = Function.update s.surface (y * s.width + x).toNat c) ∧
    (¬ (x ≥ 0 ∧ y ≥ 0 ∧ x < s.width ∧ y < s.height) →
      (s.drawPixel x y c).surface = s.surface) := by
  unfold Vdp2Screen.drawPixel
  constructor
  · intro h
    rw [if_pos h]
  · intro h
    rw [if_neg h]

theorem drawPixel_index_lt (w h x y : Int) (hx : 0 ≤ x) (hy : 0 ≤ y) (hxw : x < w)
    (hyh : y < h) :
    (((y * w + x).toNat : Nat) : Int) = y * w + x ∧ y * w + x < w * h := by
  have hw : 0 < w := by omega
  have h1 : 0 ≤ y * w := Int.mul_nonneg hy (by omega)
  constructor
  · exact Int.toNat_of_nonneg (by omega)
  · have h2 : (y + 1) * w ≤ h * w := Int.mul_le_mul_of_nonneg_right (by omega) (by omega)
    have h3 : (y + 1) * w = y * w + w := by ring
    have h4 : h * w = w * h := by ring
    omega

theorem setWordResolution_fits (v : Nat) (w h : Int)
    (hres : setWordResolution v = ⟨w, some h⟩) :
    0 < w ∧ w ≤ 704 ∧ 0 < h ∧ h ≤ 512 := by
  have hv : (v >>> 4) &&& 0x3 ≠ 3 := by
    intro h3
    unfold setWordResolution vResolution interlace at hres
    simp only [h3] at hres
    have hh := congrArg Resolution.height hres
    simp only at hh
    split at hh <;> simp at hh
  obtain ⟨hw, base, hb, hh⟩ := setWordResolution_assigned v hv
  have e1 : (setWordResolution v).width = w := by rw [hres]
  have e2 : (setWordResolution v).height = some h := by rw [hres]
  rw [e1] at hw
  rw [e2] at hh
  have hh' : h = if (v >>> 6) &&& 0x3 = 2 ∨ (v >>> 6) &&& 0x3 = 3 then base * 2 else base :=
    Option.some.inj hh
  simp only [List.mem_cons, List.mem_singleton, List.not_mem_nil, or_false] at hw hb
  refine ⟨?_, ?_, ?_, ?_⟩
  · rcases hw with h | h | h | h <;> omega
  · rcases hw with h | h | h | h <;> omega
  · rw [hh']
    split_ifs <;> rcases hb with h | h | h <;> omega
  · rw [hh']
    split_ifs <;> rcases hb with h | h | h <;> omega

/-! ## Counting the pixels and bytes of a cell -/

theorem iterate_invariant {σ : Type} (P : Nat → σ → Prop) (f : σ → σ)
    (hstep : ∀ k s, P k s → P (k + 1) (f s)) (n : Nat) (s : σ) (h0 : P 0 s) :
    P n (f^[n] s) := by
  induction n with
  | zero => exact h0
  | succ n ih =>
    rw [Function.iterate_succ_apply']
    exact hstep n _ ih

theorem pixelCount_append (a b : List CellEvent) :
    pixelCount (a ++ b) = pixelCount a + pixelCount b := by
  unfold pixelCount
  rw [List.filter_append, List.length_append]

theorem Vdp2Screen.pixelCount_pixelCalls (env : Env) (s : Vdp2Screen) (n index : Nat) (x : Int) :
    pixelCount (s.pixelCalls env n index x) = 1 := by
  unfold Vdp2Screen.pixelCalls
  split_ifs <;> rfl

theorem Vdp2Screen.cellFrame_fields {s t : Vdp2Screen} (h : t.cellFrame = s.cellFrame) :
    t.cellW = s.cellW ∧ t.cellH = s.cellH ∧ t.colorNumber = s.colorNumber ∧
    t.flipFunction = s.flipFunction ∧ t.patternWH = s.patternWH ∧
    t.patternDataSize = s.patternDataSize ∧ t.pageWH = s.pageWH ∧
    t.planeW = s.planeW ∧ t.planeH = s.planeH ∧ t.addr = s.addr := by
  have h1 := congrArg Vdp2Screen.cellW h
  have h2 := congrArg Vdp2Screen.cellH h
  have h3 := congrArg Vdp2Screen.colorNumber h
  have h4 := congrArg Vdp2Screen.flipFunction h
  have h5 := congrArg Vdp2Screen.patternWH h
  have h6 := congrArg Vdp2Screen.patternDataSize h
  have h7 := congrArg Vdp2Screen.pageWH h
  have h8 := congrArg Vdp2Screen.planeW h
  have h9 := congrArg Vdp2Screen.planeH h
  have h10 := congrArg Vdp2Screen.addr h
  exact ⟨h1, h2, h3, h4, h5, h6, h7, h8, h9, h10⟩

theorem Vdp2Screen.plot_cell (s : Vdp2Screen) (color : Nat) (xInc : Int) :
    (s.plot color xInc).cellFrame = s.cellFrame ∧ (s.plot color xInc).x = s.x + xInc ∧
    (s.plot color xInc).y = s.y ∧ (s.plot color xInc).charAddr = s.charAddr := by
  unfold Vdp2Screen.plot Vdp2Screen.drawPixel Vdp2Screen.cellFrame
  simp only
  split_ifs <;> simp

theorem Vdp2Screen.plotIndexed_cell (env : Env) (s : Vdp2Screen) (masked index : Nat)
    (xInc : Int) :
    (s.plotIndexed env masked index xInc).cellFrame = s.cellFrame ∧
    (s.plotIndexed env masked index xInc).x = s.x + xInc ∧
    (s.plotIndexed env masked index xInc).y = s.y ∧
    (s.plotIndexed env masked index xInc).charAddr = s.charAddr := by
  unfold Vdp2Screen.plotIndexed
  split_ifs
  · exact Vdp2Screen.plot_cell s 0 xInc
  · exact Vdp2Screen.plot_cell _ _ xInc

theorem Vdp2Screen.cellStep_trans {s t u : Vdp2Screen} {x y x' y' : Int} {b p b' p' : Nat}
    (h1 : s.cellStep t x y b p) (h2 : t.cellStep u x' y' b' p') :
    s.cellStep u x' y' (b + b') (p + p') := by
  obtain ⟨f1, -, -, c1, l1, n1⟩ := h1
  obtain ⟨f2, hx, hy, c2, l2, n2⟩ := h2
  refine ⟨f2.trans f1, hx, hy, ?_, fun h => l2 (l1 h), ?_⟩
  · unfold ulong at *
    omega
  · omega

theorem Vdp2Screen.cellStep_setX (s : Vdp2Screen) (X : Int) :
    s.cellStep { s with x := X } X s.y 0 0 :=
  ⟨rfl, rfl, rfl, rfl, fun h => h, rfl⟩

theorem Vdp2Screen.cellStep_setY (s : Vdp2Screen) (Y : Int) :
    s.cellStep { s with y := Y } s.x Y 0 0 :=
  ⟨rfl, rfl, rfl, rfl, fun h => h, rfl⟩

theorem Vdp2Screen.dots4_step (env : Env) (xInc : Int) (s : Vdp2Screen) :
    s.cellStep (s.dots4 env xInc) (s.x + 4 * xInc) s.y 2 4 := by
  refine ⟨?_, ?_, ?_, ?_, ?_, ?_⟩
  · unfold Vdp2Screen.dots4
    simp only [(Vdp2Screen.plotIndexed_cell _ _ _ _ _).1]
    rfl
  · unfold Vdp2Screen.dots4
    simp only [(Vdp2Screen.plotIndexed_cell _ _ _ _ _).2.1]
    ring
  · unfold Vdp2Screen.dots4
    simp only [(Vdp2Screen.plotIndexed_cell _ _ _ _ _).2.2.1]
  · unfold Vdp2Screen.dots4
    simp only [(Vdp2Screen.plotIndexed_cell _ _ _ _ _).2.2.2]
    unfold ulong
    omega
  · intro _
    unfold Vdp2Screen.dots4
    simp only [(Vdp2Screen.plotIndexed_cell _ _ _ _ _).2.2.2]
    unfold ulong
    omega
  · rw [Vdp2Screen.dots4_trace]
    simp only [pixelCount_append, Vdp2Screen.pixelCount_pixelCalls]

theorem Vdp2Screen.dots8_step (env : Env) (xInc : Int) (s : Vdp2Screen) :
    s.cellStep (s.dots8 env xInc) (s.x + 2 * xInc) s.y 2 2 := by
  refine ⟨?_, ?_, ?_, ?_, ?_, ?_⟩
  · unfold Vdp2Screen.dots8
    simp only [(Vdp2Screen.plotIndexed_cell _ _ _ _ _).1]
    rfl
  · unfold Vdp2Screen.dots8
    simp only [(Vdp2Screen.plotIndexed_cell _ _ _ _ _).2.1]
    ring
  · unfold Vdp2Screen.dots8
    simp only [(Vdp2Screen.plotIndexed_cell _ _ _ _ _).2.2.1]
  · unfold Vdp2Screen.dots8
    simp only [(Vdp2Screen.plotIndexed_cell _ _ _ _ _).2.2.2]
    unfold ulong
    omega
  · intro _
    unfold Vdp2Screen.dots8
    simp only [(Vdp2Screen.plotIndexed_cell _ _ _ _ _).2.2.2]
    unfold ulong
    omega
  · rw [Vdp2Screen.dots8_trace]
    simp only [pixelCount_append, Vdp2Screen.pixelCount_pixelCalls]

theorem Vdp2Screen.dot11_eq (env : Env) (xInc : Int) (s : Vdp2Screen) :
    s.dot11 env xInc =
      if readWord env.vram s.charAddr = 0 ∧ s.transparencyEnable = true then
        Vdp2Screen.plot { s with charAddr := ulong (s.charAddr + 2) } 0x00000000 xInc
      else
        Vdp2Screen.plot
          { s with
            trace := s.trace ++
              [CellEvent.getColor (readWord env.vram s.charAddr) s.alpha s.colorOffset]
            charAddr := ulong (s.charAddr + 2) }
          (env.cram.getColor env.cm (readWord env.vram s.charAddr) s.alpha s.colorOffset) xInc := by
  unfold Vdp2Screen.dot11 Vdp2Screen.getColor
  by_cases h : readWord env.vram s.charAddr = 0 ∧ s.transparencyEnable = true
  · simp only [if_pos h]
  · simp only [if_neg h]

theorem Vdp2Screen.dot11_step (env : Env) (xInc : Int) (s : Vdp2Screen) :
    s.cellStep (s.dot11 env xInc) (s.x + 1 * xInc) s.y 2 1 := by
  refine ⟨?_, ?_, ?_, ?_, ?_, ?_⟩
  · rw [Vdp2Screen.dot11_eq]
    split_ifs <;> simp only [(Vdp2Screen.plot_cell _ _ _).1] <;> rfl
  · rw [Vdp2Screen.dot11_eq]
    split_ifs <;> simp only [(Vdp2Screen.plot_cell _ _ _).2.1, one_mul]
  · rw [Vdp2Screen.dot11_eq]
    split_ifs <;> simp only [(Vdp2Screen.plot_cell _ _ _).2.2.1]
  · rw [Vdp2Screen.dot11_eq]
    split_ifs <;> simp only [(Vdp2Screen.plot_cell _ _ _).2.2.2] <;> (unfold ulong; omega)
  · intro _
    rw [Vdp2Screen.dot11_eq]
    split_ifs <;> simp only [(Vdp2Screen.plot_cell _ _ _).2.2.2] <;> (unfold ulong; omega)
  · rw [Vdp2Screen.dot11_trace]
    simp only [pixelCount_append, Vdp2Screen.pixelCount_pixelCalls]

theorem Vdp2Screen.dot16_step (env : Env) (xInc : Int) (s : Vdp2Screen) :
    s.cellStep (s.dot16 env xInc) (s.x + 1 * xInc) s.y 2 1 := by
  refine ⟨?_, ?_, ?_, ?_, ?_, ?_⟩
  · unfold Vdp2Screen.dot16
    simp only [(Vdp2Screen.plot_cell _ _ _).1]
    rfl
  · unfold Vdp2Screen.dot16
    simp only [(Vdp2Screen.plot_cell _ _ _).2.1, one_mul]
  · unfold Vdp2Screen.dot16
    simp only [(Vdp2Screen.plot_cell _ _ _).2.2.1]
  · unfold Vdp2Screen.dot16
    simp only [(Vdp2Screen.plot_cell _ _ _).2.2.2]
    unfold ulong
    omega
  · intro _
    unfold Vdp2Screen.dot16
    simp only [(Vdp2Screen.plot_cell _ _ _).2.2.2]
    unfold ulong
    omega
  · rw [Vdp2Screen.dot16_trace, pixelCount_append]
    rfl

theorem Vdp2Screen.dot32_step (env : Env) (xInc : Int) (s : Vdp2Screen) :
    s.cellStep (s.dot32 env xInc) (s.x + 1 * xInc) s.y 4 1 := by
  refine ⟨?_, ?_, ?_, ?_, ?_, ?_⟩
  · unfold Vdp2Screen.dot32
    simp only [(Vdp2Screen.plot_cell _ _ _).1]
    rfl
  · unfold Vdp2Screen.dot32
    simp only [(Vdp2Screen.plot_cell _ _ _).2.1, one_mul]
  · unfold Vdp2Screen.dot32
    simp only [(Vdp2Screen.plot_cell _ _ _).2.2.1]
  · unfold Vdp2Screen.dot32
    simp only [(Vdp2Screen.plot_cell _ _ _).2.2.2]
    unfold ulong
    omega
  · intro _
    unfold Vdp2Screen.dot32
    simp only [(Vdp2Screen.plot_cell _ _ _).2.2.2]
    unfold ulong
    omega
  · rw [Vdp2Screen.dot32_trace, pixelCount_append]
    rfl

theorem Vdp2Screen.cellStep_congr {s t : Vdp2Screen} {x y x' y' : Int} {b p b' p' : Nat}
    (h : s.cellStep t x y b p) (hx : x = x') (hy : y = y') (hb : b = b') (hp : p = p') :
    s.cellStep t x' y' b' p' := by
  subst hx hy hb hp
  exact h

theorem Vdp2Screen.cellStep_refl (s : Vdp2Screen) : s.cellStep s s.x s.y 0 0 :=
  ⟨rfl, rfl, rfl, rfl, fun h => h, rfl⟩

/-- A `for` loop of `n` runs of a body that moves the cursor by `dx`, reads
`b` bytes and draws `p` pixels. -/
theorem Vdp2Screen.cellStep_iterate (dots : Vdp2Screen → Vdp2Screen) (dx : Int) (b p : Nat)
    (hdots : ∀ t : Vdp2Screen, t.cellStep (dots t) (t.x + dx) t.y b p) (n : Nat) (s : Vdp2Screen) :
    s.cellStep (dots^[n] s) (s.x + n * dx) s.y (n * b) (n * p) := by
  refine iterate_invariant (fun k u => s.cellStep u (s.x + k * dx) s.y (k * b) (k * p)) dots
    ?_ n s ?_
  · intro k u hu
    have hx : u.x = s.x + k * dx := hu.2.1
    have hy : u.y = s.y := hu.2.2.1
    refine Vdp2Screen.cellStep_congr (Vdp2Screen.cellStep_trans hu (hdots u)) ?_ hy ?_ ?_
    · rw [hx]
      push_cast
      ring
    · ring
    · ring
  · refine Vdp2Screen.cellStep_congr (Vdp2Screen.cellStep_refl s) ?_ rfl ?_ ?_ <;> simp

/-- One row of `drawCell`: `x = X;`, the inner loop, `y += yInc;`. -/
theorem Vdp2Screen.cellStep_row (dots : Vdp2Screen → Vdp2Screen) (dx : Int) (b p : Nat)
    (hdots : ∀ t : Vdp2Screen, t.cellStep (dots t) (t.x + dx) t.y b p) (X yInc : Int) (n : Int)
    (t : Vdp2Screen) :
    t.cellStep
      { forLoop n dots { t with x := X } with
        y := (forLoop n dots { t with x := X }).y + yInc }
      (X + n.toNat * dx) (t.y + yInc) (n.toNat * b) (n.toNat * p) := by
  have h1 := Vdp2Screen.cellStep_setX t X
  have h2 := Vdp2Screen.cellStep_iterate dots dx b p hdots n.toNat { t with x := X }
  have h12 := Vdp2Screen.cellStep_trans h1 h2
  have hy : (forLoop n dots { t with x := X }).y = t.y := h12.2.2.1
  have h3 := Vdp2Screen.cellStep_setY (forLoop n dots { t with x := X })
    ((forLoop n dots { t with x := X }).y + yInc)
  have hx : (forLoop n dots { t with x := X }).x = X + n.toNat * dx := h12.2.1
  refine Vdp2Screen.cellStep_congr (Vdp2Screen.cellStep_trans h12 h3) hx ?_ ?_ ?_
  · rw [hy]
  · omega
  · omega

/-- The loops of `drawCell` for one colour depth. -/
theorem Vdp2Screen.cellRows_step (s : Vdp2Screen) (step yInc : Int)
    (dots : Vdp2Screen → Vdp2Screen) (dx : Int) (b p : Nat)
    (hdots : ∀ t : Vdp2Screen, t.cellStep (dots t) (t.x + dx) t.y b p) :
    s.cellStep (s.cellRows step yInc dots)
      (if s.cellH.toNat = 0 then s.x
        else s.x + ((s.cellW + (step - 1)) / step).toNat * dx)
      (s.y + s.cellH.toNat * yInc)
      (s.cellH.toNat * (((s.cellW + (step - 1)) / step).toNat * b))
      (s.cellH.toNat * (((s.cellW + (step - 1)) / step).toNat * p)) := by
  unfold Vdp2Screen.cellRows
  simp only
  refine iterate_invariant
    (fun i u => s.cellStep u
      (if i = 0 then s.x else s.x + ((s.cellW + (step - 1)) / step).toNat * dx)
      (s.y + i * yInc)
      (i * (((s.cellW + (step - 1)) / step).toNat * b))
      (i * (((s.cellW + (step - 1)) / step).toNat * p))) _ ?_ s.cellH.toNat s ?_
  · intro i u hu
    have hw : u.cellW = s.cellW := (Vdp2Screen.cellFrame_fields hu.1).1
    have hy : u.y = s.y + i * yInc := hu.2.2.1
    have hrow := Vdp2Screen.cellStep_row dots dx b p hdots s.x yInc
      ((u.cellW + (step - 1)) / step) u
    refine Vdp2Screen.cellStep_congr (Vdp2Screen.cellStep_trans hu hrow) ?_ ?_ ?_ ?_
    · rw [hw]
      simp
    · rw [hy]
      push_cast
      ring
    · rw [hw]
      ring
    · rw [hw]
      ring
  · refine Vdp2Screen.cellStep_congr (Vdp2Screen.cellStep_refl s) ?_ ?_ ?_ ?_ <;> simp

/-- The effect of `drawCell` in each of the five colour depths. -/
theorem Vdp2Screen.drawCell_step (env : Env) (s : Vdp2Screen) :
    (s.colorNumber = 0 →
      s.cellStep (s.drawCell env)
        (if s.cellH.toNat = 0 then s.x
          else s.x + ((s.cellW + 3) / 4).toNat *
            (4 * (if s.flipFunction &&& 0x1 ≠ 0 then -1 else 1)))
        (s.y + s.cellH.toNat * (if s.flipFunction &&& 0x2 ≠ 0 then -1 else 1))
        (s.cellH.toNat * (((s.cellW + 3) / 4).toNat * 2))
        (s.cellH.toNat * (((s.cellW + 3) / 4).toNat * 4))) ∧
    (s.colorNumber = 1 →
      s.cellStep (s.drawCell env)
        (if s.cellH.toNat = 0 then s.x
          else s.x + ((s.cellW + 1) / 2).toNat *
            (2 * (if s.flipFunction &&& 0x1 ≠ 0 then -1 else 1)))
        (s.y + s.cellH.toNat * (if s.flipFunction &&& 0x2 ≠ 0 then -1 else 1))
        (s.cellH.toNat * (((s.cellW + 1) / 2).toNat * 2))
        (s.cellH.toNat * (((s.cellW + 1) / 2).toNat * 2))) ∧
    (s.colorNumber = 2 ∨ s.colorNumber = 3 →
      s.cellStep (s.drawCell env)
        (if s.cellH.toNat = 0 then s.x
          else s.x + s.cellW.toNat * (1 * (if s.flipFunction &&& 0x1 ≠ 0 then -1 else 1)))
        (s.y + s.cellH.toNat * (if s.flipFunction &&& 0x2 ≠ 0 then -1 else 1))
        (s.cellH.toNat * (s.cellW.toNat * 2))
        (s.cellH.toNat * (s.cellW.toNat * 1))) ∧
    (s.colorNumber = 4 →
      s.cellStep (s.drawCell env)
        (if s.cellH.toNat = 0 then s.x
          else s.x + s.cellW.toNat * (1 * (if s.flipFunction &&& 0x1 ≠ 0 then -1 else 1)))
        (s.y + s.cellH.toNat * (if s.flipFunction &&& 0x2 ≠ 0 then -1 else 1))
        (s.cellH.toNat * (s.cellW.toNat * 4))
        (s.cellH.toNat * (s.cellW.toNat * 1))) := by
  obtain ⟨d0, d1, d2, d3, d4⟩ := Vdp2Screen.drawCell_depth env s
  have e1 : (s.cellW + (1 - 1)) / 1 = s.cellW := by simp
  refine ⟨fun h => ?_, fun h => ?_, fun h => ?_, fun h => ?_⟩
  · rw [d0 h]
    exact Vdp2Screen.cellRows_step s 4 _ _ _ 2 4 (Vdp2Screen.dots4_step env _)
  · rw [d1 h]
    exact Vdp2Screen.cellRows_step s 2 _ _ _ 2 2 (Vdp2Screen.dots8_step env _)
  · rcases h with h | h
    · rw [d2 h]
      have := Vdp2Screen.cellRows_step s 1 (if s.flipFunction &&& 0x2 ≠ 0 then -1 else 1) _ _ 2 1
        (Vdp2Screen.dot11_step env (if s.flipFunction &&& 0x1 ≠ 0 then -1 else 1))
      rw [e1] at this
      exact this
    · rw [d3 h]
      have := Vdp2Screen.cellRows_step s 1 (if s.flipFunction &&& 0x2 ≠ 0 then -1 else 1) _ _ 2 1
        (Vdp2Screen.dot16_step env (if s.flipFunction &&& 0x1 ≠ 0 then -1 else 1))
      rw [e1] at this
      exact this
  · rw [d4 h]
    have := Vdp2Screen.cellRows_step s 1 (if s.flipFunction &&& 0x2 ≠ 0 then -1 else 1) _ _ 4 1
      (Vdp2Screen.dot32_step env (if s.flipFunction &&& 0x1 ≠ 0 then -1 else 1))
    rw [e1] at this
    exact this

/-! ## Grid walks -/

/-- A grid walk runs its body `h * w` times: whatever a run of the body takes
from step `k` to step `k + 1`, and the cursor resets leave alone, holds at
step `h * w` after the walk. -/
theorem Vdp2Screen.grid_invariant (body : Vdp2Screen → Vdp2Screen)
    (P : Nat → Vdp2Screen → Prop)
    (hx : ∀ k (t : Vdp2Screen) (x : Int), P k t → P k { t with x := x })
    (hy : ∀ k (t : Vdp2Screen) (y : Int), P k t → P k { t with y := y })
    (hbody : ∀ k t, P k t → P (k + 1) (body t))
    (s : Vdp2Screen) (h w : Int) (h0 : P 0 s) :
    P (h.toNat * w.toNat) (s.grid h w body) := by
  unfold Vdp2Screen.grid forLoop
  simp only
  refine iterate_invariant (fun i u => P (i * w.toNat) u) _ ?_ h.toNat s ?_
  · intro i u hu
    have e : (i + 1) * w.toNat = i * w.toNat + w.toNat := by ring
    rw [e]
    refine iterate_invariant (fun j v => P (i * w.toNat + j) v) _ ?_ w.toNat _ ?_
    · intro j v hv
      exact hbody _ _ (hy _ _ _ hv)
    · exact hx _ _ _ hu
  · simpa using h0

theorem Vdp2Screen.mapStep_congr {s t : Vdp2Screen} {x y x' y' : Int} {b p b' p' : Nat}
    (h : s.mapStep t x y b p) (hx : x = x') (hy : y = y') (hb : b = b') (hp : p = p') :
    s.mapStep t x' y' b' p' := by
  subst hx hy hb hp
  exact h

theorem Vdp2Screen.mapStep_refl (s : Vdp2Screen) : s.mapStep s s.x s.y 0 0 :=
  ⟨rfl, rfl, rfl, rfl, fun h => h, rfl⟩

theorem Vdp2Screen.mapStep_setX (s : Vdp2Screen) (X : Int) :
    s.mapStep { s with x := X } X s.y 0 0 :=
  ⟨rfl, rfl, rfl, rfl, fun h => h, rfl⟩

theorem Vdp2Screen.mapStep_setY (s : Vdp2Screen) (Y : Int) :
    s.mapStep { s with y := Y } s.x Y 0 0 :=
  ⟨rfl, rfl, rfl, rfl, fun h => h, rfl⟩

theorem Vdp2Screen.mapStep_trans {s t u : Vdp2Screen} {x y x' y' : Int} {b p b' p' : Nat}
    (h1 : s.mapStep t x y b p) (h2 : t.mapStep u x' y' b' p') :
    s.mapStep u x' y' (b + b') (p + p') := by
  obtain ⟨f1, -, -, c1, l1, n1⟩ := h1
  obtain ⟨f2, hx, hy, c2, l2, n2⟩ := h2
  refine ⟨f2.trans f1, hx, hy, ?_, fun h => l2 (l1 h), ?_⟩
  · unfold ulong at *
    omega
  · omega

/-- A run of `drawCell` statements is a run of the map walk that reads no
pattern name. -/
theorem Vdp2Screen.mapStep_of_cellStep {s t : Vdp2Screen} {x y : Int} {b p : Nat}
    (h : s.cellStep t x y b p) : s.mapStep t x y 0 p := by
  obtain ⟨f, hx, hy, -, -, n⟩ := h
  have ha : t.addr = s.addr := by
    have := congrArg Vdp2Screen.addr f
    exact this
  exact ⟨congrArg Vdp2Screen.nameFrame f, hx, hy, by rw [ha]; rfl, fun h => by rw [ha]; exact h, n⟩

theorem Vdp2Screen.cellStep_gridRow (F : Vdp2Screen) (body : Vdp2Screen → Vdp2Screen) (dx dy : Int)
    (b p : Nat)
    (hbody : ∀ u : Vdp2Screen, u.cellFrame = F → u.cellStep (body u) (u.x + dx) (u.y + dy) b p)
    (X : Int) (w : Nat) (t : Vdp2Screen) (ht : t.cellFrame = F) :
    t.cellStep ((fun u : Vdp2Screen => body { u with y := t.y })^[w] { t with x := X })
      (if w = 0 then X else X + w * dx) (if w = 0 then t.y else t.y + dy) (w * b) (w * p) := by
  refine iterate_invariant
    (fun j u => t.cellStep u (if j = 0 then X else X + j * dx) (if j = 0 then t.y else t.y + dy)
      (j * b) (j * p)) _ ?_ w _ ?_
  · intro j u hu
    have hx : u.x = if j = 0 then X else X + j * dx := hu.2.1
    have hF : Vdp2Screen.cellFrame { u with y := t.y } = F := (hu.1.trans ht : u.cellFrame = F)
    have h1 := Vdp2Screen.cellStep_setY u t.y
    have h2 := hbody { u with y := t.y } hF
    refine Vdp2Screen.cellStep_congr
      (Vdp2Screen.cellStep_trans hu (Vdp2Screen.cellStep_trans h1 h2)) ?_ ?_ ?_ ?_
    · show u.x + dx = _
      rw [hx, if_neg (Nat.succ_ne_zero j)]
      by_cases h0 : j = 0
      · subst h0
        simp
      · rw [if_neg h0]
        push_cast
        ring
    · simp
    · ring
    · ring
  · refine Vdp2Screen.cellStep_congr (Vdp2Screen.cellStep_setX t X) ?_ ?_ ?_ ?_ <;> simp

/-- A grid walk of `h` rows of `w` runs of a body that, on every state with
the frame `F`, moves the cursor by `(dx, dy)`, reads `b` bytes and draws `p`
pixels. -/
theorem Vdp2Screen.cellStep_grid (body : Vdp2Screen → Vdp2Screen) (dx dy : Int) (b p : Nat)
    (s : Vdp2Screen)
    (hbody : ∀ u : Vdp2Screen, u.cellFrame = s.cellFrame → u.cellStep (body u) (u.x + dx) (u.y + dy) b p)
    (h w : Int) :
    s.cellStep (s.grid h w body)
      (if h.toNat = 0 ∨ w.toNat = 0 then s.x else s.x + w.toNat * dx)
      (if h.toNat = 0 ∨ w.toNat = 0 then s.y else s.y + h.toNat * dy)
      (h.toNat * (w.toNat * b)) (h.toNat * (w.toNat * p)) := by
  unfold Vdp2Screen.grid forLoop
  simp only
  refine iterate_invariant
    (fun i u => s.cellStep u
      (if i = 0 ∨ w.toNat = 0 then s.x else s.x + w.toNat * dx)
      (if i = 0 ∨ w.toNat = 0 then s.y else s.y + i * dy)
      (i * (w.toNat * b)) (i * (w.toNat * p))) _ ?_ h.toNat s ?_
  · intro i u hu
    have hy : u.y = if i = 0 ∨ w.toNat = 0 then s.y else s.y + i * dy := hu.2.2.1
    have hrow := Vdp2Screen.cellStep_gridRow s.cellFrame body dx dy b p hbody s.x w.toNat u hu.1
    refine Vdp2Screen.cellStep_congr (Vdp2Screen.cellStep_trans hu hrow) ?_ ?_ ?_ ?_
    · by_cases hw : w.toNat = 0 <;> simp [hw]
    · rw [hy]
      by_cases hw : w.toNat = 0
      · simp [hw]
      · by_cases hi : i = 0
        · subst hi
          simp [hw]
        · simp only [hw, hi, or_self, if_false, Nat.succ_ne_zero, false_or]
          push_cast
          ring
    · ring
    · ring
  · refine Vdp2Screen.cellStep_congr (Vdp2Screen.cellStep_refl s) ?_ ?_ ?_ ?_ <;> simp

theorem Vdp2Screen.mapStep_gridRow (F : Vdp2Screen) (body : Vdp2Screen → Vdp2Screen) (dx dy : Int)
    (b p : Nat)
    (hbody : ∀ u : Vdp2Screen, u.mapFrame = F → u.mapStep (body u) (u.x + dx) (u.y + dy) b p)
    (X : Int) (w : Nat) (t : Vdp2Screen) (ht : t.mapFrame = F) :
    t.mapStep ((fun u : Vdp2Screen => body { u with y := t.y })^[w] { t with x := X })
      (if w = 0 then X else X + w * dx) (if w = 0 then t.y else t.y + dy) (w * b) (w * p) := by
  refine iterate_invariant
    (fun j u => t.mapStep u (if j = 0 then X else X + j * dx) (if j = 0 then t.y else t.y + dy)
      (j * b) (j * p)) _ ?_ w _ ?_
  · intro j u hu
    have hx : u.x = if j = 0 then X else X + j * dx := hu.2.1
    have hF : Vdp2Screen.mapFrame { u with y := t.y } = F := (hu.1.trans ht : u.mapFrame = F)
    have h1 := Vdp2Screen.mapStep_setY u t.y
    have h2 := hbody { u with y := t.y } hF
    refine Vdp2Screen.mapStep_congr
      (Vdp2Screen.mapStep_trans hu (Vdp2Screen.mapStep_trans h1 h2)) ?_ ?_ ?_ ?_
    · show u.x + dx = _
      rw [hx, if_neg (Nat.succ_ne_zero j)]
      by_cases h0 : j = 0
      · subst h0
        simp
      · rw [if_neg h0]
        push_cast
        ring
    · simp
    · ring
    · ring
  · refine Vdp2Screen.mapStep_congr (Vdp2Screen.mapStep_setX t X) ?_ ?_ ?_ ?_ <;> simp

/-- A grid walk of `h` rows of `w` runs of a body that, on every state with
the frame `F`, moves the cursor by `(dx, dy)`, reads `b` bytes and draws `p`
pixels. -/
theorem Vdp2Screen.mapStep_grid (body : Vdp2Screen → Vdp2Screen) (dx dy : Int) (b p : Nat)
    (s : Vdp2Screen)
    (hbody : ∀ u : Vdp2Screen, u.mapFrame = s.mapFrame → u.mapStep (body u) (u.x + dx) (u.y + dy) b p)
    (h w : Int) :
    s.mapStep (s.grid h w body)
      (if h.toNat = 0 ∨ w.toNat = 0 then s.x else s.x + w.toNat * dx)
      (if h.toNat = 0 ∨ w.toNat = 0 then s.y else s.y + h.toNat * dy)
      (h.toNat * (w.toNat * b)) (h.toNat * (w.toNat * p)) := by
  unfold Vdp2Screen.grid forLoop
  simp only
  refine iterate_invariant
    (fun i u => s.mapStep u
      (if i = 0 ∨ w.toNat = 0 then s.x else s.x + w.toNat * dx)
      (if i = 0 ∨ w.toNat = 0 then s.y else s.y + i * dy)
      (i * (w.toNat * b)) (i * (w.toNat * p))) _ ?_ h.toNat s ?_
  · intro i u hu
    have hy : u.y = if i = 0 ∨ w.toNat = 0 then s.y else s.y + i * dy := hu.2.2.1
    have hrow := Vdp2Screen.mapStep_gridRow s.mapFrame body dx dy b p hbody s.x w.toNat u hu.1
    refine Vdp2Screen.mapStep_congr (Vdp2Screen.mapStep_trans hu hrow) ?_ ?_ ?_ ?_
    · by_cases hw : w.toNat = 0 <;> simp [hw]
    · rw [hy]
      by_cases hw : w.toNat = 0
      · simp [hw]
      · by_cases hi : i = 0
        · subst hi
          simp [hw]
        · simp only [hw, hi, or_self, if_false, Nat.succ_ne_zero, false_or]
          push_cast
          ring
    · ring
    · ring
  · refine Vdp2Screen.mapStep_congr (Vdp2Screen.mapStep_refl s) ?_ ?_ ?_ ?_ <;> simp

/-! ## What the cell, pattern and pattern-name steps leave alone -/

theorem Vdp2Screen.drawCell_cellFrame (env : Env) (s : Vdp2Screen) :
    (s.drawCell env).cellFrame = s.cellFrame := by
  unfold Vdp2Screen.drawCell
  simp only
  split
  · exact (Vdp2Screen.cellRows_step s 4 _ _ _ 2 4 (Vdp2Screen.dots4_step env _)).1
  · exact (Vdp2Screen.cellRows_step s 2 _ _ _ 2 2 (Vdp2Screen.dots8_step env _)).1
  · exact (Vdp2Screen.cellRows_step s 1 _ _ _ 2 1 (Vdp2Screen.dot11_step env _)).1
  · exact (Vdp2Screen.cellRows_step s 1 _ _ _ 2 1 (Vdp2Screen.dot16_step env _)).1
  · exact (Vdp2Screen.cellRows_step s 1 _ _ _ 4 1 (Vdp2Screen.dot32_step env _)).1
  · rfl

/-- Method `drawPattern` with its two flip tests written out. -/
theorem Vdp2Screen.drawPattern_eq (env : Env) (s : Vdp2Screen) :
    s.drawPattern env =
      { (Vdp2Screen.grid
            { s with
              x := s.x + (if s.flipFunction &&& 0x1 ≠ 0 then s.patternWH * 8 - 1 else 0)
              y := s.y + (if s.flipFunction &&& 0x2 ≠ 0 then s.patternWH * 8 - 1 else 0) }
            s.patternWH s.patternWH (Vdp2Screen.drawCell env)) with
        x := (Vdp2Screen.grid
            { s with
              x := s.x + (if s.flipFunction &&& 0x1 ≠ 0 then s.patternWH * 8 - 1 else 0)
              y := s.y + (if s.flipFunction &&& 0x2 ≠ 0 then s.patternWH * 8 - 1 else 0) }
            s.patternWH s.patternWH (Vdp2Screen.drawCell env)).x +
          (if s.flipFunction &&& 0x1 ≠ 0 then s.patternWH * 8 + 1 else 0)
        y := (Vdp2Screen.grid
            { s with
              x := s.x + (if s.flipFunction &&& 0x1 ≠ 0 then s.patternWH * 8 - 1 else 0)
              y := s.y + (if s.flipFunction &&& 0x2 ≠ 0 then s.patternWH * 8 - 1 else 0) }
            s.patternWH s.patternWH (Vdp2Screen.drawCell env)).y +
          (if s.flipFunction &&& 0x2 ≠ 0 then s.patternWH * 8 + 1 else 0) } := by
  unfold Vdp2Screen.drawPattern
  by_cases h1 : s.flipFunction &&& 0x1 = 0 <;> by_cases h2 : s.flipFunction &&& 0x2 = 0 <;>
    simp only [h1, h2, ne_eq, not_true_eq_false, not_false_eq_true, if_true, if_false,
      add_zero]

theorem Vdp2Screen.drawPattern_cellFrame (env : Env) (s : Vdp2Screen) :
    (s.drawPattern env).cellFrame = s.cellFrame := by
  rw [Vdp2Screen.drawPattern_eq]
  exact Vdp2Screen.grid_invariant (Vdp2Screen.drawCell env)
    (fun _ u => u.cellFrame = s.cellFrame) (fun _ _ _ h => h) (fun _ _ _ h => h)
    (fun _ t h => (Vdp2Screen.drawCell_cellFrame env t).trans h) _ _ _ rfl

theorem Vdp2Screen.patternName_nameFrame (env : Env) (s : Vdp2Screen) :
    (s.patternName env).nameFrame = s.nameFrame := by
  unfold Vdp2Screen.patternName
  simp only
  (repeat' split) <;> rfl

theorem Vdp2Screen.patternAddr_nameFrame (env : Env) (s : Vdp2Screen) :
    (s.patternAddr env).nameFrame = s.nameFrame := by
  rw [← Vdp2Screen.patternName_nameFrame env s]
  unfold Vdp2Screen.patternAddr
  simp only
  split_ifs <;> rfl

theorem Vdp2Screen.patternName_addr (env : Env) (s : Vdp2Screen) :
    (s.patternDataSize = 1 → (s.patternName env).addr = ulong (s.addr + 2)) ∧
    (s.patternDataSize = 2 → (s.patternName env).addr = ulong (ulong (s.addr + 2) + 2)) := by
  constructor
  · intro h
    unfold Vdp2Screen.patternName
    simp only [h, if_true]
    (repeat' split) <;> rfl
  · intro h
    exact (Vdp2Screen.patternName_twoWord env s h).2.2.2.2

/-- Method `patternAddr` reads one pattern name: `addr` advances by
`2 * patternDataSize` bytes, the cursor and the log stay. -/
theorem Vdp2Screen.patternAddr_step (env : Env) (s : Vdp2Screen)
    (h : s.patternDataSize = 1 ∨ s.patternDataSize = 2) :
    s.mapStep (s.patternAddr env) s.x s.y (2 * s.patternDataSize.toNat) 0 := by
  have hf := Vdp2Screen.patternAddr_nameFrame env s
  have hx : (s.patternAddr env).x = s.x := by
    have := congrArg Vdp2Screen.x hf
    exact this
  have hy : (s.patternAddr env).y = s.y := by
    have := congrArg Vdp2Screen.y hf
    exact this
  have ht : (s.patternAddr env).trace = s.trace := by
    have := congrArg Vdp2Screen.trace hf
    exact this
  have hm : (s.patternAddr env).mapFrame = s.mapFrame := by
    have := congrArg Vdp2Screen.cellFrame hf
    exact this
  have ha := (Vdp2Screen.patternAddr_fields env s).2.2.2
  obtain ⟨a1, a2⟩ := Vdp2Screen.patternName_addr env s
  refine ⟨hm, hx, hy, ?_, ?_, by rw [ht]; rfl⟩
  · rcases h with h | h
    · rw [ha, a1 h, h]
      unfold ulong
      simp
    · rw [ha, a2 h, h]
      unfold ulong
      simp
  · intro _
    rcases h with h | h
    · rw [ha, a1 h]
      unfold ulong
      omega
    · rw [ha, a2 h]
      unfold ulong
      omega

/-! ## The pattern names a page and a plane read -/

theorem Vdp2Screen.addrStep_of_mapStep {s t : Vdp2Screen} {x y : Int} {b p : Nat}
    (h : s.mapStep t x y b p) : s.addrStep t b :=
  ⟨h.1, h.2.2.2.1, h.2.2.2.2.1⟩

theorem Vdp2Screen.addrStep_trans {s t u : Vdp2Screen} {b b' : Nat}
    (h1 : s.addrStep t b) (h2 : t.addrStep u b') : s.addrStep u (b + b') := by
  obtain ⟨f1, c1, l1⟩ := h1
  obtain ⟨f2, c2, l2⟩ := h2
  refine ⟨f2.trans f1, ?_, fun h => l2 (l1 h)⟩
  unfold ulong at *
  omega

theorem Vdp2Screen.addrStep_grid (body : Vdp2Screen → Vdp2Screen) (c : Nat) (s : Vdp2Screen)
    (hbody : ∀ u : Vdp2Screen, u.mapFrame = s.mapFrame → u.addrStep (body u) c) (h w : Int) :
    s.addrStep (s.grid h w body) (h.toNat * w.toNat * c) := by
  refine Vdp2Screen.grid_invariant body (fun k u => s.addrStep u (k * c)) ?_ ?_ ?_ s h w ?_
  · intro k t x ht
    exact ht
  · intro k t y ht
    exact ht
  · intro k t ht
    have := Vdp2Screen.addrStep_trans ht (hbody t ht.1)
    have e : (k + 1) * c = k * c + c := by ring
    rw [e]
    exact this
  · refine ⟨rfl, ?_, fun h => h⟩
    simp

theorem Vdp2Screen.mapFrame_fields {s t : Vdp2Screen} (h : t.mapFrame = s.mapFrame) :
    t.cellW = s.cellW ∧ t.cellH = s.cellH ∧ t.colorNumber = s.colorNumber ∧
    t.patternWH = s.patternWH ∧ t.patternDataSize = s.patternDataSize ∧
    t.pageWH = s.pageWH ∧ t.planeW = s.planeW ∧ t.planeH = s.planeH := by
  have h1 := congrArg Vdp2Screen.cellW h
  have h2 := congrArg Vdp2Screen.cellH h
  have h3 := congrArg Vdp2Screen.colorNumber h
  have h5 := congrArg Vdp2Screen.patternWH h
  have h6 := congrArg Vdp2Screen.patternDataSize h
  have h7 := congrArg Vdp2Screen.pageWH h
  have h8 := congrArg Vdp2Screen.planeW h
  have h9 := congrArg Vdp2Screen.planeH h
  exact ⟨h1, h2, h3, h5, h6, h7, h8, h9⟩

/-- One pattern of a page: a pattern name is read and the pattern drawn. -/
theorem Vdp2Screen.pattern_addrStep (env : Env) (s : Vdp2Screen)
    (h : s.patternDataSize = 1 ∨ s.patternDataSize = 2) :
    s.addrStep ((s.patternAddr env).drawPattern env) (2 * s.patternDataSize.toNat) := by
  have h1 := Vdp2Screen.addrStep_of_mapStep (Vdp2Screen.patternAddr_step env s h)
  have hf := Vdp2Screen.drawPattern_cellFrame env (s.patternAddr env)
  have ha : ((s.patternAddr env).drawPattern env).addr = (s.patternAddr env).addr := by
    have := congrArg Vdp2Screen.addr hf
    exact this
  have hm : ((s.patternAddr env).drawPattern env).mapFrame = (s.patternAddr env).mapFrame := by
    have := congrArg Vdp2Screen.nameFrame hf
    exact this
  have h2 : (s.patternAddr env).addrStep ((s.patternAddr env).drawPattern env) 0 :=
    ⟨hm, by rw [ha]; rfl, fun h => by rw [ha]; exact h⟩
  exact Vdp2Screen.addrStep_trans h1 h2

theorem Vdp2Screen.drawPage_addrStep (env : Env) (s : Vdp2Screen)
    (h : s.patternDataSize = 1 ∨ s.patternDataSize = 2) :
    s.addrStep (s.drawPage env)
      (s.pageWH.toNat * s.pageWH.toNat * (2 * s.patternDataSize.toNat)) := by
  unfold Vdp2Screen.drawPage
  refine Vdp2Screen.addrStep_grid _ _ s ?_ _ _
  intro u hu
  have hp : u.patternDataSize = s.patternDataSize := (Vdp2Screen.mapFrame_fields hu).2.2.2.2.1
  rw [← hp]
  exact Vdp2Screen.pattern_addrStep env u (by rw [hp]; exact h)

theorem Vdp2Screen.drawPlane_addrStep (env : Env) (s : Vdp2Screen)
    (h : s.patternDataSize = 1 ∨ s.patternDataSize = 2) :
    s.addrStep (s.drawPlane env)
      (s.planeH.toNat * s.planeW.toNat *
        (s.pageWH.toNat * s.pageWH.toNat * (2 * s.patternDataSize.toNat))) := by
  unfold Vdp2Screen.drawPlane
  refine Vdp2Screen.addrStep_grid _ _ s ?_ _ _
  intro u hu
  obtain ⟨-, -, -, -, hp, hg, -, -⟩ := Vdp2Screen.mapFrame_fields hu
  rw [← hp, ← hg]
  exact Vdp2Screen.drawPage_addrStep env u (by rw [hp]; exact h)

/-- The pattern-name bytes of one page are the per-page multiplier of
`planeAddr`. -/
theorem pageBytes_eq (pds wh pageWH : Int) (hp : pds = 1 ∨ pds = 2) (hw : wh = 1 ∨ wh = 2)
    (hg : pageWH = 64 / wh) :
    pageWH.toNat * pageWH.toNat * (2 * pds.toNat) = pageBytes pds wh ∧
    pageWH * (8 * wh) = 512 := by
  unfold pageBytes
  rcases hp with rfl | rfl <;> rcases hw with rfl | rfl <;> subst hg <;> decide

/-! ## The cursor over a pattern, a page and a plane -/

/-- An 8x8 cell in one of the five colour depths: 64 pixels, and the cursor
moves 8 along each axis, backwards along a flipped one. -/
theorem Vdp2Screen.drawCell_step8 (env : Env) (u : Vdp2Screen)
    (hW : u.cellW = 8) (hH : u.cellH = 8) (hc : u.colorNumber ≤ 4) :
    u.cellStep (u.drawCell env)
      (u.x + 8 * (if u.flipFunction &&& 0x1 ≠ 0 then -1 else 1))
      (u.y + 8 * (if u.flipFunction &&& 0x2 ≠ 0 then -1 else 1))
      (cellBytes u.colorNumber) 64 := by
  obtain ⟨c0, c1, c23, c4⟩ := Vdp2Screen.drawCell_step env u
  have e8 : (8 : Int).toNat = 8 := rfl
  have e0 : (((8 : Int) + 3) / 4).toNat = 2 := rfl
  have e1 : (((8 : Int) + 1) / 2).toNat = 4 := rfl
  have hcases : u.colorNumber = 0 ∨ u.colorNumber = 1 ∨ u.colorNumber = 2 ∨
      u.colorNumber = 3 ∨ u.colorNumber = 4 := by omega
  rcases hcases with h | h | h | h | h
  · have := c0 h
    rw [hW, hH, e8, e0] at this
    refine Vdp2Screen.cellStep_congr this ?_ ?_ ?_ ?_
    · simp only [if_neg (by decide : ¬ (8 : Nat) = 0)]
      push_cast
      ring
    · push_cast
      ring
    · rw [h]
      rfl
    · rfl
  · have := c1 h
    rw [hW, hH, e8, e1] at this
    refine Vdp2Screen.cellStep_congr this ?_ ?_ ?_ ?_
    · simp only [if_neg (by decide : ¬ (8 : Nat) = 0)]
      push_cast
      ring
    · push_cast
      ring
    · rw [h]
      rfl
    · rfl
  · have := c23 (Or.inl h)
    rw [hW, hH, e8] at this
    refine Vdp2Screen.cellStep_congr this ?_ ?_ ?_ ?_
    · simp only [if_neg (by decide : ¬ (8 : Nat) = 0)]
      push_cast
      ring
    · push_cast
      ring
    · rw [h]
      rfl
    · rfl
  · have := c23 (Or.inr h)
    rw [hW, hH, e8] at this
    refine Vdp2Screen.cellStep_congr this ?_ ?_ ?_ ?_
    · simp only [if_neg (by decide : ¬ (8 : Nat) = 0)]
      push_cast
      ring
    · push_cast
      ring
    · rw [h]
      rfl
    · rfl
  · have := c4 h
    rw [hW, hH, e8] at this
    refine Vdp2Screen.cellStep_congr this ?_ ?_ ?_ ?_
    · simp only [if_neg (by decide : ¬ (8 : Nat) = 0)]
      push_cast
      ring
    · push_cast
      ring
    · rw [h]
      rfl
    · rfl

/-- A pattern of `patternWH x patternWH` 8x8 cells in one of the five colour
depths: whatever the flip bits, the cursor ends `patternWH * 8` further along
each axis. -/
theorem Vdp2Screen.drawPattern_step (env : Env) (s : Vdp2Screen)
    (hW : s.cellW = 8) (hH : s.cellH = 8) (hc : s.colorNumber ≤ 4) (hwh : 0 < s.patternWH) :
    s.cellStep (s.drawPattern env) (s.x + s.patternWH * 8) (s.y + s.patternWH * 8)
      (s.patternWH.toNat * (s.patternWH.toNat * cellBytes s.colorNumber))
      (s.patternWH.toNat * (s.patternWH.toNat * 64)) := by
  rw [Vdp2Screen.drawPattern_eq]
  have hn : (s.patternWH.toNat : Int) = s.patternWH := Int.toNat_of_nonneg (by omega)
  have hn0 : s.patternWH.toNat ≠ 0 := by omega
  have h1 : s.cellStep
      { s with
        x := s.x + (if s.flipFunction &&& 0x1 ≠ 0 then s.patternWH * 8 - 1 else 0)
        y := s.y + (if s.flipFunction &&& 0x2 ≠ 0 then s.patternWH * 8 - 1 else 0) }
      (s.x + (if s.flipFunction &&& 0x1 ≠ 0 then s.patternWH * 8 - 1 else 0))
      (s.y + (if s.flipFunction &&& 0x2 ≠ 0 then s.patternWH * 8 - 1 else 0)) 0 0 :=
    ⟨rfl, rfl, rfl, rfl, fun h => h, rfl⟩
  have h2 := Vdp2Screen.cellStep_grid (Vdp2Screen.drawCell env)
    (8 * (if s.flipFunction &&& 0x1 ≠ 0 then -1 else 1))
    (8 * (if s.flipFunction &&& 0x2 ≠ 0 then -1 else 1)) (cellBytes s.colorNumber) 64
    { s with
      x := s.x + (if s.flipFunction &&& 0x1 ≠ 0 then s.patternWH * 8 - 1 else 0)
      y := s.y + (if s.flipFunction &&& 0x2 ≠ 0 then s.patternWH * 8 - 1 else 0) }
    (by
      intro u hu
      obtain ⟨f1, f2, f3, f4, -⟩ := Vdp2Screen.cellFrame_fields hu
      have := Vdp2Screen.drawCell_step8 env u (f1.trans hW) (f2.trans hH)
        (by rw [f3]; exact hc)
      rw [f3, f4] at this
      exact this)
    s.patternWH s.patternWH
  have h12 := Vdp2Screen.cellStep_trans h1 h2
  have h3 := Vdp2Screen.cellStep_trans h12
    (Vdp2Screen.cellStep_trans
      (Vdp2Screen.cellStep_setX _ ((Vdp2Screen.grid
            { s with
              x := s.x + (if s.flipFunction &&& 0x1 ≠ 0 then s.patternWH * 8 - 1 else 0)
              y := s.y + (if s.flipFunction &&& 0x2 ≠ 0 then s.patternWH * 8 - 1 else 0) }
            s.patternWH s.patternWH (Vdp2Screen.drawCell env)).x +
          (if s.flipFunction &&& 0x1 ≠ 0 then s.patternWH * 8 + 1 else 0)))
      (Vdp2Screen.cellStep_setY _ ((Vdp2Screen.grid
            { s with
              x := s.x + (if s.flipFunction &&& 0x1 ≠ 0 then s.patternWH * 8 - 1 else 0)
              y := s.y + (if s.flipFunction &&& 0x2 ≠ 0 then s.patternWH * 8 - 1 else 0) }
            s.patternWH s.patternWH (Vdp2Screen.drawCell env)).y +
          (if s.flipFunction &&& 0x2 ≠ 0 then s.patternWH * 8 + 1 else 0))))
  have hx := h12.2.1
  have hy := h12.2.2.1
  refine Vdp2Screen.cellStep_congr h3 ?_ ?_ ?_ ?_
  · show _ + _ = _
    rw [hx]
    simp only [hn0, or_self, if_false, hn]
    split_ifs <;> ring
  · rw [hy]
    simp only [hn0, or_self, if_false, hn]
    split_ifs <;> ring
  · omega
  · omega

/-- One pattern of a page in one of the five colour depths: a pattern name
is read, `64 * patternWH^2` pixels are drawn and the cursor moves
`patternWH * 8` along each axis. -/
theorem Vdp2Screen.pattern_mapStep (env : Env) (u : Vdp2Screen)
    (hW : u.cellW = 8) (hH : u.cellH = 8) (hc : u.colorNumber ≤ 4) (hwh : 0 < u.patternWH)
    (hp : u.patternDataSize = 1 ∨ u.patternDataSize = 2) :
    u.mapStep ((u.patternAddr env).drawPattern env) (u.x + u.patternWH * 8)
      (u.y + u.patternWH * 8) (2 * u.patternDataSize.toNat)
      (u.patternWH.toNat * (u.patternWH.toNat * 64)) := by
  have h1 := Vdp2Screen.patternAddr_step env u hp
  obtain ⟨f1, f2, f3, f4, -⟩ := Vdp2Screen.mapFrame_fields h1.1
  have h2 := Vdp2Screen.mapStep_of_cellStep
    (Vdp2Screen.drawPattern_step env (u.patternAddr env) (f1.trans hW) (f2.trans hH)
      (by rw [f3]; exact hc) (by rw [f4]; exact hwh))
  refine Vdp2Screen.mapStep_congr (Vdp2Screen.mapStep_trans h1 h2) ?_ ?_ ?_ ?_
  · rw [h1.2.1, f4]
  · rw [h1.2.2.1, f4]
  · omega
  · rw [f4]
    omega

/-- A page in one of the five colour depths: `pageWH^2` pattern names are
read, each pattern is drawn, and the cursor moves `pageWH * patternWH * 8`
along each axis. -/
theorem Vdp2Screen.drawPage_step (env : Env) (s : Vdp2Screen)
    (hW : s.cellW = 8) (hH : s.cellH = 8) (hc : s.colorNumber ≤ 4) (hwh : 0 < s.patternWH)
    (hp : s.patternDataSize = 1 ∨ s.patternDataSize = 2) :
    s.mapStep (s.drawPage env)
      (if s.pageWH.toNat = 0 ∨ s.pageWH.toNat = 0 then s.x
        else s.x + s.pageWH.toNat * (s.patternWH * 8))
      (if s.pageWH.toNat = 0 ∨ s.pageWH.toNat = 0 then s.y
        else s.y + s.pageWH.toNat * (s.patternWH * 8))
      (s.pageWH.toNat * (s.pageWH.toNat * (2 * s.patternDataSize.toNat)))
      (s.pageWH.toNat * (s.pageWH.toNat * (s.patternWH.toNat * (s.patternWH.toNat * 64)))) := by
  unfold Vdp2Screen.drawPage
  refine Vdp2Screen.mapStep_grid _ _ _ _ _ s ?_ _ _
  intro u hu
  obtain ⟨f1, f2, f3, f4, f5, -⟩ := Vdp2Screen.mapFrame_fields hu
  have := Vdp2Screen.pattern_mapStep env u (f1.trans hW) (f2.trans hH) (by rw [f3]; exact hc)
    (by rw [f4]; exact hwh) (by rw [f5]; exact hp)
  rw [f4, f5] at this
  exact this

/-- A page of a layer that `init` configured for tile mode, in one of the
five colour depths: 512 pixels along each axis, 512 x 512 pixels drawn. -/
theorem Vdp2Screen.drawPage_step512 (env : Env) (s : Vdp2Screen)
    (hW : s.cellW = 8) (hH : s.cellH = 8) (hc : s.colorNumber ≤ 4)
    (hwh : s.patternWH = 1 ∨ s.patternWH = 2)
    (hp : s.patternDataSize = 1 ∨ s.patternDataSize = 2) (hg : s.pageWH = 64 / s.patternWH) :
    s.mapStep (s.drawPage env) (s.x + 512) (s.y + 512)
      (pageBytes s.patternDataSize s.patternWH) (512 * 512) := by
  have h := Vdp2Screen.drawPage_step env s hW hH hc (by omega) hp
  obtain ⟨hb, -⟩ := pageBytes_eq s.patternDataSize s.patternWH s.pageWH hp hwh hg
  refine Vdp2Screen.mapStep_congr h ?_ ?_ ?_ ?_
  · rcases hwh with hw | hw <;> rw [hg, hw] <;> rfl
  · rcases hwh with hw | hw <;> rw [hg, hw] <;> rfl
  · rw [← hb]
    ring
  · rcases hwh with hw | hw <;> rw [hg, hw] <;> rfl

/-- A plane of a layer that `init` configured for tile mode, in one of the
five colour depths. -/
theorem Vdp2Screen.drawPlane_step (env : Env) (s : Vdp2Screen)
    (hW : s.cellW = 8) (hH : s.cellH = 8) (hc : s.colorNumber ≤ 4)
    (hwh : s.patternWH = 1 ∨ s.patternWH = 2)
    (hp : s.patternDataSize = 1 ∨ s.patternDataSize = 2) (hg : s.pageWH = 64 / s.patternWH) :
    s.mapStep (s.drawPlane env)
      (if s.planeH.toNat = 0 ∨ s.planeW.toNat = 0 then s.x else s.x + s.planeW.toNat * 512)
      (if s.planeH.toNat = 0 ∨ s.planeW.toNat = 0 then s.y else s.y + s.planeH.toNat * 512)
      (s.planeH.toNat * (s.planeW.toNat * pageBytes s.patternDataSize s.patternWH))
      (s.planeH.toNat * (s.planeW.toNat * (512 * 512))) := by
  unfold Vdp2Screen.drawPlane
  refine Vdp2Screen.mapStep_grid _ _ _ _ _ s ?_ _ _
  intro u hu
  obtain ⟨f1, f2, f3, f4, f5, f6, -⟩ := Vdp2Screen.mapFrame_fields hu
  have := Vdp2Screen.drawPage_step512 env u (f1.trans hW) (f2.trans hH) (by rw [f3]; exact hc)
    (by rw [f4]; exact hwh) (by rw [f5]; exact hp) (by rw [f6, f4]; exact hg)
  rw [f4, f5] at this
  exact this

/-! ## Flipping as a mirror -/

theorem mirror_coord (a b x : Int) (ha : a * a = 1) : a * (a * (x - b)) + b = x := by
  have : a * (a * (x - b)) = (a * a) * (x - b) := by ring
  rw [this, ha]
  ring

theorem mirror_advance (a b x : Int) (ha : a * a = 1) : a * (x + a - b) = a * (x - b) + 1 := by
  have : a * (x + a - b) = a * (x - b) + a * a := by ring
  rw [this, ha]

theorem Vdp2Screen.mirror_plot (a b c d : Int) (ha : a * a = 1) (hc : c * c = 1)
    (s : Vdp2Screen) (color : Nat) :
    (s.plot color a).mirror a b c d = (s.mirror a b c d).plot color 1 := by
  unfold Vdp2Screen.plot Vdp2Screen.drawPixel Vdp2Screen.mirror
  simp only [mirror_coord a b _ ha, mirror_coord c d _ hc]
  split_ifs <;> simp [mirror_advance a b _ ha]

theorem Vdp2Screen.mirror_getColor (a b c d : Int) (env : Env) (s : Vdp2Screen) (index : Nat) :
    ((s.getColor env index).2).mirror a b c d = ((s.mirror a b c d).getColor env index).2 ∧
    (s.getColor env index).1 = ((s.mirror a b c d).getColor env index).1 :=
  ⟨rfl, rfl⟩

theorem Vdp2Screen.mirror_plotIndexed (a b c d : Int) (ha : a * a = 1) (hc : c * c = 1)
    (env : Env) (s : Vdp2Screen) (masked index : Nat) :
    (s.plotIndexed env masked index a).mirror a b c d =
      (s.mirror a b c d).plotIndexed env masked index 1 := by
  unfold Vdp2Screen.plotIndexed
  have ht : (s.mirror a b c d).transparencyEnable = s.transparencyEnable := rfl
  rw [ht]
  split_ifs
  · exact Vdp2Screen.mirror_plot a b c d ha hc s 0
  · rw [Vdp2Screen.mirror_plot a b c d ha hc]
    rfl

theorem Vdp2Screen.mirror_setCharAddr (a b c d : Int) (s : Vdp2Screen) (ca : Nat) :
    Vdp2Screen.mirror a b c d { s with charAddr := ca } =
      { s.mirror a b c d with charAddr := ca } := rfl

theorem Vdp2Screen.mirror_dots4 (a b c d : Int) (ha : a * a = 1) (hc : c * c = 1)
    (env : Env) (s : Vdp2Screen) :
    (s.dots4 env a).mirror a b c d = (s.mirror a b c d).dots4 env 1 := by
  unfold Vdp2Screen.dots4
  simp only [Vdp2Screen.mirror_plotIndexed a b c d ha hc, Vdp2Screen.plotIndexed_palAddr]
  rfl

theorem Vdp2Screen.mirror_dots8 (a b c d : Int) (ha : a * a = 1) (hc : c * c = 1)
    (env : Env) (s : Vdp2Screen) :
    (s.dots8 env a).mirror a b c d = (s.mirror a b c d).dots8 env 1 := by
  unfold Vdp2Screen.dots8
  simp only [Vdp2Screen.mirror_plotIndexed a b c d ha hc, Vdp2Screen.plotIndexed_palAddr]
  rfl

theorem Vdp2Screen.mirror_dot11 (a b c d : Int) (ha : a * a = 1) (hc : c * c = 1)
    (env : Env) (s : Vdp2Screen) :
    (s.dot11 env a).mirror a b c d = (s.mirror a b c d).dot11 env 1 := by
  rw [Vdp2Screen.dot11_eq, Vdp2Screen.dot11_eq]
  have ht : (s.mirror a b c d).transparencyEnable = s.transparencyEnable := rfl
  have hca : (s.mirror a b c d).charAddr = s.charAddr := rfl
  rw [ht, hca]
  split_ifs
  · rw [Vdp2Screen.mirror_plot a b c d ha hc]
    rfl
  · rw [Vdp2Screen.mirror_plot a b c d ha hc]
    rfl

theorem Vdp2Screen.mirror_dot16 (a b c d : Int) (ha : a * a = 1) (hc : c * c = 1)
    (env : Env) (s : Vdp2Screen) :
    (s.dot16 env a).mirror a b c d = (s.mirror a b c d).dot16 env 1 := by
  unfold Vdp2Screen.dot16
  simp only [Vdp2Screen.mirror_plot a b c d ha hc]
  rfl

theorem Vdp2Screen.mirror_dot32 (a b c d : Int) (ha : a * a = 1) (hc : c * c = 1)
    (env : Env) (s : Vdp2Screen) :
    (s.dot32 env a).mirror a b c d = (s.mirror a b c d).dot32 env 1 := by
  unfold Vdp2Screen.dot32
  simp only [Vdp2Screen.mirror_plot a b c d ha hc]
  rfl

theorem iterate_rel {σ τ : Type} (R : σ → τ → Prop) (f : σ → σ) (g : τ → τ)
    (hstep : ∀ x y, R x y → R (f x) (g y)) (n : Nat) (x : σ) (y : τ) (h : R x y) :
    R (f^[n] x) (g^[n] y) := by
  induction n generalizing x y with
  | zero => exact h
  | succ n ih =>
    rw [Function.iterate_succ_apply, Function.iterate_succ_apply]
    exact ih _ _ (hstep _ _ h)

theorem Vdp2Screen.mirror_addY (a b c d : Int) (hc : c * c = 1) (w : Vdp2Screen) :
    Vdp2Screen.mirror a b c d { w with y := w.y + c } =
      { w.mirror a b c d with y := (w.mirror a b c d).y + 1 } := by
  unfold Vdp2Screen.mirror
  simp [mirror_advance c d _ hc]

theorem Vdp2Screen.mirror_cellRows (a b c d : Int) (hc : c * c = 1) (step : Int)
    (dotsA dotsB : Vdp2Screen → Vdp2Screen)
    (hdots : ∀ u : Vdp2Screen, (dotsA u).mirror a b c d = dotsB (u.mirror a b c d))
    (s : Vdp2Screen) :
    (s.cellRows step c dotsA).mirror a b c d = (s.mirror a b c d).cellRows step 1 dotsB := by
  unfold Vdp2Screen.cellRows forLoop
  simp only
  refine iterate_rel (fun (u v : Vdp2Screen) => u.mirror a b c d = v) _ _ ?_ _ _ _ rfl
  intro u v huv
  subst huv
  have hin : Vdp2Screen.mirror a b c d
      (dotsA^[((u.cellW + (step - 1)) / step).toNat] { u with x := s.x }) =
      dotsB^[((u.cellW + (step - 1)) / step).toNat]
        { u.mirror a b c d with x := (s.mirror a b c d).x } :=
    iterate_rel (fun (u v : Vdp2Screen) => u.mirror a b c d = v) dotsA dotsB
      (fun x y hxy => by rw [← hxy]; exact hdots x) _ _ _ rfl
  show Vdp2Screen.mirror a b c d
      { dotsA^[((u.cellW + (step - 1)) / step).toNat] { u with x := s.x } with
        y := (dotsA^[((u.cellW + (step - 1)) / step).toNat] { u with x := s.x }).y + c } = _
  rw [Vdp2Screen.mirror_addY a b c d hc, hin]
  rfl

theorem Vdp2Screen.drawCell_other (env : Env) (s : Vdp2Screen) (h : 4 < s.colorNumber) :
    s.drawCell env = s := by
  unfold Vdp2Screen.drawCell
  simp only
  split <;> first
    | omega
    | rfl

/-- Drawing a cell commutes with the mirror that reverses the flipped
axes. -/
theorem Vdp2Screen.mirror_drawCell (a b c d : Int) (env : Env) (s : Vdp2Screen)
    (ha : a = if s.flipFunction &&& 0x1 ≠ 0 then -1 else 1)
    (hc : c = if s.flipFunction &&& 0x2 ≠ 0 then -1 else 1) :
    (s.drawCell env).mirror a b c d = (s.mirror a b c d).drawCell env := by
  have haa : a * a = 1 := by
    rw [ha]
    split_ifs <;> rfl
  have hcc : c * c = 1 := by
    rw [hc]
    split_ifs <;> rfl
  have hf : (s.mirror a b c d).flipFunction = 0 := rfl
  have hn : (s.mirror a b c d).colorNumber = s.colorNumber := rfl
  have z1 : ¬ ((0 : Nat) &&& 0x1 ≠ 0) := by decide
  have z2 : ¬ ((0 : Nat) &&& 0x2 ≠ 0) := by decide
  by_cases h5 : 4 < s.colorNumber
  · rw [Vdp2Screen.drawCell_other env s h5,
      Vdp2Screen.drawCell_other env _ (by rw [hn]; exact h5)]
  · obtain ⟨p0, p1, p2, p3, p4⟩ := Vdp2Screen.drawCell_depth env s
    obtain ⟨q0, q1, q2, q3, q4⟩ := Vdp2Screen.drawCell_depth env (s.mirror a b c d)
    rw [hf, hn, if_neg z1, if_neg z2] at q0 q1 q2 q3 q4
    rw [← ha, ← hc] at p0 p1 p2 p3 p4
    have hcases : s.colorNumber = 0 ∨ s.colorNumber = 1 ∨ s.colorNumber = 2 ∨
        s.colorNumber = 3 ∨ s.colorNumber = 4 := by omega
    rcases hcases with h | h | h | h | h
    · rw [p0 h, q0 h]
      exact Vdp2Screen.mirror_cellRows a b c d hcc 4 _ _
        (Vdp2Screen.mirror_dots4 a b c d haa hcc env) s
    · rw [p1 h, q1 h]
      exact Vdp2Screen.mirror_cellRows a b c d hcc 2 _ _
        (Vdp2Screen.mirror_dots8 a b c d haa hcc env) s
    · rw [p2 h, q2 h]
      exact Vdp2Screen.mirror_cellRows a b c d hcc 1 _ _
        (Vdp2Screen.mirror_dot11 a b c d haa hcc env) s
    · rw [p3 h, q3 h]
      exact Vdp2Screen.mirror_cellRows a b c d hcc 1 _ _
        (Vdp2Screen.mirror_dot16 a b c d haa hcc env) s
    · rw [p4 h, q4 h]
      exact Vdp2Screen.mirror_cellRows a b c d hcc 1 _ _
        (Vdp2Screen.mirror_dot32 a b c d haa hcc env) s

/-- A grid walk commutes with the mirror when its body does, on the states
that a property kept by the body and by the cursor resets singles out. -/
theorem Vdp2Screen.mirror_grid (a b c d : Int) (bodyA bodyB : Vdp2Screen → Vdp2Screen)
    (I : Vdp2Screen → Prop)
    (hIx : ∀ (t : Vdp2Screen) (x : Int), I t → I { t with x := x })
    (hIy : ∀ (t : Vdp2Screen) (y : Int), I t → I { t with y := y })
    (hbody : ∀ u : Vdp2Screen, I u →
      I (bodyA u) ∧ (bodyA u).mirror a b c d = bodyB (u.mirror a b c d))
    (s : Vdp2Screen) (hs : I s) (h w : Int) :
    (s.grid h w bodyA).mirror a b c d = (s.mirror a b c d).grid h w bodyB := by
  unfold Vdp2Screen.grid forLoop
  simp only
  refine (iterate_rel (fun (u v : Vdp2Screen) => I u ∧ u.mirror a b c d = v) _ _ ?_ _ _ _ ⟨hs, rfl⟩).2
  intro t t' ⟨hIt, htt⟩
  subst htt
  refine iterate_rel (fun (u v : Vdp2Screen) => I u ∧ u.mirror a b c d = v) _ _ ?_ _ _ _ ⟨hIx _ _ hIt, rfl⟩
  intro u v ⟨hIu, huv⟩
  subst huv
  exact hbody _ (hIy _ _ hIu)

theorem Vdp2Screen.drawPattern_trace (env : Env) (s : Vdp2Screen) :
    (s.drawPattern env).trace =
      (s.patternStart.grid s.patternWH s.patternWH (Vdp2Screen.drawCell env)).trace ∧
    (s.drawPattern env).surface =
      (s.patternStart.grid s.patternWH s.patternWH (Vdp2Screen.drawCell env)).surface := by
  rw [Vdp2Screen.drawPattern_eq]
  exact ⟨rfl, rfl⟩

theorem Vdp2Screen.drawCell_flipFunction (env : Env) (s : Vdp2Screen) :
    (s.drawCell env).flipFunction = s.flipFunction := by
  have := congrArg Vdp2Screen.flipFunction (Vdp2Screen.drawCell_cellFrame env s)
  exact this

theorem Vdp2Screen.drawPattern_mirror_of (env : Env) (s : Vdp2Screen) (a b c d : Int)
    (ha : a = if s.flipFunction &&& 0x1 ≠ 0 then -1 else 1)
    (hc : c = if s.flipFunction &&& 0x2 ≠ 0 then -1 else 1)
    (hM : s.patternStart.mirror a b c d = s.unflipped.patternStart) :
    (s.drawPattern env).trace = (s.unflipped.drawPattern env).trace ∧
    (s.drawPattern env).surface = (s.unflipped.drawPattern env).surface := by
  obtain ⟨t1, s1⟩ := Vdp2Screen.drawPattern_trace env s
  obtain ⟨t2, s2⟩ := Vdp2Screen.drawPattern_trace env s.unflipped
  have key : (s.patternStart.grid s.patternWH s.patternWH (Vdp2Screen.drawCell env)).mirror
      a b c d =
      s.unflipped.patternStart.grid s.unflipped.patternWH s.unflipped.patternWH
        (Vdp2Screen.drawCell env) := by
    rw [← hM]
    refine Vdp2Screen.mirror_grid a b c d (Vdp2Screen.drawCell env) (Vdp2Screen.drawCell env)
      (fun u => u.flipFunction = s.flipFunction) (fun _ _ h => h) (fun _ _ h => h) ?_
      s.patternStart rfl s.patternWH s.patternWH
    intro u hu
    refine ⟨(Vdp2Screen.drawCell_flipFunction env u).trans hu, ?_⟩
    exact Vdp2Screen.mirror_drawCell a b c d env u (by rw [hu]; exact ha) (by rw [hu]; exact hc)
  rw [t1, s1, t2, s2, ← key]
  exact ⟨rfl, rfl⟩

theorem apply2_congr (f : Int → Int → Int) (p q p2 q2 : Int) (hp : p = p2) (hq : q = q2) :
    f p q = f p2 q2 := by
  rw [hp, hq]

/-- Flipping mirrors the whole pattern: the calls of `drawPattern` (and the
surface it leaves) are those of the same layer with its flip bits cleared and
its coordinate functions composed with the reflection of the pattern
square. -/
theorem Vdp2Screen.drawPattern_mirror (env : Env) (s : Vdp2Screen) :
    (s.drawPattern env).trace = (s.unflipped.drawPattern env).trace ∧
    (s.drawPattern env).surface = (s.unflipped.drawPattern env).surface := by
  by_cases h1 : s.flipFunction &&& 0x1 = 0 <;> by_cases h2 : s.flipFunction &&& 0x2 = 0
  · refine Vdp2Screen.drawPattern_mirror_of env s (1) (0) (1) (0)
      (by simp only [h1, ne_eq, not_true_eq_false, not_false_eq_true, if_true, if_false])
      (by simp only [h2, ne_eq, not_true_eq_false, not_false_eq_true, if_true, if_false]) ?_
    unfold Vdp2Screen.patternStart Vdp2Screen.unflipped Vdp2Screen.mirror
    simp only [h1, h2, Nat.zero_and, ne_eq, not_true_eq_false, not_false_eq_true, if_true,
      if_false, add_zero]
    simp only [Vdp2Screen.mk.injEq, true_and, and_true]
    refine ⟨by ring, by ring, ?_, ?_⟩ <;> funext x y <;> apply apply2_congr <;> ring
  · refine Vdp2Screen.drawPattern_mirror_of env s (1) (0) (-1) (2 * s.y + (s.patternWH * 8 - 1))
      (by simp only [h1, ne_eq, not_true_eq_false, not_false_eq_true, if_true, if_false])
      (by simp only [h2, ne_eq, not_true_eq_false, not_false_eq_true, if_true, if_false]) ?_
    unfold Vdp2Screen.patternStart Vdp2Screen.unflipped Vdp2Screen.mirror
    simp only [h1, h2, Nat.zero_and, ne_eq, not_true_eq_false, not_false_eq_true, if_true,
      if_false, add_zero]
    simp only [Vdp2Screen.mk.injEq, true_and, and_true]
    refine ⟨by ring, by ring, ?_, ?_⟩ <;> funext x y <;> apply apply2_congr <;> ring
  · refine Vdp2Screen.drawPattern_mirror_of env s (-1) (2 * s.x + (s.patternWH * 8 - 1)) (1) (0)
      (by simp only [h1, ne_eq, not_true_eq_false, not_false_eq_true, if_true, if_false])
      (by simp only [h2, ne_eq, not_true_eq_false, not_false_eq_true, if_true, if_false]) ?_
    unfold Vdp2Screen.patternStart Vdp2Screen.unflipped Vdp2Screen.mirror
    simp only [h1, h2, Nat.zero_and, ne_eq, not_true_eq_false, not_false_eq_true, if_true,
      if_false, add_zero]
    simp only [Vdp2Screen.mk.injEq, true_and, and_true]
    refine ⟨by ring, by ring, ?_, ?_⟩ <;> funext x y <;> apply apply2_congr <;> ring
  · refine Vdp2Screen.drawPattern_mirror_of env s (-1) (2 * s.x + (s.patternWH * 8 - 1)) (-1) (2 * s.y + (s.patternWH * 8 - 1))
      (by simp only [h1, ne_eq, not_true_eq_false, not_false_eq_true, if_true, if_false])
      (by simp only [h2, ne_eq, not_true_eq_false, not_false_eq_true, if_true, if_false]) ?_
    unfold Vdp2Screen.patternStart Vdp2Screen.unflipped Vdp2Screen.mirror
    simp only [h1, h2, Nat.zero_and, ne_eq, not_true_eq_false, not_false_eq_true, if_true,
      if_false, add_zero]
    simp only [Vdp2Screen.mk.injEq, true_and, and_true]
    refine ⟨by ring, by ring, ?_, ?_⟩ <;> funext x y <;> apply apply2_congr <;> ring

/-! ## The pixels and bytes of a cell of any size -/

theorem Vdp2Screen.cellStep_exact {s t : Vdp2Screen} {x y : Int} {b p : Nat}
    (h : s.cellStep t x y b p) (hfit : s.charAddr + b < 4294967296) :
    t.charAddr = s.charAddr + b := by
  obtain ⟨_, _, _, h4, h5, _⟩ := h
  have := h5 (by omega)
  unfold ulong at h4
  omega

theorem Vdp2Screen.addrStep_exact {s t : Vdp2Screen} {b : Nat}
    (h : s.addrStep t b) (hfit : s.addr + b < 4294967296) :
    t.addr = s.addr + b := by
  obtain ⟨_, h4, h5⟩ := h
  have := h5 (by omega)
  unfold ulong at h4
  omega

/-- A cell whose width is a multiple of 4: the `drawPixel` calls and the
character bytes of `drawCell` in each of the five colour depths. -/
theorem Vdp2Screen.drawCell_counts (env : Env) (s : Vdp2Screen) (m : Nat)
    (hW : s.cellW = 4 * m) :
    (s.colorNumber = 0 →
      pixelCount (s.drawCell env).trace =
        pixelCount s.trace + s.cellW.toNat * s.cellH.toNat ∧
      ulong (s.drawCell env).charAddr =
        ulong (s.charAddr + s.cellW.toNat * s.cellH.toNat / 2) ∧
      (s.charAddr + s.cellW.toNat * s.cellH.toNat / 2 < 4294967296 →
        (s.drawCell env).charAddr = s.charAddr + s.cellW.toNat * s.cellH.toNat / 2)) ∧
    (s.colorNumber = 1 →
      pixelCount (s.drawCell env).trace =
        pixelCount s.trace + s.cellW.toNat * s.cellH.toNat ∧
      ulong (s.drawCell env).charAddr =
        ulong (s.charAddr + s.cellW.toNat * s.cellH.toNat) ∧
      (s.charAddr + s.cellW.toNat * s.cellH.toNat < 4294967296 →
        (s.drawCell env).charAddr = s.charAddr + s.cellW.toNat * s.cellH.toNat)) ∧
    (s.colorNumber = 2 ∨ s.colorNumber = 3 →
      pixelCount (s.drawCell env).trace =
        pixelCount s.trace + s.cellW.toNat * s.cellH.toNat ∧
      ulong (s.drawCell env).charAddr =
        ulong (s.charAddr + 2 * (s.cellW.toNat * s.cellH.toNat)) ∧
      (s.charAddr + 2 * (s.cellW.toNat * s.cellH.toNat) < 4294967296 →
        (s.drawCell env).charAddr = s.charAddr + 2 * (s.cellW.toNat * s.cellH.toNat))) ∧
    (s.colorNumber = 4 →
      pixelCount (s.drawCell env).trace =
        pixelCount s.trace + s.cellW.toNat * s.cellH.toNat ∧
      ulong (s.drawCell env).charAddr =
        ulong (s.charAddr + 4 * (s.cellW.toNat * s.cellH.toNat)) ∧
      (s.charAddr + 4 * (s.cellW.toNat * s.cellH.toNat) < 4294967296 →
        (s.drawCell env).charAddr = s.charAddr + 4 * (s.cellW.toNat * s.cellH.toNat))) := by
  obtain ⟨c0, c1, c23, c4⟩ := Vdp2Screen.drawCell_step env s
  have e0 : ((s.cellW + 3) / 4).toNat = m := by
    rw [hW]
    omega
  have e1 : ((s.cellW + 1) / 2).toNat = 2 * m := by
    rw [hW]
    omega
  have e2 : s.cellW.toNat = 4 * m := by
    rw [hW]
    omega
  have b0 : s.cellH.toNat * (m * 2) = 4 * m * s.cellH.toNat / 2 := by
    have : 4 * m * s.cellH.toNat = 2 * (s.cellH.toNat * (m * 2)) := by ring
    rw [this]
    omega
  have p0 : s.cellH.toNat * (m * 4) = 4 * m * s.cellH.toNat := by ring
  have b1 : s.cellH.toNat * (2 * m * 2) = 4 * m * s.cellH.toNat := by ring
  have b2 : s.cellH.toNat * (4 * m * 2) = 2 * (4 * m * s.cellH.toNat) := by ring
  have p2 : s.cellH.toNat * (4 * m * 1) = 4 * m * s.cellH.toNat := by ring
  have b4 : s.cellH.toNat * (4 * m * 4) = 4 * (4 * m * s.cellH.toNat) := by ring
  refine ⟨fun h => ?_, fun h => ?_, fun h => ?_, fun h => ?_⟩
  · have h0 := c0 h
    rw [e0, b0, p0] at h0
    rw [e2]
    exact ⟨h0.2.2.2.2.2, h0.2.2.2.1, fun hf => Vdp2Screen.cellStep_exact h0 hf⟩
  · have h0 := c1 h
    rw [e1, b1] at h0
    rw [e2]
    exact ⟨h0.2.2.2.2.2, h0.2.2.2.1, fun hf => Vdp2Screen.cellStep_exact h0 hf⟩
  · have h0 := c23 h
    rw [e2, b2, p2] at h0
    rw [e2]
    exact ⟨h0.2.2.2.2.2, h0.2.2.2.1, fun hf => Vdp2Screen.cellStep_exact h0 hf⟩
  · have h0 := c4 h
    rw [e2, b4, p2] at h0
    rw [e2]
    exact ⟨h0.2.2.2.2.2, h0.2.2.2.1, fun hf => Vdp2Screen.cellStep_exact h0 hf⟩

/-! ## The plane base and the bytes of a plane -/

theorem planeAddrOf_mapFrame (tmp : Nat) (s : Vdp2Screen) :
    (planeAddrOf tmp s).mapFrame = s.mapFrame := by
  unfold planeAddrOf
  dsimp only
  split_ifs <;> rfl

theorem planeAddrOf_lt (tmp : Nat) (s : Vdp2Screen) :
    (planeAddrOf tmp s).addr < 4294967296 := by
  unfold planeAddrOf ulongOfInt
  dsimp only
  split_ifs <;> dsimp only <;> omega

/-- The plane base is a multiple, as an `unsigned long`, of the bytes of one
plane: `planeH * planeW` times the pattern-name bytes of a page. -/
theorem planeAddrOf_multiple (tmp : Nat) (s : Vdp2Screen)
    (hp : s.patternDataSize = 1 ∨ s.patternDataSize = 2)
    (hw : s.patternWH = 1 ∨ s.patternWH = 2) :
    ∃ k : Nat, (planeAddrOf tmp s).addr =
      ulongOfInt ((k : Int) *
        (s.planeH * s.planeW * (pageBytes s.patternDataSize s.patternWH : Nat))) := by
  obtain ⟨a11, a12, a21, a22⟩ := planeAddrOf_addr tmp s
  rcases hp with hp | hp <;> rcases hw with hw | hw
  · exact ⟨_, by rw [a11 hp hw, hp, hw]; rfl⟩
  · exact ⟨_, by rw [a12 hp hw, hp, hw]; rfl⟩
  · exact ⟨_, by rw [a21 hp hw, hp, hw]; rfl⟩
  · exact ⟨_, by rw [a22 hp hw, hp, hw]; rfl⟩

/-- The walk of one plane from its base: `addr` ends the bytes of the plane
past the base that `planeAddr` set. -/
theorem Vdp2Screen.drawPlane_from_base (env : Env) (tmp : Nat) (s : Vdp2Screen)
    (hp : s.patternDataSize = 1 ∨ s.patternDataSize = 2) :
    ulong ((planeAddrOf tmp s).drawPlane env).addr =
      ulong ((planeAddrOf tmp s).addr +
        s.planeH.toNat * s.planeW.toNat *
          (s.pageWH.toNat * s.pageWH.toNat * (2 * s.patternDataSize.toNat))) ∧
    ((planeAddrOf tmp s).addr +
        s.planeH.toNat * s.planeW.toNat *
          (s.pageWH.toNat * s.pageWH.toNat * (2 * s.patternDataSize.toNat)) < 4294967296 →
      ((planeAddrOf tmp s).drawPlane env).addr =
        (planeAddrOf tmp s).addr +
          s.planeH.toNat * s.planeW.toNat *
            (s.pageWH.toNat * s.pageWH.toNat * (2 * s.patternDataSize.toNat))) := by
  obtain ⟨_, _, _, _, f5, f6, f7, f8⟩ :=
    Vdp2Screen.mapFrame_fields (planeAddrOf_mapFrame tmp s)
  have h := Vdp2Screen.drawPlane_addrStep env (planeAddrOf tmp s) (by rw [f5]; exact hp)
  rw [f5, f6, f7, f8] at h
  exact ⟨h.2.1, fun hf => Vdp2Screen.addrStep_exact h hf⟩

/-! ## The palette index of the 4-bit and 8-bit depths -/

theorem masked_shift_lt (d mask k : Nat) (h : mask < 2 ^ k * 256) :
    (d &&& mask) >>> k < 256 := by
  rw [Nat.shiftRight_eq_div_pow]
  exact Nat.div_lt_of_lt_mul (lt_of_le_of_lt Nat.and_le_right h)

theorem indexBounded_append (a b : List CellEvent) :
    indexBounded (a ++ b) = (indexBounded a && indexBounded b) := by
  unfold indexBounded
  exact List.all_append

theorem Vdp2Screen.pixelCalls_bounded (env : Env) (s : Vdp2Screen) (n index : Nat) (x : Int)
    (h : index < 2048) : indexBounded (s.pixelCalls env n index x) = true := by
  unfold Vdp2Screen.pixelCalls indexBounded
  split_ifs <;> simp [CellEvent.indexBelow, h]

theorem Vdp2Screen.dots4_bounded (env : Env) (xInc : Int) (s : Vdp2Screen)
    (hp : s.palAddr < 128) (ht : indexBounded s.trace = true) :
    (s.dots4 env xInc).palAddr < 128 ∧ indexBounded (s.dots4 env xInc).trace = true := by
  have hf := congrArg Vdp2Screen.palAddr (Vdp2Screen.dots4_step env xInc s).1
  have hf' : (s.dots4 env xInc).palAddr = s.palAddr := hf
  refine ⟨by rw [hf']; exact hp, ?_⟩
  rw [Vdp2Screen.dots4_trace]
  simp only [indexBounded_append, ht, Bool.true_and, Bool.and_eq_true]
  refine ⟨⟨⟨?_, ?_⟩, ?_⟩, ?_⟩
  · exact Vdp2Screen.pixelCalls_bounded env s _ _ _
      (paletteIndex_lt _ _ hp (masked_shift_lt _ _ 12 (by decide)))
  · exact Vdp2Screen.pixelCalls_bounded env s _ _ _
      (paletteIndex_lt _ _ hp (masked_shift_lt _ _ 8 (by decide)))
  · exact Vdp2Screen.pixelCalls_bounded env s _ _ _
      (paletteIndex_lt _ _ hp (masked_shift_lt _ _ 4 (by decide)))
  · exact Vdp2Screen.pixelCalls_bounded env s _ _ _
      (paletteIndex_lt _ _ hp (lt_of_le_of_lt Nat.and_le_right (by decide)))

theorem Vdp2Screen.dots8_bounded (env : Env) (xInc : Int) (s : Vdp2Screen)
    (hp : s.palAddr < 128) (ht : indexBounded s.trace = true) :
    (s.dots8 env xInc).palAddr < 128 ∧ indexBounded (s.dots8 env xInc).trace = true := by
  have hf := congrArg Vdp2Screen.palAddr (Vdp2Screen.dots8_step env xInc s).1
  have hf' : (s.dots8 env xInc).palAddr = s.palAddr := hf
  refine ⟨by rw [hf']; exact hp, ?_⟩
  rw [Vdp2Screen.dots8_trace]
  simp only [indexBounded_append, ht, Bool.true_and, Bool.and_eq_true]
  refine ⟨?_, ?_⟩
  · exact Vdp2Screen.pixelCalls_bounded env s _ _ _
      (paletteIndex_lt _ _ hp (masked_shift_lt _ _ 8 (by decide)))
  · exact Vdp2Screen.pixelCalls_bounded env s _ _ _
      (paletteIndex_lt _ _ hp (lt_of_le_of_lt Nat.and_le_right (by decide)))

/-- What every run of the inner body keeps, the loops of `drawCell` keep. -/
theorem Vdp2Screen.cellRows_invariant (I : Vdp2Screen → Prop)
    (hx : ∀ (t : Vdp2Screen) (X : Int), I t → I { t with x := X })
    (hy : ∀ (t : Vdp2Screen) (Y : Int), I t → I { t with y := Y })
    (dots : Vdp2Screen → Vdp2Screen) (hdots : ∀ t, I t → I (dots t))
    (s : Vdp2Screen) (step yInc : Int) (hs : I s) :
    I (s.cellRows step yInc dots) := by
  unfold Vdp2Screen.cellRows
  simp only
  refine iterate_invariant (fun _ u => I u) _ ?_ s.cellH.toNat s hs
  intro k u hu
  apply hy
  exact iterate_invariant (fun _ v => I v) dots (fun _ v hv => hdots v hv) _ _ (hx u s.x hu)

/-- In the 4-bit and 8-bit depths every index that `drawCell` passes to
`getColor` is below 2048 when the palette address is below 128. -/
theorem Vdp2Screen.drawCell_indexBounded (env : Env) (s : Vdp2Screen)
    (hc : s.colorNumber = 0 ∨ s.colorNumber = 1)
    (hp : s.palAddr < 128) (ht : indexBounded s.trace = true) :
    indexBounded (s.drawCell env).trace = true := by
  obtain ⟨d0, d1, _, _, _⟩ := Vdp2Screen.drawCell_depth env s
  rcases hc with hc | hc
  · rw [d0 hc]
    exact (Vdp2Screen.cellRows_invariant
      (fun t => t.palAddr < 128 ∧ indexBounded t.trace = true) (fun _ _ h => h)
      (fun _ _ h => h) _ (fun t h => Vdp2Screen.dots4_bounded env _ t h.1 h.2) s _ _
      ⟨hp, ht⟩).2
  · rw [d1 hc]
    exact (Vdp2Screen.cellRows_invariant
      (fun t => t.palAddr < 128 ∧ indexBounded t.trace = true) (fun _ _ h => h)
      (fun _ _ h => h) _ (fun t h => Vdp2Screen.dots8_bounded env _ t h.1 h.2) s _ _
      ⟨hp, ht⟩).2

theorem initColorOffset_palAddr (reg : Memory) (mask : Nat) (s : Vdp2Screen) :
    (initColorOffset reg mask s).palAddr = s.palAddr := by
  unfold initColorOffset
  split_ifs <;> simp

theorem initBitmapSize4_palAddr (n : Nat) (s : Vdp2Screen) :
    (initBitmapSize4 n s).palAddr = s.palAddr := by
  unfold initBitmapSize4
  split <;> simp

theorem initBitmapSize2_palAddr (n : Nat) (s : Vdp2Screen) :
    (initBitmapSize2 n s).palAddr = s.palAddr := by
  unfold initBitmapSize2
  split <;> simp

/-- The bitmap palette address that `init` derives is below 128. -/
theorem Layer.init_bitmap_palAddr (l : Layer) (env : Env) (s : Vdp2Screen)
    (h : (l.init env s).bitmap = true) : (l.init env s).palAddr < 128 := by
  have b0 : (readWord env.reg 0x2C &&& 0x7) <<< 4 < 128 := by
    have := @Nat.and_le_right (readWord env.reg 0x2C) 0x7
    rw [Nat.shiftLeft_eq]
    omega
  have b1 : (readWord env.reg 0x2C &&& 0x700) >>> 4 < 128 := by
    have := @Nat.and_le_right (readWord env.reg 0x2C) 0x700
    rw [Nat.shiftRight_eq_div_pow]
    omega
  have b2 : (readWord env.reg 0x2E &&& 0x7) <<< 4 < 128 := by
    have := @Nat.and_le_right (readWord env.reg 0x2E) 0x7
    rw [Nat.shiftLeft_eq]
    omega
  cases l
  · unfold Layer.init NBG0.init at h ⊢
    dsimp only at h ⊢
    split_ifs at h ⊢ <;>
      simp_all [initColorOffset_rest, initBitmapSize4_rest, initPlaneSize_rest,
        initPattern_rest, initColorOffset_palAddr, initBitmapSize4_palAddr]
  · unfold Layer.init NBG1.init at h ⊢
    dsimp only at h ⊢
    split_ifs at h ⊢ <;>
      simp_all [initColorOffset_rest, initBitmapSize4_rest, initPlaneSize_rest,
        initPattern_rest, initColorOffset_palAddr, initBitmapSize4_palAddr]
  · unfold Layer.init NBG2.init at h ⊢
    dsimp only at h ⊢
    split_ifs at h ⊢ <;>
      simp_all [initColorOffset_rest, initPlaneSize_rest, initPattern_rest]
  · unfold Layer.init NBG3.init at h ⊢
    dsimp only at h ⊢
    split_ifs at h ⊢ <;>
      simp_all [initColorOffset_rest, initPlaneSize_rest, initPattern_rest]
  · unfold Layer.init RBG0.init at h ⊢
    dsimp only at h ⊢
    split_ifs at h ⊢ <;>
      simp_all [initColorOffset_rest, initBitmapSize2_rest, initPlaneSize_rest,
        initPattern_rest, initColorOffset_palAddr, initBitmapSize2_palAddr]

/-! ## The first call of a cell -/

/-- The loops of `drawCell` over a cell with at least one row and one column
start with a run of the inner body on the layer as it is, and every later run
only appends to the log. -/
theorem Vdp2Screen.cellRows_first (dots : Vdp2Screen → Vdp2Screen)
    (hdots : ∀ t : Vdp2Screen, ∃ r, (dots t).trace = t.trace ++ r)
    (s : Vdp2Screen) (step yInc : Int) (hH : 0 < s.cellH.toNat)
    (hW : 0 < ((s.cellW + (step - 1)) / step).toNat) :
    ∃ r, (s.cellRows step yInc dots).trace = (dots s).trace ++ r := by
  have ext : ∀ (n : Nat) (u : Vdp2Screen), (∃ r, u.trace = (dots s).trace ++ r) →
      ∃ r, (dots^[n] u).trace = (dots s).trace ++ r := by
    intro n u hu
    refine iterate_invariant (fun _ (v : Vdp2Screen) => ∃ r, v.trace = (dots s).trace ++ r)
      dots ?_ n u hu
    rintro _ v ⟨r, hr⟩
    obtain ⟨r', hr'⟩ := hdots v
    exact ⟨r ++ r', by rw [hr', hr, List.append_assoc]⟩
  obtain ⟨h, hh⟩ : ∃ h, s.cellH.toNat = h + 1 := ⟨s.cellH.toNat - 1, by omega⟩
  obtain ⟨w, hw⟩ : ∃ w, ((s.cellW + (step - 1)) / step).toNat = w + 1 :=
    ⟨((s.cellW + (step - 1)) / step).toNat - 1, by omega⟩
  unfold Vdp2Screen.cellRows forLoop
  simp only
  rw [hh, Function.iterate_succ_apply]
  refine iterate_invariant (fun _ (v : Vdp2Screen) => ∃ r, v.trace = (dots s).trace ++ r) _ ?_
    h _ ?_
  · rintro _ v hv
    exact ext _ { v with x := s.x } hv
  · show ∃ r, (dots^[((s.cellW + (step - 1)) / step).toNat] { s with x := s.x }).trace =
      (dots s).trace ++ r
    rw [hw, Function.iterate_succ_apply]
    exact ext w (dots s) ⟨[], by simp⟩

/-- In the 2048-colour depth `drawCell` over a cell with at least one row and
one column starts by the calls of its first word: the index of the `getColor`
call is the whole 16-bit word. -/
theorem Vdp2Screen.drawCell_depth2_first (env : Env) (s : Vdp2Screen)
    (hc : s.colorNumber = 2) (hH : 0 < s.cellH) (hW : 0 < s.cellW) :
    ∃ r, (s.drawCell env).trace =
      s.trace ++
        s.pixelCalls env (readWord env.vram s.charAddr) (readWord env.vram s.charAddr) s.x ++
        r := by
  rw [(Vdp2Screen.drawCell_depth env s).2.2.1 hc]
  obtain ⟨r, hr⟩ := Vdp2Screen.cellRows_first
    (Vdp2Screen.dot11 env (if s.flipFunction &&& 0x1 ≠ 0 then -1 else 1))
    (fun t => ⟨_, Vdp2Screen.dot11_trace env _ t⟩) s 1
    (if s.flipFunction &&& 0x2 ≠ 0 then -1 else 1) (by omega) (by simp; omega)
  exact ⟨r, by rw [hr, Vdp2Screen.dot11_trace]⟩

theorem indexBounded_prefix (a r : List CellEvent) (h : indexBounded a = false) :
    indexBounded (a ++ r) = false := by
  rw [indexBounded_append, h, Bool.false_and]

/-! ## The claims on the derived configuration, the map walk and the surface -/

/-- C21 (amended): for each of the five layers and every register content the
`colorNumber` that `init()` derives is the layer's colour-depth field, which
is below 8 for every layer and at most 4 (one of the five levels) for NBG1,
NBG2 and NBG3; the 3-bit fields of NBG0 and RBG0 also give 5, 6 and 7. -/
theorem init_colorNumber_field (l : Layer) (env : Env) (s : Vdp2Screen) :
    (l.init env s).colorNumber = l.colorField env.reg ∧
    (l.init env s).colorNumber < 8 ∧
    (l = .NBG1 → (l.init env s).colorNumber < 4) ∧
    (l = .NBG2 ∨ l = .NBG3 → (l.init env s).colorNumber < 2) ∧
    (l ≠ .NBG0 → l ≠ .RBG0 → (l.init env s).colorNumber ≤ 4) := by
  obtain ⟨h8, h1, h23⟩ := Layer.colorField_lt env.reg l
  rw [Layer.init_colorNumber]
  refine ⟨rfl, h8, h1, h23, fun h0 hr => ?_⟩
  cases l
  · exact absurd rfl h0
  · exact Nat.le_of_lt (h1 rfl)
  · exact Nat.le_of_lt (Nat.lt_of_lt_of_le (h23 (Or.inl rfl)) (by decide))
  · exact Nat.le_of_lt (Nat.lt_of_lt_of_le (h23 (Or.inr rfl)) (by decide))
  · exact absurd rfl hr

/-- C21 (as stated) fails: with register 0x28 = 0x0050 `NBG0::init` derives
`colorNumber = 5`, which is none of the five levels 0..4. -/
theorem init_colorNumber_field_counterexample :
    (Layer.init .NBG0 Env.depth5 Vdp2Screen.zero).colorNumber = 5 ∧ ¬ (5 ≤ 4) :=
  ⟨by decide, by decide⟩

/-- C22 (the code at the failing input): with the plane-size field of NBG0 set
to 3 (register 0x3A = 0x0003) `init()` stays in tile mode and assigns neither
`planeW` nor `planeH`, which keep whatever they held: (0, 0) from a zeroed
layer, (5, 7) from a layer that held 5 and 7.  For every layer, in tile mode,
the pattern-name size, the pattern size and the page size are as claimed, and
so is the plane size when the field is not 3. -/
theorem init_planeSize_three :
    Layer.planeSizeField Env.planeSize3.reg .NBG0 = 3 ∧
    (Layer.init .NBG0 Env.planeSize3 Vdp2Screen.zero).bitmap = false ∧
    (Layer.init .NBG0 Env.planeSize3 Vdp2Screen.zero).planeW = 0 ∧
    (Layer.init .NBG0 Env.planeSize3 Vdp2Screen.zero).planeH = 0 ∧
    (Layer.init .NBG0 Env.planeSize3 Vdp2Screen.plane57).bitmap = false ∧
    (Layer.init .NBG0 Env.planeSize3 Vdp2Screen.plane57).planeW = 5 ∧
    (Layer.init .NBG0 Env.planeSize3 Vdp2Screen.plane57).planeH = 7 ∧
    (∀ (l : Layer) (env : Env) (s : Vdp2Screen), (l.init env s).bitmap = false →
      ((l.init env s).patternDataSize = 1 ∨ (l.init env s).patternDataSize = 2) ∧
      ((l.init env s).patternWH = 1 ∨ (l.init env s).patternWH = 2) ∧
      (l.init env s).pageWH = 64 / (l.init env s).patternWH ∧
      (l.init env s).cellW = 8 ∧ (l.init env s).cellH = 8 ∧
      (l.planeSizeField env.reg ≠ 3 →
        ((l.init env s).planeW = 1 ∧ (l.init env s).planeH = 1) ∨
        ((l.init env s).planeW = 2 ∧ (l.init env s).planeH = 1) ∨
        ((l.init env s).planeW = 2 ∧ (l.init env s).planeH = 2))) :=
  ⟨by decide, by decide, by decide, by decide, by decide, by decide, by decide,
    fun l env s h => Layer.init_tileGeometry l env s h⟩

/-- C24 (amended): after `Vdp2::reset()`, `getWord` returns 0 at the offsets
0x000, 0x004, 0x006, 0x00E and 0x020, the registers `reset()` writes; every
other word-aligned offset keeps the value it held before the reset. -/
theorem reset_getWord_cleared (spr : Vdp1) (s : Vdp2) :
    (s.reset spr).getWord 0x0 = 0 ∧ (s.reset spr).getWord 0x4 = 0 ∧
    (s.reset spr).getWord 0x6 = 0 ∧ (s.reset spr).getWord 0xE = 0 ∧
    (s.reset spr).getWord 0x20 = 0 ∧
    ∀ offset, offset % 2 = 0 → offset ≠ 0x0 → offset ≠ 0x4 → offset ≠ 0x6 → offset ≠ 0xE →
      offset ≠ 0x20 → (s.reset spr).getWord offset = s.getWord offset :=
  Vdp2.reset_getWord spr s

/-- C24 (as stated) fails: after 0x1234 is written to the register at offset
0x070, `reset()` leaves `getWord(0x070) = 0x1234`, not 0. -/
theorem reset_getWord_cleared_counterexample :
    ((Vdp2.fresh.setWord Vdp1.zero 0x70 0x1234).reset Vdp1.zero).getWord 0x70 = 0x1234 ∧
    ((Vdp2.fresh.setWord Vdp1.zero 0x70 0x1234).reset Vdp1.zero).getWord 0x70 ≠ 0 :=
  ⟨by decide, by decide⟩

/-- C25: in tile mode (one- or two-word pattern names, patterns of one or two
cells a side, `pageWH = 64 / patternWH`, 8x8 cells) one `patternAddr` consumes
`2 * patternDataSize` bytes of pattern names, `drawPage` consumes those of
`pageWH * pageWH` pattern names, which is the per-page multiplier of
`planeAddr` for the same pattern-name size and pattern size, and a page spans
`pageWH * 8 * patternWH = 512` pixels a side; `drawPlane` consumes the bytes of
`planeH * planeW` pages, so from the base set by `planeAddr` (a multiple of
the plane's bytes) `addr` ends at base + planeH * planeW * M, as an
`unsigned long` and exactly when that does not wrap.  In the colour depths
0..4 a page draws 512 * 512 pixels and moves the cursor by (+512, +512), and a
plane draws planeH * planeW times as many. -/
theorem drawPlane_pages (env : Env) (s : Vdp2Screen)
    (hp : s.patternDataSize = 1 ∨ s.patternDataSize = 2)
    (hw : s.patternWH = 1 ∨ s.patternWH = 2)
    (hg : s.pageWH = 64 / s.patternWH) (hW : s.cellW = 8) (hH : s.cellH = 8) :
    s.mapStep (s.patternAddr env) s.x s.y (2 * s.patternDataSize.toNat) 0 ∧
    s.addrStep (s.drawPage env)
      (s.pageWH.toNat * s.pageWH.toNat * (2 * s.patternDataSize.toNat)) ∧
    s.pageWH.toNat * s.pageWH.toNat * (2 * s.patternDataSize.toNat) =
      pageBytes s.patternDataSize s.patternWH ∧
    s.pageWH * (8 * s.patternWH) = 512 ∧
    s.addrStep (s.drawPlane env)
      (s.planeH.toNat * s.planeW.toNat * pageBytes s.patternDataSize s.patternWH) ∧
    (∀ tmp : Nat,
      (∃ k : Nat, (planeAddrOf tmp s).addr =
        ulongOfInt ((k : Int) *
          (s.planeH * s.planeW * (pageBytes s.patternDataSize s.patternWH : Nat)))) ∧
      ulong ((planeAddrOf tmp s).drawPlane env).addr =
        ulong ((planeAddrOf tmp s).addr +
          s.planeH.toNat * s.planeW.toNat * pageBytes s.patternDataSize s.patternWH) ∧
      ((planeAddrOf tmp s).addr +
          s.planeH.toNat * s.planeW.toNat * pageBytes s.patternDataSize s.patternWH <
            4294967296 →
        ((planeAddrOf tmp s).drawPlane env).addr =
          (planeAddrOf tmp s).addr +
            s.planeH.toNat * s.planeW.toNat * pageBytes s.patternDataSize s.patternWH)) ∧
    (s.colorNumber ≤ 4 →
      s.mapStep (s.drawPage env) (s.x + 512) (s.y + 512)
        (pageBytes s.patternDataSize s.patternWH) (512 * 512)) ∧
    (s.colorNumber ≤ 4 →
      s.mapStep (s.drawPlane env)
        (if s.planeH.toNat = 0 ∨ s.planeW.toNat = 0 then s.x else s.x + s.planeW.toNat * 512)
        (if s.planeH.toNat = 0 ∨ s.planeW.toNat = 0 then s.y else s.y + s.planeH.toNat * 512)
        (s.planeH.toNat * (s.planeW.toNat * pageBytes s.patternDataSize s.patternWH))
        (s.planeH.toNat * (s.planeW.toNat * (512 * 512)))) := by
  obtain ⟨e1, e2⟩ := pageBytes_eq s.patternDataSize s.patternWH s.pageWH hp hw hg
  have hplane := Vdp2Screen.drawPlane_addrStep env s hp
  have hbase := fun tmp => Vdp2Screen.drawPlane_from_base env tmp s hp
  rw [e1] at hplane
  simp only [e1] at hbase
  exact ⟨Vdp2Screen.patternAddr_step env s hp, Vdp2Screen.drawPage_addrStep env s hp, e1, e2,
    hplane,
    fun tmp => ⟨planeAddrOf_multiple tmp s hp hw, (hbase tmp).1, (hbase tmp).2⟩,
    fun hc => Vdp2Screen.drawPage_step512 env s hW hH hc hw hp hg,
    fun hc => Vdp2Screen.drawPlane_step env s hW hH hc hw hp hg⟩

theorem drawPlane_pages_witness :
    (Vdp2Screen.initial.patternDataSize = 1 ∨ Vdp2Screen.initial.patternDataSize = 2) ∧
    (Vdp2Screen.initial.patternWH = 1 ∨ Vdp2Screen.initial.patternWH = 2) ∧
    Vdp2Screen.initial.pageWH = 64 / Vdp2Screen.initial.patternWH ∧
    Vdp2Screen.initial.cellW = 8 ∧ Vdp2Screen.initial.cellH = 8 ∧
    Vdp2Screen.initial.addrStep (Vdp2Screen.initial.drawPlane Env.zero)
      (Vdp2Screen.initial.planeH.toNat * Vdp2Screen.initial.planeW.toNat *
        pageBytes Vdp2Screen.initial.patternDataSize Vdp2Screen.initial.patternWH) :=
  ⟨by decide, by decide, by decide, by decide, by decide,
    (drawPlane_pages Env.zero Vdp2Screen.initial (by decide) (by decide) (by decide)
      (by decide) (by decide)).2.2.2.2.1⟩

/-- C26 (amended): flipping mirrors the whole pattern: with S = 8 * patternWH
and the same character data, `drawPattern` makes the calls, and leaves the
surface, of the layer with its flip bits cleared whose coordinate functions
send pattern-relative position (c, r) to (S-1-c, r) when flip bit 0 is set, to
(c, S-1-r) when flip bit 1 is set and to (S-1-c, S-1-r) when both are; for
every flipFunction value, in the colour depths 0..4 with 8x8 cells,
`drawPattern` leaves the cursor advanced by exactly (+S, +S). -/
theorem drawPattern_flip (env : Env) (s : Vdp2Screen)
    (hW : s.cellW = 8) (hH : s.cellH = 8) (hwh : 0 < s.patternWH) (hc : s.colorNumber ≤ 4) :
    (s.drawPattern env).trace = (s.unflipped.drawPattern env).trace ∧
    (s.drawPattern env).surface = (s.unflipped.drawPattern env).surface ∧
    s.unflipped.flipFunction = 0 ∧
    (∀ x y : Int, s.unflipped.getX x y =
      s.getX (if s.flipFunction &&& 0x1 ≠ 0 then s.x + (s.patternWH * 8 - 1 - (x - s.x)) else x)
        (if s.flipFunction &&& 0x2 ≠ 0 then s.y + (s.patternWH * 8 - 1 - (y - s.y)) else y)) ∧
    (∀ x y : Int, s.unflipped.getY x y =
      s.getY (if s.flipFunction &&& 0x1 ≠ 0 then s.x + (s.patternWH * 8 - 1 - (x - s.x)) else x)
        (if s.flipFunction &&& 0x2 ≠ 0 then s.y + (s.patternWH * 8 - 1 - (y - s.y)) else y)) ∧
    (s.drawPattern env).x = s.x + s.patternWH * 8 ∧
    (s.drawPattern env).y = s.y + s.patternWH * 8 :=
  ⟨(Vdp2Screen.drawPattern_mirror env s).1, (Vdp2Screen.drawPattern_mirror env s).2, rfl,
    fun _ _ => rfl, fun _ _ => rfl,
    (Vdp2Screen.drawPattern_step env s hW hH hc hwh).2.1,
    (Vdp2Screen.drawPattern_step env s hW hH hc hwh).2.2.1⟩

theorem drawPattern_flip_witness :
    Vdp2Screen.flipped.cellW = 8 ∧ Vdp2Screen.flipped.cellH = 8 ∧
    0 < Vdp2Screen.flipped.patternWH ∧ Vdp2Screen.flipped.colorNumber ≤ 4 ∧
    Vdp2Screen.flipped.flipFunction = 3 ∧
    (Vdp2Screen.flipped.drawPattern Env.nibbles).trace =
      (Vdp2Screen.flipped.unflipped.drawPattern Env.nibbles).trace ∧
    (Vdp2Screen.flipped.drawPattern Env.nibbles).x =
      Vdp2Screen.flipped.x + Vdp2Screen.flipped.patternWH * 8 ∧
    (Vdp2Screen.flipped.drawPattern Env.nibbles).y =
      Vdp2Screen.flipped.y + Vdp2Screen.flipped.patternWH * 8 :=
  ⟨by decide, by decide, by decide, by decide, by decide,
    (drawPattern_flip Env.nibbles Vdp2Screen.flipped (by decide) (by decide) (by decide)
      (by decide)).1,
    (drawPattern_flip Env.nibbles Vdp2Screen.flipped (by decide) (by decide) (by decide)
      (by decide)).2.2.2.2.2.1,
    (drawPattern_flip Env.nibbles Vdp2Screen.flipped (by decide) (by decide) (by decide)
      (by decide)).2.2.2.2.2.2⟩

/-- C26 (as stated) fails: the layer that `NBG0::init` derives from register
0x28 = 0x0050 has 8x8 cells, one-cell patterns (S = 8), flipFunction 0 and
colour depth 5, for which `drawCell` has no case: `drawPattern` leaves the
cursor where it started, not advanced by (+8, +8). -/
theorem drawPattern_flip_counterexample :
    (Layer.init .NBG0 Env.depth5 Vdp2Screen.zero).cellW = 8 ∧
    (Layer.init .NBG0 Env.depth5 Vdp2Screen.zero).cellH = 8 ∧
    (Layer.init .NBG0 Env.depth5 Vdp2Screen.zero).patternWH = 1 ∧
    (Layer.init .NBG0 Env.depth5 Vdp2Screen.zero).flipFunction = 0 ∧
    (Layer.init .NBG0 Env.depth5 Vdp2Screen.zero).colorNumber = 5 ∧
    ((Layer.init .NBG0 Env.depth5 Vdp2Screen.zero).drawPattern Env.depth5).x =
      (Layer.init .NBG0 Env.depth5 Vdp2Screen.zero).x ∧
    ((Layer.init .NBG0 Env.depth5 Vdp2Screen.zero).drawPattern Env.depth5).y =
      (Layer.init .NBG0 Env.depth5 Vdp2Screen.zero).y :=
  ⟨by decide, by decide, by decide, by decide, by decide, by decide, by decide⟩

/-- C27: for a cell of cellW x cellH pixels with cellW a multiple of 4,
`drawCell` makes exactly cellW * cellH `drawPixel` calls and advances
`charAddr` (as an `unsigned long`, and exactly when that does not wrap) by
cellW * cellH / 2 bytes in depth 0, cellW * cellH in depth 1,
2 * cellW * cellH in depths 2 and 3 and 4 * cellW * cellH in depth 4; in
depths 0 and 1 the loop body is `dots4`, `dots8`, whose calls take the fields
of the 16-bit word most-significant first. -/
theorem drawCell_pixels_bytes (env : Env) (s : Vdp2Screen) (m : Nat)
    (hW : s.cellW = 4 * m) :
    ((s.colorNumber = 0 →
        pixelCount (s.drawCell env).trace =
          pixelCount s.trace + s.cellW.toNat * s.cellH.toNat ∧
        ulong (s.drawCell env).charAddr =
          ulong (s.charAddr + s.cellW.toNat * s.cellH.toNat / 2) ∧
        (s.charAddr + s.cellW.toNat * s.cellH.toNat / 2 < 4294967296 →
          (s.drawCell env).charAddr = s.charAddr + s.cellW.toNat * s.cellH.toNat / 2)) ∧
      (s.colorNumber = 1 →
        pixelCount (s.drawCell env).trace =
          pixelCount s.trace + s.cellW.toNat * s.cellH.toNat ∧
        ulong (s.drawCell env).charAddr =
          ulong (s.charAddr + s.cellW.toNat * s.cellH.toNat) ∧
        (s.charAddr + s.cellW.toNat * s.cellH.toNat < 4294967296 →
          (s.drawCell env).charAddr = s.charAddr + s.cellW.toNat * s.cellH.toNat)) ∧
      (s.colorNumber = 2 ∨ s.colorNumber = 3 →
        pixelCount (s.drawCell env).trace =
          pixelCount s.trace + s.cellW.toNat * s.cellH.toNat ∧
        ulong (s.drawCell env).charAddr =
          ulong (s.charAddr + 2 * (s.cellW.toNat * s.cellH.toNat)) ∧
        (s.charAddr + 2 * (s.cellW.toNat * s.cellH.toNat) < 4294967296 →
          (s.drawCell env).charAddr = s.charAddr + 2 * (s.cellW.toNat * s.cellH.toNat))) ∧
      (s.colorNumber = 4 →
        pixelCount (s.drawCell env).trace =
          pixelCount s.trace + s.cellW.toNat * s.cellH.toNat ∧
        ulong (s.drawCell env).charAddr =
          ulong (s.charAddr + 4 * (s.cellW.toNat * s.cellH.toNat)) ∧
        (s.charAddr + 4 * (s.cellW.toNat * s.cellH.toNat) < 4294967296 →
          (s.drawCell env).charAddr =
            s.charAddr + 4 * (s.cellW.toNat * s.cellH.toNat)))) ∧
    (s.colorNumber = 0 → s.drawCell env =
      s.cellRows 4 (if s.flipFunction &&& 0x2 ≠ 0 then -1 else 1)
        (Vdp2Screen.dots4 env (if s.flipFunction &&& 0x1 ≠ 0 then -1 else 1))) ∧
    (s.colorNumber = 1 → s.drawCell env =
      s.cellRows 2 (if s.flipFunction &&& 0x2 ≠ 0 then -1 else 1)
        (Vdp2Screen.dots8 env (if s.flipFunction &&& 0x1 ≠ 0 then -1 else 1))) ∧
    (∀ (xInc : Int) (t : Vdp2Screen),
      (t.dots4 env xInc).trace =
        t.trace ++
        t.pixelCalls env ((readWord env.vram t.charAddr &&& 0xF000) >>> 12)
          (ulong (t.palAddr <<< 4) ||| ((readWord env.vram t.charAddr &&& 0xF000) >>> 12))
          t.x ++
        t.pixelCalls env ((readWord env.vram t.charAddr &&& 0xF00) >>> 8)
          (ulong (t.palAddr <<< 4) ||| ((readWord env.vram t.charAddr &&& 0xF00) >>> 8))
          (t.x + xInc) ++
        t.pixelCalls env ((readWord env.vram t.charAddr &&& 0xF0) >>> 4)
          (ulong (t.palAddr <<< 4) ||| ((readWord env.vram t.charAddr &&& 0xF0) >>> 4))
          (t.x + xInc + xInc) ++
        t.pixelCalls env (readWord env.vram t.charAddr &&& 0xF)
          (ulong (t.palAddr <<< 4) ||| (readWord env.vram t.charAddr &&& 0xF))
          (t.x + xInc + xInc + xInc)) ∧
    (∀ (xInc : Int) (t : Vdp2Screen),
      (t.dots8 env xInc).trace =
        t.trace ++
        t.pixelCalls env ((readWord env.vram t.charAddr &&& 0xFF00) >>> 8)
          (ulong (t.palAddr <<< 4) ||| ((readWord env.vram t.charAddr &&& 0xFF00) >>> 8))
          t.x ++
        t.pixelCalls env (readWord env.vram t.charAddr &&& 0xFF)
          (ulong (t.palAddr <<< 4) ||| (readWord env.vram t.charAddr &&& 0xFF))
          (t.x + xInc)) :=
  ⟨Vdp2Screen.drawCell_counts env s m hW, (Vdp2Screen.drawCell_depth env s).1,
    (Vdp2Screen.drawCell_depth env s).2.1,
    fun xInc t => Vdp2Screen.dots4_trace env xInc t,
    fun xInc t => Vdp2Screen.dots8_trace env xInc t⟩

theorem drawCell_pixels_bytes_witness :
    Vdp2Screen.initial.cellW = 4 * ((2 : Nat) : Int) ∧
    Vdp2Screen.initial.colorNumber = 0 ∧
    pixelCount (Vdp2Screen.initial.drawCell Env.nibbles).trace =
      pixelCount Vdp2Screen.initial.trace +
        Vdp2Screen.initial.cellW.toNat * Vdp2Screen.initial.cellH.toNat ∧
    Vdp2Screen.initial.cellW.toNat * Vdp2Screen.initial.cellH.toNat = 64 :=
  ⟨by decide, by decide,
    ((drawCell_pixels_bytes Env.nibbles Vdp2Screen.initial 2 (by decide)).1.1 (by decide)).1,
    by decide⟩

/-- C28: for every layer with colour offset enabled (its bit of register
0x110 set), each of cor, cog, cob is the low 9 bits, read as a two's-complement
signed number, of its register of the selected set (0x114/0x116/0x118 for set
A, 0x11A/0x11C/0x11E for set B, by the layer's bit of register 0x112), hence
lies in [-256, 255]; with colour offset disabled all three are 0. -/
theorem init_colorOffset_signed (l : Layer) (env : Env) (s : Vdp2Screen) :
    (readWord env.reg 0x110 &&& l.enableBit ≠ 0 → readWord env.reg 0x112 &&& l.enableBit = 0 →
      (l.init env s).cor = signed9 (readWord env.reg 0x114) ∧
      (l.init env s).cog = signed9 (readWord env.reg 0x116) ∧
      (l.init env s).cob = signed9 (readWord env.reg 0x118)) ∧
    (readWord env.reg 0x110 &&& l.enableBit ≠ 0 → readWord env.reg 0x112 &&& l.enableBit ≠ 0 →
      (l.init env s).cor = signed9 (readWord env.reg 0x11A) ∧
      (l.init env s).cog = signed9 (readWord env.reg 0x11C) ∧
      (l.init env s).cob = signed9 (readWord env.reg 0x11E)) ∧
    (readWord env.reg 0x110 &&& l.enableBit = 0 →
      (l.init env s).cor = 0 ∧ (l.init env s).cog = 0 ∧ (l.init env s).cob = 0) ∧
    (-256 ≤ (l.init env s).cor ∧ (l.init env s).cor ≤ 255) ∧
    (-256 ≤ (l.init env s).cog ∧ (l.init env s).cog ≤ 255) ∧
    (-256 ≤ (l.init env s).cob ∧ (l.init env s).cob ≤ 255) := by
  obtain ⟨hr, hg, hb⟩ := Layer.init_colorOffsets l env s
  rw [hr, hg, hb]
  simp only [colorOffsetValue_eq_signed9]
  refine ⟨fun h1 h2 => ?_, fun h1 h2 => ?_, fun h1 => ?_, ?_, ?_, ?_⟩
  · simp only [h1, h2, ne_eq, not_false_eq_true, not_true_eq_false, if_true, if_false,
      and_self]
  · simp only [h1, h2, ne_eq, not_false_eq_true, not_true_eq_false, if_true, if_false,
      and_self]
  · simp only [h1, ne_eq, not_true_eq_false, if_false, and_self]
  all_goals
    split_ifs
    · exact signed9_range _
    · exact signed9_range _
    · exact ⟨by decide, by decide⟩

/-- C29 (the code at the failing input): in colour depth 2 `drawCell` passes
the whole 16-bit word to `getColor`.  For the bitmap layer that `NBG0::init`
derives from register 0x28 = 0x0022, over a VRAM whose first word is 0x8000,
the first call of `drawCell` is `getColor(0x8000, ...)`, an index that is not
below 2048.  In depths 0 and 1 every index is below 2048, as the palette
address, from `patternAddr` or from `init()` in bitmap mode, is below 128. -/
theorem drawCell_depth2_index :
    (Layer.init .NBG0 Env.depth2Bitmap Vdp2Screen.zero).bitmap = true ∧
    (Layer.init .NBG0 Env.depth2Bitmap Vdp2Screen.zero).colorNumber = 2 ∧
    (∃ r, ((Layer.init .NBG0 Env.depth2Bitmap Vdp2Screen.zero).drawCell Env.depth2Bitmap).trace =
      CellEvent.getColor 0x8000
        (Layer.init .NBG0 Env.depth2Bitmap Vdp2Screen.zero).alpha
        (Layer.init .NBG0 Env.depth2Bitmap Vdp2Screen.zero).colorOffset :: r) ∧
    indexBounded
      ((Layer.init .NBG0 Env.depth2Bitmap Vdp2Screen.zero).drawCell Env.depth2Bitmap).trace =
        false ∧
    (∀ (env : Env) (s : Vdp2Screen), s.colorNumber = 0 ∨ s.colorNumber = 1 →
      s.palAddr < 128 → indexBounded s.trace = true →
      indexBounded (s.drawCell env).trace = true) ∧
    (∀ (env : Env) (s : Vdp2Screen), s.patternDataSize = 1 ∨ s.patternDataSize = 2 →
      (s.patternAddr env).palAddr < 128) ∧
    (∀ (l : Layer) (env : Env) (s : Vdp2Screen), (l.init env s).bitmap = true →
      (l.init env s).palAddr < 128) := by
  obtain ⟨r, hr⟩ := Vdp2Screen.drawCell_depth2_first Env.depth2Bitmap
    (Layer.init .NBG0 Env.depth2Bitmap Vdp2Screen.zero) (by decide) (by decide) (by decide)
  have hcalls : (Layer.init .NBG0 Env.depth2Bitmap Vdp2Screen.zero).trace ++
      (Layer.init .NBG0 Env.depth2Bitmap Vdp2Screen.zero).pixelCalls Env.depth2Bitmap
        (readWord Env.depth2Bitmap.vram
          (Layer.init .NBG0 Env.depth2Bitmap Vdp2Screen.zero).charAddr)
        (readWord Env.depth2Bitmap.vram
          (Layer.init .NBG0 Env.depth2Bitmap Vdp2Screen.zero).charAddr)
        (Layer.init .NBG0 Env.depth2Bitmap Vdp2Screen.zero).x =
      [CellEvent.getColor 0x8000
          (Layer.init .NBG0 Env.depth2Bitmap Vdp2Screen.zero).alpha
          (Layer.init .NBG0 Env.depth2Bitmap Vdp2Screen.zero).colorOffset,
        CellEvent.drawPixel
          ((Layer.init .NBG0 Env.depth2Bitmap Vdp2Screen.zero).getX
            (Layer.init .NBG0 Env.depth2Bitmap Vdp2Screen.zero).x
            (Layer.init .NBG0 Env.depth2Bitmap Vdp2Screen.zero).y)
          ((Layer.init .NBG0 Env.depth2Bitmap Vdp2Screen.zero).getY
            (Layer.init .NBG0 Env.depth2Bitmap Vdp2Screen.zero).x
            (Layer.init .NBG0 Env.depth2Bitmap Vdp2Screen.zero).y)
          (COLOR_ADD
            (Env.depth2Bitmap.cram.getColor Env.depth2Bitmap.cm 0x8000
              (Layer.init .NBG0 Env.depth2Bitmap Vdp2Screen.zero).alpha
              (Layer.init .NBG0 Env.depth2Bitmap Vdp2Screen.zero).colorOffset)
            (Layer.init .NBG0 Env.depth2Bitmap Vdp2Screen.zero).cor
            (Layer.init .NBG0 Env.depth2Bitmap Vdp2Screen.zero).cog
            (Layer.init .NBG0 Env.depth2Bitmap Vdp2Screen.zero).cob)] := by
    have ht : (Layer.init .NBG0 Env.depth2Bitmap Vdp2Screen.zero).trace = [] := by decide
    have hw : readWord Env.depth2Bitmap.vram
        (Layer.init .NBG0 Env.depth2Bitmap Vdp2Screen.zero).charAddr = 0x8000 := by decide
    rw [ht, hw, List.nil_append]
    unfold Vdp2Screen.pixelCalls
    rw [if_neg (by decide)]
  rw [hcalls] at hr
  refine ⟨by decide, by decide, ⟨_, hr⟩, ?_,
    fun env s hc hp ht => Vdp2Screen.drawCell_indexBounded env s hc hp ht,
    fun env s h => Vdp2Screen.patternAddr_palAddr_lt env s h,
    fun l env s h => Layer.init_bitmap_palAddr l env s h⟩
  rw [hr]
  rfl

/-- C30 (the code at the failing input): `drawPixel` writes the surface only
when 0 <= x < width and 0 <= y < height, at index y * width + x, and for every
resolution that `setWord(0x000, v)` assigns the written index is below
width * height and below 1024 * 512.  But `setWord(0x000, 0x0030)` (vertical
field 3) passes a height that was never assigned, so nothing bounds it: under
width 320 and a height of 2000 `drawPixel(0, 1999)` writes index 639680, past
the 1024 * 512 entries of the surface. -/
theorem drawPixel_bound :
    (∀ (spr : Vdp1) (s : Vdp2), (s.setWord spr 0 0x0030).resolution.width = 320 ∧
      (s.setWord spr 0 0x0030).resolution.height = none) ∧
    (Vdp2Screen.tall.drawPixel 0 1999 7).surface 639680 = 7 ∧
    Vdp2Screen.tall.surface 639680 = 0 ∧
    1024 * 512 ≤ 639680 ∧
    (∀ (s : Vdp2Screen) (x y : Int) (c : Nat),
      (x ≥ 0 ∧ y ≥ 0 ∧ x < s.width ∧ y < s.height →
        (s.drawPixel x y c).surface =
          Function.update s.surface (y * s.width + x).toNat c) ∧
      (¬ (x ≥ 0 ∧ y ≥ 0 ∧ x < s.width ∧ y < s.height) →
        (s.drawPixel x y c).surface = s.surface)) ∧
    (∀ (v : Nat) (w h x y : Int), setWordResolution v = ⟨w, some h⟩ →
      0 ≤ x → x < w → 0 ≤ y → y < h →
      (((y * w + x).toNat : Nat) : Int) = y * w + x ∧ y * w + x < w * h ∧
      (y * w + x).toNat < 1024 * 512) := by
  refine ⟨fun spr s => ?_, by decide, by decide, by decide,
    fun s x y c => Vdp2Screen.drawPixel_surface s x y c, ?_⟩
  · rw [Vdp2.setWord_resolution]
    exact ⟨by decide, by decide⟩
  · intro v w h x y hres hx hxw hy hyh
    obtain ⟨h1, h2, h3, h4⟩ := setWordResolution_fits v w h hres
    obtain ⟨e1, e2⟩ := drawPixel_index_lt w h x y hx hy hxw hyh
    refine ⟨e1, e2, ?_⟩
    have hwh : w * h ≤ 704 * 512 := by nlinarith
    omega

/-! ## The reach of a plane -/

theorem planeSelect_lt (reg : Memory) (offset : Nat) (bytes : List Nat) (i : Int)
    (ho : offset < 512) : planeSelect reg offset bytes i < 512 := by
  unfold planeSelect
  split_ifs
  · split
    · rename_i b _
      have hb : reg.getByte b < 2 ^ 9 :=
        Nat.lt_of_lt_of_le (Nat.mod_lt _ (by decide)) (by decide)
      exact Nat.or_lt_two_pow ho hb
    · decide
  · decide

/-- Every `planeAddr` computes the address from a selector value below 512,
for every map index. -/
theorem Layer.planeAddr_tmp (l : Layer) (env : Env) (i : Int) (s : Vdp2Screen) :
    ∃ tmp, tmp < 512 ∧ l.planeAddr env i s = planeAddrOf tmp s := by
  have hb := fun l => (Layer.mapOffset_bits env.reg l).2
  cases l
  · exact ⟨_, planeSelect_lt env.reg _ _ i (hb .NBG0), rfl⟩
  · exact ⟨_, planeSelect_lt env.reg _ _ i (hb .NBG1), rfl⟩
  · exact ⟨_, planeSelect_lt env.reg _ _ i (hb .NBG2), rfl⟩
  · exact ⟨_, planeSelect_lt env.reg _ _ i (hb .NBG3), rfl⟩
  · exact ⟨_, planeSelect_lt env.reg _ _ i (hb .RBG0), rfl⟩

theorem plane_reach (m mask k mult bound : Nat) (hm : m ≤ mask)
    (h : (mask / 2 ^ k + 1) * mult ≤ bound) : (m >>> k) * mult + mult ≤ bound := by
  rw [Nat.shiftRight_eq_div_pow]
  have h1 : m / 2 ^ k ≤ mask / 2 ^ k := Nat.div_le_div_right hm
  calc m / 2 ^ k * mult + mult = (m / 2 ^ k + 1) * mult := by ring
    _ ≤ (mask / 2 ^ k + 1) * mult := Nat.mul_le_mul_right _ (by omega)
    _ ≤ bound := h

theorem planeAddrOf_reach_aux (s : Vdp2Screen) (pw ph : Nat)
    (hw : s.planeW = pw) (hh : s.planeH = ph) (h2 : 2 ≤ pw + ph) (m mask M bound : Nat)
    (hm : m ≤ mask) (hb : bound ≤ 0x100000)
    (h : (mask / 2 ^ (pw + ph - 2) + 1) * (pw * ph * M) ≤ bound) :
    ulongOfInt (((m >>> (s.planeH + s.planeW - 2).toNat : Nat) : Int) *
        (s.planeH * s.planeW * (M : Int))) + s.planeW.toNat * s.planeH.toNat * M ≤ bound := by
  have hr := plane_reach m mask (pw + ph - 2) (pw * ph * M) bound hm h
  rw [planeAddrOf_nat s pw ph hw hh h2 m M (by omega), hw, hh]
  simpa using hr

/-- The plane that `planeAddrOf` locates ends at or below 1 MB, and at or
below 512 KB unless pattern names are one word and patterns 2x2 cells. -/
theorem planeAddrOf_reach (tmp : Nat) (s : Vdp2Screen) (ht : tmp < 512)
    (hp : s.patternDataSize = 1 ∨ s.patternDataSize = 2)
    (hw : s.patternWH = 1 ∨ s.patternWH = 2)
    (hplane : (s.planeW = 1 ∧ s.planeH = 1) ∨ (s.planeW = 2 ∧ s.planeH = 1) ∨
      (s.planeW = 2 ∧ s.planeH = 2)) :
    (planeAddrOf tmp s).addr +
        s.planeW.toNat * s.planeH.toNat * pageBytes s.patternDataSize s.patternWH ≤ 0x100000 ∧
    (¬ (s.patternDataSize = 1 ∧ s.patternWH = 2) →
      (planeAddrOf tmp s).addr +
        s.planeW.toNat * s.planeH.toNat * pageBytes s.patternDataSize s.patternWH ≤ 0x80000) := by
  obtain ⟨a11, a12, a21, a22⟩ := planeAddrOf_addr tmp s
  have c1 : ((0x2000 : Nat) : Int) = 0x2000 := rfl
  have c2 : ((0x800 : Nat) : Int) = 0x800 := rfl
  have c3 : ((0x4000 : Nat) : Int) = 0x4000 := rfl
  have c4 : ((0x1000 : Nat) : Int) = 0x1000 := rfl
  have p11 : pageBytes 1 1 = 0x2000 := rfl
  have p12 : pageBytes 1 2 = 0x800 := rfl
  have p21 : pageBytes 2 1 = 0x4000 := rfl
  have p22 : pageBytes 2 2 = 0x1000 := rfl
  rcases hp with hp | hp <;> rcases hw with hw | hw <;>
    rcases hplane with ⟨hW, hH⟩ | ⟨hW, hH⟩ | ⟨hW, hH⟩
  · have h := planeAddrOf_reach_aux s 1 1 hW hH (by decide) (tmp &&& 0x3F) 0x3F 0x2000 0x80000
      Nat.and_le_right (by decide) (by decide)
    rw [c1] at h
    rw [a11 hp hw, hp, hw, p11]
    exact ⟨le_trans h (by decide), fun _ => h⟩
  · have h := planeAddrOf_reach_aux s 2 1 hW hH (by decide) (tmp &&& 0x3F) 0x3F 0x2000 0x80000
      Nat.and_le_right (by decide) (by decide)
    rw [c1] at h
    rw [a11 hp hw, hp, hw, p11]
    exact ⟨le_trans h (by decide), fun _ => h⟩
  · have h := planeAddrOf_reach_aux s 2 2 hW hH (by decide) (tmp &&& 0x3F) 0x3F 0x2000 0x80000
      Nat.and_le_right (by decide) (by decide)
    rw [c1] at h
    rw [a11 hp hw, hp, hw, p11]
    exact ⟨le_trans h (by decide), fun _ => h⟩
  · have h := planeAddrOf_reach_aux s 1 1 hW hH (by decide) (tmp) 511 0x800 0x100000
      (by omega) (by decide) (by decide)
    rw [c2] at h
    rw [a12 hp hw, hp, hw, p12]
    exact ⟨h, fun hn => absurd ⟨rfl, rfl⟩ hn⟩
  · have h := planeAddrOf_reach_aux s 2 1 hW hH (by decide) (tmp) 511 0x800 0x100000
      (by omega) (by decide) (by decide)
    rw [c2] at h
    rw [a12 hp hw, hp, hw, p12]
    exact ⟨h, fun hn => absurd ⟨rfl, rfl⟩ hn⟩
  · have h := planeAddrOf_reach_aux s 2 2 hW hH (by decide) (tmp) 511 0x800 0x100000
      (by omega) (by decide) (by decide)
    rw [c2] at h
    rw [a12 hp hw, hp, hw, p12]
    exact ⟨h, fun hn => absurd ⟨rfl, rfl⟩ hn⟩
  · have h := planeAddrOf_reach_aux s 1 1 hW hH (by decide) (tmp &&& 0x1F) 0x1F 0x4000 0x80000
      Nat.and_le_right (by decide) (by decide)
    rw [c3] at h
    rw [a21 hp hw, hp, hw, p21]
    exact ⟨le_trans h (by decide), fun _ => h⟩
  · have h := planeAddrOf_reach_aux s 2 1 hW hH (by decide) (tmp &&& 0x1F) 0x1F 0x4000 0x80000
      Nat.and_le_right (by decide) (by decide)
    rw [c3] at h
    rw [a21 hp hw, hp, hw, p21]
    exact ⟨le_trans h (by decide), fun _ => h⟩
  · have h := planeAddrOf_reach_aux s 2 2 hW hH (by decide) (tmp &&& 0x1F) 0x1F 0x4000 0x80000
      Nat.and_le_right (by decide) (by decide)
    rw [c3] at h
    rw [a21 hp hw, hp, hw, p21]
    exact ⟨le_trans h (by decide), fun _ => h⟩
  · have h := planeAddrOf_reach_aux s 1 1 hW hH (by decide) (tmp &&& 0x7F) 0x7F 0x1000 0x80000
      Nat.and_le_right (by decide) (by decide)
    rw [c4] at h
    rw [a22 hp hw, hp, hw, p22]
    exact ⟨le_trans h (by decide), fun _ => h⟩
  · have h := planeAddrOf_reach_aux s 2 1 hW hH (by decide) (tmp &&& 0x7F) 0x7F 0x1000 0x80000
      Nat.and_le_right (by decide) (by decide)
    rw [c4] at h
    rw [a22 hp hw, hp, hw, p22]
    exact ⟨le_trans h (by decide), fun _ => h⟩
  · have h := planeAddrOf_reach_aux s 2 2 hW hH (by decide) (tmp &&& 0x7F) 0x7F 0x1000 0x80000
      Nat.and_le_right (by decide) (by decide)
    rw [c4] at h
    rw [a22 hp hw, hp, hw, p22]
    exact ⟨le_trans h (by decide), fun _ => h⟩

/-- For every layer, every register content and every map index, the plane
that `planeAddr` locates ends at or below 1 MB, and at or below 512 KB unless
pattern names are one word and patterns 2x2 cells. -/
theorem Layer.planeAddr_reach (l : Layer) (env : Env) (i : Int) (s : Vdp2Screen)
    (hp : s.patternDataSize = 1 ∨ s.patternDataSize = 2)
    (hw : s.patternWH = 1 ∨ s.patternWH = 2)
    (hplane : (s.planeW = 1 ∧ s.planeH = 1) ∨ (s.planeW = 2 ∧ s.planeH = 1) ∨
      (s.planeW = 2 ∧ s.planeH = 2)) :
    (l.planeAddr env i s).addr +
        s.planeW.toNat * s.planeH.toNat * pageBytes s.patternDataSize s.patternWH ≤ 0x100000 ∧
    (¬ (s.patternDataSize = 1 ∧ s.patternWH = 2) →
      (l.planeAddr env i s).addr +
        s.planeW.toNat * s.planeH.toNat * pageBytes s.patternDataSize s.patternWH ≤ 0x80000) := by
  obtain ⟨tmp, ht, e⟩ := Layer.planeAddr_tmp l env i s
  rw [e]
  exact planeAddrOf_reach tmp s ht hp hw hplane

/-! ## The special-function bits and the alpha factor -/

theorem Vdp2Screen.patternName_specialFunction (env : Env) (s : Vdp2Screen)
    (hsize : s.patternDataSize = 1) :
    (s.patternName env).specialFunction = s.supplementData &&& 0x3 := by
  unfold Vdp2Screen.patternName
  simp only [hsize, if_true]
  have e : (0x300 >>> 8 : Nat) = 0x3 := by decide
  (repeat' split) <;> simp [e]

theorem and_three_of_mod (a b : Nat) (h : a % 4 = b % 4) : a &&& 0x3 = b &&& 0x3 := by
  have ha : a &&& 0x3 = a % 4 := Nat.and_pow_two_sub_one_eq_mod a 2
  have hb : b &&& 0x3 = b % 4 := Nat.and_pow_two_sub_one_eq_mod b 2
  rw [ha, hb, h]

theorem bitNot_and_31 (w : Nat) : bitNot w &&& 0x1F = 31 - (w &&& 0x1F) := by
  unfold bitNot
  rw [Nat.and_xor_distrib_right]
  have h1 : (0xFFFFFFFF &&& 0x1F : Nat) = 31 := by decide
  rw [h1]
  have h2 : w &&& 0x1F < 32 := Nat.lt_of_le_of_lt Nat.and_le_right (by decide)
  have key : ∀ r < 32, r ^^^ 31 = 31 - r := by decide
  exact key _ h2

theorem shiftRight_xor (a b k : Nat) : (a ^^^ b) >>> k = (a >>> k) ^^^ (b >>> k) := by
  apply Nat.eq_of_testBit_eq
  intro i
  simp only [Nat.testBit_shiftRight, Nat.testBit_xor]

theorem bitNot_shiftRight_and_31 (w : Nat) :
    (bitNot w >>> 8) &&& 0x1F = 31 - ((w >>> 8) &&& 0x1F) := by
  unfold bitNot
  rw [shiftRight_xor, Nat.and_xor_distrib_right]
  have h1 : ((0xFFFFFFFF >>> 8) &&& 0x1F : Nat) = 31 := by decide
  rw [h1]
  have h2 : (w >>> 8) &&& 0x1F < 32 := Nat.lt_of_le_of_lt Nat.and_le_right (by decide)
  have key : ∀ r < 32, r ^^^ 31 = 31 - r := by decide
  exact key _ h2

/-- The low-byte alpha formula is 255 - 8 * ratio. -/
theorem alpha_low (w : Nat) :
    ((bitNot w &&& 0x1F) <<< 3) + 0x7 = 255 - 8 * (w &&& 0x1F) := by
  rw [bitNot_and_31, Nat.shiftLeft_eq]
  have h2 : w &&& 0x1F < 32 := Nat.lt_of_le_of_lt Nat.and_le_right (by decide)
  omega

/-- The high-byte alpha formula is 255 - 8 * ratio, the ratio read from the
high byte. -/
theorem alpha_high (w : Nat) :
    ((bitNot w &&& 0x1F00) >>> 5) + 0x7 = 255 - 8 * ((w >>> 8) &&& 0x1F) := by
  have e := and_shifted_mask (bitNot w) 8 5
  have c : ((2 ^ 5 - 1) <<< 8 : Nat) = 0x1F00 := by decide
  have c' : (2 ^ 5 - 1 : Nat) = 0x1F := by decide
  rw [c, c'] at e
  rw [e, bitNot_shiftRight_and_31, Nat.shiftLeft_eq, Nat.shiftRight_eq_div_pow]
  have h2 : (w >>> 8) &&& 0x1F < 32 := Nat.lt_of_le_of_lt Nat.and_le_right (by decide)
  omega

/-- The high-byte formula agrees with the low-byte formula applied to the
high byte. -/
theorem alpha_high_eq_low (w : Nat) :
    ((bitNot w &&& 0x1F00) >>> 5) + 0x7 = ((bitNot (w >>> 8) &&& 0x1F) <<< 3) + 0x7 := by
  rw [alpha_high, alpha_low]

/-- The `alpha` that each `init` derives, as the source writes it. -/
theorem Layer.init_alpha_source (l : Layer) (env : Env) (s : Vdp2Screen) :
    (l.init env s).alpha =
      if readWord env.reg 0xEC &&& l.colorCalcBit ≠ 0 then
        (match l with
          | .NBG0 => ((bitNot (readWord env.reg 0x108) &&& 0x1F) <<< 3) + 0x7
          | .NBG1 => ((bitNot (readWord env.reg 0x108) &&& 0x1F00) >>> 5) + 0x7
          | .NBG2 => ((bitNot (readWord env.reg 0x10A) &&& 0x1F) <<< 3) + 0x7
          | .NBG3 => ((bitNot (readWord env.reg 0x10A) &&& 0x1F00) >>> 5) + 0x7
          | .RBG0 => ((bitNot (readWord env.reg 0x108) &&& 0x1F) <<< 3) + 0x7)
      else 0xFF := by
  cases l
  · unfold Layer.init NBG0.init Layer.colorCalcBit
    dsimp only
    simp only [initColorOffset_rest]
    split_ifs <;> rfl
  · unfold Layer.init NBG1.init Layer.colorCalcBit
    dsimp only
    simp only [initColorOffset_rest]
    split_ifs <;> rfl
  · unfold Layer.init NBG2.init Layer.colorCalcBit
    dsimp only
    simp only [initColorOffset_rest]
    split_ifs <;> rfl
  · unfold Layer.init NBG3.init Layer.colorCalcBit
    dsimp only
    simp only [initColorOffset_rest]
    split_ifs <;> rfl
  · unfold Layer.init RBG0.init Layer.colorCalcBit
    dsimp only
    simp only [initColorOffset_rest]
    split_ifs <;> rfl

theorem Layer.ratioField_lt (reg : Memory) (l : Layer) : l.ratioField reg < 32 := by
  cases l <;> exact Nat.lt_of_le_of_lt Nat.and_le_right (by decide)

/-- The `alpha` that each `init` derives: 255 - 8 * ratio when the layer's
colour-calculation bit is set, 255 otherwise. -/
theorem Layer.init_alpha (l : Layer) (env : Env) (s : Vdp2Screen) :
    (l.init env s).alpha =
      if readWord env.reg 0xEC &&& l.colorCalcBit ≠ 0 then 255 - 8 * l.ratioField env.reg
      else 255 := by
  rw [Layer.init_alpha_source]
  cases l <;> simp only [Layer.ratioField, alpha_low, alpha_high]

/-! ## The checksum of a status report -/

theorem u8_lt (n : Nat) : u8 n < 256 := Nat.mod_lt _ (by decide)

theorem u8_of_lt {n : Nat} (h : n < 256) : u8 n = n := Nat.mod_eq_of_lt h

set_option maxRecDepth 100000 in
theorem u8_bitNot_small : ∀ p < 256, u8 (bitNot p) = 255 - p ∧ u8 (bitNot p) = p ^^^ 0xFF := by
  decide

theorem u8_bitNot (p : Nat) (h : p < 256) : u8 (bitNot p) = 255 - p := (u8_bitNot_small p h).1

theorem range_11 : List.range 11 = [0, 1, 2, 3, 4, 5, 6, 7, 8, 9, 10] := by decide

theorem range_12 : List.range 12 = [0, 1, 2, 3, 4, 5, 6, 7, 8, 9, 10, 11] := by decide

/-- The `parity` that the loop of `set_checksum` accumulates is the sum of
bytes 0..10 modulo 256. -/
theorem parity_eq (data : Nat → Nat) :
    (List.range 11).foldl (fun parity i => u8 (parity + u8 (data i))) 0 =
      byteSum data 11 % 256 := by
  unfold byteSum
  rw [range_11]
  simp only [List.foldl, List.map, List.sum_cons, List.sum_nil]
  unfold u8
  omega

theorem set_checksum_other (data : Nat → Nat) (i : Nat) (h11 : i ≠ 11) (h12 : i ≠ 12) :
    set_checksum data i = data i := by
  unfold set_checksum
  simp [Function.update, h11, h12]

theorem set_checksum_11 (data : Nat → Nat) :
    set_checksum data 11 = 255 - byteSum data 11 % 256 ∧
    set_checksum data 11 = (byteSum data 11 % 256) ^^^ 0xFF := by
  have h : set_checksum data 11 = u8 (bitNot (byteSum data 11 % 256)) := by
    unfold set_checksum
    simp only [parity_eq]
    simp [Function.update]
  rw [h]
  exact u8_bitNot_small _ (Nat.mod_lt _ (by decide))

theorem set_checksum_12 (data : Nat → Nat) : set_checksum data 12 = 0 := by
  unfold set_checksum
  simp [Function.update]

theorem byteSum_congr (a b : Nat → Nat) (n : Nat) (h : ∀ i < n, a i = b i) :
    byteSum a n = byteSum b n := by
  unfold byteSum
  congr 1
  apply List.map_congr_left
  intro i hi
  rw [h i (List.mem_range.mp hi)]

theorem byteSum_succ (data : Nat → Nat) (n : Nat) :
    byteSum data (n + 1) = byteSum data n + u8 (data n) := by
  unfold byteSum
  rw [List.range_succ, List.map_append, List.sum_append]
  simp

/-- After `set_checksum` the bytes 0..11 sum to 0xFF modulo 256. -/
theorem set_checksum_valid (data : Nat → Nat) :
    byteSum (set_checksum data) 12 % 256 = 0xFF := by
  have e : byteSum (set_checksum data) 11 = byteSum data 11 :=
    byteSum_congr _ _ 11 fun i hi => set_checksum_other data i (by omega) (by omega)
  rw [byteSum_succ, e, (set_checksum_11 data).1]
  unfold u8
  omega

theorem make_status_data_fields (state : CdState) (data : Nat → Nat) :
    make_status_data state data 0 = u8 state.current_operation ∧
    make_status_data state data 1 = u8 state.q_subcode ∧
    make_status_data state data 2 = u8 state.track_number ∧
    make_status_data state data 3 = u8 state.index_field ∧
    make_status_data state data 4 = u8 state.minutes ∧
    make_status_data state data 5 = u8 state.seconds ∧
    make_status_data state data 6 = u8 state.frame ∧
    make_status_data state data 7 = 0x04 ∧
    make_status_data state data 8 = u8 state.absolute_minutes ∧
    make_status_data state data 9 = u8 state.absolute_seconds ∧
    make_status_data state data 10 = u8 state.absolute_frame ∧
    make_status_data state data 12 = 0 ∧
    byteSum (make_status_data state data) 12 % 256 = 0xFF ∧
    ∀ i, 13 ≤ i → make_status_data state data i = data i := by
  unfold make_status_data
  simp only
  refine ⟨?_, ?_, ?_, ?_, ?_, ?_, ?_, ?_, ?_, ?_, ?_, set_checksum_12 _, set_checksum_valid _,
    fun i hi => ?_⟩
  all_goals rw [set_checksum_other _ _ (by omega) (by omega)]
  all_goals simp only [Function.update, eq_rec_constant, dite_eq_ite]
  all_goals first | rfl | (repeat rw [if_neg (by omega)])

/-! ## Frame addresses and BCD -/

set_option maxRecDepth 100000 in
theorem bcd2num_num2bcd_small : ∀ n < 100, bcd2num (num2bcd n) = n := by decide

theorem s32_of_small (z : Int) (h0 : 0 ≤ z) (h1 : z < 2147483648) : s32 z = z := by
  unfold s32 toInt32 ulongOfInt
  have e : ((z % 4294967296).toNat : Int) = z := by omega
  have e2 : (z % 4294967296).toNat % 4294967296 = (z % 4294967296).toNat := by omega
  rw [e2]
  split_ifs <;> omega

theorem fad2msf_eq (f : Nat) (h : f < 450000) :
    fad2msf (f : Int) = (f / 4500, f % 4500 / 75, f % 75) := by
  unfold fad2msf
  have t1 : Int.tdiv (f : Int) (75 * 60) = ((f / 4500 : Nat) : Int) := by
    rw [Int.tdiv_eq_ediv (by omega) (by decide)]
    norm_num
  have m0 : u8OfInt ((f / 4500 : Nat) : Int) = f / 4500 := by
    unfold u8OfInt
    omega
  simp only [t1, m0]
  have r1 : s32 ((f : Int) - ((f / 4500 : Nat) : Int) * (75 * 60)) = ((f % 4500 : Nat) : Int) := by
    rw [s32_of_small _ (by omega) (by omega)]
    omega
  simp only [r1]
  have t2 : Int.tdiv ((f % 4500 : Nat) : Int) 75 = ((f % 4500 / 75 : Nat) : Int) := by
    rw [Int.tdiv_eq_ediv (by omega) (by decide)]
    norm_num
  have m1 : u8OfInt ((f % 4500 / 75 : Nat) : Int) = f % 4500 / 75 := by
    unfold u8OfInt
    omega
  simp only [t2, m1]
  have r2 : s32 (((f % 4500 : Nat) : Int) - ((f % 4500 / 75 : Nat) : Int) * 75) =
      ((f % 75 : Nat) : Int) := by
    rw [s32_of_small _ (by omega) (by omega)]
    omega
  simp only [r2]
  have m2 : u8OfInt ((f % 75 : Nat) : Int) = f % 75 := by
    unfold u8OfInt
    omega
  rw [m2]

theorem msf_bcd2fad_num2bcd (m s f : Nat) (hm : m < 100) (hs : s < 100) (hf : f < 100) :
    msf_bcd2fad (num2bcd m) (num2bcd s) (num2bcd f) = (m * 60 + s) * 75 + f := by
  unfold msf_bcd2fad
  simp only [bcd2num_num2bcd_small m hm, bcd2num_num2bcd_small s hs, bcd2num_num2bcd_small f hf]
  unfold u32
  omega

/-- A frame address below 450000 survives the conversion to BCD
minute/second/frame and back. -/
theorem msf_bcd2fad_fad2msf_bcd (f : Nat) (h : f < 450000) :
    msf_bcd2fad (fad2msf_bcd (f : Int)).1 (fad2msf_bcd (f : Int)).2.1
      (fad2msf_bcd (f : Int)).2.2 = f ∧
    (fad2msf (f : Int)).1 < 100 ∧ (fad2msf (f : Int)).2.1 < 60 ∧ (fad2msf (f : Int)).2.2 < 75 ∧
    bcd2num (fad2msf_bcd (f : Int)).1 = (fad2msf (f : Int)).1 ∧
    bcd2num (fad2msf_bcd (f : Int)).2.1 = (fad2msf (f : Int)).2.1 ∧
    bcd2num (fad2msf_bcd (f : Int)).2.2 = (fad2msf (f : Int)).2.2 := by
  unfold fad2msf_bcd
  rw [fad2msf_eq f h]
  simp only
  have hm : f / 4500 < 100 := by omega
  have hs : f % 4500 / 75 < 60 := by omega
  have hf : f % 75 < 75 := by omega
  refine ⟨?_, hm, hs, hf, bcd2num_num2bcd_small _ hm, bcd2num_num2bcd_small _ (by omega),
    bcd2num_num2bcd_small _ (by omega)⟩
  rw [msf_bcd2fad_num2bcd _ _ _ hm (by omega) (by omega)]
  omega

/-! ## Receiving a command bit by bit -/

theorem feedBits_append (a b : List Nat) (d : CdDrive) :
    feedBits (a ++ b) d = (feedBits a d).bind (feedBits b) := by
  unfold feedBits
  rw [List.foldlM_append]
  rfl

theorem or_bits_eq_sum (b0 b1 b2 b3 b4 b5 b6 b7 : Nat)
    (h0 : b0 ≤ 1) (h1 : b1 ≤ 1) (h2 : b2 ≤ 1) (h3 : b3 ≤ 1) (h4 : b4 ≤ 1) (h5 : b5 ≤ 1)
    (h6 : b6 ≤ 1) (h7 : b7 ≤ 1) :
    u8 (u8 (u8 (u8 (u8 (u8 (u8 (u8 (u8 (u8 (u8 (u8 (u8 (u8 (u8 (u8 0 |||
      (u8 b0 <<< 0))) ||| (u8 b1 <<< 1))) ||| (u8 b2 <<< 2))) ||| (u8 b3 <<< 3))) |||
      (u8 b4 <<< 4))) ||| (u8 b5 <<< 5))) ||| (u8 b6 <<< 6))) ||| (u8 b7 <<< 7)) =
    (b0 <<< 0) + (b1 <<< 1) + (b2 <<< 2) + (b3 <<< 3) + (b4 <<< 4) + (b5 <<< 5) + (b6 <<< 6) +
      (b7 <<< 7) := by
  interval_cases b0 <;> interval_cases b1 <;> interval_cases b2 <;> interval_cases b3 <;>
    interval_cases b4 <;> interval_cases b5 <;> interval_cases b6 <;> interval_cases b7 <;> rfl

/-- Eight calls of `cd_drive_set_serial_bit` from the start of a byte below
the thirteenth. -/
theorem feedBits_byte (b0 b1 b2 b3 b4 b5 b6 b7 : Nat) (d : CdDrive)
    (hbit : d.bit_counter = 0) (hk : d.byte_counter < 13) :
    feedBits [b0, b1, b2, b3, b4, b5, b6, b7] d =
      .ok { d with
        received_data := Function.update d.received_data d.byte_counter
          (u8 (u8 (u8 (u8 (u8 (u8 (u8 (u8 (u8 (u8 (u8 (u8 (u8 (u8 (u8
            (u8 (d.received_data d.byte_counter) |||
            (u8 b0 <<< 0))) ||| (u8 b1 <<< 1))) ||| (u8 b2 <<< 2))) ||| (u8 b3 <<< 3))) |||
            (u8 b4 <<< 4))) ||| (u8 b5 <<< 5))) ||| (u8 b6 <<< 6))) ||| (u8 b7 <<< 7)))
        bit_counter := 0
        byte_counter := d.byte_counter + 1
        comm_state :=
          if d.byte_counter + 1 = 13 then .WaitToRxio else d.comm_state.afterByte } := by
  unfold feedBits
  simp only [List.foldlM, bind, Except.bind, cd_drive_set_serial_bit, hbit, hk, if_true,
    Function.update_same, Function.update_idem, Nat.zero_add, Nat.reduceAdd, Nat.reduceEqDiff,
    if_false, pure, Except.pure, CommunicationState.afterByte]
  by_cases h1 : d.comm_state = .SendingFirstByte <;>
    by_cases h2 : d.comm_state = .SendingByte <;>
    by_cases h3 : d.byte_counter = 12 <;> simp [h1, h2, h3]

theorem range_8 : List.range 8 = [0, 1, 2, 3, 4, 5, 6, 7] := by decide

theorem bitsOf_byte (bit : Nat → Nat) (k : Nat) :
    bitsOf bit (8 * (k + 1)) =
      bitsOf bit (8 * k) ++
        [bit (8 * k + 0), bit (8 * k + 1), bit (8 * k + 2), bit (8 * k + 3), bit (8 * k + 4),
          bit (8 * k + 5), bit (8 * k + 6), bit (8 * k + 7)] := by
  unfold bitsOf
  have e : 8 * (k + 1) = 8 * k + 8 := by ring
  rw [e, List.range_add, List.map_append, range_8]
  rfl

theorem lsbByte_eq (bit : Nat → Nat) (k : Nat) :
    lsbByte bit k =
      (bit (8 * k + 0) <<< 0) + (bit (8 * k + 1) <<< 1) + (bit (8 * k + 2) <<< 2) +
        (bit (8 * k + 3) <<< 3) + (bit (8 * k + 4) <<< 4) + (bit (8 * k + 5) <<< 5) +
        (bit (8 * k + 6) <<< 6) + (bit (8 * k + 7) <<< 7) := by
  unfold lsbByte
  rw [range_8]
  simp only [List.map, List.sum_cons, List.sum_nil]
  ring

theorem CommunicationState.afterByte_idem (c : CommunicationState) :
    c.afterByte.afterByte = c.afterByte := by
  cases c <;> rfl

/-- After `k <= 13` whole bytes fed from the start of a transfer: the bytes
below `k` are assembled least-significant bit first, nothing else is written,
and the thirteenth byte leaves `comm_state = WaitToRxio`. -/
theorem feedBits_bytes (bit : Nat → Nat) (hbits : ∀ n < 104, bit n ≤ 1) (d0 : CdDrive)
    (hbit : d0.bit_counter = 0) (hbyte : d0.byte_counter = 0)
    (hzero : ∀ j < 13, d0.received_data j = 0) (k : Nat) (hk : k ≤ 13) :
    ∃ d, feedBits (bitsOf bit (8 * k)) d0 = .ok d ∧ d.bit_counter = 0 ∧ d.byte_counter = k ∧
      (∀ j < k, d.received_data j = lsbByte bit j) ∧
      (∀ j, k ≤ j → d.received_data j = d0.received_data j) ∧
      (0 < k → d.comm_state =
        if k = 13 then CommunicationState.WaitToRxio else d0.comm_state.afterByte) ∧
      d.state_data = d0.state_data ∧ d.state = d0.state ∧ d.toc = d0.toc ∧
      d.toc_entry = d0.toc_entry ∧ d.num_toc_entries = d0.num_toc_entries ∧
      d.disc_fad = d0.disc_fad ∧ d.cycles_remainder = d0.cycles_remainder := by
  induction k with
  | zero =>
    refine ⟨d0, rfl, hbit, hbyte, fun j hj => absurd hj (Nat.not_lt_zero j), fun _ _ => rfl,
      fun h => absurd h (Nat.lt_irrefl 0), rfl, rfl, rfl, rfl, rfl, rfl, rfl⟩
  | succ k ih =>
    obtain ⟨d, hd, b0, bk, hlow, hhigh, hc, f1, f2, f3, f4, f5, f6, f7⟩ := ih (by omega)
    have hk13 : d.byte_counter < 13 := by omega
    have hrk : d.received_data d.byte_counter = 0 := by
      rw [hhigh _ (by omega)]
      exact hzero _ hk13
    rw [bitsOf_byte, feedBits_append, hd]
    simp only [Except.bind]
    rw [feedBits_byte _ _ _ _ _ _ _ _ d b0 hk13, hrk,
      or_bits_eq_sum _ _ _ _ _ _ _ _ (hbits _ (by omega)) (hbits _ (by omega))
        (hbits _ (by omega)) (hbits _ (by omega)) (hbits _ (by omega)) (hbits _ (by omega))
        (hbits _ (by omega)) (hbits _ (by omega)), ← lsbByte_eq, bk]
    refine ⟨_, rfl, rfl, rfl, fun j hj => ?_, fun j hj => ?_, fun _ => ?_,
      f1, f2, f3, f4, f5, f6, f7⟩
    · by_cases hjk : j = k
      · subst hjk
        simp
      · simp only [Function.update_noteq hjk]
        exact hlow j (by omega)
    · have hjk : j ≠ k := by omega
      simp only [Function.update_noteq hjk]
      exact hhigh j (by omega)
    · show (if k + 1 = 13 then CommunicationState.WaitToRxio else d.comm_state.afterByte) = _
      by_cases h13 : k + 1 = 13
      · rw [if_pos h13, if_pos h13]
      · rw [if_neg h13, if_neg h13]
        by_cases h0 : k = 0
        · subst h0
          have e : d = d0 := by
            have := hd
            unfold feedBits bitsOf at this
            simp at this
            injection this with this
            exact this.symm
          rw [e]
        · rw [hc (by omega), if_neg (by omega), CommunicationState.afterByte_idem]

/-! ## The states of the transfer -/

theorem do_toc_comm_state (d : CdDrive) : (do_toc d).comm_state = .NoTransfer := by
  unfold do_toc
  simp only
  split_ifs <;> rfl

theorem continue_command_comm_state (d : CdDrive) :
    (continue_command d).1.comm_state = .NoTransfer := by
  unfold continue_command
  split_ifs
  · exact do_toc_comm_state d
  · rfl

theorem continue_command_cycles (d : CdDrive) :
    (continue_command d).2 = TIME_READING ∨ (continue_command d).2 = TIME_PERIODIC := by
  unfold continue_command
  split_ifs
  · exact Or.inl rfl
  · exact Or.inr rfl

/-- What `do_command` leaves in `comm_state`, and the cycle counts it
returns: only the commands 0x00 and 0x03 set `comm_state = NoTransfer`, every
other command byte leaves it as it was. -/
theorem do_command_result (cdi : CDInterface) (d d' : CdDrive) (cycles : Int)
    (h : do_command cdi d = .ok (d', cycles)) :
    (u8 (d.received_data 0) = 0x0 ∨ u8 (d.received_data 0) = 0x3 →
      d'.comm_state = .NoTransfer) ∧
    (u8 (d.received_data 0) ≠ 0x0 → u8 (d.received_data 0) ≠ 0x3 →
      d'.comm_state = d.comm_state ∧ cycles = TIME_PERIODIC) ∧
    (cycles = TIME_READING ∨ cycles = TIME_PERIODIC) := by
  unfold do_command at h
  simp only at h
  split at h
  · rename_i hc
    injection h with h
    have h1 : d' = (continue_command d).1 := by rw [h]
    have h2 : cycles = (continue_command d).2 := by rw [h]
    rw [h1, h2]
    exact ⟨fun _ => continue_command_comm_state d, fun hn => absurd hc hn,
      continue_command_cycles d⟩
  · rename_i hc
    injection h with h
    injection h with h1 h2
    subst h1 h2
    rw [hc]
    exact ⟨fun hh => by rcases hh with hh | hh <;> exact absurd hh (by decide),
      fun _ _ => ⟨rfl, rfl⟩, Or.inr rfl⟩
  · rename_i hc
    injection h with h
    injection h with h1 h2
    subst h1 h2
    exact ⟨fun _ => do_toc_comm_state _, fun _ hn => absurd hc hn, Or.inl rfl⟩
  · rename_i hc
    injection h with h
    injection h with h1 h2
    subst h1 h2
    rw [hc]
    exact ⟨fun hh => by rcases hh with hh | hh <;> exact absurd hh (by decide),
      fun _ _ => ⟨rfl, rfl⟩, Or.inr rfl⟩
  · rename_i hc
    injection h with h
    injection h with h1 h2
    subst h1 h2
    rw [hc]
    exact ⟨fun hh => by rcases hh with hh | hh <;> exact absurd hh (by decide),
      fun _ _ => ⟨rfl, rfl⟩, Or.inr rfl⟩
  · rename_i hc
    injection h with h
    injection h with h1 h2
    subst h1 h2
    rw [hc]
    exact ⟨fun hh => by rcases hh with hh | hh <;> exact absurd hh (by decide),
      fun _ _ => ⟨rfl, rfl⟩, Or.inr rfl⟩
  · rename_i hc
    split at h
    · exact absurd h (by simp)
    · injection h with h
      injection h with h1 h2
      subst h1 h2
      rw [hc]
      exact ⟨fun hh => by rcases hh with hh | hh <;> exact absurd hh (by decide),
        fun _ _ => ⟨rfl, rfl⟩, Or.inr rfl⟩
  · rename_i hc
    injection h with h
    injection h with h1 h2
    subst h1 h2
    rw [hc]
    exact ⟨fun hh => by rcases hh with hh | hh <;> exact absurd hh (by decide),
      fun _ _ => ⟨rfl, rfl⟩, Or.inr rfl⟩
  · rename_i hc
    injection h with h
    injection h with h1 h2
    subst h1 h2
    rw [hc]
    exact ⟨fun hh => by rcases hh with hh | hh <;> exact absurd hh (by decide),
      fun _ _ => ⟨rfl, rfl⟩, Or.inr rfl⟩
  · rename_i h0 h2 h3 h4 h6 h8 h9 ha hb
    injection h with h
    injection h with h1 h2'
    subst h1 h2'
    exact ⟨fun hh => by rcases hh with hh | hh; exact absurd hh h0; exact absurd hh h3,
      fun _ _ => ⟨rfl, rfl⟩, Or.inr rfl⟩

theorem toc_10_get_track_fault (toc : Nat → TocEntry) (fad : Int) (e : CdFault)
    (h : toc_10_get_track toc fad = .error e) : e = .assertTrack := by
  unfold toc_10_get_track at h
  split at h
  · cases h
  · injection h with h
    exact h.symm

theorem do_command_no_assertExec (cdi : CDInterface) (d : CdDrive) :
    do_command cdi d ≠ .error .assertExec := by
  intro h
  unfold do_command at h
  simp only at h
  split at h
  all_goals try (cases h)
  split at h
  · rename_i e heq
    injection h with h
    subst h
    have := toc_10_get_track_fault _ _ _ heq
    cases this
  · cases h

/-- Every return of `cd_command_exec`: the state it leaves and the cycle
count, by the state it was called in. -/
theorem cd_command_exec_result (cdi : CDInterface) (d d' : CdDrive) (cycles : Int)
    (h : cd_command_exec cdi d = .ok (d', cycles)) :
    (d.comm_state = .Reset → d'.comm_state = .NoTransfer ∧
      cycles = TIME_POWER_ON + TIME_WAITING) ∧
    (d.comm_state = .SendingFirstByte ∨ d.comm_state = .SendingByte →
      d' = d ∧ cycles = TIME_BYTE) ∧
    (d.comm_state = .NoTransfer → d'.comm_state = .SendingFirstByte ∧ cycles = TIME_START) ∧
    (d.comm_state = .WaitToOeFirstByte ∨ d.comm_state = .WaitToOe →
      d'.comm_state = .SendingByte ∧ cycles = TIME_OE) ∧
    (d.comm_state = .WaitToRxio → do_command cdi d = .ok (d', cycles)) ∧
    d.comm_state ∈ [CommunicationState.NoTransfer, CommunicationState.Reset,
      CommunicationState.SendingFirstByte, CommunicationState.SendingByte,
      CommunicationState.WaitToOe, CommunicationState.WaitToOeFirstByte,
      CommunicationState.WaitToRxio] := by
  unfold cd_command_exec at h
  split_ifs at h with c1 c2 c3 c4 c5 c6
  · injection h with h
    injection h with h1 h2
    subst h1 h2
    simp [c1]
  · injection h with h
    injection h with h1 h2
    subst h1 h2
    rcases c2 with c2 | c2 <;> simp [c2]
  · injection h with h
    injection h with h1 h2
    subst h1 h2
    simp [c3]
  · injection h with h
    injection h with h1 h2
    subst h1 h2
    simp [c4]
  · injection h with h
    injection h with h1 h2
    subst h1 h2
    simp [c5]
  · simp [c6, h]

/-- The state `cd_command_exec` leaves is one of the seven that it handles. -/
theorem cd_command_exec_comm_state (cdi : CDInterface) (d d' : CdDrive) (cycles : Int)
    (h : cd_command_exec cdi d = .ok (d', cycles)) :
    d'.comm_state ∈ [CommunicationState.NoTransfer, CommunicationState.Reset,
      CommunicationState.SendingFirstByte, CommunicationState.SendingByte,
      CommunicationState.WaitToOe, CommunicationState.WaitToOeFirstByte,
      CommunicationState.WaitToRxio] := by
  obtain ⟨r1, r2, r3, r4, r5, hin⟩ := cd_command_exec_result cdi d d' cycles h
  simp only [List.mem_cons, List.mem_singleton, List.not_mem_nil, or_false] at hin ⊢
  rcases hin with c | c | c | c | c | c | c
  · rw [(r3 c).1]
    simp
  · rw [(r1 c).1]
    simp
  · rw [(r2 (Or.inl c)).1, c]
    simp
  · rw [(r2 (Or.inr c)).1, c]
    simp
  · rw [(r4 (Or.inr c)).1]
    simp
  · rw [(r4 (Or.inl c)).1]
    simp
  · obtain ⟨q1, q2, _⟩ := do_command_result cdi d d' cycles (r5 c)
    by_cases h03 : u8 (d.received_data 0) = 0x0 ∨ u8 (d.received_data 0) = 0x3
    · rw [q1 h03]
      simp
    · rw [(q2 (fun e => h03 (Or.inl e)) (fun e => h03 (Or.inr e))).1, c]
      simp

/-- The state `cd_drive_set_serial_bit` leaves is one of the seven when the
state before was. -/
theorem cd_drive_set_serial_bit_comm_state (b : Nat) (d d' : CdDrive)
    (h : cd_drive_set_serial_bit b d = .ok d')
    (hin : d.comm_state ∈ [CommunicationState.NoTransfer, CommunicationState.Reset,
      CommunicationState.SendingFirstByte, CommunicationState.SendingByte,
      CommunicationState.WaitToOe, CommunicationState.WaitToOeFirstByte,
      CommunicationState.WaitToRxio]) :
    d'.comm_state ∈ [CommunicationState.NoTransfer, CommunicationState.Reset,
      CommunicationState.SendingFirstByte, CommunicationState.SendingByte,
      CommunicationState.WaitToOe, CommunicationState.WaitToOeFirstByte,
      CommunicationState.WaitToRxio] := by
  unfold cd_drive_set_serial_bit at h
  simp only at h
  split_ifs at h <;> injection h with h <;> subst h <;>
    simp_all

/-- The loop of `cd_drive_exec` leaves one of the seven states when it starts
in one. -/
theorem cd_drive_exec_loop_comm_state (cdi : CDInterface) :
    ∀ (fuel : Nat) (d d' : CdDrive) (t t' : Int),
      d.comm_state ∈ [CommunicationState.NoTransfer, CommunicationState.Reset,
        CommunicationState.SendingFirstByte, CommunicationState.SendingByte,
        CommunicationState.WaitToOe, CommunicationState.WaitToOeFirstByte,
        CommunicationState.WaitToRxio] →
      cd_drive_exec_loop cdi fuel d t = some (.ok (d', t')) →
      d'.comm_state ∈ [CommunicationState.NoTransfer, CommunicationState.Reset,
        CommunicationState.SendingFirstByte, CommunicationState.SendingByte,
        CommunicationState.WaitToOe, CommunicationState.WaitToOeFirstByte,
        CommunicationState.WaitToRxio] := by
  intro fuel
  induction fuel with
  | zero =>
    intro d d' t t' _ h
    unfold cd_drive_exec_loop at h
    cases h
  | succ fuel ih =>
    intro d d' t t' hin h
    unfold cd_drive_exec_loop at h
    by_cases hneg : t < 0
    · rw [if_pos hneg] at h
      cases hexec : cd_command_exec cdi d with
      | error e =>
        rw [hexec] at h
        simp only at h
        injection h with h
        cases h
      | ok p =>
        obtain ⟨d1, c⟩ := p
        rw [hexec] at h
        simp only at h
        exact ih d1 d' _ t' (cd_command_exec_comm_state cdi d d1 c hexec) h
    · rw [if_neg hneg] at h
      injection h with h
      injection h with h
      injection h with h1 _
      subst h1
      exact hin

/-- The function `cd_drive_exec` leaves one of the seven states when it starts
in one. -/
theorem cd_drive_exec_comm_state (cdi : CDInterface) (fuel : Nat) (d d' : CdDrive)
    (cycles : Int)
    (hin : d.comm_state ∈ [CommunicationState.NoTransfer, CommunicationState.Reset,
      CommunicationState.SendingFirstByte, CommunicationState.SendingByte,
      CommunicationState.WaitToOe, CommunicationState.WaitToOeFirstByte,
      CommunicationState.WaitToRxio])
    (h : cd_drive_exec cdi fuel d cycles = some (.ok d')) :
    d'.comm_state ∈ [CommunicationState.NoTransfer, CommunicationState.Reset,
      CommunicationState.SendingFirstByte, CommunicationState.SendingByte,
      CommunicationState.WaitToOe, CommunicationState.WaitToOeFirstByte,
      CommunicationState.WaitToRxio] := by
  unfold cd_drive_exec at h
  simp only at h
  split at h
  · cases h
  · injection h with h
    cases h
  · rename_i d1 t1 heq
    injection h with h
    injection h with h
    subst h
    exact cd_drive_exec_loop_comm_state cdi fuel d d1 _ t1 hin heq

/-- In every reachable state `comm_state` is one of the seven states that
`cd_command_exec` handles. -/
theorem CdDrive.Reachable.comm_state_mem {d : CdDrive} (h : CdDrive.Reachable d) :
    d.comm_state ∈ [CommunicationState.NoTransfer, CommunicationState.Reset,
      CommunicationState.SendingFirstByte, CommunicationState.SendingByte,
      CommunicationState.WaitToOe, CommunicationState.WaitToOeFirstByte,
      CommunicationState.WaitToRxio] := by
  induction h with
  | start => decide
  | reset d => simp [cdd_reset]
  | exec cdi d d' cycles _ hstep _ => exact cd_command_exec_comm_state cdi d d' cycles hstep
  | drive cdi fuel d d' cycles _ hstep ih =>
    exact cd_drive_exec_comm_state cdi fuel d d' cycles ih hstep
  | bit b d d' _ hstep ih => exact cd_drive_set_serial_bit_comm_state b d d' hstep ih

/-- From one of the seven handled states `cd_command_exec` does not reach its
closing `assert(0)`. -/
theorem cd_command_exec_no_assert (cdi : CDInterface) (d : CdDrive)
    (hin : d.comm_state ∈ [CommunicationState.NoTransfer, CommunicationState.Reset,
      CommunicationState.SendingFirstByte, CommunicationState.SendingByte,
      CommunicationState.WaitToOe, CommunicationState.WaitToOeFirstByte,
      CommunicationState.WaitToRxio]) :
    cd_command_exec cdi d ≠ .error .assertExec := by
  unfold cd_command_exec
  split_ifs with c1 c2 c3 c4 c5 c6
  · simp
  · simp
  · simp
  · simp
  · simp
  · exact do_command_no_assertExec cdi d
  · simp only [List.mem_cons, List.mem_singleton, List.not_mem_nil, or_false] at hin
    rcases hin with c | c | c | c | c | c | c
    · exact absurd c c3
    · exact absurd c c1
    · exact absurd (Or.inl c) c2
    · exact absurd (Or.inr c) c2
    · exact absurd c c5
    · exact absurd c c4
    · exact absurd c c6

/-- Every value that `cd_command_exec` returns is at least `TIME_OE`. -/
theorem cd_command_exec_cycles (cdi : CDInterface) (d d' : CdDrive) (cycles : Int)
    (h : cd_command_exec cdi d = .ok (d', cycles)) :
    TIME_OE ≤ cycles ∧ cycles ≤ TIME_POWER_ON + TIME_WAITING ∧
    cycles ∈ [TIME_POWER_ON + TIME_WAITING, TIME_BYTE, TIME_START, TIME_OE, TIME_READING,
      TIME_PERIODIC] := by
  obtain ⟨r1, r2, r3, r4, r5, hin⟩ := cd_command_exec_result cdi d d' cycles h
  simp only [List.mem_cons, List.mem_singleton, List.not_mem_nil, or_false] at hin
  have key : cycles ∈ [TIME_POWER_ON + TIME_WAITING, TIME_BYTE, TIME_START, TIME_OE,
      TIME_READING, TIME_PERIODIC] := by
    simp only [List.mem_cons, List.mem_singleton, List.not_mem_nil, or_false]
    rcases hin with c | c | c | c | c | c | c
    · exact Or.inr (Or.inr (Or.inl (r3 c).2))
    · exact Or.inl (r1 c).2
    · exact Or.inr (Or.inl (r2 (Or.inl c)).2)
    · exact Or.inr (Or.inl (r2 (Or.inr c)).2)
    · exact Or.inr (Or.inr (Or.inr (Or.inl (r4 (Or.inr c)).2)))
    · exact Or.inr (Or.inr (Or.inr (Or.inl (r4 (Or.inl c)).2)))
    · rcases (do_command_result cdi d d' cycles (r5 c)).2.2 with e | e
      · exact Or.inr (Or.inr (Or.inr (Or.inr (Or.inl e))))
      · exact Or.inr (Or.inr (Or.inr (Or.inr (Or.inr e))))
  refine ⟨?_, ?_, key⟩
  all_goals
    simp only [List.mem_cons, List.mem_singleton, List.not_mem_nil, or_false] at key
    unfold TIME_OE TIME_POWER_ON TIME_WAITING TIME_BYTE TIME_START TIME_READING
      TIME_PERIODIC at *
    omega

/-! ## The loop of `cd_drive_exec` -/

theorem s32_of_range (z : Int) (h0 : -2147483648 ≤ z) (h1 : z < 2147483648) : s32 z = z := by
  unfold s32 toInt32 ulongOfInt
  have e2 : (z % 4294967296).toNat % 4294967296 = (z % 4294967296).toNat := by omega
  rw [e2]
  split_ifs <;> omega

theorem s32_range (z : Int) : -2147483648 ≤ s32 z ∧ s32 z < 2147483648 := by
  unfold s32 toInt32 ulongOfInt
  split_ifs <;> omega

/-- The loop of `cd_drive_exec` ends within `fuel` iterations when `fuel`
exceeds the cycles that are missing, and what it leaves of the cycle count is
not negative. -/
theorem cd_drive_exec_loop_total (cdi : CDInterface) :
    ∀ (fuel : Nat) (d : CdDrive) (t : Int), -2147483648 ≤ t → (-t).toNat < fuel →
      ∃ r, cd_drive_exec_loop cdi fuel d t = some r ∧
        ∀ d' t', r = .ok (d', t') → 0 ≤ t' := by
  intro fuel
  induction fuel with
  | zero =>
    intro d t _ h
    exact absurd h (Nat.not_lt_zero _)
  | succ fuel ih =>
    intro d t hlo hfuel
    unfold cd_drive_exec_loop
    by_cases hneg : t < 0
    · rw [if_pos hneg]
      cases hexec : cd_command_exec cdi d with
      | error e =>
        refine ⟨.error e, rfl, fun d' t' h => ?_⟩
        cases h
      | ok p =>
        obtain ⟨d1, c⟩ := p
        obtain ⟨h26, hmax, _⟩ := cd_command_exec_cycles cdi d d1 c hexec
        unfold TIME_OE TIME_POWER_ON TIME_WAITING at *
        have hs : s32 (t + c) = t + c := s32_of_range _ (by omega) (by omega)
        simp only
        rw [hs]
        exact ih d1 (t + c) (by omega) (by omega)
    · rw [if_neg hneg]
      refine ⟨.ok (d, t), rfl, fun d' t' h => ?_⟩
      injection h with h
      injection h with _ h2
      omega

/-- In a reachable state the loop of `cd_drive_exec` does not stop at the
closing `assert(0)` of `cd_command_exec`. -/
theorem cd_drive_exec_loop_no_assert (cdi : CDInterface) :
    ∀ (fuel : Nat) (d : CdDrive) (t : Int), CdDrive.Reachable d →
      cd_drive_exec_loop cdi fuel d t ≠ some (.error .assertExec) := by
  intro fuel
  induction fuel with
  | zero =>
    intro d t _ h
    unfold cd_drive_exec_loop at h
    cases h
  | succ fuel ih =>
    intro d t hr h
    unfold cd_drive_exec_loop at h
    by_cases hneg : t < 0
    · rw [if_pos hneg] at h
      cases hexec : cd_command_exec cdi d with
      | error e =>
        rw [hexec] at h
        simp only at h
        injection h with h
        injection h with h
        subst h
        exact cd_command_exec_no_assert cdi d hr.comm_state_mem hexec
      | ok p =>
        obtain ⟨d1, c⟩ := p
        rw [hexec] at h
        simp only at h
        exact ih d1 _ (CdDrive.Reachable.exec cdi d d1 c hr hexec) h
    · rw [if_neg hneg] at h
      cases h

/-- The function `cd_drive_exec` returns, for every `cycles` argument, once
the iterations allowed exceed the cycles that are missing; when it returns
normally `cycles_remainder` is not negative. -/
theorem cd_drive_exec_total (cdi : CDInterface) (fuel : Nat) (drive : CdDrive) (cycles : Int)
    (hfuel : (-(s32 (drive.cycles_remainder - cycles))).toNat < fuel) :
    ∃ r, cd_drive_exec cdi fuel drive cycles = some r ∧
      ∀ d', r = .ok d' → 0 ≤ d'.cycles_remainder := by
  obtain ⟨hlo, hhi⟩ := s32_range (drive.cycles_remainder - cycles)
  obtain ⟨r, hr, hpos⟩ := cd_drive_exec_loop_total cdi fuel drive
    (s32 (drive.cycles_remainder - cycles)) hlo hfuel
  unfold cd_drive_exec
  simp only [hr]
  cases r with
  | error e =>
    refine ⟨.error e, rfl, fun d' h => ?_⟩
    cases h
  | ok p =>
    obtain ⟨d1, t1⟩ := p
    refine ⟨.ok { d1 with cycles_remainder := t1 }, rfl, fun d' h => ?_⟩
    injection h with h
    subst h
    exact hpos d1 t1 rfl

theorem cd_drive_exec_no_assert (cdi : CDInterface) (fuel : Nat) (drive : CdDrive)
    (cycles : Int) (hr : CdDrive.Reachable drive) :
    cd_drive_exec cdi fuel drive cycles ≠ some (.error .assertExec) := by
  intro h
  unfold cd_drive_exec at h
  simp only at h
  split at h
  · cases h
  · rename_i e heq
    injection h with h
    injection h with h
    subst h
    exact cd_drive_exec_loop_no_assert cdi fuel drive _ hr heq
  · cases h

/-! ## The serial output bit -/

theorem and_two_pow_ne_zero (x i : Nat) : (x &&& 2 ^ i ≠ 0) ↔ x.testBit i = true := by
  rw [Nat.and_two_pow]
  cases x.testBit i <;> simp

/-- The bit that `cd_drive_get_serial_bit` returns is bit `7 - bit_counter` of
`state_data[byte_counter]`. -/
theorem cd_drive_get_serial_bit_eq (d : CdDrive) (hbit : d.bit_counter ≤ 7)
    (hbyte : d.byte_counter < 13) :
    cd_drive_get_serial_bit d =
      .ok (if (u8 (d.state_data d.byte_counter)).testBit (7 - d.bit_counter) then 1 else 0) := by
  unfold cd_drive_get_serial_bit
  rw [if_pos ⟨hbit, hbyte⟩]
  have e : u8 (1 <<< (7 - d.bit_counter)) = 2 ^ (7 - d.bit_counter) := by
    rw [Nat.one_shiftLeft]
    apply u8_of_lt
    have : 7 - d.bit_counter ≤ 7 := by omega
    calc 2 ^ (7 - d.bit_counter) ≤ 2 ^ 7 := Nat.pow_le_pow_right (by decide) this
      _ < 256 := by decide
  simp only [e, and_two_pow_ne_zero]

/-! ## A whole transfer -/

set_option maxRecDepth 100000 in
theorem byteBits_sum_small : ∀ b < 256,
    (((b >>> 0) &&& 1) <<< 0) + (((b >>> 1) &&& 1) <<< 1) + (((b >>> 2) &&& 1) <<< 2) +
      (((b >>> 3) &&& 1) <<< 3) + (((b >>> 4) &&& 1) <<< 4) + (((b >>> 5) &&& 1) <<< 5) +
      (((b >>> 6) &&& 1) <<< 6) + (((b >>> 7) &&& 1) <<< 7) = b := by
  decide

theorem byteBits_eq (b : Nat) :
    byteBits b = [(b >>> 0) &&& 1, (b >>> 1) &&& 1, (b >>> 2) &&& 1, (b >>> 3) &&& 1,
      (b >>> 4) &&& 1, (b >>> 5) &&& 1, (b >>> 6) &&& 1, (b >>> 7) &&& 1] := by
  unfold byteBits
  rw [range_8]
  rfl

/-- Eight calls of `cd_drive_set_serial_bit` with the bits of a byte,
least-significant first, store the byte. -/
theorem feedBits_byteBits (b : Nat) (d : CdDrive) (hb : b < 256)
    (hbit : d.bit_counter = 0) (hk : d.byte_counter < 13)
    (hz : d.received_data d.byte_counter = 0) :
    feedBits (byteBits b) d =
      .ok { d with
        received_data := Function.update d.received_data d.byte_counter b
        bit_counter := 0
        byte_counter := d.byte_counter + 1
        comm_state :=
          if d.byte_counter + 1 = 13 then .WaitToRxio else d.comm_state.afterByte } := by
  have h1 : ∀ x : Nat, x &&& 1 ≤ 1 := fun x => Nat.and_le_right
  rw [byteBits_eq, feedBits_byte _ _ _ _ _ _ _ _ d hbit hk, hz,
    or_bits_eq_sum _ _ _ _ _ _ _ _ (h1 _) (h1 _) (h1 _) (h1 _) (h1 _) (h1 _) (h1 _) (h1 _),
    byteBits_sum_small b hb]

/-- A byte of a transfer that is not the last: the byte is stored and the
drive waits for the next one. -/
theorem cd_transfer_byte_mid (cdi : CDInterface) (b : Nat) (d : CdDrive) (hb : b < 256)
    (hbit : d.bit_counter = 0) (hk : d.byte_counter < 12)
    (hz : d.received_data d.byte_counter = 0)
    (hc : d.comm_state = .SendingFirstByte ∨ d.comm_state = .SendingByte) :
    cd_transfer_byte cdi b d =
      .ok { d with
        received_data := Function.update d.received_data d.byte_counter b
        bit_counter := 0
        byte_counter := d.byte_counter + 1
        comm_state := .SendingByte } := by
  unfold cd_transfer_byte
  rw [feedBits_byteBits b d hb hbit (by omega) hz]
  have h13 : ¬ d.byte_counter + 1 = 13 := by omega
  simp only [if_neg h13]
  rcases hc with hc | hc <;>
    simp [cd_command_exec, hc, CommunicationState.afterByte]

/-- The last byte of a transfer: the byte is stored and the command is
handled. -/
theorem cd_transfer_byte_last (cdi : CDInterface) (b : Nat) (d : CdDrive) (hb : b < 256)
    (hbit : d.bit_counter = 0) (hk : d.byte_counter = 12)
    (hz : d.received_data 12 = 0) :
    cd_transfer_byte cdi b d =
      (do_command cdi { d with
        received_data := Function.update d.received_data 12 b
        bit_counter := 0
        byte_counter := 13
        comm_state := .WaitToRxio }).map Prod.fst := by
  unfold cd_transfer_byte
  rw [feedBits_byteBits b d hb hbit (by omega) (by rw [hk]; exact hz)]
  simp only [hk, if_true, Nat.reduceAdd]
  simp only [cd_command_exec, if_true, reduceCtorEq, if_false, or_self]
  cases do_command cdi _ <;> rfl

/-- The bytes `k .. 12` of a transfer, clocked in one after the other: the
command is handled in the state that holds them. -/
theorem cd_transfer_bytes (cdi : CDInterface) :
    ∀ (rest : List Nat) (k : Nat) (d : CdDrive), k + rest.length = 13 → rest ≠ [] →
      (∀ b ∈ rest, b < 256) → d.bit_counter = 0 → d.byte_counter = k →
      (∀ j, k ≤ j → j < 13 → d.received_data j = 0) →
      (d.comm_state = .SendingFirstByte ∨ d.comm_state = .SendingByte) →
      rest.foldlM (fun d byte => cd_transfer_byte cdi byte d) d =
        (do_command cdi { d with
          bit_counter := 0
          byte_counter := 13
          received_data := fun i =>
            if k ≤ i ∧ i < 13 then rest.getD (i - k) 0 else d.received_data i
          comm_state := .WaitToRxio }).map Prod.fst := by
  intro rest
  induction rest with
  | nil => intro k d _ h; exact absurd rfl h
  | cons b rest ih =>
    intro k d hlen _ hbytes hbit hbyte hzero hc
    have hb : b < 256 := hbytes b (List.mem_cons_self _ _)
    cases rest with
    | nil =>
      have hk : k = 12 := by simpa using hlen
      subst hk
      simp only [List.foldlM, bind_pure]
      rw [cd_transfer_byte_last cdi b d hb hbit hbyte (hzero 12 (le_refl _) (by decide))]
      congr 2
      congr 1
      funext i
      by_cases hi : i = 12
      · subst hi
        simp
      · have hn : ¬ (12 ≤ i ∧ i < 13) := by omega
        rw [Function.update_noteq hi, if_neg hn]
    | cons b' rest' =>
      have hk : k < 12 := by
        simp only [List.length_cons] at hlen
        omega
      rw [List.foldlM_cons,
        cd_transfer_byte_mid cdi b d hb hbit (by omega) (by rw [hbyte]; exact hzero k (le_refl _) (by omega)) hc]
      simp only [bind, Except.bind]
      rw [ih (k + 1) _ (by simp only [List.length_cons] at hlen ⊢; omega) (by simp)
        (fun x hx => hbytes x (List.mem_cons_of_mem _ hx)) rfl (by simp [hbyte])
        (fun j hj hj13 => by
          have hne : j ≠ d.byte_counter := by omega
          simp only [Function.update_noteq hne]
          exact hzero j (by omega) hj13)
        (Or.inr rfl)]
      congr 2
      congr 1
      funext i
      by_cases h1 : i < k
      · have hn1 : ¬ (k + 1 ≤ i ∧ i < 13) := by omega
        have hn2 : ¬ (k ≤ i ∧ i < 13) := by omega
        have hne : i ≠ d.byte_counter := by omega
        simp only [if_neg hn1, if_neg hn2, Function.update_noteq hne]
      · by_cases h2 : i = k
        · subst h2
          have hn1 : ¬ (i + 1 ≤ i ∧ i < 13) := by omega
          have hp2 : i ≤ i ∧ i < 13 := by omega
          simp only [if_neg hn1, if_pos hp2, Nat.sub_self, List.getD_cons_zero]
          rw [hbyte, Function.update_same]
        · by_cases h3 : i < 13
          · have hp1 : k + 1 ≤ i ∧ i < 13 := by omega
            have hp2 : k ≤ i ∧ i < 13 := by omega
            have e : i - k = (i - (k + 1)) + 1 := by omega
            simp only [if_pos hp1, if_pos hp2]
            rw [e, List.getD_cons_succ]
          · have hn1 : ¬ (k + 1 ≤ i ∧ i < 13) := by omega
            have hn2 : ¬ (k ≤ i ∧ i < 13) := by omega
            have hne : i ≠ d.byte_counter := by omega
            simp only [if_neg hn1, if_neg hn2, Function.update_noteq hne]

/-- A whole transfer from `comm_state = NoTransfer`: the command is handled in
the state that holds its thirteen bytes. -/
theorem cd_transfer_eq (cdi : CDInterface) (command : List Nat) (d : CdDrive)
    (hlen : command.length = 13) (hbytes : ∀ b ∈ command, b < 256)
    (hc : d.comm_state = .NoTransfer) :
    cd_transfer cdi command d = (do_command cdi (d.received command)).map Prod.fst := by
  unfold cd_transfer
  have hexec : cd_command_exec cdi d =
      .ok ({ d with
        bit_counter := 0
        byte_counter := 0
        comm_state := .SendingFirstByte
        received_data := fun i => if i < 13 then 0 else d.received_data i }, TIME_START) := by
    simp [cd_command_exec, hc]
  rw [hexec]
  simp only
  rw [cd_transfer_bytes cdi command 0 _ (by omega) (by
      intro h
      rw [h] at hlen
      cases hlen) hbytes rfl rfl (fun j _ hj => by simp [hj]) (Or.inl rfl)]
  congr 2
  unfold CdDrive.received
  congr 1
  funext i
  by_cases h : i < 13
  · simp [h]
  · simp [h]

/-! ## Reading the table of contents -/

theorem do_toc_frame (d : CdDrive) :
    (do_toc d).toc = d.toc ∧ (do_toc d).num_toc_entries = d.num_toc_entries ∧
    (do_toc d).toc_entry = d.toc_entry + 1 ∧ (do_toc d).comm_state = .NoTransfer ∧
    (do_toc d).received_data = d.received_data ∧ (do_toc d).bit_counter = d.bit_counter ∧
    (do_toc d).byte_counter = d.byte_counter ∧ (do_toc d).disc_fad = d.disc_fad ∧
    (do_toc d).cycles_remainder = d.cycles_remainder := by
  unfold do_toc
  simp only
  split_ifs <;> exact ⟨rfl, rfl, rfl, rfl, rfl, rfl, rfl, rfl, rfl⟩

/-- A call of `do_toc` that does not pass the last entry: `state_data` holds
the report of entry `toc_entry` and the operation stays `ReadToc`. -/
theorem do_toc_entry (d : CdDrive) (h : ((d.toc_entry + 1 : Nat) : Int) ≤ d.num_toc_entries) :
    tocReport (d.toc d.toc_entry) (do_toc d).state_data ∧
    (do_toc d).state.current_operation = CdStatusOperations.ReadToc := by
  have hn : ¬ (((d.toc_entry + 1 : Nat) : Int) > d.num_toc_entries) := by omega
  unfold do_toc
  simp only [if_neg hn]
  refine ⟨⟨?_, fun i hi => ?_, set_checksum_valid _, set_checksum_12 _⟩, trivial⟩
  · rw [set_checksum_other _ _ (by decide) (by decide)]
    simp [Function.update, u8, CdStatusOperations.ReadToc]
  · rw [set_checksum_other _ _ (by omega) (by omega)]
    have hp : 1 ≤ i + 1 ∧ i + 1 < 11 := by omega
    simp only [if_pos hp, Nat.add_sub_cancel]

/-- The call of `do_toc` that passes the last entry: the operation becomes
`Idle` and `state_data` is loaded with the status report. -/
theorem do_toc_end (d : CdDrive) (h : d.num_toc_entries < ((d.toc_entry + 1 : Nat) : Int)) :
    (do_toc d).state.current_operation = CdStatusOperations.Idle ∧
    (∃ data, (do_toc d).state_data = make_status_data (do_toc d).state data) ∧
    (do_toc d).state_data 0 = CdStatusOperations.Idle := by
  have hn : ((d.toc_entry + 1 : Nat) : Int) > d.num_toc_entries := by omega
  unfold do_toc
  simp only [if_pos hn]
  refine ⟨trivial, ⟨_, rfl⟩, ?_⟩
  rw [(make_status_data_fields _ _).1]
  rfl

theorem received_command (command : List Nat) (d : CdDrive) (hlen : command.length = 13)
    (hbytes : ∀ b ∈ command, b < 256) :
    u8 ((d.received command).received_data 0) = command.getD 0 0 := by
  unfold CdDrive.received
  simp only [show (0 : Nat) < 13 by decide, if_true]
  apply u8_of_lt
  cases command with
  | nil => cases hlen
  | cons b rest => exact hbytes b (List.mem_cons_self _ _)

/-- A transfer of the Read-TOC command 0x03 from `comm_state = NoTransfer`. -/
theorem cd_transfer_readToc (cdi : CDInterface) (command : List Nat) (d : CdDrive)
    (hlen : command.length = 13) (hbytes : ∀ b ∈ command, b < 256)
    (hcmd : command.getD 0 0 = 0x3) (hc : d.comm_state = .NoTransfer) :
    cd_transfer cdi command d =
      .ok (do_toc { d.received command with
        toc_entry := 0
        toc := (cdi.ReadTOC10 d.toc).1
        num_toc_entries := (cdi.ReadTOC10 d.toc).2 }) := by
  rw [cd_transfer_eq cdi command d hlen hbytes hc]
  have h := received_command command d hlen hbytes
  rw [hcmd] at h
  unfold do_command
  simp only [h]
  rfl

/-- A transfer of the no-op command 0x00 from `comm_state = NoTransfer` while
the operation is `ReadToc`. -/
theorem cd_transfer_nop (cdi : CDInterface) (command : List Nat) (d : CdDrive)
    (hlen : command.length = 13) (hbytes : ∀ b ∈ command, b < 256)
    (hcmd : command.getD 0 0 = 0x0) (hc : d.comm_state = .NoTransfer)
    (hop : d.state.current_operation = CdStatusOperations.ReadToc) :
    cd_transfer cdi command d = .ok (do_toc (d.received command)) := by
  rw [cd_transfer_eq cdi command d hlen hbytes hc]
  have h := received_command command d hlen hbytes
  rw [hcmd] at h
  unfold do_command
  simp only [h]
  have hop' : (d.received command).state.current_operation = CdStatusOperations.ReadToc := hop
  unfold continue_command
  rw [if_pos hop']
  rfl

theorem cd_transfers_snoc (cdi : CDInterface) (l : List (List Nat)) (c : List Nat)
    (d : CdDrive) :
    cd_transfers cdi (l ++ [c]) d = (cd_transfers cdi l d).bind (cd_transfer cdi c) := by
  unfold cd_transfers
  rw [List.foldlM_append]
  simp only [List.foldlM, bind_pure]
  rfl

/-- The Read-TOC command and the `k` no-op commands that follow it, for `k`
below the number of entries: `state_data` holds the report of entry `k`. -/
theorem cd_transfers_toc_entry (cdi : CDInterface) (command : List Nat)
    (nop : Nat → List Nat) (d : CdDrive) (N : Nat)
    (hlen : command.length = 13) (hbytes : ∀ b ∈ command, b < 256)
    (hcmd : command.getD 0 0 = 0x3)
    (hnop : ∀ n, (nop n).length = 13 ∧ (∀ b ∈ nop n, b < 256) ∧ (nop n).getD 0 0 = 0x0)
    (hc : d.comm_state = .NoTransfer) (hN : (cdi.ReadTOC10 d.toc).2 = (N : Int)) :
    ∀ k, k < N → ∃ d', cd_transfers cdi (command :: (List.range k).map nop) d = .ok d' ∧
      tocReport ((cdi.ReadTOC10 d.toc).1 k) d'.state_data ∧
      d'.state.current_operation = CdStatusOperations.ReadToc ∧
      d'.comm_state = .NoTransfer ∧ d'.toc = (cdi.ReadTOC10 d.toc).1 ∧
      d'.num_toc_entries = (N : Int) ∧ d'.toc_entry = k + 1 := by
  intro k
  induction k with
  | zero =>
    intro hk
    have hrun : cd_transfers cdi (command :: (List.range 0).map nop) d =
        .ok (do_toc { d.received command with
          toc_entry := 0
          toc := (cdi.ReadTOC10 d.toc).1
          num_toc_entries := (cdi.ReadTOC10 d.toc).2 }) := by
      show cd_transfers cdi [command] d = _
      unfold cd_transfers
      simp only [List.foldlM, bind_pure]
      exact cd_transfer_readToc cdi command d hlen hbytes hcmd hc
    obtain ⟨f1, f2, f3, f4, _⟩ := do_toc_frame { d.received command with
      toc_entry := 0
      toc := (cdi.ReadTOC10 d.toc).1
      num_toc_entries := (cdi.ReadTOC10 d.toc).2 }
    obtain ⟨r1, r2⟩ := do_toc_entry { d.received command with
      toc_entry := 0
      toc := (cdi.ReadTOC10 d.toc).1
      num_toc_entries := (cdi.ReadTOC10 d.toc).2 } (by
        show (((0 + 1 : Nat)) : Int) ≤ (cdi.ReadTOC10 d.toc).2
        rw [hN]
        omega)
    exact ⟨_, hrun, r1, r2, f4, f1, f2.trans hN, f3⟩
  | succ k ih =>
    intro hk
    obtain ⟨dk, hrun, _, hop, hcomm, htoc, hnum, hentry⟩ := ih (by omega)
    obtain ⟨n1, n2, n3⟩ := hnop k
    have hlist : command :: (List.range (k + 1)).map nop =
        (command :: (List.range k).map nop) ++ [nop k] := by
      rw [List.range_succ, List.map_append]
      rfl
    rw [hlist, cd_transfers_snoc, hrun]
    simp only [Except.bind]
    rw [cd_transfer_nop cdi (nop k) dk n1 n2 n3 hcomm hop]
    obtain ⟨f1, f2, f3, f4, _⟩ := do_toc_frame (dk.received (nop k))
    have e1 : (dk.received (nop k)).toc = dk.toc := rfl
    have e2 : (dk.received (nop k)).toc_entry = dk.toc_entry := rfl
    have e3 : (dk.received (nop k)).num_toc_entries = dk.num_toc_entries := rfl
    obtain ⟨r1, r2⟩ := do_toc_entry (dk.received (nop k)) (by
      rw [e2, e3, hentry, hnum]
      omega)
    rw [e1, e2, htoc, hentry] at r1
    exact ⟨_, rfl, r1, r2, f4, by rw [f1, e1, htoc], by rw [f2, e3, hnum],
      by rw [f3, e2, hentry]⟩

/-- The Read-TOC command and the `N` no-op commands that follow it, for a
table of `N >= 1` entries: the last no-op makes the operation `Idle` and
loads `state_data` with the status report. -/
theorem cd_transfers_toc_end (cdi : CDInterface) (command : List Nat)
    (nop : Nat → List Nat) (d : CdDrive) (N : Nat)
    (hlen : command.length = 13) (hbytes : ∀ b ∈ command, b < 256)
    (hcmd : command.getD 0 0 = 0x3)
    (hnop : ∀ n, (nop n).length = 13 ∧ (∀ b ∈ nop n, b < 256) ∧ (nop n).getD 0 0 = 0x0)
    (hc : d.comm_state = .NoTransfer) (hN : (cdi.ReadTOC10 d.toc).2 = (N : Int))
    (hN1 : 1 ≤ N) :
    ∃ d', cd_transfers cdi (command :: (List.range N).map nop) d = .ok d' ∧
      d'.state.current_operation = CdStatusOperations.Idle ∧
      (∃ data, d'.state_data = make_status_data d'.state data) ∧
      d'.state_data 0 = CdStatusOperations.Idle ∧ d'.comm_state = .NoTransfer := by
  obtain ⟨k, rfl⟩ : ∃ k, N = k + 1 := ⟨N - 1, by omega⟩
  obtain ⟨dk, hrun, _, hop, hcomm, htoc, hnum, hentry⟩ :=
    cd_transfers_toc_entry cdi command nop d (k + 1) hlen hbytes hcmd hnop hc hN k (by omega)
  obtain ⟨n1, n2, n3⟩ := hnop k
  have hlist : command :: (List.range (k + 1)).map nop =
      (command :: (List.range k).map nop) ++ [nop k] := by
    rw [List.range_succ, List.map_append]
    rfl
  rw [hlist, cd_transfers_snoc, hrun]
  simp only [Except.bind]
  rw [cd_transfer_nop cdi (nop k) dk n1 n2 n3 hcomm hop]
  have e2 : (dk.received (nop k)).toc_entry = dk.toc_entry := rfl
  have e3 : (dk.received (nop k)).num_toc_entries = dk.num_toc_entries := rfl
  obtain ⟨r1, r2, r3⟩ := do_toc_end (dk.received (nop k)) (by
    rw [e2, e3, hentry, hnum]
    omega)
  exact ⟨_, rfl, r1, r2, r3, do_toc_comm_state _⟩

/-! ## The claims on the plane reach, the special function, alpha and the CD drive -/

/-- C31: for every layer, every register content, every map index and every
plane size (planeW, planeH) in {(1,1), (2,1), (2,2)}, the plane located by
`planeAddr` lies below 1 MB: `addr + planeW * planeH * M <= 0x100000` for all
four (patternDataSize, patternWH) combinations, and `<= 0x80000` for every
combination other than (1, 2). -/
theorem planeAddr_below_1MB (l : Layer) (env : Env) (i : Int) (s : Vdp2Screen)
    (hp : s.patternDataSize = 1 ∨ s.patternDataSize = 2)
    (hw : s.patternWH = 1 ∨ s.patternWH = 2)
    (hplane : (s.planeW = 1 ∧ s.planeH = 1) ∨ (s.planeW = 2 ∧ s.planeH = 1) ∨
      (s.planeW = 2 ∧ s.planeH = 2)) :
    (l.planeAddr env i s).addr +
        s.planeW.toNat * s.planeH.toNat * pageBytes s.patternDataSize s.patternWH ≤ 0x100000 ∧
    (¬ (s.patternDataSize = 1 ∧ s.patternWH = 2) →
      (l.planeAddr env i s).addr +
        s.planeW.toNat * s.planeH.toNat * pageBytes s.patternDataSize s.patternWH ≤ 0x80000) :=
  Layer.planeAddr_reach l env i s hp hw hplane

theorem planeAddr_below_1MB_witness :
    (Vdp2Screen.plane11.patternDataSize = 1 ∨ Vdp2Screen.plane11.patternDataSize = 2) ∧
    (Vdp2Screen.plane11.patternWH = 1 ∨ Vdp2Screen.plane11.patternWH = 2) ∧
    ((Vdp2Screen.plane11.planeW = 1 ∧ Vdp2Screen.plane11.planeH = 1) ∨
      (Vdp2Screen.plane11.planeW = 2 ∧ Vdp2Screen.plane11.planeH = 1) ∨
      (Vdp2Screen.plane11.planeW = 2 ∧ Vdp2Screen.plane11.planeH = 2)) ∧
    (Layer.planeAddr .NBG0 Env.byte5B 0 Vdp2Screen.plane11).addr +
        Vdp2Screen.plane11.planeW.toNat * Vdp2Screen.plane11.planeH.toNat *
          pageBytes Vdp2Screen.plane11.patternDataSize Vdp2Screen.plane11.patternWH ≤
      0x100000 :=
  ⟨by decide, by decide, by decide,
    (planeAddr_below_1MB .NBG0 Env.byte5B 0 Vdp2Screen.plane11 (by decide) (by decide)
      (by decide)).1⟩

/-- C32: for a one-word pattern name and every supplement value, `patternAddr`
sets `specialFunction` to the two low supplement bits (`0x300 >> 8` is
evaluated before `&`), not to bits 8-9: supplement values that agree modulo 4
give the same `specialFunction`, and the supplement 0x300, whose bits 8-9 are
3, gives 0. -/
theorem patternAddr_specialFunction (env : Env) (s : Vdp2Screen)
    (hsize : s.patternDataSize = 1) :
    (s.patternAddr env).specialFunction = s.supplementData &&& 0x3 ∧
    (∀ x y : Nat, x % 4 = y % 4 →
      (Vdp2Screen.patternAddr env { s with supplementData := x }).specialFunction =
        (Vdp2Screen.patternAddr env { s with supplementData := y }).specialFunction) ∧
    (Vdp2Screen.patternAddr env { s with supplementData := 0x300 }).specialFunction = 0 ∧
    (0x300 &&& 0x300) >>> 8 = 3 := by
  have key : ∀ x : Nat,
      (Vdp2Screen.patternAddr env { s with supplementData := x }).specialFunction =
        x &&& 0x3 := by
    intro x
    rw [(Vdp2Screen.patternAddr_fields env _).2.2.1]
    exact Vdp2Screen.patternName_specialFunction env { s with supplementData := x } hsize
  refine ⟨?_, fun x y h => ?_, ?_, by decide⟩
  · rw [(Vdp2Screen.patternAddr_fields env s).2.2.1]
    exact Vdp2Screen.patternName_specialFunction env s hsize
  · rw [key x, key y]
    exact and_three_of_mod x y h
  · rw [key]
    decide

theorem patternAddr_specialFunction_witness :
    (Vdp2Screen.tile 1 0 1 0x301).patternDataSize = 1 ∧
    ((Vdp2Screen.tile 1 0 1 0x301).patternAddr Env.zero).specialFunction = 0x301 &&& 0x3 ∧
    (0x301 &&& 0x3 : Nat) = 1 :=
  ⟨by decide, (patternAddr_specialFunction Env.zero (Vdp2Screen.tile 1 0 1 0x301)
    (by decide)).1, by decide⟩

/-- C33: for every layer and every register content, when the layer's
colour-calculation bit of register 0xEC is set `init()` sets
`alpha = 255 - 8 * ratio` with `ratio` the 5-bit ratio field the layer reads,
so `alpha` lies in [7, 255] with its low three bits set, and `alpha = 255`
when the bit is clear; the high-byte formula `((~r & 0x1F00) >> 5) + 7` of
NBG1 and NBG3 agrees with the low-byte formula applied to the high byte. -/
theorem init_alpha_ratio (l : Layer) (env : Env) (s : Vdp2Screen) :
    (readWord env.reg 0xEC &&& l.colorCalcBit ≠ 0 →
      (l.init env s).alpha = 255 - 8 * l.ratioField env.reg ∧
      7 ≤ (l.init env s).alpha ∧ (l.init env s).alpha ≤ 255 ∧
      (l.init env s).alpha &&& 0x7 = 0x7) ∧
    (readWord env.reg 0xEC &&& l.colorCalcBit = 0 → (l.init env s).alpha = 255) ∧
    l.ratioField env.reg < 32 ∧
    (∀ r : Nat, ((bitNot r &&& 0x1F00) >>> 5) + 0x7 =
      ((bitNot (r >>> 8) &&& 0x1F) <<< 3) + 0x7) := by
  have hlt := Layer.ratioField_lt env.reg l
  rw [Layer.init_alpha]
  refine ⟨fun h => ?_, fun h => ?_, hlt, alpha_high_eq_low⟩
  · rw [if_pos h]
    refine ⟨rfl, by omega, by omega, ?_⟩
    have e := Nat.and_pow_two_sub_one_eq_mod (255 - 8 * l.ratioField env.reg) 3
    have c : (2 ^ 3 - 1 : Nat) = 0x7 := by decide
    rw [c] at e
    rw [e]
    omega
  · have hn : ¬ (readWord env.reg 0xEC &&& l.colorCalcBit ≠ 0) := fun hne => hne h
    rw [if_neg hn]

/-- C34: in every state of the CD-drive controller that is reached from the
start of the program or from `cdd_reset()` by calls of `cd_command_exec`,
`cd_drive_exec` and `cd_drive_set_serial_bit`, `comm_state` is one of
NoTransfer, Reset,
SendingFirstByte, SendingByte, WaitToOe, WaitToOeFirstByte, WaitToRxio, so the
`assert(0)` that ends `cd_command_exec` is not reached. -/
theorem comm_state_handled (d : CdDrive) (h : CdDrive.Reachable d) :
    d.comm_state ∈ [CommunicationState.NoTransfer, CommunicationState.Reset,
      CommunicationState.SendingFirstByte, CommunicationState.SendingByte,
      CommunicationState.WaitToOe, CommunicationState.WaitToOeFirstByte,
      CommunicationState.WaitToRxio] ∧
    ∀ cdi : CDInterface, cd_command_exec cdi d ≠ .error .assertExec :=
  ⟨h.comm_state_mem, fun cdi => cd_command_exec_no_assert cdi d h.comm_state_mem⟩

theorem comm_state_handled_witness :
    CdDrive.Reachable (cdd_reset CdDrive.initial) ∧
    (cdd_reset CdDrive.initial).comm_state ∈
      [CommunicationState.NoTransfer, CommunicationState.Reset,
        CommunicationState.SendingFirstByte, CommunicationState.SendingByte,
        CommunicationState.WaitToOe, CommunicationState.WaitToOeFirstByte,
        CommunicationState.WaitToRxio] ∧
    cd_command_exec CDInterface.empty (cdd_reset CdDrive.initial) ≠ .error .assertExec :=
  ⟨CdDrive.Reachable.reset _,
    (comm_state_handled _ (CdDrive.Reachable.reset CdDrive.initial)).1,
    (comm_state_handled _ (CdDrive.Reachable.reset CdDrive.initial)).2 CDInterface.empty⟩

/-- C35 (the code at the failing input): after a whole transfer of the command
0x02 from the start of the program, `cd_command_exec` has handled the command
and `comm_state` is still WaitToRxio, so the next call of `cd_command_exec`
handles the same command again instead of starting a transfer.  In state
WaitToRxio only the command bytes 0x00 and 0x03 leave
`comm_state = NoTransfer`; every other command byte leaves WaitToRxio. -/
theorem do_command_keeps_WaitToRxio :
    (∃ d', cd_transfer CDInterface.empty (commandOf 0x02) CdDrive.initial = .ok d' ∧
      d'.received_data 0 = 0x02 ∧ d'.byte_counter = 13 ∧
      d'.comm_state = .WaitToRxio ∧
      ∃ d'', cd_command_exec CDInterface.empty d' = .ok (d'', TIME_PERIODIC) ∧
        d''.comm_state = .WaitToRxio ∧ d''.byte_counter = 13) ∧
    (∀ (cdi : CDInterface) (d d' : CdDrive) (cycles : Int),
      d.comm_state = .WaitToRxio → cd_command_exec cdi d = .ok (d', cycles) →
      (u8 (d.received_data 0) = 0x0 ∨ u8 (d.received_data 0) = 0x3 →
        d'.comm_state = .NoTransfer) ∧
      (u8 (d.received_data 0) ≠ 0x0 → u8 (d.received_data 0) ≠ 0x3 →
        d'.comm_state = .WaitToRxio)) := by
  constructor
  · refine ⟨{ CdDrive.initial.received (commandOf 0x02) with
        state := { CdState.zero with
          current_operation := CdStatusOperations.SeekSecurityRing2 } }, ?_, rfl, rfl, rfl,
      ⟨{ CdDrive.initial.received (commandOf 0x02) with
        state := { CdState.zero with
          current_operation := CdStatusOperations.SeekSecurityRing2 } }, rfl, rfl, rfl⟩⟩
    rw [cd_transfer_eq CDInterface.empty (commandOf 0x02) CdDrive.initial rfl (by decide) rfl]
    rfl
  · intro cdi d d' cycles hc h
    obtain ⟨_, _, _, _, r5, _⟩ := cd_command_exec_result cdi d d' cycles h
    obtain ⟨q1, q2, _⟩ := do_command_result cdi d d' cycles (r5 hc)
    exact ⟨q1, fun h0 h3 => by rw [(q2 h0 h3).1, hc]⟩

/-- C36: every value that `cd_command_exec` returns is at least
`TIME_OE = 26`, so for every `cycles` argument the loop of `cd_drive_exec`
ends within the iterations that the missing cycles allow; in a reachable state
it does not end at the closing `assert(0)` of `cd_command_exec`, and when
`cd_drive_exec` returns `cycles_remainder` is not negative. -/
theorem cd_drive_exec_terminates (cdi : CDInterface) (drive : CdDrive) (cycles : Int)
    (fuel : Nat) (hr : CdDrive.Reachable drive)
    (hfuel : (-(s32 (drive.cycles_remainder - cycles))).toNat < fuel) :
    (∀ (d d' : CdDrive) (c : Int), cd_command_exec cdi d = .ok (d', c) →
      TIME_OE ≤ c ∧ 0 < c ∧
      c ∈ [TIME_POWER_ON + TIME_WAITING, TIME_BYTE, TIME_START, TIME_OE, TIME_READING,
        TIME_PERIODIC]) ∧
    TIME_OE = 26 ∧
    ∃ r, cd_drive_exec cdi fuel drive cycles = some r ∧ r ≠ .error .assertExec ∧
      ∀ d', r = .ok d' → 0 ≤ d'.cycles_remainder := by
  refine ⟨fun d d' c h => ?_, rfl, ?_⟩
  · obtain ⟨h1, _, h3⟩ := cd_command_exec_cycles cdi d d' c h
    refine ⟨h1, ?_, h3⟩
    unfold TIME_OE at h1
    omega
  · obtain ⟨r, h1, h2⟩ := cd_drive_exec_total cdi fuel drive cycles hfuel
    refine ⟨r, h1, fun he => ?_, h2⟩
    rw [he] at h1
    exact cd_drive_exec_no_assert cdi fuel drive cycles hr h1

theorem cd_drive_exec_terminates_witness :
    CdDrive.Reachable CdDrive.initial ∧
    (-(s32 (CdDrive.initial.cycles_remainder - 100))).toNat < 101 ∧
    ∃ r, cd_drive_exec CDInterface.empty 101 CdDrive.initial 100 = some r ∧
      r ≠ .error .assertExec ∧ ∀ d', r = .ok d' → 0 ≤ d'.cycles_remainder :=
  ⟨CdDrive.Reachable.start, by decide,
    (cd_drive_exec_terminates CDInterface.empty CdDrive.initial 100 101
      CdDrive.Reachable.start (by decide)).2.2⟩

/-- C37: after a transfer of the Read-TOC command 0x03 for which `ReadTOC10`
reports N >= 1 entries, the command itself and the following N-1 no-op
commands each load `state_data` with the operation byte `ReadToc` followed by
the 10 bytes of `toc[0]`, `toc[1]`, ..., `toc[N-1]` in that order, and the
N-th following no-op sets `current_operation` to `Idle` and loads `state_data`
with the status report. -/
theorem readToc_reports (cdi : CDInterface) (command : List Nat) (nop : Nat → List Nat)
    (d : CdDrive) (N : Nat)
    (hlen : command.length = 13) (hbytes : ∀ b ∈ command, b < 256)
    (hcmd : command.getD 0 0 = 0x3)
    (hnop : ∀ n, (nop n).length = 13 ∧ (∀ b ∈ nop n, b < 256) ∧ (nop n).getD 0 0 = 0x0)
    (hc : d.comm_state = .NoTransfer) (hN : (cdi.ReadTOC10 d.toc).2 = (N : Int))
    (hN1 : 1 ≤ N) :
    (∀ k, k < N → ∃ d', cd_transfers cdi (command :: (List.range k).map nop) d = .ok d' ∧
      tocReport ((cdi.ReadTOC10 d.toc).1 k) d'.state_data ∧
      d'.state.current_operation = CdStatusOperations.ReadToc) ∧
    (∃ d', cd_transfers cdi (command :: (List.range N).map nop) d = .ok d' ∧
      d'.state.current_operation = CdStatusOperations.Idle ∧
      (∃ data, d'.state_data = make_status_data d'.state data) ∧
      d'.state_data 0 = CdStatusOperations.Idle) := by
  constructor
  · intro k hk
    obtain ⟨d', h1, h2, h3, _⟩ :=
      cd_transfers_toc_entry cdi command nop d N hlen hbytes hcmd hnop hc hN k hk
    exact ⟨d', h1, h2, h3⟩
  · obtain ⟨d', h1, h2, h3, h4, _⟩ :=
      cd_transfers_toc_end cdi command nop d N hlen hbytes hcmd hnop hc hN hN1
    exact ⟨d', h1, h2, h3, h4⟩

theorem readToc_reports_witness :
    (commandOf 0x03).length = 13 ∧ (∀ b ∈ commandOf 0x03, b < 256) ∧
    (commandOf 0x03).getD 0 0 = 0x3 ∧
    CdDrive.initial.comm_state = .NoTransfer ∧
    (CDInterface.twoEntries.ReadTOC10 CdDrive.initial.toc).2 = ((2 : Nat) : Int) ∧
    (∃ d', cd_transfers CDInterface.twoEntries
        (commandOf 0x03 :: (List.range 1).map fun _ => commandOf 0x00) CdDrive.initial =
          .ok d' ∧
      tocReport ((CDInterface.twoEntries.ReadTOC10 CdDrive.initial.toc).1 1) d'.state_data ∧
      d'.state.current_operation = CdStatusOperations.ReadToc) ∧
    (∃ d', cd_transfers CDInterface.twoEntries
        (commandOf 0x03 :: (List.range 2).map fun _ => commandOf 0x00) CdDrive.initial =
          .ok d' ∧
      d'.state.current_operation = CdStatusOperations.Idle ∧
      (∃ data, d'.state_data = make_status_data d'.state data) ∧
      d'.state_data 0 = CdStatusOperations.Idle) :=
  ⟨rfl, by decide, rfl, rfl, rfl,
    (readToc_reports CDInterface.twoEntries (commandOf 0x03) (fun _ => commandOf 0x00)
      CdDrive.initial 2 rfl (by decide) rfl
      (fun _ => ⟨rfl, (by decide : ∀ b ∈ commandOf 0x00, b < 256), rfl⟩) rfl rfl
      (by decide)).1 1 (by decide),
    (readToc_reports CDInterface.twoEntries (commandOf 0x03) (fun _ => commandOf 0x00)
      CdDrive.initial 2 rfl (by decide) rfl
      (fun _ => ⟨rfl, (by decide : ∀ b ∈ commandOf 0x00, b < 256), rfl⟩) rfl rfl
      (by decide)).2⟩

/-- C38: from the transfer-start state (`bit_counter = 0`,
`byte_counter = 0`, `received_data` all zero, as `cd_command_exec` leaves
them in state NoTransfer), feeding 104 bits through `cd_drive_set_serial_bit`
fills `received_data[0..12]` with each byte assembled least-significant bit
first, writes nothing outside `received_data[0..12]`, and ends with
`byte_counter = 13` and `comm_state = WaitToRxio`; the function
`cd_drive_get_serial_bit` returns bit `7 - bit_counter` of
`state_data[byte_counter]`, most-significant bit first. -/
theorem serial_bits_lsb_first (bit : Nat → Nat) (d : CdDrive)
    (hbits : ∀ n < 104, bit n ≤ 1) (hbit : d.bit_counter = 0) (hbyte : d.byte_counter = 0)
    (hzero : ∀ j < 13, d.received_data j = 0) :
    (∃ d', feedBits (bitsOf bit 104) d = .ok d' ∧
      (∀ k < 13, d'.received_data k = lsbByte bit k) ∧
      (∀ j, 13 ≤ j → d'.received_data j = d.received_data j) ∧
      d'.byte_counter = 13 ∧ d'.bit_counter = 0 ∧ d'.comm_state = .WaitToRxio) ∧
    (∀ k, lsbByte bit k =
      (bit (8 * k + 0) <<< 0) + (bit (8 * k + 1) <<< 1) + (bit (8 * k + 2) <<< 2) +
        (bit (8 * k + 3) <<< 3) + (bit (8 * k + 4) <<< 4) + (bit (8 * k + 5) <<< 5) +
        (bit (8 * k + 6) <<< 6) + (bit (8 * k + 7) <<< 7)) ∧
    (∀ (cdi : CDInterface) (e : CdDrive), e.comm_state = .NoTransfer →
      ∃ e', cd_command_exec cdi e = .ok (e', TIME_START) ∧ e'.bit_counter = 0 ∧
        e'.byte_counter = 0 ∧ ∀ j < 13, e'.received_data j = 0) ∧
    (∀ e : CdDrive, e.bit_counter ≤ 7 → e.byte_counter < 13 →
      cd_drive_get_serial_bit e =
        .ok (if (u8 (e.state_data e.byte_counter)).testBit (7 - e.bit_counter)
          then 1 else 0)) := by
  refine ⟨?_, lsbByte_eq bit, fun cdi e he => ?_, cd_drive_get_serial_bit_eq⟩
  · obtain ⟨d', h1, h2, h3, h4, h5, h6, _⟩ :=
      feedBits_bytes bit hbits d hbit hbyte hzero 13 (le_refl _)
    exact ⟨d', h1, h4, h5, h3, h2, by rw [h6 (by decide), if_pos rfl]⟩
  · refine ⟨{ e with
        bit_counter := 0
        byte_counter := 0
        comm_state := .SendingFirstByte
        received_data := fun i => if i < 13 then 0 else e.received_data i },
      by simp [cd_command_exec, he], rfl, rfl, fun j hj => ?_⟩
    simp [hj]

theorem serial_bits_lsb_first_witness :
    (∀ n < 104, (fun _ : Nat => 1) n ≤ 1) ∧ CdDrive.initial.bit_counter = 0 ∧
    CdDrive.initial.byte_counter = 0 ∧ (∀ j < 13, CdDrive.initial.received_data j = 0) ∧
    ∃ d', feedBits (bitsOf (fun _ => 1) 104) CdDrive.initial = .ok d' ∧
      (∀ k < 13, d'.received_data k = lsbByte (fun _ => 1) k) ∧
      (∀ j, 13 ≤ j → d'.received_data j = CdDrive.initial.received_data j) ∧
      d'.byte_counter = 13 ∧ d'.bit_counter = 0 ∧ d'.comm_state = .WaitToRxio :=
  ⟨fun _ _ => le_refl 1, rfl, rfl, fun _ _ => rfl,
    (serial_bits_lsb_first (fun _ => 1) CdDrive.initial (fun _ _ => le_refl 1) rfl rfl
      (fun _ _ => rfl)).1⟩

/-- C39: for every 13-byte buffer `set_checksum` leaves bytes 0..10 unchanged,
sets byte 11 to the bitwise complement of the 8-bit sum of bytes 0..10, so
that bytes 0..11 sum to 0xFF modulo 256, and sets byte 12 to 0; every status
report that `make_status_data` builds therefore has a valid checksum, and its
byte 7 is 0x04. -/
theorem set_checksum_report (data : Nat → Nat) (state : CdState) :
    (∀ i, i ≠ 11 → i ≠ 12 → set_checksum data i = data i) ∧
    set_checksum data 11 = 255 - byteSum data 11 % 256 ∧
    set_checksum data 11 = (byteSum data 11 % 256) ^^^ 0xFF ∧
    byteSum (set_checksum data) 12 % 256 = 0xFF ∧
    set_checksum data 12 = 0 ∧
    byteSum (make_status_data state data) 12 % 256 = 0xFF ∧
    make_status_data state data 7 = 0x04 ∧
    make_status_data state data 12 = 0 ∧
    make_status_data state data 0 = u8 state.current_operation := by
  obtain ⟨m0, _, _, _, _, _, _, m7, _, _, _, m12, mv, _⟩ := make_status_data_fields state data
  exact ⟨fun i h1 h2 => set_checksum_other data i h1 h2, (set_checksum_11 data).1,
    (set_checksum_11 data).2, set_checksum_valid data, set_checksum_12 data, mv, m7, m12, m0⟩

/-- C40: for every frame address `fad` with `0 <= fad < 450000`, converting to
BCD minute/second/frame with `fad2msf_bcd` and back with `msf_bcd2fad` returns
`fad`, with second below 60 and frame below 75; and
`bcd2num(num2bcd(n)) = n` for every `n` in 0..99. -/
theorem msf_bcd_roundtrip (fad : Int) (h0 : 0 ≤ fad) (h1 : fad < 450000) :
    ((msf_bcd2fad (fad2msf_bcd fad).1 (fad2msf_bcd fad).2.1 (fad2msf_bcd fad).2.2 : Nat) : Int) =
      fad ∧
    (fad2msf fad).2.1 < 60 ∧ (fad2msf fad).2.2 < 75 ∧
    bcd2num (fad2msf_bcd fad).2.1 < 60 ∧ bcd2num (fad2msf_bcd fad).2.2 < 75 ∧
    (∀ n < 100, bcd2num (num2bcd n) = n) := by
  obtain ⟨f, rfl⟩ := Int.eq_ofNat_of_zero_le h0
  have hf : f < 450000 := by omega
  obtain ⟨r, _, hs, hfr, _, bs, bf⟩ := msf_bcd2fad_fad2msf_bcd f hf
  refine ⟨by rw [r], hs, hfr, by rw [bs]; exact hs, by rw [bf]; exact hfr,
    bcd2num_num2bcd_small⟩

theorem msf_bcd_roundtrip_witness :
    (0 : Int) ≤ 123456 ∧ (123456 : Int) < 450000 ∧
    ((msf_bcd2fad (fad2msf_bcd 123456).1 (fad2msf_bcd 123456).2.1
      (fad2msf_bcd 123456).2.2 : Nat) : Int) = 123456 :=
  ⟨by decide, by decide, (msf_bcd_roundtrip 123456 (by decide) (by decide)).1⟩

/-! ## Cells of zero words under transparency -/

theorem readWord_zero (a : Nat) : readWord Memory.zero a = 0 := by
  simp [readWord, Memory.getWord, Memory.getByte, Memory.zero]

theorem Vdp2Screen.cellFrame_colour {s t : Vdp2Screen} (h : t.cellFrame = s.cellFrame) :
    t.transparencyEnable = s.transparencyEnable ∧ t.cor = s.cor ∧ t.cog = s.cog ∧
    t.cob = s.cob := by
  have h1 := congrArg Vdp2Screen.transparencyEnable h
  have h2 := congrArg Vdp2Screen.cor h
  have h3 := congrArg Vdp2Screen.cog h
  have h4 := congrArg Vdp2Screen.cob h
  exact ⟨h1, h2, h3, h4⟩

/-- The calls of each body of `drawCell` at a state of its loops, with the
transparency flag set: the palette bodies make the calls of their pixels, a
zero pixel is one `drawPixel` of `COLOR_ADD(0, cor, cog, cob)` with no
`getColor`, and the direct bodies draw that colour when bit 15 of the (first)
fetched word is clear. -/
theorem Vdp2Screen.body_zero_calls (env : Env) (s t : Vdp2Screen) (xInc : Int)
    (hte : s.transparencyEnable = true) (hf : t.cellFrame = s.cellFrame) :
    (t.dots4 env xInc).trace =
      t.trace ++
      t.pixelCalls env ((readWord env.vram t.charAddr &&& 0xF000) >>> 12)
        (ulong (t.palAddr <<< 4) ||| ((readWord env.vram t.charAddr &&& 0xF000) >>> 12))
        t.x ++
      t.pixelCalls env ((readWord env.vram t.charAddr &&& 0xF00) >>> 8)
        (ulong (t.palAddr <<< 4) ||| ((readWord env.vram t.charAddr &&& 0xF00) >>> 8))
        (t.x + xInc) ++
      t.pixelCalls env ((readWord env.vram t.charAddr &&& 0xF0) >>> 4)
        (ulong (t.palAddr <<< 4) ||| ((readWord env.vram t.charAddr &&& 0xF0) >>> 4))
        (t.x + xInc + xInc) ++
      t.pixelCalls env (readWord env.vram t.charAddr &&& 0xF)
        (ulong (t.palAddr <<< 4) ||| (readWord env.vram t.charAddr &&& 0xF))
        (t.x + xInc + xInc + xInc) ∧
    (t.dots8 env xInc).trace =
      t.trace ++
      t.pixelCalls env ((readWord env.vram t.charAddr &&& 0xFF00) >>> 8)
        (ulong (t.palAddr <<< 4) ||| ((readWord env.vram t.charAddr &&& 0xFF00) >>> 8))
        t.x ++
      t.pixelCalls env (readWord env.vram t.charAddr &&& 0xFF)
        (ulong (t.palAddr <<< 4) ||| (readWord env.vram t.charAddr &&& 0xFF))
        (t.x + xInc) ∧
    (t.dot11 env xInc).trace =
      t.trace ++
      t.pixelCalls env (readWord env.vram t.charAddr) (readWord env.vram t.charAddr) t.x ∧
    (∀ (index : Nat) (x : Int),
      t.pixelCalls env 0 index x =
        [CellEvent.drawPixel (t.getX x t.y) (t.getY x t.y)
          (COLOR_ADD 0x00000000 s.cor s.cog s.cob)]) ∧
    (readWord env.vram t.charAddr &&& 0x8000 = 0 →
      (t.dot16 env xInc).trace =
        t.trace ++
        [CellEvent.drawPixel (t.getX t.x t.y) (t.getY t.x t.y)
          (COLOR_ADD 0x00000000 s.cor s.cog s.cob)]) ∧
    (readWord env.vram t.charAddr &&& 0x8000 = 0 →
      (t.dot32 env xInc).trace =
        t.trace ++
        [CellEvent.drawPixel (t.getX t.x t.y) (t.getY t.x t.y)
          (COLOR_ADD 0x00000000 s.cor s.cog s.cob)]) := by
  obtain ⟨e1, e2, e3, e4⟩ := Vdp2Screen.cellFrame_colour hf
  have hte' : t.transparencyEnable = true := e1.trans hte
  refine ⟨Vdp2Screen.dots4_trace env xInc t, Vdp2Screen.dots8_trace env xInc t,
    Vdp2Screen.dot11_trace env xInc t, fun index x => ?_, fun h => ?_, fun h => ?_⟩
  · rw [Vdp2Screen.pixelCalls_zero env t index x hte', e2, e3, e4]
  · rw [Vdp2Screen.dot16_trace, if_pos ⟨h, hte'⟩, e2, e3, e4]
  · rw [Vdp2Screen.dot32_trace, if_pos ⟨h, hte'⟩, e2, e3, e4]

/-- Each body of `drawCell` leaves the configuration, and with it the
transparency flag and the colour offsets, as it was. -/
theorem Vdp2Screen.body_cellFrame (env : Env) (s t : Vdp2Screen) (xInc : Int)
    (hf : t.cellFrame = s.cellFrame) :
    (t.dots4 env xInc).cellFrame = s.cellFrame ∧ (t.dots8 env xInc).cellFrame = s.cellFrame ∧
    (t.dot11 env xInc).cellFrame = s.cellFrame ∧ (t.dot16 env xInc).cellFrame = s.cellFrame ∧
    (t.dot32 env xInc).cellFrame = s.cellFrame :=
  ⟨(Vdp2Screen.dots4_step env xInc t).1.trans hf, (Vdp2Screen.dots8_step env xInc t).1.trans hf,
    (Vdp2Screen.dot11_step env xInc t).1.trans hf, (Vdp2Screen.dot16_step env xInc t).1.trans hf,
    (Vdp2Screen.dot32_step env xInc t).1.trans hf⟩

theorem tail_all_append (p : CellEvent → Bool) (base added l tr : List CellEvent)
    (ht : tr = base ++ added) (hall : added.all p = true) (hl : l.all p = true) :
    ∃ a, tr ++ l = base ++ a ∧ a.all p = true :=
  ⟨added ++ l, by rw [ht, List.append_assoc], by simp only [List.all_append, hall, hl, Bool.and_self]⟩

/-- Over a video memory of zero words, with the transparency flag set, every
body of `drawCell` adds only `drawPixel` calls of `COLOR_ADD(0, cor, cog,
cob)` to the log. -/
theorem Vdp2Screen.body_zero_words (env : Env) (s t : Vdp2Screen) (xInc : Int)
    (hte : s.transparencyEnable = true) (hf : t.cellFrame = s.cellFrame)
    (hzero : ∀ a, readWord env.vram a = 0) (added : List CellEvent)
    (ht : t.trace = s.trace ++ added)
    (hall : added.all (CellEvent.drawsColor (COLOR_ADD 0 s.cor s.cog s.cob)) = true) :
    (∃ a4, (t.dots4 env xInc).trace = s.trace ++ a4 ∧
      a4.all (CellEvent.drawsColor (COLOR_ADD 0 s.cor s.cog s.cob)) = true) ∧
    (∃ a8, (t.dots8 env xInc).trace = s.trace ++ a8 ∧
      a8.all (CellEvent.drawsColor (COLOR_ADD 0 s.cor s.cog s.cob)) = true) ∧
    (∃ a11, (t.dot11 env xInc).trace = s.trace ++ a11 ∧
      a11.all (CellEvent.drawsColor (COLOR_ADD 0 s.cor s.cog s.cob)) = true) ∧
    (∃ a16, (t.dot16 env xInc).trace = s.trace ++ a16 ∧
      a16.all (CellEvent.drawsColor (COLOR_ADD 0 s.cor s.cog s.cob)) = true) ∧
    (∃ a32, (t.dot32 env xInc).trace = s.trace ++ a32 ∧
      a32.all (CellEvent.drawsColor (COLOR_ADD 0 s.cor s.cog s.cob)) = true) := by
  obtain ⟨c4, c8, c11, cz, c16, c32⟩ := Vdp2Screen.body_zero_calls env s t xInc hte hf
  have z1 : (0 &&& 0xF000) >>> 12 = 0 := by decide
  have z2 : (0 &&& 0xF00) >>> 8 = 0 := by decide
  have z3 : (0 &&& 0xF0) >>> 4 = 0 := by decide
  have z4 : 0 &&& 0xF = 0 := by decide
  have z5 : (0 &&& 0xFF00) >>> 8 = 0 := by decide
  have z6 : 0 &&& 0xFF = 0 := by decide
  have z7 : 0 &&& 0x8000 = 0 := by decide
  have h4 : (t.dots4 env xInc).trace = t.trace ++
      [CellEvent.drawPixel (t.getX t.x t.y) (t.getY t.x t.y) (COLOR_ADD 0 s.cor s.cog s.cob),
        CellEvent.drawPixel (t.getX (t.x + xInc) t.y) (t.getY (t.x + xInc) t.y)
          (COLOR_ADD 0 s.cor s.cog s.cob),
        CellEvent.drawPixel (t.getX (t.x + xInc + xInc) t.y) (t.getY (t.x + xInc + xInc) t.y)
          (COLOR_ADD 0 s.cor s.cog s.cob),
        CellEvent.drawPixel (t.getX (t.x + xInc + xInc + xInc) t.y)
          (t.getY (t.x + xInc + xInc + xInc) t.y) (COLOR_ADD 0 s.cor s.cog s.cob)] := by
    rw [c4, hzero, z1, z2, z3, z4, cz, cz, cz, cz]
    simp only [List.append_assoc, List.singleton_append, List.cons_append, List.nil_append]
  have h8 : (t.dots8 env xInc).trace = t.trace ++
      [CellEvent.drawPixel (t.getX t.x t.y) (t.getY t.x t.y) (COLOR_ADD 0 s.cor s.cog s.cob),
        CellEvent.drawPixel (t.getX (t.x + xInc) t.y) (t.getY (t.x + xInc) t.y)
          (COLOR_ADD 0 s.cor s.cog s.cob)] := by
    rw [c8, hzero, z5, z6, cz, cz]
    simp only [List.append_assoc, List.singleton_append, List.cons_append, List.nil_append]
  have h11 : (t.dot11 env xInc).trace = t.trace ++
      [CellEvent.drawPixel (t.getX t.x t.y) (t.getY t.x t.y)
        (COLOR_ADD 0 s.cor s.cog s.cob)] := by
    rw [c11, hzero, cz]
  have h16 := c16 (by rw [hzero, z7])
  have h32 := c32 (by rw [hzero, z7])
  rw [h4, h8, h11, h16, h32]
  refine ⟨?_, ?_, ?_, ?_, ?_⟩ <;>
    exact tail_all_append _ _ _ _ _ ht hall (by simp [CellEvent.drawsColor])

theorem pixelCount_of_drawsColor (c : Nat) (l : List CellEvent)
    (h : l.all (CellEvent.drawsColor c) = true) : pixelCount l = l.length := by
  unfold pixelCount
  congr 1
  rw [List.filter_eq_self]
  intro e he
  have := List.all_eq_true.mp h e he
  cases e with
  | getColor a b c' => simp [CellEvent.drawsColor] at this
  | drawPixel x y c' => rfl

/-- Over a video memory of zero words, with the transparency flag set,
`drawCell` adds only `drawPixel` calls of `COLOR_ADD(0, cor, cog, cob)` to the
log, one for each pixel of the cell in the depths 0..4. -/
theorem Vdp2Screen.drawCell_zero_words (env : Env) (s : Vdp2Screen)
    (hte : s.transparencyEnable = true) (hzero : ∀ a, readWord env.vram a = 0) :
    ∃ added, (s.drawCell env).trace = s.trace ++ added ∧
      added.all (CellEvent.drawsColor (COLOR_ADD 0 s.cor s.cog s.cob)) = true ∧
      (∀ m : Nat, s.cellW = 4 * m → s.colorNumber ≤ 4 →
        added.length = s.cellW.toNat * s.cellH.toNat) := by
  have key : ∃ added, (s.drawCell env).trace = s.trace ++ added ∧
      added.all (CellEvent.drawsColor (COLOR_ADD 0 s.cor s.cog s.cob)) = true := by
    have inv : ∀ (step yInc : Int) (dots : Vdp2Screen → Vdp2Screen),
        (∀ t : Vdp2Screen, (t.cellFrame = s.cellFrame ∧ ∃ added, t.trace = s.trace ++ added ∧
            added.all (CellEvent.drawsColor (COLOR_ADD 0 s.cor s.cog s.cob)) = true) →
          ((dots t).cellFrame = s.cellFrame ∧ ∃ added, (dots t).trace = s.trace ++ added ∧
            added.all (CellEvent.drawsColor (COLOR_ADD 0 s.cor s.cog s.cob)) = true)) →
        ∃ added, (s.cellRows step yInc dots).trace = s.trace ++ added ∧
          added.all (CellEvent.drawsColor (COLOR_ADD 0 s.cor s.cog s.cob)) = true := by
      intro step yInc dots hd
      exact (Vdp2Screen.cellRows_invariant
        (fun (t : Vdp2Screen) => t.cellFrame = s.cellFrame ∧ ∃ added,
          t.trace = s.trace ++ added ∧
          added.all (CellEvent.drawsColor (COLOR_ADD 0 s.cor s.cog s.cob)) = true)
        (fun _ _ h => h) (fun _ _ h => h) dots hd s step yInc
        ⟨rfl, [], (List.append_nil _).symm, rfl⟩).2
    unfold Vdp2Screen.drawCell
    simp only
    split
    · refine inv _ _ _ (fun t h => ?_)
      obtain ⟨hf, added, ht, hall⟩ := h
      exact ⟨(Vdp2Screen.body_cellFrame env s t _ hf).1,
        (Vdp2Screen.body_zero_words env s t _ hte hf hzero added ht hall).1⟩
    · refine inv _ _ _ (fun t h => ?_)
      obtain ⟨hf, added, ht, hall⟩ := h
      exact ⟨(Vdp2Screen.body_cellFrame env s t _ hf).2.1,
        (Vdp2Screen.body_zero_words env s t _ hte hf hzero added ht hall).2.1⟩
    · refine inv _ _ _ (fun t h => ?_)
      obtain ⟨hf, added, ht, hall⟩ := h
      exact ⟨(Vdp2Screen.body_cellFrame env s t _ hf).2.2.1,
        (Vdp2Screen.body_zero_words env s t _ hte hf hzero added ht hall).2.2.1⟩
    · refine inv _ _ _ (fun t h => ?_)
      obtain ⟨hf, added, ht, hall⟩ := h
      exact ⟨(Vdp2Screen.body_cellFrame env s t _ hf).2.2.2.1,
        (Vdp2Screen.body_zero_words env s t _ hte hf hzero added ht hall).2.2.2.1⟩
    · refine inv _ _ _ (fun t h => ?_)
      obtain ⟨hf, added, ht, hall⟩ := h
      exact ⟨(Vdp2Screen.body_cellFrame env s t _ hf).2.2.2.2,
        (Vdp2Screen.body_zero_words env s t _ hte hf hzero added ht hall).2.2.2.2⟩
    · exact ⟨[], (List.append_nil _).symm, rfl⟩
  obtain ⟨added, h1, h2⟩ := key
  refine ⟨added, h1, h2, fun m hW hc => ?_⟩
  have hcount : pixelCount (s.drawCell env).trace =
      pixelCount s.trace + s.cellW.toNat * s.cellH.toNat := by
    obtain ⟨c0, c1, c23, c4⟩ := Vdp2Screen.drawCell_counts env s m hW
    have hcases : s.colorNumber = 0 ∨ s.colorNumber = 1 ∨ s.colorNumber = 2 ∨
        s.colorNumber = 3 ∨ s.colorNumber = 4 := by omega
    rcases hcases with h | h | h | h | h
    · exact (c0 h).1
    · exact (c1 h).1
    · exact (c23 (Or.inl h)).1
    · exact (c23 (Or.inr h)).1
    · exact (c4 h).1
  rw [h1, pixelCount_append, pixelCount_of_drawsColor _ _ h2] at hcount
  omega

/-! ## Writing the same value twice with the unassigned height made explicit -/

theorem interlace_some (val : Nat) (h : Int) :
    interlace val (some h) = some (interlaceFrom val h) := by
  unfold interlace interlaceFrom
  generalize (val >>> 6) &&& 0x3 = g
  split <;> rfl

theorem vResolution_some (stale : Int) (val : Nat) (h : (val >>> 4) &&& 0x3 ≠ 3) :
    vResolution val = some (vResolutionFrom stale val) := by
  have hlt : (val >>> 4) &&& 0x3 < 4 := by
    have := @Nat.and_le_right (val >>> 4) 0x3
    omega
  unfold vResolution vResolutionFrom
  generalize (val >>> 4) &&& 0x3 = f at h hlt
  interval_cases f
  · rfl
  · rfl
  · rfl
  · exact absurd rfl h

theorem interlace_vResolution (stale : Int) (val : Nat) (h : (val >>> 4) &&& 0x3 ≠ 3) :
    interlace val (vResolution val) = some (interlaceFrom val (vResolutionFrom stale val)) := by
  rw [vResolution_some stale val h, interlace_some]

/-- Where the height is assigned the explicit local does not matter: the call
is `Vdp2.setWord`. -/
theorem Vdp2.setWordFrom_eq_setWord (spr : Vdp1) (stale : Int) (s : Vdp2) (a v : Nat)
    (h : a ≠ 0 ∨ (v >>> 4) &&& 0x3 ≠ 3) :
    s.setWordFrom spr stale a v = s.setWord spr a v := by
  unfold Vdp2.setWordFrom
  split
  · rcases h with h | h
    · exact absurd rfl h
    · unfold Vdp2.setWord setWordResolution
      simp only
      rw [interlace_vResolution stale v h]
  · rfl

theorem Vdp2.setWordFrom_resolution (spr : Vdp1) (stale : Int) (s : Vdp2) (v : Nat) :
    (s.setWordFrom spr stale 0 v).resolution =
      ⟨hResolution v, some (interlaceFrom v (vResolutionFrom stale v))⟩ := rfl

theorem vResolutionFrom_unassigned (stale : Int) (v : Nat) (h : (v >>> 4) &&& 0x3 = 3) :
    vResolutionFrom stale v = stale := by
  unfold vResolutionFrom
  rw [h]

theorem interlaceFrom_injective (v : Nat) (h1 h2 : Int)
    (h : interlaceFrom v h1 = interlaceFrom v h2) : h1 = h2 := by
  unfold interlaceFrom at h
  split at h <;> omega

/-- Two writes of the same value leave the same register contents, colour-RAM
mode and layer order as one, whatever the local held. -/
theorem Vdp2.setWordFrom_twice_rest (spr : Vdp1) (s : Vdp2) (a v : Nat) (h1 h2 : Int) :
    ((s.setWordFrom spr h1 a v).setWordFrom spr h2 a v).mem = (s.setWordFrom spr h1 a v).mem ∧
    ((s.setWordFrom spr h1 a v).setWordFrom spr h2 a v).cram =
      (s.setWordFrom spr h1 a v).cram ∧
    ((s.setWordFrom spr h1 a v).setWordFrom spr h2 a v).screens =
      (s.setWordFrom spr h1 a v).screens := by
  by_cases ha : a = 0
  · subst ha
    refine ⟨?_, rfl, rfl⟩
    simp [Vdp2.setWordFrom, Vdp2.setSaturnResolution, Memory.setWord_setWord_same]
  · rw [Vdp2.setWordFrom_eq_setWord spr h1 s a v (Or.inl ha),
      Vdp2.setWordFrom_eq_setWord spr h2 _ a v (Or.inl ha), Vdp2.setWord_twice]
    exact ⟨rfl, rfl, rfl⟩

theorem Vdp2.setWordFrom_twice (spr : Vdp1) (s : Vdp2) (a v : Nat) (h1 h2 : Int)
    (h : a ≠ 0 ∨ (v >>> 4) &&& 0x3 ≠ 3) :
    (s.setWordFrom spr h1 a v).setWordFrom spr h2 a v = s.setWordFrom spr h1 a v := by
  rw [Vdp2.setWordFrom_eq_setWord spr h1 s a v h,
    Vdp2.setWordFrom_eq_setWord spr h2 _ a v h, Vdp2.setWord_twice]

theorem Vdp2.setWordFrom_twice_unassigned (spr : Vdp1) (s : Vdp2) (v : Nat) (h1 h2 : Int)
    (hv : (v >>> 4) &&& 0x3 = 3) (hne : h1 ≠ h2) :
    ((s.setWordFrom spr h1 0 v).setWordFrom spr h2 0 v).resolution ≠
      (s.setWordFrom spr h1 0 v).resolution := by
  rw [Vdp2.setWordFrom_resolution, Vdp2.setWordFrom_resolution,
    vResolutionFrom_unassigned h1 v hv, vResolutionFrom_unassigned h2 v hv]
  intro h
  injection h with _ h
  injection h with h
  exact hne (interlaceFrom_injective v h1 h2 h.symm)

/-! ## The claims on transparent pixels, repeated writes and the plane formula -/

/-- C14: with the layer's transparency-enable flag set, for every colour
depth 0..4 and every colour-offset triple: `drawCell` is the loops of the
depth's body; every run of a body starts in a state with the configuration,
flag and colour offsets of the layer and leaves one; in such a state a
fetched pixel value of zero is drawn by one `drawPixel` of
`COLOR_ADD(0, cor, cog, cob)`, whose alpha byte (bits 24-31) is 0, with no
`getColor` call for that pixel (the palette depths 0, 1 and 2 make the calls
of their pixels, and a zero pixel's calls are that one `drawPixel`; the direct
depths 3 and 4 test bit 15 of the first fetched word, clear in a zero word);
and over a video memory of zero words the calls that `drawCell` adds are
only such `drawPixel` calls, one for each pixel of the cell. -/
theorem drawCell_zero_transparent (env : Env) (s : Vdp2Screen)
    (hte : s.transparencyEnable = true) :
    ((s.colorNumber = 0 → s.drawCell env =
        s.cellRows 4 (if s.flipFunction &&& 0x2 ≠ 0 then -1 else 1)
          (Vdp2Screen.dots4 env (if s.flipFunction &&& 0x1 ≠ 0 then -1 else 1))) ∧
      (s.colorNumber = 1 → s.drawCell env =
        s.cellRows 2 (if s.flipFunction &&& 0x2 ≠ 0 then -1 else 1)
          (Vdp2Screen.dots8 env (if s.flipFunction &&& 0x1 ≠ 0 then -1 else 1))) ∧
      (s.colorNumber = 2 → s.drawCell env =
        s.cellRows 1 (if s.flipFunction &&& 0x2 ≠ 0 then -1 else 1)
          (Vdp2Screen.dot11 env (if s.flipFunction &&& 0x1 ≠ 0 then -1 else 1))) ∧
      (s.colorNumber = 3 → s.drawCell env =
        s.cellRows 1 (if s.flipFunction &&& 0x2 ≠ 0 then -1 else 1)
          (Vdp2Screen.dot16 env (if s.flipFunction &&& 0x1 ≠ 0 then -1 else 1))) ∧
      (s.colorNumber = 4 → s.drawCell env =
        s.cellRows 1 (if s.flipFunction &&& 0x2 ≠ 0 then -1 else 1)
          (Vdp2Screen.dot32 env (if s.flipFunction &&& 0x1 ≠ 0 then -1 else 1)))) ∧
    (∀ (t : Vdp2Screen) (xInc : Int), t.cellFrame = s.cellFrame →
      ((t.dots4 env xInc).cellFrame = s.cellFrame ∧
        (t.dots8 env xInc).cellFrame = s.cellFrame ∧
        (t.dot11 env xInc).cellFrame = s.cellFrame ∧
        (t.dot16 env xInc).cellFrame = s.cellFrame ∧
        (t.dot32 env xInc).cellFrame = s.cellFrame) ∧
      (t.dots4 env xInc).trace =
        t.trace ++
        t.pixelCalls env ((readWord env.vram t.charAddr &&& 0xF000) >>> 12)
          (ulong (t.palAddr <<< 4) ||| ((readWord env.vram t.charAddr &&& 0xF000) >>> 12))
          t.x ++
        t.pixelCalls env ((readWord env.vram t.charAddr &&& 0xF00) >>> 8)
          (ulong (t.palAddr <<< 4) ||| ((readWord env.vram t.charAddr &&& 0xF00) >>> 8))
          (t.x + xInc) ++
        t.pixelCalls env ((readWord env.vram t.charAddr &&& 0xF0) >>> 4)
          (ulong (t.palAddr <<< 4) ||| ((readWord env.vram t.charAddr &&& 0xF0) >>> 4))
          (t.x + xInc + xInc) ++
        t.pixelCalls env (readWord env.vram t.charAddr &&& 0xF)
          (ulong (t.palAddr <<< 4) ||| (readWord env.vram t.charAddr &&& 0xF))
          (t.x + xInc + xInc + xInc) ∧
      (t.dots8 env xInc).trace =
        t.trace ++
        t.pixelCalls env ((readWord env.vram t.charAddr &&& 0xFF00) >>> 8)
          (ulong (t.palAddr <<< 4) ||| ((readWord env.vram t.charAddr &&& 0xFF00) >>> 8))
          t.x ++
        t.pixelCalls env (readWord env.vram t.charAddr &&& 0xFF)
          (ulong (t.palAddr <<< 4) ||| (readWord env.vram t.charAddr &&& 0xFF))
          (t.x + xInc) ∧
      (t.dot11 env xInc).trace =
        t.trace ++
        t.pixelCalls env (readWord env.vram t.charAddr) (readWord env.vram t.charAddr) t.x ∧
      (∀ (index : Nat) (x : Int),
        t.pixelCalls env 0 index x =
          [CellEvent.drawPixel (t.getX x t.y) (t.getY x t.y)
            (COLOR_ADD 0x00000000 s.cor s.cog s.cob)]) ∧
      (readWord env.vram t.charAddr &&& 0x8000 = 0 →
        (t.dot16 env xInc).trace =
          t.trace ++
          [CellEvent.drawPixel (t.getX t.x t.y) (t.getY t.x t.y)
            (COLOR_ADD 0x00000000 s.cor s.cog s.cob)]) ∧
      (readWord env.vram t.charAddr &&& 0x8000 = 0 →
        (t.dot32 env xInc).trace =
          t.trace ++
          [CellEvent.drawPixel (t.getX t.x t.y) (t.getY t.x t.y)
            (COLOR_ADD 0x00000000 s.cor s.cog s.cob)])) ∧
    COLOR_ADD 0x00000000 s.cor s.cog s.cob >>> 24 = 0 ∧
    ((∀ a, readWord env.vram a = 0) →
      ∃ added, (s.drawCell env).trace = s.trace ++ added ∧
        added.all (CellEvent.drawsColor (COLOR_ADD 0x00000000 s.cor s.cog s.cob)) = true ∧
        (∀ m : Nat, s.cellW = 4 * m → s.colorNumber ≤ 4 →
          added.length = s.cellW.toNat * s.cellH.toNat)) :=
  ⟨Vdp2Screen.drawCell_depth env s,
    fun t xInc hf => ⟨Vdp2Screen.body_cellFrame env s t xInc hf,
      Vdp2Screen.body_zero_calls env s t xInc hte hf⟩,
    COLOR_ADD_zero_alpha s.cor s.cog s.cob,
    fun hzero => Vdp2Screen.drawCell_zero_words env s hte hzero⟩

theorem drawCell_zero_transparent_witness :
    Vdp2Screen.initial.transparencyEnable = true ∧
    Vdp2Screen.initial.colorNumber = 0 ∧ Vdp2Screen.initial.cellW = 4 * (2 : Nat) ∧
    (∀ a, readWord Env.zero.vram a = 0) ∧
    Vdp2Screen.initial.drawCell Env.zero =
      Vdp2Screen.initial.cellRows 4
        (if Vdp2Screen.initial.flipFunction &&& 0x2 ≠ 0 then -1 else 1)
        (Vdp2Screen.dots4 Env.zero
          (if Vdp2Screen.initial.flipFunction &&& 0x1 ≠ 0 then -1 else 1)) ∧
    ∃ added,
      (Vdp2Screen.initial.drawCell Env.zero).trace = Vdp2Screen.initial.trace ++ added ∧
      added.all (CellEvent.drawsColor
        (COLOR_ADD 0x00000000 Vdp2Screen.initial.cor Vdp2Screen.initial.cog
          Vdp2Screen.initial.cob)) = true ∧
      (∀ m : Nat, Vdp2Screen.initial.cellW = 4 * m → Vdp2Screen.initial.colorNumber ≤ 4 →
        added.length = Vdp2Screen.initial.cellW.toNat * Vdp2Screen.initial.cellH.toNat) :=
  ⟨by decide, by decide, by decide, fun a => readWord_zero a,
    (drawCell_zero_transparent Env.zero Vdp2Screen.initial (by decide)).1.1 (by decide),
    (drawCell_zero_transparent Env.zero Vdp2Screen.initial (by decide)).2.2.2
      (fun a => readWord_zero a)⟩

/-- C18 (the code at the failing input): `Vdp2::setWord(0, 0x00F0)` (vertical
resolution field 3, interlace field 3) never assigns the local `height` and
passes twice what the local held to `setSaturnResolution`: entered with `h`
it leaves height `2 * h`, and a second call that finds `2 * h` in the local
leaves `4 * h`, so for `h` other than 0 two writes do not leave the resolution
of one.  For every value with vertical field 3, two calls that find different
values in the local leave different resolutions.  For every other offset or
value two writes leave the state of one, whatever the local held, and the
register contents, colour RAM and layer order are those of one write in
every case. -/
theorem setWord_twice_unassigned (spr : Vdp1) (s : Vdp2) :
    (∀ h : Int,
      (s.setWordFrom spr h 0 0x00F0).resolution = ⟨320, some (h * 2)⟩ ∧
      ((s.setWordFrom spr h 0 0x00F0).setWordFrom spr (h * 2) 0 0x00F0).resolution =
        ⟨320, some (h * 2 * 2)⟩ ∧
      (h ≠ 0 →
        ((s.setWordFrom spr h 0 0x00F0).setWordFrom spr (h * 2) 0 0x00F0).resolution ≠
          (s.setWordFrom spr h 0 0x00F0).resolution)) ∧
    (∀ (v : Nat) (h1 h2 : Int), (v >>> 4) &&& 0x3 = 3 → h1 ≠ h2 →
      ((s.setWordFrom spr h1 0 v).setWordFrom spr h2 0 v).resolution ≠
        (s.setWordFrom spr h1 0 v).resolution) ∧
    (∀ (a v : Nat) (h1 h2 : Int), a ≠ 0 ∨ (v >>> 4) &&& 0x3 ≠ 3 →
      (s.setWordFrom spr h1 a v).setWordFrom spr h2 a v = s.setWordFrom spr h1 a v ∧
      s.setWordFrom spr h1 a v = s.setWord spr a v) ∧
    (∀ (a v : Nat) (h1 h2 : Int),
      ((s.setWordFrom spr h1 a v).setWordFrom spr h2 a v).mem =
        (s.setWordFrom spr h1 a v).mem ∧
      ((s.setWordFrom spr h1 a v).setWordFrom spr h2 a v).cram.mode =
        (s.setWordFrom spr h1 a v).cram.mode ∧
      ((s.setWordFrom spr h1 a v).setWordFrom spr h2 a v).screens =
        (s.setWordFrom spr h1 a v).screens) := by
  refine ⟨fun h => ⟨rfl, rfl, fun h0 => ?_⟩, fun v h1 h2 hv hne => ?_,
    fun a v h1 h2 hav => ?_, fun a v h1 h2 => ?_⟩
  · exact Vdp2.setWordFrom_twice_unassigned spr s 0x00F0 h (h * 2) (by decide) (by omega)
  · exact Vdp2.setWordFrom_twice_unassigned spr s v h1 h2 hv hne
  · exact ⟨Vdp2.setWordFrom_twice spr s a v h1 h2 hav,
      Vdp2.setWordFrom_eq_setWord spr h1 s a v hav⟩
  · obtain ⟨e1, e2, e3⟩ := Vdp2.setWordFrom_twice_rest spr s a v h1 h2
    exact ⟨e1, by rw [e2], e3⟩

end Yabause
